import Mathlib

/-!
# fleetconfig-controller: admission validation, condition bookkeeping, reconcile loop

A shallow embedding of the Go sources under `fleetconfig-controller/`:

* `api/v1alpha1/fleetconfig_types.go`, `constants.go`, `validation.go`
* `pkg/common/common.go`, `internal/kube/kube.go`, `internal/file/file.go`
* `internal/controller/fleetconfig_controller.go`, `hub.go`, `spoke.go`

Conventions of the embedding.

* A Go pointer `*T` is `Option T` (`none` is the nil pointer); `reflect.DeepEqual`
  on the modelled types is structural equality.
* A Go slice that the code compares with `reflect.DeepEqual` is a `Slice`
  (`Option (List _)`), because a nil slice and an empty non-nil slice are not
  deeply equal. The other slices are plain lists.
* A Go `error` result is `Option String`: `none` is `nil`, `some msg` an error whose
  `Error()` text is `msg`.
* Go strings are Lean strings: the strings of an API object are decoded from JSON and
  hold valid UTF-8. Where the code cuts a string at a byte offset (`conditionName`), the
  result is also given as a list of bytes (`utf8Bytes`), exact for every string.
-/

namespace Fleet

/-! ## Data model (`api/v1alpha1/fleetconfig_types.go`) -/

/-- A Go slice: `none` is the nil slice, `some xs` a non-nil slice holding `xs`. -/
abbrev Slice (α : Type) := Option (List α)

/-- The elements a `for _, x := range s` loop visits. -/
def Slice.elems {α : Type} (s : Slice α) : List α := s.getD []

/-- A Go `error` value: `none` is nil. -/
abbrev GoError := Option String

/-- Go type `metav1.ConditionStatus`, a string type. -/
abbrev ConditionStatus := String

def ConditionTrue : ConditionStatus := "True"
def ConditionFalse : ConditionStatus := "False"
def ConditionUnknown : ConditionStatus := "Unknown"

/-- Go type `OCMSource`. -/
structure OCMSource where
  BundleVersion : String
  Registry : String
deriving DecidableEq, Repr

/-- Go type `ResourceValues`. -/
structure ResourceValues where
  CPU : String
  Memory : String
deriving DecidableEq, Repr

/-- Go type `ResourceSpec`. -/
structure ResourceSpec where
  Limits : ResourceValues
  Requests : ResourceValues
  QosClass : String
deriving DecidableEq, Repr

/-- Go type `SecretReference`. -/
structure SecretReference where
  Name : String
  Namespace : String
  KubeconfigKey : Option String
deriving DecidableEq, Repr

/-- Go type `Kubeconfig`. -/
structure Kubeconfig where
  SecretReference : Option SecretReference
  InCluster : Bool
  Context : String
deriving DecidableEq, Repr

/-- Go type `Helm`. -/
structure Helm where
  Values : String
  Set : Slice String
  SetJSON : Slice String
  SetLiteral : Slice String
  SetString : Slice String
deriving DecidableEq, Repr

/-- Go type `SingletonControlPlane`. -/
structure SingletonControlPlane where
  Name : String
  Helm : Helm
deriving DecidableEq, Repr

/-- Go type `ClusterManager`. -/
structure ClusterManager where
  FeatureGates : String
  PurgeOperator : Bool
  Resources : Option ResourceSpec
  Source : Option OCMSource
  UseBootstrapToken : Bool
deriving DecidableEq, Repr

/-- Go type `Hub`. -/
structure Hub where
  ClusterManager : Option ClusterManager
  CreateNamespace : Bool
  Force : Bool
  Kubeconfig : Option Kubeconfig
  SingletonControlPlane : Option SingletonControlPlane
  APIServer : Option String
deriving DecidableEq, Repr

/-- Go type `Klusterlet`. -/
structure Klusterlet where
  FeatureGates : String
  Mode : String
  PurgeOperator : Bool
  ForceInternalEndpointLookup : Bool
  ManagedClusterKubeconfig : Option Kubeconfig
  ForceInternalEndpointLookupManaged : Bool
  Resources : Option ResourceSpec
  Singleton : Bool
  Source : Option OCMSource
deriving DecidableEq, Repr

/-- Go type `Spoke`. -/
structure Spoke where
  Name : String
  CreateNamespace : Bool
  SyncLabels : Bool
  Kubeconfig : Option Kubeconfig
  Ca : String
  ProxyCa : String
  ProxyURL : String
  Klusterlet : Klusterlet
  ClusterARN : String
deriving DecidableEq, Repr

/-- Go type `JoinedSpoke`. -/
structure JoinedSpoke where
  Name : String
  Kubeconfig : Option Kubeconfig
  PurgeKlusterletOperator : Bool
deriving DecidableEq, Repr

/-- Go type `RegistrationAuth`. -/
structure RegistrationAuth where
  Driver : String
  HubClusterARN : String
  AutoApprovedARNPatterns : List String
deriving DecidableEq, Repr

/-- Go type `FleetConfigSpec`. -/
structure FleetConfigSpec where
  Hub : Hub
  Spokes : Slice Spoke
  RegistrationAuth : Option RegistrationAuth
deriving DecidableEq, Repr

/-- Go type `Condition`: the embedded `metav1.Condition` fields the code uses, and
`WantStatus`. `LastTransitionTime` is a clock reading; the Go field `Type` is `Type_`
here. -/
structure Condition where
  Type_ : String
  Status : ConditionStatus
  Reason : String
  Message : String
  LastTransitionTime : Nat
  WantStatus : ConditionStatus
deriving DecidableEq, Repr

/-- Go type `FleetConfigStatus`. -/
structure FleetConfigStatus where
  Phase : String
  Conditions : List Condition
  JoinedSpokes : List JoinedSpoke
deriving DecidableEq, Repr

/-- Go type `FleetConfig`, with the `metav1.ObjectMeta` fields the controller reads:
the name, the finalizers and the deletion timestamp (`none` is a nil `*metav1.Time`,
`some 0` the zero time). -/
structure FleetConfig where
  Name : String
  Finalizers : List String
  DeletionTimestamp : Option Nat
  Spec : FleetConfigSpec
  Status : FleetConfigStatus
deriving DecidableEq, Repr

/-! ## Constants (`api/v1alpha1/constants.go`) -/

def FleetConfigFinalizer : String := "fleetconfig.open-cluster-management.io/cleanup"
def FleetConfigHubInitialized : String := "HubInitialized"
def FleetConfigCleanupFailed : String := "CleanupFailed"
def ReconcileSuccess : String := "ReconcileSuccess"
def FleetConfigStarting : String := "Initializing"
def FleetConfigRunning : String := "Running"
def FleetConfigUnhealthy : String := "Unhealthy"
def FleetConfigDeleting : String := "Deleting"
def ManagedClusterTypeHubAsSpoke : String := "hub-as-spoke"
def LabelManagedClusterType : String :=
  "fleetconfig.open-cluster-management.io/managedClusterType"
def CSRRegistrationDriver : String := "csr"
def AWSIRSARegistrationDriver : String := "awsirsa"

/-! ## Update validation (`api/v1alpha1/validation.go`) -/

/-- Lines 18-26 of `allowFleetConfigUpdate`: the hub copy whose
`ClusterManager.Source` is set to nil when the hub has a `ClusterManager`. -/
def hubWithoutSource (h : Hub) : Hub :=
  { h with ClusterManager := h.ClusterManager.map (fun cm => { cm with Source := none }) }

/-- Lines 44-47 of `allowFleetConfigUpdate`: the spoke copy whose
`Klusterlet.Source` is set to nil. -/
def spokeWithoutSource (s : Spoke) : Spoke :=
  { s with Klusterlet := { s.Klusterlet with Source := none } }

def hubUpdateMessage : String :=
  "only changes to hub.spec.hub.clusterManager.source.* are allowed when updating the hub"

/-- The text built by `fmt.Errorf` at line 50. -/
def spokeUpdateMessage (name : String) : String :=
  "spoke '" ++ name ++ "' contains changes which are not allowed; only changes to spec.spokes[*].klusterlet.source.* are allowed when updating a spoke"

/-- Lines 36-39: the map from spoke name to old spoke; a later spoke of the same name
overwrites an earlier one. -/
def oldSpokesMap (spokes : List Spoke) : String → Option Spoke :=
  spokes.foldl (fun m spoke => fun name => if name = spoke.Name then some spoke else m name)
    (fun _ => none)

/-- Lines 42-53: the loop over the new spokes; the first new spoke that has an old
spoke of its name and differs from it outside `Klusterlet.Source` ends the loop with
an error. -/
def spokeCheck (oldSpokes : String → Option Spoke) : List Spoke → GoError
  | [] => none
  | newSpoke :: rest =>
    match oldSpokes newSpoke.Name with
    | some oldSpoke =>
      if spokeWithoutSource oldSpoke ≠ spokeWithoutSource newSpoke then
        some (spokeUpdateMessage newSpoke.Name)
      else spokeCheck oldSpokes rest
    | none => spokeCheck oldSpokes rest

/-- Go function `allowFleetConfigUpdate`: the error it returns. (Through the shared
`ClusterManager` pointer the hub check also sets `Spec.Hub.ClusterManager.Source` of
both arguments to nil; nothing later in the function reads that field.) -/
def allowFleetConfigUpdate (newObject oldObject : FleetConfig) : GoError :=
  if newObject.Spec.Hub ≠ oldObject.Spec.Hub ∧
      hubWithoutSource oldObject.Spec.Hub ≠ hubWithoutSource newObject.Spec.Hub then
    some hubUpdateMessage
  else if newObject.Spec.Spokes ≠ oldObject.Spec.Spokes then
    spokeCheck (oldSpokesMap oldObject.Spec.Spokes.elems) newObject.Spec.Spokes.elems
  else none

/-! ## Conditions (`api/v1alpha1/fleetconfig_types.go`) -/

/-- Go method `Condition.Equal`: all fields but `LastTransitionTime` agree. -/
def Condition.Equal (c other : Condition) : Bool :=
  c.Type_ == other.Type_ && c.Status == other.Status && c.WantStatus == other.WantStatus &&
    c.Reason == other.Reason && c.Message == other.Message

/-- Go function `NewCondition`; `now` is the reading of `time.Now()`. -/
def NewCondition (now : Nat) (msg cType : String) (status wantStatus : ConditionStatus) :
    Condition :=
  { Status := status, Message := msg, Reason := ReconcileSuccess, Type_ := cType,
    LastTransitionTime := now, WantStatus := wantStatus }

/-- Go method `FleetConfigStatus.GetCondition`: a copy of the first condition of the
supplied type, nil when there is none. -/
def FleetConfigStatus.GetCondition (s : FleetConfigStatus) (cType : String) : Option Condition :=
  s.Conditions.find? (fun c => c.Type_ == cType)

/-- Lines 67-79 of `SetConditions`: the inner loop over the existing conditions for one
supplied condition `new`. It returns the conditions after the loop and the final value
of `exists`, which starts as `found`. The loop ranges over the slice as it was when
the loop started, so a write to `s.Conditions[i]` is not seen by a later iteration. -/
def setConditionLoop (cover : Bool) (new : Condition) :
    List Condition → Bool → List Condition × Bool
  | [], found => ([], found)
  | existing :: rest, found =>
    if existing.Type_ ≠ new.Type_ then
      let r := setConditionLoop cover new rest found
      (existing :: r.1, r.2)
    else if existing.Equal new then
      let r := setConditionLoop cover new rest true
      (existing :: r.1, r.2)
    else
      let r := setConditionLoop cover new rest true
      ((if cover then new else existing) :: r.1, r.2)

/-- Lines 65-83 of `SetConditions`: one iteration of the outer loop. -/
def setCondition (cover : Bool) (conditions : List Condition) (new : Condition) :
    List Condition :=
  let r := setConditionLoop cover new conditions false
  if ¬ r.2 then r.1 ++ [new] else r.1

/-- Go method `FleetConfigStatus.SetConditions`. -/
def FleetConfigStatus.SetConditions (s : FleetConfigStatus) (cover : Bool) (c : List Condition) :
    FleetConfigStatus :=
  { s with Conditions := c.foldl (setCondition cover) s.Conditions }

/-- Go method `FleetConfig.GetCondition`. -/
def FleetConfig.GetCondition (m : FleetConfig) (cType : String) : Option Condition :=
  m.Status.GetCondition cType

/-- Go method `FleetConfig.SetConditions`. -/
def FleetConfig.SetConditions (m : FleetConfig) (cover : Bool) (c : List Condition) :
    FleetConfig :=
  { m with Status := m.Status.SetConditions cover c }

/-! ## The outside world

Everything the controller does to or reads from its surroundings (API servers, the
file system, the clock, the `clusteradm` subprocess) is a `Call`. A run records its
calls, in order, in a `Trace`; the answer to a call is given by the environment `Env`
as a function of the calls made before it, so the world may change between two calls.
Logging is not modelled. -/

/-- How a modelled Go call ends: it returns a value, or it panics. -/
inductive Outcome (α : Type) where
  | ret (a : α)
  | panic (msg : String)
deriving DecidableEq, Repr

/-- Sequencing: run `k` on the value and the state a returning call left behind; a
panic propagates. -/
def Outcome.andThen {σ α β : Type} (r : Outcome α × σ) (k : α → σ → Outcome β × σ) :
    Outcome β × σ :=
  match r with
  | (Outcome.ret a, s) => k a s
  | (Outcome.panic msg, s) => (Outcome.panic msg, s)

def nilDereference : String := "invalid memory address or nil pointer dereference"

/-- A Go `[]byte`; `none` is nil. -/
abbrev Bytes := Option String

/-- An error returned by a Kubernetes API call; `IsNotFound` is what
`kerrs.IsNotFound` answers, `Message` the `Error()` text. -/
structure ApiError where
  IsNotFound : Bool
  Message : String
deriving DecidableEq, Repr

/-- A `rest.Config`: which API server a client talks to, and as whom. -/
structure RestConfig where
  Host : String
deriving DecidableEq, Repr

/-- The fields of `metav1.Condition` read from hub-side resources. -/
structure MetaCondition where
  Type_ : String
  Status : ConditionStatus
  Reason : String
  Message : String
deriving DecidableEq, Repr

/-- Go type `clusterv1.ManagedCluster`: name, labels (`none` is a nil map) and
`Status.Conditions`. -/
structure ManagedCluster where
  Name : String
  Labels : Option (List (String × String))
  Conditions : Slice MetaCondition
deriving DecidableEq, Repr

/-- Go type `operatorv1.ClusterManager`: `Status.Conditions` and the image pull specs
of `Spec`. -/
structure OperatorClusterManager where
  Conditions : Slice MetaCondition
  AddOnManagerImagePullSpec : String
  PlacementImagePullSpec : String
  RegistrationImagePullSpec : String
  WorkImagePullSpec : String
deriving DecidableEq, Repr

/-- Go type `operatorv1.Klusterlet`: the image pull specs of `Spec`. -/
structure OperatorKlusterlet where
  ImagePullSpec : String
  RegistrationImagePullSpec : String
  WorkImagePullSpec : String
deriving DecidableEq, Repr

/-- Go type `tokenMeta` (`spoke.go`). -/
structure TokenMeta where
  Token : String
  HubAPIServer : String
deriving DecidableEq, Repr

/-- Go type `semver.Version` of `github.com/Masterminds/semver`. -/
structure Version where
  Major : Nat
  Minor : Nat
  Patch : Nat
  Pre : String
  Metadata : String
  Original : String
deriving DecidableEq, Repr

/-- One interaction with the outside world. -/
inductive Call where
  /-- Go `time.Now()` -/
  | now
  /-- Go `r.Get` of the FleetConfig -/
  | getFleetConfig
  /-- Go `patch.NewHelper` -/
  | newPatchHelper (mc : FleetConfig)
  /-- Go `patchHelper.Patch` -/
  | patch (mc : FleetConfig)
  /-- Go `ctrl.GetConfig()` -/
  | getConfig
  /-- Go `kClient.Get` of a secret -/
  | getSecret (ns name : String)
  /-- Go `ClusterManagers().Get("cluster-manager")` -/
  | getClusterManager (rc : RestConfig)
  /-- Go `Klusterlets().Get("klusterlet")` -/
  | getKlusterlet (rc : RestConfig)
  /-- Go `ManagedClusters().Get` -/
  | getManagedCluster (rc : RestConfig) (name : String)
  /-- Go `ManagedClusters().List` -/
  | listManagedClusters (rc : RestConfig)
  /-- Go `ManagedClusters().Update` -/
  | updateManagedCluster (rc : RestConfig) (cluster : ManagedCluster)
  /-- Go `ManagedClusters().Delete` -/
  | deleteManagedCluster (rc : RestConfig) (name : String)
  /-- Go `ManagedClusters().DeleteCollection` with foreground propagation -/
  | deleteManagedClusters (rc : RestConfig)
  /-- Go `ManifestWorks(ns).List` -/
  | listManifestWorks (rc : RestConfig) (ns : String)
  /-- Go `kClient.List` of the CertificateSigningRequests labelled with a cluster name -/
  | listCSRs
  /-- Go `kClient.Delete` of a CertificateSigningRequest -/
  | deleteCSR (name : String)
  /-- Go `DeleteAllOf` the CertificateSigningRequests labelled with a cluster name -/
  | deleteAllCSRs
  /-- Go `kClient.Delete` of a namespace; `foreground` tells the propagation policy -/
  | deleteNamespace (name : String) (foreground : Bool)
  /-- Go `kClient.Get` of a namespace -/
  | getNamespace (name : String)
  /-- Go `os.CreateTemp("", pattern)` -/
  | createTemp (pattern : String)
  /-- Go `f.Write(content)` on the temp file `path` -/
  | writeFile (path : String) (content : Bytes)
  /-- Go `os.Remove(path)` -/
  | removeFile (path : String)
  /-- a run of the `clusteradm` binary with these arguments -/
  | exec (args : List String)
  /-- one interval of a `wait.PollUntilContextCancel` loop has passed -/
  | tick
deriving DecidableEq, Repr

/-- The calls made so far, oldest first. -/
abbrev Trace := List Call

/-- The functions of `github.com/Masterminds/semver` that `LowestBundleVersion` uses. -/
structure SemverLib where
  /-- Go `semver.NewVersion`; `none` when it returns an error -/
  NewVersion : String → Option Version
  /-- Go `(*Version).LessThan` -/
  LessThan : Version → Version → Bool
  /-- Go `(*Version).GreaterThan` -/
  GreaterThan : Version → Version → Bool
  /-- Go `(*Version).String` -/
  String : Version → String

/-- The environment of a run. The first argument of a field that stands for an
interaction is the trace of the calls made before it. The fields without a trace are
functions and constants of external libraries. -/
structure Env where
  now : Trace → Nat
  getFleetConfig : Trace → Except ApiError FleetConfig
  newPatchHelper : Trace → FleetConfig → GoError
  getConfig : Trace → Except String RestConfig
  getSecret : Trace → String → String → Except String (List (String × Bytes))
  getClusterManager : Trace → RestConfig → Except ApiError OperatorClusterManager
  getKlusterlet : Trace → RestConfig → Except String OperatorKlusterlet
  getManagedCluster : Trace → RestConfig → String → Except ApiError ManagedCluster
  listManagedClusters : Trace → RestConfig → Except ApiError (List ManagedCluster)
  updateManagedCluster : Trace → RestConfig → ManagedCluster → GoError
  deleteManagedCluster : Trace → RestConfig → String → Option ApiError
  deleteManagedClusters : Trace → RestConfig → Option ApiError
  /-- the number of ManifestWorks listed in a namespace, or the error of the call -/
  listManifestWorks : Trace → RestConfig → String → Except String Nat
  /-- the names of the listed CertificateSigningRequests, or the error of the call -/
  listCSRs : Trace → Except String (List String)
  deleteCSR : Trace → String → GoError
  deleteAllCSRs : Trace → GoError
  deleteNamespace : Trace → String → Bool → Option ApiError
  /-- The answer is `none` when the namespace exists. -/
  getNamespace : Trace → String → Option ApiError
  createTemp : Trace → String → Except String String
  writeFile : Trace → String → Bytes → GoError
  /-- combined output and error of the subprocess (`CmdWithLogs`) -/
  exec : Trace → List String → String × GoError
  /-- the error of the context if it is done when a poll interval ends -/
  contextErr : Trace → GoError
  /-- the context is done after this many poll intervals at the latest -/
  pollBudget : Nat
  /-- the error of the context at that point -/
  deadlineErr : String
  /-- Go `RawFromRestConfig`: the kubeconfig that `clientcmd.Write` serialises from the fields
  of a rest config -/
  rawFromRestConfig : RestConfig → Bytes × GoError
  /-- Go `clientcmd.Load` followed by `NewDefaultClientConfig` -/
  clientcmdLoad : String → Except String String
  /-- Go `ClientConfig()` of a loaded kubeconfig -/
  clientConfig : String → Except String RestConfig
  /-- Go `clusterapi.NewForConfig` -/
  newClusterClient : RestConfig → GoError
  /-- Go `operatorapi.NewForConfig` -/
  newOperatorClient : RestConfig → GoError
  /-- Go `workapi.NewForConfig` -/
  newWorkClient : RestConfig → GoError
  /-- Go `json.Unmarshal` of the output of `clusteradm get token` into a `*tokenMeta`; the
  JSON value `null` leaves a nil pointer -/
  unmarshalToken : String → Except String (Option TokenMeta)
  semver : SemverLib
  /-- constant `operatorv1.ConditionProgressing` -/
  ConditionProgressing : String
  /-- constant `operatorv1.ConditionClusterManagerApplied` -/
  ConditionClusterManagerApplied : String
  /-- constant `operatorv1.ConditionHubRegistrationDegraded` -/
  ConditionHubRegistrationDegraded : String
  /-- constant `operatorv1.ConditionHubPlacementDegraded` -/
  ConditionHubPlacementDegraded : String

/-- Go `fmt.Sprintf("%t", b)`. -/
def fmtBool (b : Bool) : String := if b then "true" else "false"

/-! ## Files and subprocesses (`internal/file/file.go`, `internal/exec/exec.go`) -/

/-- Go function `TmpFile`: the path, the cleanup function (`some path` removes `path`,
`none` is a nil function) and the error. -/
def TmpFile (env : Env) (content : Bytes) (pattern : String) (tr : Trace) :
    (String × Option String × GoError) × Trace :=
  match env.createTemp tr pattern with
  | .error e => (("", none, some ("failed to create temp file: " ++ e)), tr ++ [.createTemp pattern])
  | .ok name =>
    let tr1 := tr ++ [.createTemp pattern]
    match env.writeFile tr1 name content with
    | some e =>
      (("", some name, some ("failed to write temp file: " ++ e)), tr1 ++ [.writeFile name content])
    | none => ((name, some name, none), tr1 ++ [.writeFile name content])

/-- A deferred `if cleanup != nil { defer cleanup() }`, run when the function is left,
also when it is left by a panic. -/
def runDeferred {α : Type} (cleanup : Option String) (r : α × Trace) : α × Trace :=
  match cleanup with
  | some path => (r.1, r.2 ++ [.removeFile path])
  | none => r

/-- Go function `CmdWithLogs` on `exec.Command(clusteradm, args...)`: the combined
output and the error of the subprocess, or the error of the context. -/
def CmdWithLogs (env : Env) (args : List String) (tr : Trace) : (String × GoError) × Trace :=
  (env.exec tr args, tr ++ [.exec args])

/-! ## Kubeconfigs and clients (`internal/kube/kube.go`, `pkg/common/common.go`) -/

def defaultKubeconfigKey : String := "kubeconfig"

/-- Go function `RawFromInClusterRestConfig`. -/
def RawFromInClusterRestConfig (env : Env) (tr : Trace) : (Bytes × GoError) × Trace :=
  match env.getConfig tr with
  | .error e => ((none, some e), tr ++ [.getConfig])
  | .ok rc => (env.rawFromRestConfig rc, tr ++ [.getConfig])

/-- Go function `KubeconfigFromSecret`. -/
def KubeconfigFromSecret (env : Env) (kubeconfig : Kubeconfig) (tr : Trace) :
    Outcome (Bytes × GoError) × Trace :=
  match kubeconfig.SecretReference with
  | none => (.panic nilDereference, tr)
  | some secretRef =>
    let tr1 := tr ++ [.getSecret secretRef.Namespace secretRef.Name]
    match env.getSecret tr secretRef.Namespace secretRef.Name with
    | .error e => (.ret (none, some e), tr1)
    | .ok data =>
      let kubeconfigKey :=
        match secretRef.KubeconfigKey with
        | some k => k
        | none => defaultKubeconfigKey
      match data.lookup kubeconfigKey with
      | none =>
        (.ret (none, some ("failed to get kubeconfig for ref " ++ secretRef.Namespace ++ "/" ++
          secretRef.Name ++ " using key " ++ kubeconfigKey)), tr1)
      | some raw => (.ret (raw, none), tr1)

/-- Go function `KubeconfigFromSecretOrCluster`. -/
def KubeconfigFromSecretOrCluster (env : Env) (kubeconfig : Option Kubeconfig) (tr : Trace) :
    Outcome (Bytes × GoError) × Trace :=
  match kubeconfig with
  | none => (.panic nilDereference, tr)
  | some k =>
    if k.InCluster then
      let r := RawFromInClusterRestConfig env tr
      (.ret r.1, r.2)
    else if k.SecretReference ≠ none then KubeconfigFromSecret env k tr
    else (.ret (none, none), tr)

/-- Go function `RestConfigFromKubeconfig`. -/
def RestConfigFromKubeconfig (env : Env) (kubeconfig : Bytes) (tr : Trace) :
    Except String RestConfig × Trace :=
  match kubeconfig with
  | none => (env.getConfig tr, tr ++ [.getConfig])
  | some raw =>
    match env.clientcmdLoad raw with
    | .error e => (.error ("failed to load kubeconfig: " ++ e), tr)
    | .ok config => (env.clientConfig config, tr)

/-- Go function `ClusterClient`; a client is named by its rest config. -/
def ClusterClient (env : Env) (kubeconfig : Bytes) (tr : Trace) : Except String RestConfig × Trace :=
  match RestConfigFromKubeconfig env kubeconfig tr with
  | (.error e, tr1) => (.error e, tr1)
  | (.ok rc, tr1) =>
    match env.newClusterClient rc with
    | some e => (.error ("failed to create ocm cluster client: " ++ e), tr1)
    | none => (.ok rc, tr1)

/-- Go function `OperatorClient`. -/
def OperatorClient (env : Env) (kubeconfig : Bytes) (tr : Trace) : Except String RestConfig × Trace :=
  match RestConfigFromKubeconfig env kubeconfig tr with
  | (.error e, tr1) => (.error e, tr1)
  | (.ok rc, tr1) =>
    match env.newOperatorClient rc with
    | some e => (.error ("failed to create ocm operator client: " ++ e), tr1)
    | none => (.ok rc, tr1)

/-- Go function `WorkClient`. -/
def WorkClient (env : Env) (kubeconfig : Bytes) (tr : Trace) : Except String RestConfig × Trace :=
  match RestConfigFromKubeconfig env kubeconfig tr with
  | (.error e, tr1) => (.error e, tr1)
  | (.ok rc, tr1) =>
    match env.newWorkClient rc with
    | some e => (.error ("failed to create ocm work client: " ++ e), tr1)
    | none => (.ok rc, tr1)

/-- Go function `GetManagedCluster`: `none` when the ManagedCluster is not found. -/
def GetManagedCluster (env : Env) (client : RestConfig) (name : String) (tr : Trace) :
    Except String (Option ManagedCluster) × Trace :=
  match env.getManagedCluster tr client name with
  | .error err =>
    if err.IsNotFound then (.ok none, tr ++ [.getManagedCluster client name])
    else (.error ("unexpected error getting ManagedCluster " ++ name ++ ": " ++ err.Message),
      tr ++ [.getManagedCluster client name])
  | .ok managedCluster => (.ok (some managedCluster), tr ++ [.getManagedCluster client name])

/-- Go function `UpdateManagedCluster`. -/
def UpdateManagedCluster (env : Env) (client : RestConfig) (managedCluster : ManagedCluster)
    (tr : Trace) : GoError × Trace :=
  match env.updateManagedCluster tr client managedCluster with
  | some e =>
    (some ("failed to update ManagedCluster " ++ managedCluster.Name ++ ": " ++ e),
      tr ++ [.updateManagedCluster client managedCluster])
  | none => (none, tr ++ [.updateManagedCluster client managedCluster])

/-- Go function `PrepareKubeconfig`: the arguments, the cleanup function and the
error. -/
def PrepareKubeconfig (env : Env) (kubeconfig : Option Kubeconfig) (args : List String)
    (tr : Trace) : Outcome (List String × Option String × GoError) × Trace :=
  Outcome.andThen (KubeconfigFromSecretOrCluster env kubeconfig tr) fun r tr1 =>
    match r.2 with
    | some e => (.ret (args, none, some e), tr1)
    | none =>
      match TmpFile env r.1 "kubeconfig" tr1 with
      | ((kubeconfigPath, cleanup, err), tr2) =>
        match err with
        | some e => (.ret (args, cleanup, some e), tr2)
        | none =>
          match kubeconfig with
          | none => (.panic nilDereference, tr2)
          | some k =>
            let args1 := if k.Context ≠ "" then args ++ ["--context", k.Context] else args
            (.ret (args1 ++ ["--kubeconfig", kubeconfigPath], cleanup, none), tr2)

/-- Go method `ResourceValues.String`. -/
def ResourceValues.String (r : ResourceValues) : String :=
  if r.CPU ≠ "" ∧ r.Memory ≠ "" then "cpu=" ++ r.CPU ++ ",memory=" ++ r.Memory
  else if r.CPU ≠ "" then "cpu=" ++ r.CPU
  else if r.Memory ≠ "" then "memory=" ++ r.Memory
  else ""

/-- Go function `PrepareResources`. -/
def PrepareResources (resources : ResourceSpec) : List String :=
  let flags := ["--resource-qos-class", resources.QosClass]
  let requests := resources.Requests.String
  let flags1 := if requests ≠ "" then flags ++ ["--resource-requests", requests] else flags
  let limits := resources.Limits.String
  if limits ≠ "" then flags1 ++ ["--resource-limits", limits] else flags1

/-! ## String helpers (Go packages `strings`, `strconv`, `unicode`) -/

/-- Go function `unicode.IsSpace`. -/
def isSpace (c : Char) : Bool :=
  let n := c.toNat
  n = 0x20 || (0x09 ≤ n && n ≤ 0x0D) || n = 0x85 || n = 0xA0 || n = 0x1680 ||
    (0x2000 ≤ n && n ≤ 0x200A) || n = 0x2028 || n = 0x2029 || n = 0x202F || n = 0x205F ||
    n = 0x3000

/-- Go function `strings.TrimSpace`. -/
def TrimSpace (s : String) : String :=
  String.mk ((s.data.dropWhile isSpace).reverse.dropWhile isSpace).reverse

/-- The pieces of a character list between the occurrences of `sep`. -/
def splitChars (sep : Char) : List Char → List (List Char)
  | [] => [[]]
  | c :: cs =>
    if c = sep then [] :: splitChars sep cs
    else
      match splitChars sep cs with
      | [] => [[c]]
      | piece :: pieces => (c :: piece) :: pieces

/-- Go function `strings.Split` (and the sequence of `strings.SplitSeq`) for a separator
of one character. -/
def Split (s : String) (sep : Char) : List String :=
  (splitChars sep s.data).map String.mk

/-- Go function `strconv.ParseBool`; `none` when it returns an error. -/
def ParseBool (s : String) : Option Bool :=
  if s = "1" ∨ s = "t" ∨ s = "T" ∨ s = "TRUE" ∨ s = "true" ∨ s = "True" then some true
  else if s = "0" ∨ s = "f" ∨ s = "F" ∨ s = "FALSE" ∨ s = "false" ∨ s = "False" then some false
  else none

/-- Go function `strings.TrimSuffix`. -/
def TrimSuffix (s suffix : String) : String :=
  if suffix.data.isSuffixOf s.data then String.mk (s.data.take (s.data.length - suffix.data.length))
  else s

/-- The first characters of a string that fit in `n` bytes of its UTF-8 encoding: the text
of Go's `name[:n]` when byte `n` is a character boundary, as it is in every string of
one-byte characters. When it is not, Go keeps the leading bytes of the cut character; they
are no text and are not in this list. The bytes themselves, for every string, are
`(utf8Bytes name).take n`. -/
def takeBytes : List Char → Nat → List Char
  | [], _ => []
  | c :: cs, n => if c.utf8Size ≤ n then c :: takeBytes cs (n - c.utf8Size) else []

/-! ## Feature gates (`pkg/common/common.go`) -/

/-- A Go `map[featuregate.Feature]bool`, as the list of its entries. -/
abbrev FeatureGates := List (String × Bool)

/-- The map assignment `m[key] = value`. -/
def FeatureGates.set (m : FeatureGates) (key : String) (value : Bool) : FeatureGates :=
  if m.any (fun kv => kv.1 == key) then
    m.map (fun kv => if kv.1 = key then (key, value) else kv)
  else m ++ [(key, value)]

/-- The map read `m[key]`: the zero value `false` when the key is absent. -/
def FeatureGates.get (m : FeatureGates) (key : String) : Bool :=
  (m.lookup key).getD false

/-- Constant `ocmfeature.ResourceCleanup`. -/
def ResourceCleanup : String := "ResourceCleanup"

/-- Lines 136-148 of `ExtractFeatureGates`: the loop body for one token. -/
def extractFeatureGate (featureGates : FeatureGates) (gate : String) : FeatureGates :=
  match Split (TrimSpace gate) '=' with
  | [feature, value] =>
    match ParseBool (TrimSpace value) with
    | some enabled => featureGates.set (TrimSpace feature) enabled
    | none => featureGates
  | _ => featureGates

/-- Go function `ExtractFeatureGates`; `mc` is `none` for a nil pointer. -/
def ExtractFeatureGates (mc : Option FleetConfig) : FeatureGates :=
  match mc with
  | none => []
  | some m =>
    match m.Spec.Hub.ClusterManager with
    | none => []
    | some clusterManager =>
      if clusterManager.FeatureGates = "" then []
      else (Split clusterManager.FeatureGates ',').foldl extractFeatureGate []

/-! ## Condition types and drivers (`api/v1alpha1/fleetconfig_types.go`) -/

/-- Go method `Spoke.conditionName`, as the text of its result: exact when the name has at
most 42 bytes or byte 42 is a character boundary, as in every name that the schema admits
(`JoinType_utf8Bytes`, `admittedName_utf8Bytes`). The bytes of the result, for every name,
are `Spoke.conditionNameBytes`. -/
def Spoke.conditionName (s : Spoke) : String :=
  if s.Name.utf8ByteSize > 42 then String.mk (takeBytes s.Name.data 42) else s.Name

/-- Go method `Spoke.JoinType`, as the text of its result (see `Spoke.conditionName`). -/
def Spoke.JoinType (s : Spoke) : String :=
  "spoke-cluster-" ++ s.conditionName ++ "-joined"

/-- Go method `JoinedSpoke.conditionName`, as the text of its result: exact when the name
has at most 40 bytes or byte 40 is a character boundary (`UnjoinType_utf8Bytes`). The bytes
of the result, for every name, are `JoinedSpoke.conditionNameBytes`. -/
def JoinedSpoke.conditionName (j : JoinedSpoke) : String :=
  if j.Name.utf8ByteSize > 40 then String.mk (takeBytes j.Name.data 40) else j.Name

/-- Go method `JoinedSpoke.UnjoinType`, as the text of its result (see
`JoinedSpoke.conditionName`). -/
def JoinedSpoke.UnjoinType (j : JoinedSpoke) : String :=
  "spoke-cluster-" ++ j.conditionName ++ "-unjoined"

/-- The bytes of the UTF-8 encoding of one character. -/
def utf8Char (c : Char) : List Nat :=
  let v := c.toNat
  if v ≤ 0x7F then [v]
  else if v ≤ 0x7FF then [0xC0 + v / 64, 0x80 + v % 64]
  else if v ≤ 0xFFFF then [0xE0 + v / 4096, 0x80 + v / 64 % 64, 0x80 + v % 64]
  else [0xF0 + v / 262144, 0x80 + v / 4096 % 64, 0x80 + v / 64 % 64, 0x80 + v % 64]

/-- The bytes of the Go string that holds the text `s`: its UTF-8 encoding. Go's `len`
counts these bytes, a slice expression `s[:n]` takes the first `n` of them, and
`fmt.Sprintf` copies the bytes of a `%s` argument as they are. -/
def utf8Bytes (s : String) : List Nat :=
  s.data.flatMap utf8Char

/-- Go method `Spoke.conditionName`, on the bytes of the strings: `name[:42]` is the first
42 bytes of the name, also when they end inside a character. -/
def Spoke.conditionNameBytes (s : Spoke) : List Nat :=
  let name := utf8Bytes s.Name
  if name.length > 42 then name.take 42 else name

/-- Go method `Spoke.JoinType`, on the bytes of the strings. -/
def Spoke.JoinTypeBytes (s : Spoke) : List Nat :=
  utf8Bytes "spoke-cluster-" ++ s.conditionNameBytes ++ utf8Bytes "-joined"

/-- Go method `JoinedSpoke.conditionName`, on the bytes of the strings. -/
def JoinedSpoke.conditionNameBytes (j : JoinedSpoke) : List Nat :=
  let name := utf8Bytes j.Name
  if name.length > 40 then name.take 40 else name

/-- Go method `JoinedSpoke.UnjoinType`, on the bytes of the strings. -/
def JoinedSpoke.UnjoinTypeBytes (j : JoinedSpoke) : List Nat :=
  utf8Bytes "spoke-cluster-" ++ j.conditionNameBytes ++ utf8Bytes "-unjoined"

/-- Go method `RegistrationAuth.GetDriver`. -/
def RegistrationAuth.GetDriver (ra : Option RegistrationAuth) : String :=
  match ra with
  | none => CSRRegistrationDriver
  | some r => r.Driver

/-! ## Bundle versions (`internal/version/version.go`) -/

/-- One step of the insertion sort that `slices.SortFunc` runs on slices of at most twelve
elements: `x` moves left past every element `y` with `cmp x y < 0`. The sorted part is
held in reverse order. -/
def insertionStep {α : Type} (cmp : α → α → Int) (x : α) : List α → List α
  | [] => [x]
  | y :: ys => if cmp x y < 0 then y :: insertionStep cmp x ys else x :: y :: ys

/-- Go function `slices.SortFunc`, as the insertion sort it runs on slices of at most
twelve elements (a ClusterManager has four image pull specs, a Klusterlet three). -/
def SortFunc {α : Type} (cmp : α → α → Int) (data : List α) : List α :=
  (data.foldl (fun sorted x => insertionStep cmp x sorted) []).reverse

/-- Lines 36-43 of `LowestBundleVersion`: the comparison handed to `slices.SortFunc`. -/
def compareVersions (lib : SemverLib) (a b : Version) : Int :=
  if lib.LessThan a b then -1
  else if lib.GreaterThan a b then 1
  else 0

/-- Go function `LowestBundleVersion`. -/
def LowestBundleVersion (lib : SemverLib) (bundleSpecs : List String) : String × GoError :=
  let semvers := bundleSpecs.filterMap fun bundleSpec =>
    match Split bundleSpec ':' with
    | [_, tag] => lib.NewVersion tag
    | _ => none
  if semvers.length = 0 then ("", some "no valid bundle versions detected")
  else
    match SortFunc (compareVersions lib) semvers with
    | [] => ("", some "no valid bundle versions detected")
    | lowest :: _ => (lib.String lowest, none)

/-! ## Polling (`wait.PollUntilContextCancel`) -/

/-- Go function `wait.PollUntilContextCancel` with `immediate = true`: the condition is
checked, and while it is neither met nor failed the loop waits for the next interval or
for the context to be done. `budget` is the number of intervals after which the context is
done at the latest. -/
def PollUntilContextCancel (env : Env) (condition : Trace → Except String Bool × Trace) :
    Nat → Trace → GoError × Trace
  | 0, tr =>
    match condition tr with
    | (.error e, tr1) => (some e, tr1)
    | (.ok true, tr1) => (none, tr1)
    | (.ok false, tr1) => (some env.deadlineErr, tr1 ++ [.tick])
  | budget + 1, tr =>
    match condition tr with
    | (.error e, tr1) => (some e, tr1)
    | (.ok true, tr1) => (none, tr1)
    | (.ok false, tr1) =>
      match env.contextErr tr1 with
      | some e => (some e, tr1 ++ [.tick])
      | none => PollUntilContextCancel env condition budget (tr1 ++ [.tick])

/-! ## Hub lifecycle (`internal/controller/hub.go`) -/

/-- Constant `operatorv1.InstallModeHosted`. -/
def InstallModeHosted : String := "Hosted"

/-- Go function `getClusterManager`: `none` when the ClusterManager is not found. -/
def getClusterManager (env : Env) (operatorC : RestConfig) (tr : Trace) :
    Except String (Option OperatorClusterManager) × Trace :=
  match env.getClusterManager tr operatorC with
  | .error err =>
    if err.IsNotFound then (.ok none, tr ++ [.getClusterManager operatorC])
    else (.error ("unexpected error getting cluster-manager: " ++ err.Message),
      tr ++ [.getClusterManager operatorC])
  | .ok cm => (.ok (some cm), tr ++ [.getClusterManager operatorC])

/-- Lines 162-179 of `initializeHub`: the kubeconfig is prepared and `clusteradm init`
run. -/
def initializeHubRun (env : Env) (mc : FleetConfig) (initArgs : List String) (tr : Trace) :
    Outcome GoError × Trace :=
  Outcome.andThen (PrepareKubeconfig env mc.Spec.Hub.Kubeconfig initArgs tr) fun r tr1 =>
    runDeferred r.2.1
      (match r.2.2 with
      | some e => (.ret (some e), tr1)
      | none =>
        match CmdWithLogs env r.1 tr1 with
        | ((out, some e), tr2) =>
          (.ret (some ("failed to init hub: " ++ e ++ ", output: " ++ out)), tr2)
        | ((_, none), tr2) => (.ret none, tr2))

/-- Lines 136-147 of `initializeHub`: the `--set*` flags of the Helm configuration. -/
def helmSetArgs (helm : Helm) : List String :=
  (helm.Set.elems.flatMap fun s => ["--set", s]) ++
  (helm.SetJSON.elems.flatMap fun s => ["--set-json", s]) ++
  (helm.SetLiteral.elems.flatMap fun s => ["--set-literal", s]) ++
  (helm.SetString.elems.flatMap fun s => ["--set-string", s])

/-- Lines 122-160 of `initializeHub`: the arguments of the hub type, then the run. -/
def initializeHubType (env : Env) (mc : FleetConfig) (initArgs : List String) (tr : Trace) :
    Outcome GoError × Trace :=
  match mc.Spec.Hub.SingletonControlPlane with
  | some singleton =>
    let initArgs1 := initArgs ++ ["--singleton=true"] ++ ["--singleton-name", singleton.Name]
    if singleton.Helm.Values ≠ "" then
      match TmpFile env (some singleton.Helm.Values) "values" tr with
      | ((values, cleanupValues, err), tr1) =>
        runDeferred cleanupValues
          (match err with
          | some e => (.ret (some e), tr1)
          | none =>
            initializeHubRun env mc (initArgs1 ++ ["--values", values] ++ helmSetArgs singleton.Helm)
              tr1)
    else initializeHubRun env mc (initArgs1 ++ helmSetArgs singleton.Helm) tr
  | none =>
    match mc.Spec.Hub.ClusterManager with
    | some clusterManager =>
      let initArgs1 := initArgs ++ ["--feature-gates", clusterManager.FeatureGates] ++
        ["--use-bootstrap-token=" ++ fmtBool clusterManager.UseBootstrapToken]
      match clusterManager.Source with
      | none => (.panic nilDereference, tr)
      | some source =>
        let initArgs2 := initArgs1 ++ ["--bundle-version", source.BundleVersion] ++
          ["--image-registry", source.Registry]
        let initArgs3 :=
          match clusterManager.Resources with
          | some resources => initArgs2 ++ PrepareResources resources
          | none => initArgs2
        initializeHubRun env mc initArgs3 tr
    | none =>
      (.ret (some
        "unknown hub type, must specify either hub.clusterManager or hub.singletonControlPlane"),
        tr)

/-- Go function `initializeHub`. -/
def initializeHub (env : Env) (mc : FleetConfig) (tr : Trace) : Outcome GoError × Trace :=
  let initArgs := ["init", "--create-namespace=" ++ fmtBool mc.Spec.Hub.CreateNamespace,
    "--force=" ++ fmtBool mc.Spec.Hub.Force, "--wait=true"]
  let registrationDriver := RegistrationAuth.GetDriver mc.Spec.RegistrationAuth
  if registrationDriver = AWSIRSARegistrationDriver then
    match mc.Spec.RegistrationAuth with
    | none => (.panic nilDereference, tr)
    | some ra =>
      let raArgs := ["--registration-drivers=" ++ registrationDriver]
      let raArgs1 :=
        if ra.HubClusterARN ≠ "" then raArgs ++ ["--hub-cluster-arn=" ++ ra.HubClusterARN]
        else raArgs
      let raArgs2 :=
        if ra.AutoApprovedARNPatterns.length > 0 then
          raArgs1 ++ ["--auto-approved-arn-patterns=" ++
            String.intercalate "," ra.AutoApprovedARNPatterns]
        else raArgs1
      initializeHubType env mc (initArgs ++ raArgs2) tr
  else initializeHubType env mc initArgs tr

/-- Lines 201-214 of `hubNeedsUpgrade`: the image pull specs that are set. -/
def clusterManagerBundleSpecs (cm : OperatorClusterManager) : List String :=
  [cm.AddOnManagerImagePullSpec, cm.PlacementImagePullSpec, cm.RegistrationImagePullSpec,
    cm.WorkImagePullSpec].filter (fun spec => spec ≠ "")

/-- Go function `hubNeedsUpgrade`. -/
def hubNeedsUpgrade (env : Env) (mc : FleetConfig) (operatorC : RestConfig) (tr : Trace) :
    Outcome (Bool × GoError) × Trace :=
  match mc.Spec.Hub.ClusterManager with
  | none => (.panic nilDereference, tr)
  | some clusterManager =>
    match clusterManager.Source with
    | none => (.panic nilDereference, tr)
    | some source =>
      if source.BundleVersion = "default" then (.ret (false, none), tr)
      else if source.BundleVersion = "latest" then (.ret (true, none), tr)
      else
        match getClusterManager env operatorC tr with
        | (.error e, tr1) => (.ret (false, some e), tr1)
        | (.ok none, tr1) => (.panic nilDereference, tr1)
        | (.ok (some cm), tr1) =>
          match LowestBundleVersion env.semver (clusterManagerBundleSpecs cm) with
          | (_, some e) =>
            (.ret (false, some ("failed to detect bundleVersion from clustermanager spec: " ++ e)),
              tr1)
          | (activeBundleVersion, none) =>
            (.ret (decide (activeBundleVersion = source.BundleVersion), none), tr1)

/-- Go function `upgradeHub`. -/
def upgradeHub (env : Env) (mc : FleetConfig) (tr : Trace) : Outcome GoError × Trace :=
  match mc.Spec.Hub.ClusterManager with
  | none => (.panic nilDereference, tr)
  | some clusterManager =>
    match clusterManager.Source with
    | none => (.panic nilDereference, tr)
    | some source =>
      let upgradeArgs := ["upgrade", "clustermanager", "--bundle-version", source.BundleVersion,
        "--image-registry", source.Registry, "--wait=true"]
      match CmdWithLogs env upgradeArgs tr with
      | ((out, some e), tr1) =>
        (.ret (some ("failed to upgrade hub clustermanager to " ++ source.BundleVersion ++ ": " ++
          e ++ ", output: " ++ out)), tr1)
      | ((_, none), tr1) => (.ret none, tr1)

/-- Lines 53-66 of `handleHub`: the messages of the conditions that tell that the
ClusterManager is progressing or degraded. -/
def hubDegradedMessages (env : Env) (conditions : List MetaCondition) : List String :=
  conditions.flatMap fun c =>
    (if c.Type_ = env.ConditionProgressing ∧ c.Status = ConditionTrue
      then [c.Type_ ++ ": " ++ c.Message] else []) ++
    (if c.Type_ = env.ConditionClusterManagerApplied ∧ c.Status = ConditionFalse
      then [c.Type_ ++ ": " ++ c.Message] else []) ++
    (if c.Type_ = env.ConditionHubRegistrationDegraded ∧ c.Status = ConditionTrue
      then [c.Type_ ++ ": " ++ c.Message] else []) ++
    (if c.Type_ = env.ConditionHubPlacementDegraded ∧ c.Status = ConditionTrue
      then [c.Type_ ++ ": " ++ c.Message] else [])

/-- Lines 81-94 of `handleHub`: the hub is recorded as initialized, then upgraded when
`hubNeedsUpgrade` says so. -/
def handleHubInitialized (env : Env) (operatorC : RestConfig) (mc : FleetConfig) (tr : Trace) :
    Outcome GoError × FleetConfig × Trace :=
  let mc1 := mc.SetConditions true
    [NewCondition (env.now tr) FleetConfigHubInitialized FleetConfigHubInitialized ConditionTrue
      ConditionTrue]
  let tr1 := tr ++ [.now]
  match hubNeedsUpgrade env mc1 operatorC tr1 with
  | (.panic msg, tr2) => (.panic msg, mc1, tr2)
  | (.ret (_, some e), tr2) =>
    (.ret (some ("failed to check if hub needs upgrade: " ++ e)), mc1, tr2)
  | (.ret (upgrade, none), tr2) =>
    if upgrade then
      let r := upgradeHub env mc1 tr2
      (r.1, mc1, r.2)
    else (.ret none, mc1, tr2)

/-- Go function `handleHub`: its result, the FleetConfig it leaves and the calls it
made. -/
def handleHub (env : Env) (mc : FleetConfig) (tr : Trace) :
    Outcome GoError × FleetConfig × Trace :=
  match KubeconfigFromSecretOrCluster env mc.Spec.Hub.Kubeconfig tr with
  | (.panic msg, tr1) => (.panic msg, mc, tr1)
  | (.ret (_, some e), tr1) => (.ret (some e), mc, tr1)
  | (.ret (hubKubeconfig, none), tr1) =>
    match OperatorClient env hubKubeconfig tr1 with
    | (.error e, tr2) => (.ret (some e), mc, tr2)
    | (.ok operatorC, tr2) =>
      match getClusterManager env operatorC tr2 with
      | (.error e, tr3) => (.ret (some e), mc, tr3)
      | (.ok cm, tr3) =>
        match cm.bind (fun c => c.Conditions) with
        | some conditions =>
          let msgs := hubDegradedMessages env conditions
          if msgs.length > 0 then
            let msg := "hub pending/degraded: " ++ TrimSuffix (String.intercalate "; " msgs) "; "
            (.ret (some msg),
              mc.SetConditions true
                [NewCondition (env.now tr3) msg FleetConfigHubInitialized ConditionFalse
                  ConditionTrue],
              tr3 ++ [.now])
          else handleHubInitialized env operatorC mc tr3
        | none =>
          match initializeHub env mc tr3 with
          | (.panic msg, tr4) => (.panic msg, mc, tr4)
          | (.ret (some e), tr4) => (.ret (some e), mc, tr4)
          | (.ret none, tr4) => handleHubInitialized env operatorC mc tr4

/-- Lines 318-337 of `cleanManagedClusters`: the condition polled until no ManagedCluster
is left. -/
def managedClustersGone (env : Env) (client : RestConfig) (tr : Trace) :
    Except String Bool × Trace :=
  match env.listManagedClusters tr client with
  | .error err =>
    if err.IsNotFound then (.ok true, tr ++ [.listManagedClusters client])
    else (.error err.Message, tr ++ [.listManagedClusters client])
  | .ok clusters =>
    if clusters.length = 0 then (.ok true, tr ++ [.listManagedClusters client])
    else (.ok false, tr ++ [.listManagedClusters client])

/-- Go function `cleanManagedClusters`. -/
def cleanManagedClusters (env : Env) (client : RestConfig) (tr : Trace) : GoError × Trace :=
  let tr1 := tr ++ [.deleteManagedClusters client]
  match env.deleteManagedClusters tr client with
  | some err =>
    if ¬ err.IsNotFound then (some ("failed to delete managedClusters: " ++ err.Message), tr1)
    else
      match PollUntilContextCancel env (managedClustersGone env client) env.pollBudget tr1 with
      | (some e, tr2) => (some ("failed waiting for ManagedClusters to be deleted: " ++ e), tr2)
      | (none, tr2) => (none, tr2)
  | none =>
    match PollUntilContextCancel env (managedClustersGone env client) env.pollBudget tr1 with
    | (some e, tr2) => (some ("failed waiting for ManagedClusters to be deleted: " ++ e), tr2)
    | (none, tr2) => (none, tr2)

/-- Lines 352-359 of `cleanNamespaces`: the namespace of every spoke is deleted; the
first error that is not NotFound ends the loop. -/
def deleteSpokeNamespaces (env : Env) : List Spoke → Trace → GoError × Trace
  | [], tr => (none, tr)
  | spoke :: rest, tr =>
    match env.deleteNamespace tr spoke.Name true with
    | some err =>
      if ¬ err.IsNotFound then (some err.Message, tr ++ [.deleteNamespace spoke.Name true])
      else deleteSpokeNamespaces env rest (tr ++ [.deleteNamespace spoke.Name true])
    | none => deleteSpokeNamespaces env rest (tr ++ [.deleteNamespace spoke.Name true])

/-- Lines 368-380 of `cleanNamespaces`: the condition polled until none of the namespaces
is left. -/
def namespacesGone (env : Env) : List String → Trace → Except String Bool × Trace
  | [], tr => (.ok true, tr)
  | nsName :: rest, tr =>
    match env.getNamespace tr nsName with
    | none => (.ok false, tr ++ [.getNamespace nsName])
    | some err =>
      if ¬ err.IsNotFound then (.error err.Message, tr ++ [.getNamespace nsName])
      else namespacesGone env rest (tr ++ [.getNamespace nsName])

/-- Go function `cleanNamespaces`. -/
def cleanNamespaces (env : Env) (mc : FleetConfig) (tr : Trace) : GoError × Trace :=
  match deleteSpokeNamespaces env mc.Spec.Spokes.elems tr with
  | (some e, tr1) => (some e, tr1)
  | (none, tr1) =>
    let namespaces := mc.Spec.Spokes.elems.map (·.Name)
    if namespaces.length = 0 then (none, tr1)
    else
      match PollUntilContextCancel env (namespacesGone env namespaces) env.pollBudget tr1 with
      | (some e, tr2) => (some ("failed waiting for namespaces to be deleted: " ++ e), tr2)
      | (none, tr2) => (none, tr2)

/-- Go function `cleanHub`. -/
def cleanHub (env : Env) (hubKubeconfig : Bytes) (mc : FleetConfig) (tr : Trace) :
    Outcome GoError × Trace :=
  match ClusterClient env hubKubeconfig tr with
  | (.error e, tr1) => (.ret (some e), tr1)
  | (.ok clusterC, tr1) =>
    match cleanManagedClusters env clusterC tr1 with
    | (some e, tr2) => (.ret (some e), tr2)
    | (none, tr2) =>
      match cleanNamespaces env mc tr2 with
      | (some e, tr3) => (.ret (some e), tr3)
      | (none, tr3) =>
        match mc.Spec.Hub.ClusterManager with
        | none => (.panic nilDereference, tr3)
        | some clusterManager =>
          let cleanArgs := ["clean", "--purge-operator=" ++ fmtBool clusterManager.PurgeOperator]
          match CmdWithLogs env cleanArgs tr3 with
          | ((out, some e), tr4) =>
            (.ret (some ("failed to clean hub cluster: " ++ e ++ ", output: " ++ out)), tr4)
          | ((_, none), tr4) => (.ret none, tr4)

/-! ## Spoke lifecycle (`internal/controller/spoke.go`) -/

/-- Go function `getJoinedCondition`. -/
def getJoinedCondition (managedCluster : Option ManagedCluster) : Option MetaCondition :=
  match managedCluster with
  | none => none
  | some cluster =>
    match cluster.Conditions with
    | none => none
    | some conditions => conditions.find? (fun c => c.Type_ == "ManagedClusterJoined")

/-- Go function `acceptCluster`. -/
def acceptCluster (env : Env) (name : String) (tr : Trace) : GoError × Trace :=
  let acceptArgs := ["accept", "--cluster", name]
  match CmdWithLogs env acceptArgs tr with
  | ((out, some e), tr1) =>
    (some ("failed to accept spoke cluster join request: " ++ e ++ ", output: " ++ out), tr1)
  | ((_, none), tr1) => (none, tr1)

/-- Go function `getToken`: the token (`none` is a nil pointer) and the error. -/
def getToken (env : Env) (mc : FleetConfig) (tr : Trace) :
    Outcome (Option TokenMeta × GoError) × Trace :=
  let tokenArgs := ["get", "token", "--output=json"]
  let tokenArgs1 :=
    match mc.Spec.Hub.ClusterManager with
    | some clusterManager =>
      tokenArgs ++ ["--use-bootstrap-token=" ++ fmtBool clusterManager.UseBootstrapToken]
    | none => tokenArgs
  Outcome.andThen (PrepareKubeconfig env mc.Spec.Hub.Kubeconfig tokenArgs1 tr) fun r tr1 =>
    runDeferred r.2.1
      (match r.2.2 with
      | some e => (.ret (none, some ("failed to prepare kubeconfig: " ++ e)), tr1)
      | none =>
        match CmdWithLogs env r.1 tr1 with
        | ((out, some e), tr2) =>
          (.ret (none, some ("failed to get join token: " ++ e ++ ", output: " ++ out)), tr2)
        | ((out, none), tr2) =>
          match env.unmarshalToken out with
          | .error e => (.ret (none, some ("failed to unmarshal join token: " ++ e)), tr2)
          | .ok tokenMeta => (.ret (tokenMeta, none), tr2))

/-- Lines 337-354 of `joinSpoke`: the kubeconfig of the spoke is prepared and
`clusteradm join` run. -/
def joinSpokeRun (env : Env) (spoke : Spoke) (joinArgs : List String) (tr : Trace) :
    Outcome GoError × Trace :=
  Outcome.andThen (PrepareKubeconfig env spoke.Kubeconfig joinArgs tr) fun r tr1 =>
    runDeferred r.2.1
      (match r.2.2 with
      | some e => (.ret (some e), tr1)
      | none =>
        match CmdWithLogs env r.1 tr1 with
        | ((out, some e), tr2) =>
          (.ret (some ("clusteradm join command failed for spoke " ++ spoke.Name ++ ": " ++ e ++
            ", output: " ++ out)), tr2)
        | ((_, none), tr2) => (.ret none, tr2))

/-- Lines 323-335 of `joinSpoke`: the proxy CA file and the proxy URL. -/
def joinSpokeProxy (env : Env) (spoke : Spoke) (joinArgs : List String) (tr : Trace) :
    Outcome GoError × Trace :=
  if spoke.ProxyCa ≠ "" then
    match TmpFile env (some spoke.ProxyCa) "proxy-ca" tr with
    | ((proxyCaFile, proxyCaCleanup, err), tr1) =>
      runDeferred proxyCaCleanup
        (match err with
        | some e => (.ret (some ("failed to write proxy CA to disk: " ++ e)), tr1)
        | none =>
          let joinArgs1 := joinArgs ++ ["--proxy-ca-file=" ++ proxyCaFile]
          joinSpokeRun env spoke
            (if spoke.ProxyURL ≠ "" then joinArgs1 ++ ["--proxy-url=" ++ spoke.ProxyURL]
              else joinArgs1) tr1)
  else
    joinSpokeRun env spoke
      (if spoke.ProxyURL ≠ "" then joinArgs ++ ["--proxy-url=" ++ spoke.ProxyURL] else joinArgs)
      tr

/-- Lines 313-322 of `joinSpoke`: the CA file, whose flag goes in front of the other
arguments. -/
def joinSpokeCa (env : Env) (spoke : Spoke) (joinArgs : List String) (tr : Trace) :
    Outcome GoError × Trace :=
  if spoke.Ca ≠ "" then
    match TmpFile env (some spoke.Ca) "ca" tr with
    | ((caFile, caCleanup, err), tr1) =>
      runDeferred caCleanup
        (match err with
        | some e => (.ret (some ("failed to write CA to disk: " ++ e)), tr1)
        | none => joinSpokeProxy env spoke (["--ca-file=" ++ caFile] ++ joinArgs) tr1)
  else joinSpokeProxy env spoke joinArgs tr

/-- Lines 295-311 of `joinSpoke`: the flags of the Hosted mode. -/
def joinSpokeHosted (env : Env) (spoke : Spoke) (joinArgs : List String) (tr : Trace) :
    Outcome GoError × Trace :=
  if spoke.Klusterlet.Mode = InstallModeHosted then
    let joinArgs1 := joinArgs ++ ["--force-internal-endpoint-lookup-managed=" ++
      fmtBool spoke.Klusterlet.ForceInternalEndpointLookupManaged]
    Outcome.andThen
      (KubeconfigFromSecretOrCluster env spoke.Klusterlet.ManagedClusterKubeconfig tr)
      fun r tr1 =>
        match r.2 with
        | some e => (.ret (some e), tr1)
        | none =>
          match TmpFile env r.1 "kubeconfig" tr1 with
          | ((mgdKcfg, mgdKcfgCleanup, err), tr2) =>
            runDeferred mgdKcfgCleanup
              (match err with
              | some e =>
                (.ret (some ("failed to write managedClusterKubeconfig to disk: " ++ e)), tr2)
              | none =>
                joinSpokeCa env spoke (joinArgs1 ++ ["--managed-cluster-kubeconfig", mgdKcfg]) tr2)
  else joinSpokeCa env spoke joinArgs tr

/-- Go function `joinSpoke`. -/
def joinSpoke (env : Env) (spec : FleetConfigSpec) (spoke : Spoke) (tokenMeta : Option TokenMeta)
    (tr : Trace) : Outcome GoError × Trace :=
  match tokenMeta with
  | none => (.panic nilDereference, tr)
  | some token =>
    match spoke.Klusterlet.Source with
    | none => (.panic nilDereference, tr)
    | some source =>
      let joinArgs := ["join", "--cluster-name", spoke.Name,
        "--create-namespace=" ++ fmtBool spoke.CreateNamespace,
        "--enable-sync-labels=" ++ fmtBool spoke.SyncLabels,
        "--hub-token", token.Token,
        "--wait=true",
        "--mode", spoke.Klusterlet.Mode,
        "--feature-gates", spoke.Klusterlet.FeatureGates,
        "--force-internal-endpoint-lookup=" ++ fmtBool spoke.Klusterlet.ForceInternalEndpointLookup,
        "--singleton=" ++ fmtBool spoke.Klusterlet.Singleton,
        "--bundle-version", source.BundleVersion,
        "--image-registry", source.Registry]
      let joinArgs1 :=
        match spec.Hub.APIServer with
        | some server => joinArgs ++ ["--hub-apiserver", server]
        | none =>
          if token.HubAPIServer ≠ "" then joinArgs ++ ["--hub-apiserver", token.HubAPIServer]
          else joinArgs
      let registrationDriver := RegistrationAuth.GetDriver spec.RegistrationAuth
      let withResources := fun (args : List String) =>
        match spoke.Klusterlet.Resources with
        | some resources => args ++ PrepareResources resources
        | none => args
      if registrationDriver = AWSIRSARegistrationDriver then
        match spec.RegistrationAuth with
        | none => (.panic nilDereference, tr)
        | some ra =>
          let raArgs := ["--registration-auth=" ++ registrationDriver]
          let raArgs1 :=
            if ra.HubClusterARN ≠ "" then raArgs ++ ["--hub-cluster-arn=" ++ ra.HubClusterARN]
            else raArgs
          let raArgs2 :=
            if spoke.ClusterARN ≠ "" then raArgs1 ++ ["--managed-cluster-arn=" ++ spoke.ClusterARN]
            else raArgs1
          joinSpokeHosted env spoke (withResources (joinArgs1 ++ raArgs2)) tr
      else joinSpokeHosted env spoke (withResources joinArgs1) tr

/-- Lines 385-395 of `spokeNeedsUpgrade`: the image pull specs that are set. -/
def klusterletBundleSpecs (k : OperatorKlusterlet) : List String :=
  [k.ImagePullSpec, k.RegistrationImagePullSpec, k.WorkImagePullSpec].filter
    (fun spec => spec ≠ "")

/-- Go function `spokeNeedsUpgrade`. -/
def spokeNeedsUpgrade (env : Env) (spoke : Spoke) (tr : Trace) :
    Outcome (Bool × GoError) × Trace :=
  match spoke.Klusterlet.Source with
  | none => (.panic nilDereference, tr)
  | some source =>
    if source.BundleVersion = "default" then (.ret (false, none), tr)
    else if source.BundleVersion = "latest" then (.ret (true, none), tr)
    else
      Outcome.andThen (KubeconfigFromSecretOrCluster env spoke.Kubeconfig tr) fun r tr1 =>
        match r.2 with
        | some e => (.ret (false, some e), tr1)
        | none =>
          match OperatorClient env r.1 tr1 with
          | (.error e, tr2) => (.ret (false, some e), tr2)
          | (.ok operatorC, tr2) =>
            match env.getKlusterlet tr2 operatorC with
            | .error e =>
              (.ret (false, some ("failed to get klusterlet: " ++ e)),
                tr2 ++ [.getKlusterlet operatorC])
            | .ok k =>
              match LowestBundleVersion env.semver (klusterletBundleSpecs k) with
              | (_, some e) =>
                (.ret (false, some ("failed to detect bundleVersion from klusterlet spec: " ++ e)),
                  tr2 ++ [.getKlusterlet operatorC])
              | (activeBundleVersion, none) =>
                (.ret (decide (activeBundleVersion = source.BundleVersion), none),
                  tr2 ++ [.getKlusterlet operatorC])

/-- Go function `upgradeSpoke`. -/
def upgradeSpoke (env : Env) (spoke : Spoke) (tr : Trace) : Outcome GoError × Trace :=
  match spoke.Klusterlet.Source with
  | none => (.panic nilDereference, tr)
  | some source =>
    let upgradeArgs := ["upgrade", "klusterlet", "--bundle-version", source.BundleVersion,
      "--image-registry", source.Registry, "--wait=true"]
    Outcome.andThen (PrepareKubeconfig env spoke.Kubeconfig upgradeArgs tr) fun r tr1 =>
      runDeferred r.2.1
        (match r.2.2 with
        | some e => (.ret (some e), tr1)
        | none =>
          match CmdWithLogs env r.1 tr1 with
          | ((out, some e), tr2) =>
            (.ret (some ("failed to upgrade klusterlet on spoke cluster " ++ spoke.Name ++ " to " ++
              source.BundleVersion ++ ": " ++ e ++ ", output: " ++ out)), tr2)
          | ((_, none), tr2) => (.ret none, tr2))

/-- Go function `unjoinSpoke`. -/
def unjoinSpoke (env : Env) (kubeconfig : Option Kubeconfig) (spokeName : String)
    (purgeOperator : Bool) (tr : Trace) : Outcome GoError × Trace :=
  let unjoinArgs := ["unjoin", "--cluster-name", spokeName,
    "--purge-operator=" ++ fmtBool purgeOperator]
  Outcome.andThen (PrepareKubeconfig env kubeconfig unjoinArgs tr) fun r tr1 =>
    runDeferred r.2.1
      (match r.2.2 with
      | some e => (.ret (some ("failed to unjoin spoke cluster " ++ spokeName ++ ": " ++ e)), tr1)
      | none =>
        match CmdWithLogs env r.1 tr1 with
        | ((out, some e), tr2) =>
          (.ret (some ("failed to unjoin spoke cluster " ++ spokeName ++ ": " ++ e ++
            ", output: " ++ out)), tr2)
        | ((_, none), tr2) => (.ret none, tr2))

/-- Go function `cleanupSpokes`. A spoke without a joined condition makes the call
panic: the arguments of the log call read `joinedCondition.Message` of the nil pointer. -/
def cleanupSpokes (env : Env) (mc : FleetConfig) : List Spoke → Trace → Outcome GoError × Trace
  | [], tr => (.ret none, tr)
  | spoke :: rest, tr =>
    match mc.GetCondition spoke.JoinType with
    | none => (.panic nilDereference, tr)
    | some joinedCondition =>
      if joinedCondition.Status ≠ ConditionTrue then cleanupSpokes env mc rest tr
      else
        match unjoinSpoke env spoke.Kubeconfig spoke.Name spoke.Klusterlet.PurgeOperator tr with
        | (.panic msg, tr1) => (.panic msg, tr1)
        | (.ret (some e), tr1) => (.ret (some e), tr1)
        | (.ret none, tr1) => cleanupSpokes env mc rest tr1

/-- The replacement `csrSuffixPattern.ReplaceAllString(name, "")` for the pattern
`-[a-zA-Z0-9]{5}$`: a final dash followed by five letters or digits is cut off. -/
def trimCSRSuffix (name : String) : String :=
  match name.data.reverse with
  | c5 :: c4 :: c3 :: c2 :: c1 :: dash :: rest =>
    if dash = '-' ∧ [c1, c2, c3, c4, c5].all
        (fun c => ('a' ≤ c ∧ c ≤ 'z') ∨ ('A' ≤ c ∧ c ≤ 'Z') ∨ ('0' ≤ c ∧ c ≤ '9')) then
      String.mk rest.reverse
    else name
  | _ => name

/-- Lines 531-538 of `deregisterSpoke`: the CertificateSigningRequests of the spoke are
deleted; the first error ends the loop. -/
def deleteSpokeCSRs (env : Env) (spokeName : String) : List String → Trace → GoError × Trace
  | [], tr => (none, tr)
  | csrName :: rest, tr =>
    if trimCSRSuffix csrName = spokeName then
      match env.deleteCSR tr csrName with
      | some e => (some e, tr ++ [.deleteCSR csrName])
      | none => deleteSpokeCSRs env spokeName rest (tr ++ [.deleteCSR csrName])
    else deleteSpokeCSRs env spokeName rest tr

/-- Lines 526-551 of `deregisterSpoke`: what follows a successful unjoin. -/
def deregisterSpokeResources (env : Env) (clusterC : RestConfig) (spoke : JoinedSpoke)
    (tr : Trace) : GoError × Trace :=
  match env.listCSRs tr with
  | .error e => (some e, tr ++ [.listCSRs])
  | .ok csrNames =>
    match deleteSpokeCSRs env spoke.Name csrNames (tr ++ [.listCSRs]) with
    | (some e, tr1) => (some e, tr1)
    | (none, tr1) =>
      let tr2 := tr1 ++ [.deleteManagedCluster clusterC spoke.Name]
      let failed :=
        match env.deleteManagedCluster tr1 clusterC spoke.Name with
        | some err => if ¬ err.IsNotFound then some err.Message else none
        | none => none
      match failed with
      | some e => (some e, tr2)
      | none =>
        match env.deleteNamespace tr2 spoke.Name false with
        | some err =>
          if ¬ err.IsNotFound then (some err.Message, tr2 ++ [.deleteNamespace spoke.Name false])
          else (none, tr2 ++ [.deleteNamespace spoke.Name false])
        | none => (none, tr2 ++ [.deleteNamespace spoke.Name false])

/-- Go function `deregisterSpoke`. -/
def deregisterSpoke (env : Env) (hubKubeconfig : Bytes) (spoke : JoinedSpoke) (tr : Trace) :
    Outcome GoError × Trace :=
  match ClusterClient env hubKubeconfig tr with
  | (.error e, tr1) => (.ret (some e), tr1)
  | (.ok clusterC, tr1) =>
    match WorkClient env hubKubeconfig tr1 with
    | (.error e, tr2) => (.ret (some e), tr2)
    | (.ok workC, tr2) =>
      let tr3 := tr2 ++ [.getManagedCluster clusterC spoke.Name]
      match env.getManagedCluster tr2 clusterC spoke.Name with
      | .error err =>
        if err.IsNotFound then (.ret none, tr3)
        else (.ret (some ("unexpected error listing managedClusters: " ++ err.Message)), tr3)
      | .ok managedCluster =>
        let tr4 := tr3 ++ [.listManifestWorks workC managedCluster.Name]
        match env.listManifestWorks tr3 workC managedCluster.Name with
        | .error e =>
          (.ret (some ("failed to list manifestWorks for managedCluster " ++ managedCluster.Name ++
            ": " ++ e)), tr4)
        | .ok manifestWorks =>
          if manifestWorks > 0 then
            (.ret (some ("Found manifestWorks for ManagedCluster " ++ managedCluster.Name ++
              "; cannot unjoin spoke cluster while it has active ManifestWorks")), tr4)
          else
            match unjoinSpoke env spoke.Kubeconfig spoke.Name spoke.PurgeKlusterletOperator tr4 with
            | (.panic msg, tr5) => (.panic msg, tr5)
            | (.ret (some e), tr5) => (.ret (some e), tr5)
            | (.ret none, tr5) =>
              let r := deregisterSpokeResources env clusterC spoke tr5
              (.ret r.1, r.2)

/-- The map assignment `labels[key] = value`. -/
def setLabel (labels : List (String × String)) (key value : String) : List (String × String) :=
  if labels.any (fun kv => kv.1 == key) then
    labels.map (fun kv => if kv.1 = key then (key, value) else kv)
  else labels ++ [(key, value)]

/-- Lines 142-151 of `handleSpokes`: the klusterlet is upgraded when `spokeNeedsUpgrade`
says so. A result `some e` makes `handleSpokes` return `e`. -/
def handleSpokeUpgrade (env : Env) (spoke : Spoke) (tr : Trace) : Outcome GoError × Trace :=
  match spokeNeedsUpgrade env spoke tr with
  | (.panic msg, tr1) => (.panic msg, tr1)
  | (.ret (_, some e), tr1) =>
    (.ret (some ("failed to check if spoke cluster needs upgrade: " ++ e)), tr1)
  | (.ret (upgrade, none), tr1) =>
    if upgrade then
      match upgradeSpoke env spoke tr1 with
      | (.panic msg, tr2) => (.panic msg, tr2)
      | (.ret (some e), tr2) =>
        (.ret (some ("failed to upgrade spoke cluster " ++ spoke.Name ++ ": " ++ e)), tr2)
      | (.ret none, tr2) => (.ret none, tr2)
    else (.ret none, tr1)

/-- Lines 128-140 of `handleSpokes`: the ManagedCluster of a hub-as-spoke is labelled. -/
def labelHubAsSpoke (env : Env) (clusterClient : RestConfig) (spoke : Spoke)
    (managedCluster : Option ManagedCluster) (tr : Trace) : Outcome GoError × Trace :=
  match managedCluster with
  | none => (.ret none, tr)
  | some cluster =>
    match spoke.Kubeconfig with
    | none => (.panic nilDereference, tr)
    | some kubeconfig =>
      if kubeconfig.InCluster then
        let labelled : ManagedCluster :=
          { cluster with
            Labels := some (setLabel (cluster.Labels.getD []) LabelManagedClusterType
              ManagedClusterTypeHubAsSpoke) }
        let r := UpdateManagedCluster env clusterClient labelled tr
        (.ret r.1, r.2)
      else (.ret none, tr)

/-- Lines 102-151 of `handleSpokes`: the part of the loop body that follows the lookup
(and, if needed, the join) of the ManagedCluster. A result `some e` makes `handleSpokes`
return `e`; `none` goes on with the next spoke. -/
def handleSpokeJoined (env : Env) (clusterClient : RestConfig) (spoke : Spoke)
    (managedCluster : Option ManagedCluster) (mc : FleetConfig) (tr : Trace) :
    Outcome GoError × FleetConfig × Trace :=
  match getJoinedCondition managedCluster with
  | none =>
    (.ret none,
      mc.SetConditions true
        [NewCondition (env.now tr)
          ("ManagedClusterJoined condition not found in ManagedCluster for spoke cluster " ++
            spoke.Name)
          spoke.JoinType ConditionFalse ConditionTrue],
      tr ++ [.now])
  | some jc =>
    if jc.Status ≠ ConditionTrue then
      (.ret none,
        mc.SetConditions true
          [NewCondition (env.now tr)
            ("failed to join spoke cluster " ++ spoke.Name ++ ": " ++ jc.Message)
            spoke.JoinType ConditionFalse ConditionTrue],
        tr ++ [.now])
    else
      let mc1 := mc.SetConditions true
        [NewCondition (env.now tr) "Joined" spoke.JoinType ConditionTrue ConditionTrue]
      match labelHubAsSpoke env clusterClient spoke managedCluster (tr ++ [.now]) with
      | (.panic msg, tr1) => (.panic msg, mc1, tr1)
      | (.ret (some e), tr1) => (.ret (some e), mc1, tr1)
      | (.ret none, tr1) =>
        let r := handleSpokeUpgrade env spoke tr1
        (r.1, mc1, r.2)

/-- Lines 65-151 of `handleSpokes`: the loop body for one declared spoke. A result
`some e` makes `handleSpokes` return `e`; `none` goes on with the next spoke. -/
def handleSpoke (env : Env) (clusterClient : RestConfig) (spoke : Spoke) (mc : FleetConfig)
    (tr : Trace) : Outcome GoError × FleetConfig × Trace :=
  match GetManagedCluster env clusterClient spoke.Name tr with
  | (.error _, tr1) => (.ret none, mc, tr1)
  | (.ok (some cluster), tr1) => handleSpokeJoined env clusterClient spoke (some cluster) mc tr1
  | (.ok none, tr1) =>
    match getToken env mc tr1 with
    | (.panic msg, tr2) => (.panic msg, mc, tr2)
    | (.ret (_, some e), tr2) => (.ret (some ("failed to get join token: " ++ e)), mc, tr2)
    | (.ret (tokenMeta, none), tr2) =>
      match joinSpoke env mc.Spec spoke tokenMeta tr2 with
      | (.panic msg, tr3) => (.panic msg, mc, tr3)
      | (.ret (some e), tr3) =>
        (.ret none,
          mc.SetConditions true
            [NewCondition (env.now tr3) e spoke.JoinType ConditionFalse ConditionTrue],
          tr3 ++ [.now])
      | (.ret none, tr3) =>
        match acceptCluster env spoke.Name tr3 with
        | (some e, tr4) =>
          (.ret none,
            mc.SetConditions true
              [NewCondition (env.now tr4) e spoke.JoinType ConditionFalse ConditionTrue],
            tr4 ++ [.now])
        | (none, tr4) =>
          match GetManagedCluster env clusterClient spoke.Name tr4 with
          | (.error _, tr5) => (.ret none, mc, tr5)
          | (.ok managedCluster, tr5) =>
            handleSpokeJoined env clusterClient spoke managedCluster mc tr5

/-- Lines 64-152 of `handleSpokes`: the loop over the declared spokes. -/
def handleSpokesLoop (env : Env) (clusterClient : RestConfig) :
    List Spoke → FleetConfig → Trace → Outcome GoError × FleetConfig × Trace
  | [], mc, tr => (.ret none, mc, tr)
  | spoke :: rest, mc, tr =>
    match handleSpoke env clusterClient spoke mc tr with
    | (.ret none, mc1, tr1) => handleSpokesLoop env clusterClient rest mc1 tr1
    | (.ret (some e), mc1, tr1) => (.ret (some e), mc1, tr1)
    | (.panic msg, mc1, tr1) => (.panic msg, mc1, tr1)

/-- Lines 47-62 of `handleSpokes`: every joined spoke that matches no declared spoke by
name and kubeconfig is deregistered. The result is the local slice `joinedSpokes`: the
joined spokes whose deregistration failed. -/
def deregisterLoop (env : Env) (hubKubeconfig : Bytes) (spokes : List Spoke) :
    List JoinedSpoke → List JoinedSpoke → FleetConfig → Trace →
      Outcome (List JoinedSpoke) × FleetConfig × Trace
  | [], joinedSpokes, mc, tr => (.ret joinedSpokes, mc, tr)
  | js :: rest, joinedSpokes, mc, tr =>
    if ¬ spokes.any (fun spoke => spoke.Name = js.Name ∧ spoke.Kubeconfig = js.Kubeconfig) then
      match deregisterSpoke env hubKubeconfig js tr with
      | (.panic msg, tr1) => (.panic msg, mc, tr1)
      | (.ret (some e), tr1) =>
        deregisterLoop env hubKubeconfig spokes rest (joinedSpokes ++ [js])
          (mc.SetConditions true
            [NewCondition (env.now tr1) e js.UnjoinType ConditionFalse ConditionTrue])
          (tr1 ++ [.now])
      | (.ret none, tr1) =>
        deregisterLoop env hubKubeconfig spokes rest joinedSpokes
          (mc.SetConditions true
            [NewCondition (env.now tr1) "unjoined" js.UnjoinType ConditionTrue ConditionTrue])
          (tr1 ++ [.now])
    else deregisterLoop env hubKubeconfig spokes rest joinedSpokes mc tr

/-- Lines 154-166 of `handleSpokes`: the declared spokes whose joined condition is True,
as joined spokes. -/
def joinedSpokesOf (mc : FleetConfig) (spokes : List Spoke) : List JoinedSpoke :=
  (spokes.filter fun spoke =>
    match mc.GetCondition spoke.JoinType with
    | none => false
    | some joinedCondition => joinedCondition.Status = ConditionTrue).map fun spoke =>
      { Name := spoke.Name, Kubeconfig := spoke.Kubeconfig,
        PurgeKlusterletOperator := spoke.Klusterlet.PurgeOperator }

/-- Go function `handleSpokes`: its result, the FleetConfig it leaves and the calls it
made. -/
def handleSpokes (env : Env) (mc : FleetConfig) (tr : Trace) :
    Outcome GoError × FleetConfig × Trace :=
  match KubeconfigFromSecretOrCluster env mc.Spec.Hub.Kubeconfig tr with
  | (.panic msg, tr1) => (.panic msg, mc, tr1)
  | (.ret (_, some e), tr1) => (.ret (some e), mc, tr1)
  | (.ret (hubKubeconfig, none), tr1) =>
    match ClusterClient env hubKubeconfig tr1 with
    | (.error e, tr2) => (.ret (some e), mc, tr2)
    | (.ok clusterClient, tr2) =>
      match deregisterLoop env hubKubeconfig mc.Spec.Spokes.elems mc.Status.JoinedSpokes [] mc
          tr2 with
      | (.panic msg, mc1, tr3) => (.panic msg, mc1, tr3)
      | (.ret joinedSpokes, mc1, tr3) =>
        match handleSpokesLoop env clusterClient mc1.Spec.Spokes.elems mc1 tr3 with
        | (.panic msg, mc2, tr4) => (.panic msg, mc2, tr4)
        | (.ret (some e), mc2, tr4) => (.ret (some e), mc2, tr4)
        | (.ret none, mc2, tr4) =>
          (.ret none,
            { mc2 with Status := { mc2.Status with
                JoinedSpokes := joinedSpokes ++ joinedSpokesOf mc2 mc2.Spec.Spokes.elems } },
            tr4)

/-! ## Reconciliation (`internal/controller/fleetconfig_controller.go`) -/

/-- Go type `ctrl.Result`; `RequeueAfter` is a `time.Duration`, in nanoseconds. -/
structure Result where
  Requeue : Bool
  RequeueAfter : Nat
deriving DecidableEq, Repr

/-- Constant `requeue`: `30 * time.Second`. -/
def requeue : Nat := 30 * 1000000000

/-- The text built by `fmt.Sprintf` at line 249. -/
def preflightMessage (name : String) : String :=
  "Found manifestWorks for ManagedCluster " ++ name ++
    "; cannot clean hub while any ManagedClusters have active ManifestWorks"

/-- Lines 242-253 of `cleanupPreflight`: the loop over the ManagedClusters. -/
def cleanupPreflightLoop (env : Env) (workC : RestConfig) (resourceCleanupEnabled : Bool) :
    List ManagedCluster → Trace → (Bool × GoError) × Trace
  | [], tr => ((true, none), tr)
  | managedCluster :: rest, tr =>
    match env.listManifestWorks tr workC managedCluster.Name with
    | .error e =>
      ((false, some ("failed to list manifestWorks for managedCluster " ++ managedCluster.Name ++
        ": " ++ e)), tr ++ [.listManifestWorks workC managedCluster.Name])
    | .ok manifestWorks =>
      if manifestWorks > 0 ∧ ¬ resourceCleanupEnabled then
        ((false, some (preflightMessage managedCluster.Name)),
          tr ++ [.listManifestWorks workC managedCluster.Name])
      else
        cleanupPreflightLoop env workC resourceCleanupEnabled rest
          (tr ++ [.listManifestWorks workC managedCluster.Name])

/-- Go function `cleanupPreflight`. -/
def cleanupPreflight (env : Env) (hubKubeconfig : Bytes) (enabledFeatureGates : FeatureGates)
    (tr : Trace) : (Bool × GoError) × Trace :=
  match ClusterClient env hubKubeconfig tr with
  | (.error e, tr1) => ((false, some e), tr1)
  | (.ok clusterC, tr1) =>
    match WorkClient env hubKubeconfig tr1 with
    | (.error e, tr2) => ((false, some e), tr2)
    | (.ok workC, tr2) =>
      let resourceCleanupEnabled := enabledFeatureGates.get ResourceCleanup
      match env.listManagedClusters tr2 clusterC with
      | .error err =>
        if err.IsNotFound then ((false, none), tr2 ++ [.listManagedClusters clusterC])
        else ((false, some ("unexpected error listing managedClusters: " ++ err.Message)),
          tr2 ++ [.listManagedClusters clusterC])
      | .ok managedClusters =>
        cleanupPreflightLoop env workC resourceCleanupEnabled managedClusters
          (tr2 ++ [.listManagedClusters clusterC])

/-- Lines 200-212 of `cleanup`: the spokes are unjoined, the hub is cleaned and the
CertificateSigningRequests of the clusters are deleted. -/
def cleanupResources (env : Env) (hubKubeconfig : Bytes) (mc : FleetConfig) (tr : Trace) :
    Outcome GoError × Trace :=
  match cleanupSpokes env mc mc.Spec.Spokes.elems tr with
  | (.panic msg, tr1) => (.panic msg, tr1)
  | (.ret (some e), tr1) => (.ret (some e), tr1)
  | (.ret none, tr1) =>
    match cleanHub env hubKubeconfig mc tr1 with
    | (.panic msg, tr2) => (.panic msg, tr2)
    | (.ret (some e), tr2) => (.ret (some e), tr2)
    | (.ret none, tr2) => (.ret (env.deleteAllCSRs tr2), tr2 ++ [.deleteAllCSRs])

/-- Lines 213-215 of `cleanup`: the cleanup finalizer is deleted from the finalizers. -/
def removeFinalizer (mc : FleetConfig) : FleetConfig :=
  { mc with Finalizers := mc.Finalizers.filter (fun s => s ≠ FleetConfigFinalizer) }

/-- Go method `FleetConfigReconciler.cleanup`: its result, the FleetConfig it leaves and
the calls it made. -/
def cleanup (env : Env) (mc : FleetConfig) (tr : Trace) : Outcome GoError × FleetConfig × Trace :=
  match KubeconfigFromSecretOrCluster env mc.Spec.Hub.Kubeconfig tr with
  | (.panic msg, tr1) => (.panic msg, mc, tr1)
  | (.ret (_, some e), tr1) => (.ret (some e), mc, tr1)
  | (.ret (hubKubeconfig, none), tr1) =>
    let enabledFeatureGates := ExtractFeatureGates (some mc)
    match cleanupPreflight env hubKubeconfig enabledFeatureGates tr1 with
    | ((_, some e), tr2) => (.ret (some e), mc, tr2)
    | ((doCleanup, none), tr2) =>
      if doCleanup then
        match cleanupResources env hubKubeconfig mc tr2 with
        | (.panic msg, tr3) => (.panic msg, mc, tr3)
        | (.ret (some e), tr3) => (.ret (some e), mc, tr3)
        | (.ret none, tr3) => (.ret none, removeFinalizer mc, tr3)
      else (.ret none, removeFinalizer mc, tr2)

/-- Lines 123-134 of `Reconcile`: the initial conditions; every `NewCondition` reads the
clock. -/
def initConditions (env : Env) (spokes : List Spoke) (tr : Trace) : List Condition × Trace :=
  let hub := NewCondition (env.now tr) FleetConfigHubInitialized FleetConfigHubInitialized
    ConditionFalse ConditionTrue
  let failed := NewCondition (env.now (tr ++ [.now])) FleetConfigCleanupFailed
    FleetConfigCleanupFailed ConditionFalse ConditionFalse
  spokes.foldl
    (fun acc s =>
      (acc.1 ++ [NewCondition (env.now acc.2) "" s.JoinType ConditionFalse ConditionTrue],
        acc.2 ++ [.now]))
    ([hub, failed], tr ++ [.now, .now])

/-- Replaces `mc.Status.Phase`. -/
def FleetConfig.withPhase (mc : FleetConfig) (phase : String) : FleetConfig :=
  { mc with Status := { mc.Status with Phase := phase } }

/-- Lines 158-170 of `Reconcile`: the phase is finalized. -/
def finalizePhase (mc : FleetConfig) : Outcome (Result × GoError) × FleetConfig :=
  if mc.Status.Conditions.any (fun c => c.Status ≠ c.WantStatus) then
    (.ret ({ Requeue := false, RequeueAfter := requeue }, none), mc.withPhase FleetConfigUnhealthy)
  else if mc.Status.Phase = FleetConfigStarting then
    (.ret ({ Requeue := false, RequeueAfter := requeue }, none), mc.withPhase FleetConfigRunning)
  else (.ret ({ Requeue := false, RequeueAfter := requeue }, none), mc)

/-- Lines 142-170 of `Reconcile`: the hub is driven, then the spokes, then the phase is
finalized. The hub gate reads `hubInitializedCond`, the copy of the condition that
`GetCondition` returned before `handleHub` ran. -/
def reconcileDrive (env : Env) (mc : FleetConfig) (tr : Trace) :
    Outcome (Result × GoError) × FleetConfig × Trace :=
  let hubInitializedCond := mc.GetCondition FleetConfigHubInitialized
  match handleHub env mc tr with
  | (.panic msg, mc1, tr1) => (.panic msg, mc1, tr1)
  | (.ret err, mc1, tr1) =>
    let mc2 := if err ≠ none then mc1.withPhase FleetConfigUnhealthy else mc1
    match hubInitializedCond with
    | none => (.panic nilDereference, mc2, tr1)
    | some cond =>
      if cond.Status = ConditionFalse then
        (.ret ({ Requeue := true, RequeueAfter := 0 }, none), mc2, tr1)
      else
        match handleSpokes env mc2 tr1 with
        | (.panic msg, mc3, tr2) => (.panic msg, mc3, tr2)
        | (.ret err2, mc3, tr2) =>
          let mc4 := if err2 ≠ none then mc3.withPhase FleetConfigUnhealthy else mc3
          let r := finalizePhase mc4
          (r.1, r.2, tr2)

/-- Lines 120-135 of `Reconcile`: the phase is set to Initializing and the initial
conditions that are missing are added. -/
def initializeStatus (env : Env) (mc : FleetConfig) (tr : Trace) : FleetConfig × Trace :=
  let conditions := initConditions env mc.Spec.Spokes.elems tr
  ((mc.withPhase FleetConfigStarting).SetConditions false conditions.1, conditions.2)

/-- Lines 95-170 of `Reconcile`: the pass on the fetched FleetConfig `mc`. The result is
what `Reconcile` returns, the FleetConfig that the deferred patch persists, and the calls
made. -/
def reconcileObject (env : Env) (mc : FleetConfig) (tr : Trace) :
    Outcome (Result × GoError) × FleetConfig × Trace :=
  if ¬ mc.Finalizers.contains FleetConfigFinalizer then
    (.ret ({ Requeue := true, RequeueAfter := 0 }, none),
      { mc with Finalizers := mc.Finalizers ++ [FleetConfigFinalizer] }, tr)
  else if ¬ (mc.DeletionTimestamp = none ∨ mc.DeletionTimestamp = some 0) then
    if mc.Status.Phase ≠ FleetConfigDeleting then
      (.ret ({ Requeue := true, RequeueAfter := 0 }, none), mc.withPhase FleetConfigDeleting, tr)
    else if mc.Finalizers.contains FleetConfigFinalizer then
      match cleanup env mc tr with
      | (.panic msg, mc1, tr1) => (.panic msg, mc1, tr1)
      | (.ret (some err), mc1, tr1) =>
        (.ret ({ Requeue := false, RequeueAfter := 0 }, some err),
          mc1.SetConditions true
            [NewCondition (env.now tr1) err FleetConfigCleanupFailed ConditionTrue ConditionFalse],
          tr1 ++ [.now])
      | (.ret none, mc1, tr1) => (.ret ({ Requeue := false, RequeueAfter := 0 }, none), mc1, tr1)
    else (.ret ({ Requeue := false, RequeueAfter := 0 }, none), mc, tr)
  else
    let previousPhase := mc.Status.Phase
    let started := initializeStatus env mc tr
    if previousPhase = "" then
      (.ret ({ Requeue := true, RequeueAfter := 0 }, none), started.1, started.2)
    else reconcileDrive env started.1 started.2

/-- Go method `FleetConfigReconciler.Reconcile`: what it returns, the FleetConfig that
the deferred patch persists (`none` when no FleetConfig was fetched or no patch helper
made) and the calls made. -/
def Reconcile (env : Env) (tr : Trace) :
    Outcome (Result × GoError) × Option FleetConfig × Trace :=
  match env.getFleetConfig tr with
  | .error err =>
    (.ret ({ Requeue := false, RequeueAfter := 0 },
      if err.IsNotFound then none else some err.Message), none, tr ++ [.getFleetConfig])
  | .ok mc =>
    match env.newPatchHelper (tr ++ [.getFleetConfig]) mc with
    | some e =>
      (.ret ({ Requeue := false, RequeueAfter := 0 }, some e), none,
        tr ++ [.getFleetConfig, .newPatchHelper mc])
    | none =>
      let r := reconcileObject env mc (tr ++ [.getFleetConfig, .newPatchHelper mc])
      (r.1, some r.2.1, r.2.2 ++ [.patch r.2.1])

/-! ## Vocabulary of the statements -/

/-- The call runs the `clusteradm` binary. -/
def Call.isExec : Call → Bool
  | .exec _ => true
  | _ => false

/-- The call deletes a resource on a cluster. -/
def Call.isDelete : Call → Bool
  | .deleteManagedCluster _ _ => true
  | .deleteManagedClusters _ => true
  | .deleteCSR _ => true
  | .deleteAllCSRs => true
  | .deleteNamespace _ _ => true
  | _ => false

/-- The FleetConfig `after` is `before` once conditions that all want the status True
have been set with `SetConditions(true, ...)` and `Status.JoinedSpokes` has been
rewritten: the only writes that `handleHub` and `handleSpokes` make to a FleetConfig. -/
def Touched (before after : FleetConfig) : Prop :=
  ∃ (cs : List Condition) (js : List JoinedSpoke),
    (∀ c ∈ cs, c.WantStatus = ConditionTrue) ∧
    after = { before with
      Status := { Phase := before.Status.Phase,
                  Conditions := cs.foldl (setCondition true) before.Status.Conditions,
                  JoinedSpokes := js } }

/-- The trace `after` extends `before` by calls that neither run `clusteradm` nor delete a
resource. -/
def Quiet (before after : Trace) : Prop :=
  ∃ calls : List Call, after = before ++ calls ∧
    ∀ c ∈ calls, c.isExec = false ∧ c.isDelete = false

/-- The FleetConfig `after` has the spec of `before`, and its conditions are those of
`before` once conditions that all want the status True have been set with
`SetConditions(true, ...)`. -/
def ConditionsSet (before after : FleetConfig) : Prop :=
  ∃ cs : List Condition, (∀ c ∈ cs, c.WantStatus = ConditionTrue) ∧
    after.Status.Conditions = cs.foldl (setCondition true) before.Status.Conditions ∧
    after.Spec = before.Spec

/-- The HubInitialized condition and the joined conditions of the spokes all want the
status True. -/
def WantsTrue (spokes : List Spoke) (conditions : List Condition) : Prop :=
  ∀ c ∈ conditions,
    (c.Type_ = FleetConfigHubInitialized ∨ ∃ s ∈ spokes, c.Type_ = s.JoinType) →
      c.WantStatus = ConditionTrue

/-! ## Sample objects

Go zero values of the spec types, objects of the cases of `TestAllowFleetConfigUpdate`, and
small environments and FleetConfigs on which the statements below are evaluated. -/

def Klusterlet.zero : Klusterlet :=
  { FeatureGates := "", Mode := "", PurgeOperator := false,
    ForceInternalEndpointLookup := false, ManagedClusterKubeconfig := none,
    ForceInternalEndpointLookupManaged := false, Resources := none, Singleton := false,
    Source := none }

def Spoke.zero : Spoke :=
  { Name := "", CreateNamespace := false, SyncLabels := false, Kubeconfig := none, Ca := "",
    ProxyCa := "", ProxyURL := "", Klusterlet := Klusterlet.zero, ClusterARN := "" }

def ClusterManager.zero : ClusterManager :=
  { FeatureGates := "", PurgeOperator := false, Resources := none, Source := none,
    UseBootstrapToken := false }

def Hub.zero : Hub :=
  { ClusterManager := none, CreateNamespace := false, Force := false, Kubeconfig := none,
    SingletonControlPlane := none, APIServer := none }

def FleetConfig.zero : FleetConfig :=
  { Name := "", Finalizers := [], DeletionTimestamp := none,
    Spec := { Hub := Hub.zero, Spokes := none, RegistrationAuth := none },
    Status := { Phase := "", Conditions := [], JoinedSpokes := [] } }

/-- A spoke `{Name: name, CreateNamespace: ns, Klusterlet: {Source: &{Registry: registry}}}`. -/
def sampleSpoke (name : String) (ns : Bool) (registry : String) : Spoke :=
  { Spoke.zero with
    Name := name, CreateNamespace := ns,
    Klusterlet := { Klusterlet.zero with
      Source := some { BundleVersion := "", Registry := registry } } }

/-- A FleetConfig `{Spec: {Hub: hub, Spokes: spokes}}`. -/
def sampleFleetConfig (hub : Hub) (spokes : List Spoke) : FleetConfig :=
  { FleetConfig.zero with Spec := { Hub := hub, Spokes := some spokes, RegistrationAuth := none } }

/-- A hub `{ClusterManager: &{Source: &{Registry: registry, BundleVersion: version}}}`. -/
def sampleHub (registry version : String) : Hub :=
  { Hub.zero with
    ClusterManager := some { ClusterManager.zero with
      Source := some { BundleVersion := version, Registry := registry } } }

/-- Old object of the test case "hub ClusterManager source change with spoke changes
allowed and adding a spoke while removing another". -/
def testOldSourceChange : FleetConfig :=
  sampleFleetConfig (sampleHub "old-hub-registry" "v0.6.0")
    [sampleSpoke "spoke1" false "old-spoke1-registry",
     sampleSpoke "spoke2" false "old-spoke2-registry"]

/-- New object of the same test case. -/
def testNewSourceChange : FleetConfig :=
  sampleFleetConfig (sampleHub "new-hub-registry" "v0.7.0")
    [sampleSpoke "spoke1" false "new-spoke1-registry",
     sampleSpoke "spoke3" false "new-spoke3-registry"]

/-- Old object of the test case "hub change not allowed". -/
def testOldHubChange : FleetConfig :=
  sampleFleetConfig { Hub.zero with CreateNamespace := true } []

/-- New object of the test case "hub change not allowed". -/
def testNewHubChange : FleetConfig :=
  sampleFleetConfig { Hub.zero with CreateNamespace := false } []

/-- Old object of the test case "spoke source and non-source change not allowed". -/
def testOldSpokeChange : FleetConfig :=
  sampleFleetConfig Hub.zero [sampleSpoke "spoke1" true "old-registry"]

/-- New object of the test case "spoke source and non-source change not allowed". -/
def testNewSpokeChange : FleetConfig :=
  sampleFleetConfig Hub.zero [sampleSpoke "spoke1" false "new-registry"]

/-- An old object with two spokes of the same name `a` that differ in `CreateNamespace`. -/
def sampleOldTwins : FleetConfig :=
  sampleFleetConfig Hub.zero [sampleSpoke "a" true "registry", sampleSpoke "a" false "registry"]

/-- The update of `sampleOldTwins` that keeps only its second spoke. -/
def sampleNewTwin : FleetConfig :=
  sampleFleetConfig Hub.zero [sampleSpoke "a" false "registry"]

/-- The status a FleetConfig without spokes has after its first reconciliations: the hub
is not initialized yet and no cleanup has failed. -/
def sampleStatus : FleetConfigStatus :=
  { Phase := FleetConfigStarting,
    Conditions :=
      [NewCondition 5 FleetConfigHubInitialized FleetConfigHubInitialized ConditionFalse
          ConditionTrue,
       NewCondition 5 FleetConfigCleanupFailed FleetConfigCleanupFailed ConditionFalse
          ConditionFalse],
    JoinedSpokes := [] }

/-- The condition `handleHub` sets once the hub is initialized, read at clock 9. -/
def sampleHubReady : Condition :=
  NewCondition 9 FleetConfigHubInitialized FleetConfigHubInitialized ConditionTrue ConditionTrue

/-- The condition `handleSpokes` sets for a joined spoke named `spoke1`, read at clock 9. -/
def sampleJoined : Condition :=
  NewCondition 9 "Joined" "spoke-cluster-spoke1-joined" ConditionTrue ConditionTrue

/-- An environment in which every call succeeds and finds nothing: no FleetConfig, no
ManagedCluster, no ManifestWork, no CertificateSigningRequest; a ClusterManager without
conditions to report; subprocesses that print nothing. The clock shows the number of
calls made so far. -/
def sampleEnv : Env :=
  { now := fun tr => tr.length,
    getFleetConfig := fun _ => .error { IsNotFound := true, Message := "not found" },
    newPatchHelper := fun _ _ => none,
    getConfig := fun _ => .ok { Host := "https://hub" },
    getSecret := fun _ _ _ => .error "secret not found",
    getClusterManager := fun _ _ =>
      .ok { Conditions := some [], AddOnManagerImagePullSpec := "", PlacementImagePullSpec := "",
            RegistrationImagePullSpec := "", WorkImagePullSpec := "" },
    getKlusterlet := fun _ _ =>
      .ok { ImagePullSpec := "", RegistrationImagePullSpec := "", WorkImagePullSpec := "" },
    getManagedCluster := fun _ _ _ => .error { IsNotFound := true, Message := "not found" },
    listManagedClusters := fun _ _ => .ok [],
    updateManagedCluster := fun _ _ _ => none,
    deleteManagedCluster := fun _ _ _ => none,
    deleteManagedClusters := fun _ _ => none,
    listManifestWorks := fun _ _ _ => .ok 0,
    listCSRs := fun _ => .ok [],
    deleteCSR := fun _ _ => none,
    deleteAllCSRs := fun _ => none,
    deleteNamespace := fun _ _ _ => none,
    getNamespace := fun _ _ => some { IsNotFound := true, Message := "not found" },
    createTemp := fun _ pattern => .ok ("/tmp/" ++ pattern),
    writeFile := fun _ _ _ => none,
    exec := fun _ _ => ("", none),
    contextErr := fun _ => none,
    pollBudget := 3,
    deadlineErr := "context deadline exceeded",
    rawFromRestConfig := fun rc => (some rc.Host, none),
    clientcmdLoad := fun raw => .ok raw,
    clientConfig := fun config => .ok { Host := config },
    newClusterClient := fun _ => none,
    newOperatorClient := fun _ => none,
    newWorkClient := fun _ => none,
    unmarshalToken := fun out => .ok (some { Token := out, HubAPIServer := "" }),
    semver :=
      { NewVersion := fun _ => none, LessThan := fun _ _ => false,
        GreaterThan := fun _ _ => false, String := fun v => v.Original },
    ConditionProgressing := "Progressing",
    ConditionClusterManagerApplied := "Applied",
    ConditionHubRegistrationDegraded := "HubRegistrationDegraded",
    ConditionHubPlacementDegraded := "HubPlacementDegraded" }

/-- A ManagedCluster named `name`, without labels and conditions. -/
def sampleManagedCluster (name : String) : ManagedCluster :=
  { Name := name, Labels := none, Conditions := none }

/-- The hub of `sampleEnv` with one ManagedCluster `spoke1` that has a ManifestWork. -/
def sampleEnvWithWork : Env :=
  { sampleEnv with
    listManagedClusters := fun _ _ => .ok [sampleManagedCluster "spoke1"],
    listManifestWorks := fun _ _ _ => .ok 1 }

/-- A hub with an in-cluster kubeconfig and a cluster manager with the default feature
gates and bundle version. -/
def sampleInClusterHub : Hub :=
  { Hub.zero with
    Kubeconfig := some { SecretReference := none, InCluster := true, Context := "" },
    CreateNamespace := true,
    ClusterManager := some { ClusterManager.zero with
      FeatureGates := "AddonManagement=true", PurgeOperator := true,
      Source := some { BundleVersion := "default",
                       Registry := "quay.io/open-cluster-management" } } }

/-- A FleetConfig without spokes that is being deleted: the finalizer is set next to one
of another controller, the deletion timestamp is set and the phase is Deleting. -/
def sampleDeleting : FleetConfig :=
  { Name := "fleetconfig", Finalizers := ["other/finalizer", FleetConfigFinalizer],
    DeletionTimestamp := some 100,
    Spec := { Hub := sampleInClusterHub, Spokes := some [], RegistrationAuth := none },
    Status := { sampleStatus with Phase := FleetConfigDeleting } }

/-- A FleetConfig without spokes whose hub is initialized: the finalizer is set, the
phase is Running, the hub condition is True and no cleanup has failed. -/
def sampleRunning : FleetConfig :=
  { Name := "fleetconfig", Finalizers := [FleetConfigFinalizer], DeletionTimestamp := none,
    Spec := { Hub := sampleInClusterHub, Spokes := some [], RegistrationAuth := none },
    Status :=
      { Phase := FleetConfigRunning,
        Conditions :=
          [sampleHubReady,
           NewCondition 5 FleetConfigCleanupFailed FleetConfigCleanupFailed ConditionFalse
             ConditionFalse],
        JoinedSpokes := [] } }

/-- The environment `sampleEnv` in which the FleetConfig `mc` is fetched. -/
def sampleEnvFetching (mc : FleetConfig) : Env :=
  { sampleEnv with getFleetConfig := fun _ => .ok mc }

/-- A FleetConfig that was Running without spokes, to which the spoke `spoke1` has been
added and from which the finalizers have been removed. -/
def sampleRunningNoFinalizer : FleetConfig :=
  { sampleRunning with
    Finalizers := [],
    Spec := { sampleRunning.Spec with Spokes := some [sampleSpoke "spoke1" true "registry"] } }

/-- A spoke `spoke1` that is the hub itself: in-cluster kubeconfig, klusterlet with the
default bundle version. -/
def sampleHubAsSpoke : Spoke :=
  { Spoke.zero with
    Name := "spoke1", CreateNamespace := true,
    Kubeconfig := some { SecretReference := none, InCluster := true, Context := "" },
    Klusterlet := { Klusterlet.zero with
      Mode := "Default", PurgeOperator := true,
      Source := some { BundleVersion := "default",
                       Registry := "quay.io/open-cluster-management" } } }

/-- The FleetConfig `sampleRunning` to which the spoke `sampleHubAsSpoke` has been
added. -/
def sampleWithSpoke : FleetConfig :=
  { sampleRunning with Spec := { sampleRunning.Spec with Spokes := some [sampleHubAsSpoke] } }

/-- The environment `sampleEnv` in which `mc` is fetched and every ManagedCluster exists
and has joined the hub. -/
def sampleEnvJoined (mc : FleetConfig) : Env :=
  { sampleEnv with
    getFleetConfig := fun _ => .ok mc,
    getManagedCluster := fun _ _ name =>
      .ok { Name := name, Labels := none,
            Conditions := some [{ Type_ := "ManagedClusterJoined", Status := ConditionTrue,
                                  Reason := "ManagedClusterJoined",
                                  Message := "Managed cluster joined" }] } }

/-- A FleetConfig with the finalizer and the spoke `spoke1` that has not been reconciled
yet: the phase is empty and there are no conditions. -/
def sampleFresh : FleetConfig :=
  { Name := "fleetconfig", Finalizers := [FleetConfigFinalizer], DeletionTimestamp := none,
    Spec := { Hub := sampleInClusterHub, Spokes := some [sampleHubAsSpoke],
              RegistrationAuth := none },
    Status := { Phase := "", Conditions := [], JoinedSpokes := [] } }


/-- The environment `sampleEnv` in which `mc` is fetched and the ClusterManager of the hub
reports that its registration is degraded. -/
def sampleEnvDegraded (mc : FleetConfig) : Env :=
  { sampleEnv with
    getFleetConfig := fun _ => .ok mc,
    getClusterManager := fun _ _ =>
      .ok { Conditions := some [{ Type_ := "HubRegistrationDegraded", Status := ConditionTrue,
                                  Reason := "UnavailableRegistrationPod",
                                  Message := "no available pod" }],
            AddOnManagerImagePullSpec := "", PlacementImagePullSpec := "",
            RegistrationImagePullSpec := "", WorkImagePullSpec := "" } }


/-! ## Create validation (`api/v1alpha1/fleetconfig_webhook.go`) -/

/-- Go function `isKubeconfigValid`; it dereferences the kubeconfig, which panics when
the pointer is nil. -/
def isKubeconfigValid (kubeconfig : Option Kubeconfig) : Outcome (Bool × String) :=
  match kubeconfig with
  | none => .panic nilDereference
  | some k =>
    if k.SecretReference = none ∧ ¬ k.InCluster then
      .ret (false, "either secretReference or inCluster must be specified for the kubeconfig")
    else if k.SecretReference ≠ none ∧ k.InCluster then
      .ret (false,
        "either secretReference or inCluster can be specified for the kubeconfig, not both")
    else .ret (true, "")

/-- A Go `*field.Path`: `field.NewPath(Name)`, followed by `.Index(i)` when `Index` is
`some i`. -/
structure FieldPath where
  Name : String
  Index : Option Nat
deriving DecidableEq, Repr

/-- The value that `field.Invalid` is given in `ValidateCreate`: the kubeconfig of the
hub or all the spokes. -/
inductive BadValue where
  | kubeconfig (k : Option Kubeconfig)
  | spokes (s : Slice Spoke)
deriving DecidableEq, Repr

/-- The `*field.Error` that `field.Invalid(Field, BadValue, Detail)` makes. -/
structure FieldError where
  Field : FieldPath
  BadValue : BadValue
  Detail : String
deriving DecidableEq, Repr

/-- The error that `errors.NewInvalid(GroupKind, Name, Errs)` makes. -/
structure InvalidError where
  Name : String
  Errs : List FieldError
deriving DecidableEq, Repr

/-- Lines 108-120 of `ValidateCreate`: the check of the klusterlet of spoke `i`, which
looks at `ManagedClusterKubeconfig` in the Hosted mode only. -/
def validateHosted (spokes : Slice Spoke) (i : Nat) (spoke : Spoke)
    (allErrs : List FieldError) : Outcome (List FieldError) :=
  if spoke.Klusterlet.Mode = InstallModeHosted then
    match spoke.Klusterlet.ManagedClusterKubeconfig with
    | none =>
      .ret (allErrs ++ [{ Field := { Name := "spokes", Index := some i },
                          BadValue := .spokes spokes,
                          Detail := "managedClusterKubeconfig is required in hosted mode" }])
    | some k =>
      match isKubeconfigValid (some k) with
      | .panic msg => .panic msg
      | .ret (valid, msg) =>
        if ¬ valid then
          .ret (allErrs ++ [{ Field := { Name := "spokes", Index := some i },
                              BadValue := .spokes spokes, Detail := msg }])
        else .ret allErrs
  else .ret allErrs

/-- Lines 107-126 of `ValidateCreate`: the loop over the spokes, from index `i` on. -/
def validateSpokes (spokes : Slice Spoke) :
    List Spoke → Nat → List FieldError → Outcome (List FieldError)
  | [], _, allErrs => .ret allErrs
  | spoke :: rest, i, allErrs =>
    match validateHosted spokes i spoke allErrs with
    | .panic msg => .panic msg
    | .ret allErrs1 =>
      match isKubeconfigValid spoke.Kubeconfig with
      | .panic msg => .panic msg
      | .ret (valid, msg) =>
        if ¬ valid then
          validateSpokes spokes rest (i + 1)
            (allErrs1 ++ [{ Field := { Name := "spokes", Index := some i },
                            BadValue := .spokes spokes, Detail := msg }])
        else validateSpokes spokes rest (i + 1) allErrs1

/-- Go method `FleetConfigCustomValidator.ValidateCreate` on a FleetConfig: the error it
returns (the warnings are always nil). -/
def ValidateCreate (mc : FleetConfig) : Outcome (Option InvalidError) :=
  match isKubeconfigValid mc.Spec.Hub.Kubeconfig with
  | .panic msg => .panic msg
  | .ret (valid, msg) =>
    let allErrs : List FieldError :=
      if ¬ valid then
        [{ Field := { Name := "hub", Index := none },
           BadValue := .kubeconfig mc.Spec.Hub.Kubeconfig, Detail := msg }]
      else []
    match validateSpokes mc.Spec.Spokes mc.Spec.Spokes.elems 0 allErrs with
    | .panic msg => .panic msg
    | .ret allErrs1 =>
      if allErrs1.length > 0 then .ret (some { Name := mc.Name, Errs := allErrs1 })
      else .ret none

/-! ## Vocabulary of the statements on create validation -/

/-- Exactly one of `secretReference` and `inCluster` is set in the kubeconfig. -/
def Kubeconfig.exactlyOne (k : Kubeconfig) : Bool :=
  xor k.SecretReference.isSome k.InCluster

/-- The message for a kubeconfig that breaks the rule: one for neither of
`secretReference` and `inCluster`, one for both. -/
def Kubeconfig.violation (k : Kubeconfig) : List String :=
  if k.exactlyOne then []
  else if k.InCluster then
    ["either secretReference or inCluster can be specified for the kubeconfig, not both"]
  else ["either secretReference or inCluster must be specified for the kubeconfig"]

/-- The violations of spoke `i`, as the specification lists them: in the Hosted mode a
missing or invalid `managedClusterKubeconfig`, and in every mode an invalid
`kubeconfig`. -/
def spokeViolations (spokes : Slice Spoke) (i : Nat) (spoke : Spoke) : List FieldError :=
  (if spoke.Klusterlet.Mode = "Hosted" then
    match spoke.Klusterlet.ManagedClusterKubeconfig with
    | none =>
      [{ Field := { Name := "spokes", Index := some i }, BadValue := .spokes spokes,
         Detail := "managedClusterKubeconfig is required in hosted mode" }]
    | some k =>
      k.violation.map fun msg =>
        { Field := { Name := "spokes", Index := some i }, BadValue := .spokes spokes,
          Detail := msg }
  else []) ++
  (match spoke.Kubeconfig with
  | none => []
  | some k =>
    k.violation.map fun msg =>
      { Field := { Name := "spokes", Index := some i }, BadValue := .spokes spokes,
        Detail := msg })

/-- All the violations of a FleetConfig, as the specification lists them: that of the
kubeconfig of the hub, then those of every spoke in turn. -/
def createViolations (mc : FleetConfig) : List FieldError :=
  (match mc.Spec.Hub.Kubeconfig with
  | none => []
  | some k =>
    k.violation.map fun msg =>
      { Field := { Name := "hub", Index := none },
        BadValue := .kubeconfig mc.Spec.Hub.Kubeconfig, Detail := msg }) ++
  (mc.Spec.Spokes.elems.enum.flatMap fun p => spokeViolations mc.Spec.Spokes p.1 p.2)

/-- A reference to the secret `kubeconfig` of the namespace `default`. -/
def sampleSecretReference : SecretReference :=
  { Name := "kubeconfig", Namespace := "default", KubeconfigKey := none }

/-- A spoke in the Default mode whose `managedClusterKubeconfig` is present and sets
neither `secretReference` nor `inCluster`. -/
def sampleSpokeStrayKubeconfig : Spoke :=
  { sampleHubAsSpoke with
    Klusterlet := { sampleHubAsSpoke.Klusterlet with
      ManagedClusterKubeconfig :=
        some { SecretReference := none, InCluster := false, Context := "" } } }

/-- A FleetConfig with an in-cluster hub and the spoke `sampleSpokeStrayKubeconfig`. -/
def sampleCreateStray : FleetConfig :=
  { sampleFresh with
    Spec := { sampleFresh.Spec with Spokes := some [sampleSpokeStrayKubeconfig] } }

/-- A FleetConfig whose hub kubeconfig sets nothing, with a Hosted spoke without
`managedClusterKubeconfig` and a Hosted spoke whose kubeconfigs set both
`secretReference` and `inCluster`. -/
def sampleCreateInvalid : FleetConfig :=
  { sampleFresh with
    Spec :=
      { Hub := { sampleInClusterHub with
          Kubeconfig := some { SecretReference := none, InCluster := false, Context := "" } },
        Spokes := some
          [{ sampleHubAsSpoke with
             Klusterlet := { sampleHubAsSpoke.Klusterlet with Mode := "Hosted" } },
           { sampleHubAsSpoke with
             Name := "spoke2",
             Kubeconfig := some { SecretReference := some sampleSecretReference,
                                  InCluster := true, Context := "" },
             Klusterlet := { sampleHubAsSpoke.Klusterlet with
               Mode := "Hosted",
               ManagedClusterKubeconfig :=
                 some { SecretReference := some sampleSecretReference, InCluster := true,
                        Context := "" } } }],
        RegistrationAuth := none } }


/-! ## Sample bundle versions -/

/-- A decimal numeral: its value, `none` for any other string. -/
def sampleNumeral (s : String) : Option Nat :=
  if s.data ≠ [] ∧ s.data.all Char.isDigit then
    some (s.data.foldl (fun n c => 10 * n + (c.toNat - 48)) 0)
  else none

/-- The version that `sampleSemver` reads in a tag `MAJOR.MINOR.PATCH` with an optional
leading `v`. -/
def sampleNewVersion (v : String) : Option Version :=
  let body := match v.data with
    | 'v' :: rest => rest
    | cs => cs
  match (splitChars '.' body).map String.mk with
  | [major, minor, patch] =>
    match sampleNumeral major, sampleNumeral minor, sampleNumeral patch with
    | some x, some y, some z =>
      some { Major := x, Minor := y, Patch := z, Pre := "", Metadata := "", Original := v }
    | _, _, _ => none
  | _ => none

/-- The precedence of `sampleSemver`: by major, then minor, then patch number. -/
def sampleLessThan (a b : Version) : Bool :=
  decide (a.Major < b.Major ∨ (a.Major = b.Major ∧
    (a.Minor < b.Minor ∨ (a.Minor = b.Minor ∧ a.Patch < b.Patch))))

/-- A small library of semantic versions on which the statements about bundle versions
are evaluated: it reads the tags `MAJOR.MINOR.PATCH` with an optional leading `v`, orders
them by major, minor and patch number, and prints them without the `v`, as
`github.com/Masterminds/semver` does on such tags. -/
def sampleSemver : SemverLib :=
  { NewVersion := sampleNewVersion,
    LessThan := sampleLessThan,
    GreaterThan := fun a b => sampleLessThan b a,
    String := fun v => toString v.Major ++ "." ++ toString v.Minor ++ "." ++ toString v.Patch }

/-- The environment `sampleEnv` with the library `sampleSemver`, in which the
ClusterManager of the hub has no conditions to report and all its images carry the tag
`tag`. -/
def sampleEnvImages (tag : String) : Env :=
  { sampleEnv with
    semver := sampleSemver,
    getClusterManager := fun _ _ =>
      .ok { Conditions := some [],
            AddOnManagerImagePullSpec := "quay.io/open-cluster-management/addon-manager:" ++ tag,
            PlacementImagePullSpec := "quay.io/open-cluster-management/placement:" ++ tag,
            RegistrationImagePullSpec := "quay.io/open-cluster-management/registration:" ++ tag,
            WorkImagePullSpec := "quay.io/open-cluster-management/work:" ++ tag },
    getKlusterlet := fun _ _ =>
      .ok { ImagePullSpec := "quay.io/open-cluster-management/registration-operator:" ++ tag,
            RegistrationImagePullSpec := "quay.io/open-cluster-management/registration:" ++ tag,
            WorkImagePullSpec := "quay.io/open-cluster-management/work:" ++ tag } }

/-- The spoke `sampleHubAsSpoke`, in which the bundle version wanted for the klusterlet
is `version`. -/
def sampleSpokeWanting (version : String) : Spoke :=
  { sampleHubAsSpoke with
    Klusterlet := { sampleHubAsSpoke.Klusterlet with
      Source := some { BundleVersion := version,
                       Registry := "quay.io/open-cluster-management" } } }

/-- The FleetConfig `sampleRunning` with the spoke `spoke1`, in which the bundle version
wanted for the cluster manager and the klusterlet is `version`. -/
def sampleWanting (version : String) : FleetConfig :=
  { sampleRunning with
    Spec :=
      { Hub := { sampleInClusterHub with
          ClusterManager := some { ClusterManager.zero with
            FeatureGates := "AddonManagement=true",
            Source := some { BundleVersion := version,
                             Registry := "quay.io/open-cluster-management" } } },
        Spokes := some [sampleSpokeWanting version],
        RegistrationAuth := none } }


/-! ## Vocabulary of the statements on bundle versions -/

/-- Lines 18-31 of `LowestBundleVersion`: the versions collected by the loop, one for every
element that splits on ':' into two parts of which the library parses the second. -/
def bundleVersions (lib : SemverLib) (bundleSpecs : List String) : List Version :=
  bundleSpecs.filterMap fun bundleSpec =>
    match Split bundleSpec ':' with
    | [_, tag] => lib.NewVersion tag
    | _ => none

/-- The element `bundleSpec` is valid and `v` is its version: it splits on ':' into
exactly two parts and the library parses the second part to `v`. -/
def IsVersionOf (lib : SemverLib) (bundleSpec : String) (v : Version) : Prop :=
  ∃ repo tag : String, Split bundleSpec ':' = [repo, tag] ∧ lib.NewVersion tag = some v


/-! ## Vocabulary of the statements on feature gates -/

/-- The token, once the white space around it is trimmed, splits on '=' into exactly two
parts; the first, trimmed, is `key`, and `strconv.ParseBool` reads the second, trimmed, as
`enabled`. -/
def IsGate (token key : String) (enabled : Bool) : Prop :=
  ∃ feature value : String, Split (TrimSpace token) '=' = [feature, value] ∧
    TrimSpace feature = key ∧ ParseBool (TrimSpace value) = some enabled

/-- A FleetConfig whose cluster manager has the feature gates `featureGates`. -/
def sampleGates (featureGates : String) : FleetConfig :=
  { FleetConfig.zero with
    Spec := { FleetConfig.zero.Spec with
      Hub := { Hub.zero with
        ClusterManager := some { ClusterManager.zero with FeatureGates := featureGates } } } }


/-! ## Vocabulary of the statements on condition types -/

/-- The character is a lower-case letter or a digit: the class `[a-z0-9]`. -/
def isLowerAlnum (c : Char) : Bool :=
  ('a' ≤ c && c ≤ 'z') || ('0' ≤ c && c ≤ '9')

/-- The name is one that the schema admits for a spoke (lines 277-279 of
`fleetconfig_types.go`): at most 63 characters that match the pattern
`^[a-z0-9]([-a-z0-9]*[a-z0-9])?$`. -/
def admittedName (name : String) : Bool :=
  decide (name.data.length ≤ 63) &&
    (match name.data with
    | [] => false
    | c :: cs =>
      isLowerAlnum c && (c :: cs).all (fun x => isLowerAlnum x || x = '-') &&
        isLowerAlnum ((c :: cs).getLast (List.cons_ne_nil c cs)))

/-- A name of 43 characters: 42 times `a`, then `last`. -/
def sampleLongName (last : Char) : String :=
  String.mk (List.replicate 42 'a' ++ [last])

/-- A name whose byte 42 falls inside a character: 41 times `a`, then `é` (two bytes) and
`z`. -/
def sampleSplitName : String :=
  String.mk (List.replicate 41 'a' ++ [Char.ofNat 233, 'z'])


/-- The FleetConfig `sampleRunning` whose hub has neither a cluster manager nor a
singleton control plane. -/
def sampleNoHubType : FleetConfig :=
  { sampleRunning with
    Spec := { sampleRunning.Spec with
      Hub := { sampleInClusterHub with ClusterManager := none, SingletonControlPlane := none } } }

/-- The environment `sampleEnv` in which `mc` is fetched and the hub has no
ClusterManager yet. -/
def sampleEnvNewHub (mc : FleetConfig) : Env :=
  { sampleEnv with
    getFleetConfig := fun _ => .ok mc,
    getClusterManager := fun _ _ => .error { IsNotFound := true, Message := "not found" } }


/-- The FleetConfig `sampleDeleting` to which the spoke `spoke1` was added after its last
reconciliation: the spoke has no joined condition. -/
def sampleDeletingNewSpoke : FleetConfig :=
  { sampleDeleting with
    Spec := { sampleDeleting.Spec with Spokes := some [sampleHubAsSpoke] } }

/-- The FleetConfig as the first Reconcile pass leaves it: the phase is Initializing and
the initial conditions, read at clock 5, are set. -/
def sampleInitialized (mc : FleetConfig) : FleetConfig :=
  (initializeStatus { sampleEnv with now := fun _ => 5 } mc []).1


/-- The environment `env` in which every ManagedCluster has one ManifestWork. -/
def Env.withWork (env : Env) : Env :=
  { env with listManifestWorks := fun _ _ _ => .ok 1 }


/-- The FleetConfig `sampleRunning` with the declared spokes `spoke1` and `spoke2` and
their initial conditions. -/
def sampleTwoSpokes : FleetConfig :=
  sampleInitialized
    { sampleRunning with
      Spec := { sampleRunning.Spec with
        Spokes := some [sampleHubAsSpoke, { sampleHubAsSpoke with Name := "spoke2" }] } }

/-- The environment `sampleEnv` in which every run of `clusteradm` whose first argument is
`command` fails. -/
def sampleEnvFailing (command : String) : Env :=
  { sampleEnv with
    exec := fun _ args =>
      if args.head? = some command then ("", some "exit status 1") else ("", none) }


/-! ## Vocabulary of the statements on the joined spokes -/

/-- The joined spoke matches no declared spoke by equal name and deep-equal kubeconfig:
the test at lines 49-51 of `handleSpokes`. -/
def unmatched (spokes : List Spoke) (js : JoinedSpoke) : Bool :=
  !spokes.any (fun spoke => spoke.Name = js.Name ∧ spoke.Kubeconfig = js.Kubeconfig)

/-- The deregistrations of a run of the loop at lines 47-62 of `handleSpokes` that starts
with the trace `tr`: for every joined spoke that matches no declared spoke, in order, the
joined spoke, the error that `deregisterSpoke` returned for it (`none` when it succeeded)
and the trace after the call. The list ends where a call panics. -/
def deregistrations (env : Env) (hubKubeconfig : Bytes) (spokes : List Spoke) :
    List JoinedSpoke → Trace → List (JoinedSpoke × GoError × Trace)
  | [], _ => []
  | js :: rest, tr =>
    if unmatched spokes js then
      match deregisterSpoke env hubKubeconfig js tr with
      | (.panic _, _) => []
      | (.ret e, tr1) =>
        (js, e, tr1) :: deregistrations env hubKubeconfig spokes rest (tr1 ++ [.now])
    else deregistrations env hubKubeconfig spokes rest tr

/-- The condition that the loop at lines 47-62 of `handleSpokes` sets after one
deregistration. -/
def unjoinCondition (env : Env) (entry : JoinedSpoke × GoError × Trace) : Condition :=
  match entry.2.1 with
  | some e => NewCondition (env.now entry.2.2) e entry.1.UnjoinType ConditionFalse ConditionTrue
  | none =>
    NewCondition (env.now entry.2.2) "unjoined" entry.1.UnjoinType ConditionTrue ConditionTrue

/-- The FleetConfig `after` is `before` once conditions whose types are joined condition
types of the spokes have been set with `SetConditions(true, ...)`. -/
def JoinTouched (spokes : List Spoke) (before after : FleetConfig) : Prop :=
  ∃ cs : List Condition, (∀ c ∈ cs, ∃ s ∈ spokes, c.Type_ = s.JoinType) ∧
    after = { before with
      Status := { before.Status with
        Conditions := cs.foldl (setCondition true) before.Status.Conditions } }

/-- The FleetConfig `sampleTwoSpokes` whose status lists a joined spoke `old` that is no
longer declared. -/
def sampleWithOldSpoke : FleetConfig :=
  { sampleTwoSpokes with
    Status := { sampleTwoSpokes.Status with
      JoinedSpokes :=
        [{ Name := "old",
           Kubeconfig := some { SecretReference := none, InCluster := true, Context := "" },
           PurgeKlusterletOperator := true }] } }

/-- The FleetConfig `sampleRunning`, which declares no spoke, whose status lists two joined
spokes with names of 43 characters that differ in the last character only. -/
def sampleTwoOld : FleetConfig :=
  { sampleRunning with
    Status := { sampleRunning.Status with
      JoinedSpokes :=
        [{ Name := sampleLongName 'b',
           Kubeconfig := some { SecretReference := none, InCluster := true, Context := "" },
           PurgeKlusterletOperator := true },
         { Name := sampleLongName 'c',
           Kubeconfig := some { SecretReference := none, InCluster := true, Context := "" },
           PurgeKlusterletOperator := true }] } }

/-- The environment `sampleEnv` in which the only ManagedCluster is that of the name
`sampleLongName c`, and it has one ManifestWork. -/
def sampleEnvOneCluster : Env :=
  { sampleEnv with
    getManagedCluster := fun _ _ name =>
      if name = sampleLongName 'c' then .ok (sampleManagedCluster name)
      else .error { IsNotFound := true, Message := "not found" },
    listManifestWorks := fun _ _ _ => .ok 1 }


/-! ## Equality of statuses (`api/v1alpha1/fleetconfig_types.go`) -/

/-- Go function `sort.Slice`: on slices of at most twelve elements it runs an insertion
sort, in which an element moves left past every element that it is `less` than; on longer
slices it runs the pattern-defeating quicksort of the Go library, which is not stable and
not part of the sources: the parameter `pdqsort`. -/
def sortSlice {α : Type} (pdqsort : (α → α → Bool) → List α → List α) (less : α → α → Bool)
    (data : List α) : List α :=
  if data.length ≤ 12 then SortFunc (fun a b => if less a b then -1 else 0) data
  else pdqsort less data

/-- Go comparison `a < b` of two strings: by the bytes of their UTF-8 encoding, which is
the order by their characters. -/
def stringLess (a b : String) : Bool :=
  decide (a.data < b.data)

/-- Go method `FleetConfigStatus.Equal`; `none` is a nil pointer, `pdqsort` is what
`sort.Slice` runs on more than twelve conditions. -/
def FleetConfigStatus.Equal (pdqsort : (Condition → Condition → Bool) → List Condition →
    List Condition) (s other : Option FleetConfigStatus) : Bool :=
  match s, other with
  | none, none => true
  | none, some _ => false
  | some _, none => false
  | some s, some other =>
    if other.Conditions.length ≠ s.Conditions.length then false
    else
      let sc := sortSlice pdqsort (fun a b : Condition => stringLess a.Type_ b.Type_)
        s.Conditions
      let oc := sortSlice pdqsort (fun a b : Condition => stringLess a.Type_ b.Type_)
        other.Conditions
      (sc.zip oc).all fun pair => pair.1.Equal pair.2

/-- The condition with its `LastTransitionTime` set to the zero time, as `ToComparable`
sets it. -/
def Condition.withoutTime (c : Condition) : Condition :=
  { c with LastTransitionTime := 0 }

end Fleet

/-! # Theorems -/

namespace Fleet

/-! ## Update validation -/

theorem oldSpokesMap_fold_some (l : List Spoke) :
    ∀ (m : String → Option Spoke) (name : String) (o : Spoke),
      (l.foldl (fun m spoke => fun name => if name = spoke.Name then some spoke else m name) m)
          name = some o →
        (o ∈ l ∧ o.Name = name) ∨ m name = some o := by
  induction l with
  | nil => intro m name o h; exact Or.inr h
  | cons s rest ih =>
    intro m name o h
    rw [List.foldl_cons] at h
    rcases ih _ name o h with ⟨hmem, hname⟩ | hm
    · exact Or.inl ⟨List.mem_cons_of_mem _ hmem, hname⟩
    · by_cases hn : name = s.Name
      · simp only [hn, if_true, Option.some.injEq] at hm
        subst hm
        exact Or.inl ⟨List.mem_cons_self _ _, hn.symm⟩
      · simp only [hn, if_false] at hm
        exact Or.inr hm

theorem oldSpokesMap_fold_fresh (l : List Spoke) :
    ∀ (m : String → Option Spoke) (name : String), (∀ o ∈ l, o.Name ≠ name) →
      (l.foldl (fun m spoke => fun name => if name = spoke.Name then some spoke else m name) m)
          name = m name := by
  induction l with
  | nil => intro m name _; rfl
  | cons s rest ih =>
    intro m name h
    rw [List.foldl_cons, ih _ name (fun o ho => h o (List.mem_cons_of_mem _ ho))]
    have hs : name ≠ s.Name := fun e => h s (List.mem_cons_self _ _) e.symm
    simp only [hs, if_false]

theorem oldSpokesMap_fold_mem (l : List Spoke) :
    ∀ (m : String → Option Spoke) (o : Spoke), (l.map (·.Name)).Nodup → o ∈ l →
      (l.foldl (fun m spoke => fun name => if name = spoke.Name then some spoke else m name) m)
          o.Name = some o := by
  induction l with
  | nil => intro m o _ h; cases h
  | cons s rest ih =>
    intro m o hnd hmem
    rw [List.map_cons, List.nodup_cons] at hnd
    rw [List.foldl_cons]
    rcases List.mem_cons.mp hmem with rfl | hrest
    · rw [oldSpokesMap_fold_fresh rest _ o.Name]
      · simp
      · intro p hp hname
        exact hnd.1 (List.mem_map.mpr ⟨p, hp, hname⟩)
    · exact ih _ o hnd.2 hrest

theorem oldSpokesMap_some {l : List Spoke} {name : String} {o : Spoke}
    (h : oldSpokesMap l name = some o) : o ∈ l ∧ o.Name = name := by
  rcases oldSpokesMap_fold_some l _ name o h with h1 | h1
  · exact h1
  · cases h1

theorem oldSpokesMap_mem {l : List Spoke} {o : Spoke} (hnd : (l.map (·.Name)).Nodup)
    (h : o ∈ l) : oldSpokesMap l o.Name = some o :=
  oldSpokesMap_fold_mem l _ o hnd h

theorem spokeCheck_eq_none (m : String → Option Spoke) (l : List Spoke) :
    spokeCheck m l = none ↔
      ∀ n ∈ l, ∀ o, m n.Name = some o → spokeWithoutSource o = spokeWithoutSource n := by
  induction l with
  | nil => simp [spokeCheck]
  | cons s rest ih =>
    rw [spokeCheck]
    cases hm : m s.Name with
    | none =>
      simp [ih, hm]
    | some o =>
      by_cases hd : spokeWithoutSource o = spokeWithoutSource s
      · simp only [ne_eq, hd, not_true_eq_false, if_false, ih, List.mem_cons,
          forall_eq_or_imp, hm, Option.some.injEq]
        constructor
        · intro h; exact ⟨fun o2 ho2 => by subst ho2; exact hd, h⟩
        · intro h; exact h.2
      · simp only [ne_eq, hd, not_false_eq_true, if_true, List.mem_cons, forall_eq_or_imp, hm,
          Option.some.injEq]
        constructor
        · intro h; cases h
        · intro h; exact absurd (h.1 o rfl) hd

theorem spokeCheck_first (m : String → Option Spoke) (pre : List Spoke) (n : Spoke)
    (post : List Spoke) (o : Spoke)
    (hpre : ∀ p ∈ pre, ∀ q, m p.Name = some q → spokeWithoutSource q = spokeWithoutSource p)
    (hm : m n.Name = some o) (hd : spokeWithoutSource o ≠ spokeWithoutSource n) :
    spokeCheck m (pre ++ n :: post) = some (spokeUpdateMessage n.Name) := by
  induction pre with
  | nil => simp [spokeCheck, hm, hd]
  | cons p rest ih =>
    have hrest := ih (fun x hx => hpre x (List.mem_cons_of_mem _ hx))
    rw [List.cons_append, spokeCheck]
    cases hp : m p.Name with
    | none => exact hrest
    | some q =>
      have := hpre p (List.mem_cons_self _ _) q hp
      simp only [ne_eq, this, not_true_eq_false, if_false]
      exact hrest

theorem allowFleetConfigUpdate_none_iff (newObject oldObject : FleetConfig)
    (hnd : (oldObject.Spec.Spokes.elems.map (·.Name)).Nodup) :
    allowFleetConfigUpdate newObject oldObject = none ↔
      hubWithoutSource oldObject.Spec.Hub = hubWithoutSource newObject.Spec.Hub ∧
      ∀ n ∈ newObject.Spec.Spokes.elems, ∀ o ∈ oldObject.Spec.Spokes.elems,
        o.Name = n.Name → spokeWithoutSource n = spokeWithoutSource o := by
  unfold allowFleetConfigUpdate
  by_cases hhub : hubWithoutSource oldObject.Spec.Hub = hubWithoutSource newObject.Spec.Hub
  · have h1 : ¬ (newObject.Spec.Hub ≠ oldObject.Spec.Hub ∧
        hubWithoutSource oldObject.Spec.Hub ≠ hubWithoutSource newObject.Spec.Hub) :=
      fun h => h.2 hhub
    rw [if_neg h1]
    by_cases hsp : newObject.Spec.Spokes = oldObject.Spec.Spokes
    · simp only [ne_eq, hsp, not_true_eq_false, if_false, true_iff]
      refine ⟨hhub, fun n hn o ho hname => ?_⟩
      have h2 := oldSpokesMap_mem hnd hn
      have h3 := oldSpokesMap_mem hnd ho
      rw [hname, h2] at h3
      rw [Option.some.inj h3]
    · rw [if_pos hsp, spokeCheck_eq_none]
      constructor
      · intro h
        refine ⟨hhub, fun n hn o ho hname => ?_⟩
        have h3 := oldSpokesMap_mem hnd ho
        rw [hname] at h3
        exact (h n hn o h3).symm
      · intro h n hn o ho
        have h3 := oldSpokesMap_some ho
        exact (h.2 n hn o h3.1 h3.2).symm
  · have h1 : newObject.Spec.Hub ≠ oldObject.Spec.Hub := by
      intro e; apply hhub; rw [e]
    rw [if_pos ⟨h1, hhub⟩]
    simp [hhub]

/-- C1: for FleetConfigs `oldObject`, `newObject` where no two spokes of `oldObject` share a
name, `allowFleetConfigUpdate` returns no error exactly when (a) the hubs are equal once
`ClusterManager.Source` is nil on each side that has a `ClusterManager` and (b) every new
spoke whose name occurs among the old spokes equals that old spoke once
`Klusterlet.Source` is nil on both. Hence an accepted update stays accepted when
`RegistrationAuth` changes on either side and when the new spoke list is replaced by any
list made of its own spokes (some removed, reordered) and of spokes with names that do not
occur in the old object (added); and `allowFleetConfigUpdate x x` accepts for every `x`. -/
theorem allowFleetConfigUpdate_accepts_iff (newObject oldObject : FleetConfig)
    (hnd : (oldObject.Spec.Spokes.elems.map (·.Name)).Nodup) :
    (allowFleetConfigUpdate newObject oldObject = none ↔
      hubWithoutSource oldObject.Spec.Hub = hubWithoutSource newObject.Spec.Hub ∧
      ∀ n ∈ newObject.Spec.Spokes.elems, ∀ o ∈ oldObject.Spec.Spokes.elems,
        o.Name = n.Name → spokeWithoutSource n = spokeWithoutSource o) ∧
    (∀ ra1 ra2 : Option RegistrationAuth,
      allowFleetConfigUpdate
          { newObject with Spec := { newObject.Spec with RegistrationAuth := ra1 } }
          { oldObject with Spec := { oldObject.Spec with RegistrationAuth := ra2 } } =
        allowFleetConfigUpdate newObject oldObject) ∧
    (∀ spokes : Slice Spoke,
      (∀ s ∈ spokes.elems, s ∈ newObject.Spec.Spokes.elems ∨
        ∀ o ∈ oldObject.Spec.Spokes.elems, o.Name ≠ s.Name) →
      allowFleetConfigUpdate newObject oldObject = none →
      allowFleetConfigUpdate
          { newObject with Spec := { newObject.Spec with Spokes := spokes } } oldObject = none) ∧
    (∀ x : FleetConfig, allowFleetConfigUpdate x x = none) := by
  refine ⟨allowFleetConfigUpdate_none_iff newObject oldObject hnd, ?_, ?_, ?_⟩
  · intro ra1 ra2
    rfl
  · intro spokes hsp hacc
    rw [allowFleetConfigUpdate_none_iff _ _ hnd] at hacc ⊢
    refine ⟨hacc.1, fun n hn o ho hname => ?_⟩
    rcases hsp n hn with hmem | hfresh
    · exact hacc.2 n hmem o ho hname
    · exact absurd hname (hfresh o ho)
  · intro x
    unfold allowFleetConfigUpdate
    simp

theorem allowFleetConfigUpdate_accepts_iff_witness :
    (testOldSourceChange.Spec.Spokes.elems.map (·.Name)).Nodup ∧
      allowFleetConfigUpdate testNewSourceChange testOldSourceChange = none :=
  ⟨by decide,
    (allowFleetConfigUpdate_accepts_iff testNewSourceChange testOldSourceChange
      (by decide)).1.2 (by decide)⟩

/-- C2 as stated fails: in `sampleOldTwins` two old spokes are named `a`; the update
`sampleNewTwin` passes the hub check and its spoke `a` differs from the first old spoke
`a` outside `Klusterlet.Source`, yet `allowFleetConfigUpdate` returns no error. -/
theorem allowFleetConfigUpdate_twins_accepted :
    hubWithoutSource sampleOldTwins.Spec.Hub = hubWithoutSource sampleNewTwin.Spec.Hub ∧
    (∃ n ∈ sampleNewTwin.Spec.Spokes.elems, ∃ o ∈ sampleOldTwins.Spec.Spokes.elems,
      o.Name = n.Name ∧ spokeWithoutSource o ≠ spokeWithoutSource n) ∧
    allowFleetConfigUpdate sampleNewTwin sampleOldTwins = none := by
  refine ⟨by decide, ?_, by decide⟩
  exact ⟨sampleSpoke "a" false "registry", by decide, sampleSpoke "a" true "registry",
    by decide, by decide, by decide⟩

/-- C2 (amended): whenever the hubs differ outside `ClusterManager.Source`,
`allowFleetConfigUpdate` returns the error "only changes to
hub.spec.hub.clusterManager.source.* are allowed when updating the hub", whatever the
spokes and `RegistrationAuth` are; and when the hub check passes and no two old spokes
share a name, the error names the first new spoke, in the order of the new spoke list,
that differs outside `Klusterlet.Source` from the old spoke of its name. -/
theorem allowFleetConfigUpdate_error_message (newObject oldObject : FleetConfig) :
    (hubWithoutSource oldObject.Spec.Hub ≠ hubWithoutSource newObject.Spec.Hub →
      allowFleetConfigUpdate newObject oldObject = some hubUpdateMessage) ∧
    ((oldObject.Spec.Spokes.elems.map (·.Name)).Nodup →
      hubWithoutSource oldObject.Spec.Hub = hubWithoutSource newObject.Spec.Hub →
      ∀ (pre : List Spoke) (n : Spoke) (post : List Spoke),
        newObject.Spec.Spokes.elems = pre ++ n :: post →
        (∀ p ∈ pre, ∀ o ∈ oldObject.Spec.Spokes.elems, o.Name = p.Name →
          spokeWithoutSource o = spokeWithoutSource p) →
        (∃ o ∈ oldObject.Spec.Spokes.elems, o.Name = n.Name ∧
          spokeWithoutSource o ≠ spokeWithoutSource n) →
        allowFleetConfigUpdate newObject oldObject = some (spokeUpdateMessage n.Name)) := by
  constructor
  · intro hhub
    have h1 : newObject.Spec.Hub ≠ oldObject.Spec.Hub := by
      intro e; apply hhub; rw [e]
    unfold allowFleetConfigUpdate
    rw [if_pos ⟨h1, hhub⟩]
  · intro hnd hhub pre n post hsplit hpre ⟨o, ho, hname, hdiff⟩
    unfold allowFleetConfigUpdate
    have h1 : ¬ (newObject.Spec.Hub ≠ oldObject.Spec.Hub ∧
        hubWithoutSource oldObject.Spec.Hub ≠ hubWithoutSource newObject.Spec.Hub) :=
      fun h => h.2 hhub
    have hsp : newObject.Spec.Spokes ≠ oldObject.Spec.Spokes := by
      intro e
      have hn : n ∈ oldObject.Spec.Spokes.elems := by
        rw [← e, hsplit]; simp
      have h2 := oldSpokesMap_mem hnd hn
      have h3 := oldSpokesMap_mem hnd ho
      rw [hname, h2] at h3
      exact hdiff (by rw [Option.some.inj h3])
    rw [if_neg h1, if_pos hsp, hsplit]
    have hm := oldSpokesMap_mem hnd ho
    rw [hname] at hm
    refine spokeCheck_first _ pre n post o (fun p hp q hq => ?_) hm hdiff
    have h3 := oldSpokesMap_some hq
    exact hpre p hp q h3.1 h3.2

theorem allowFleetConfigUpdate_error_message_witness :
    allowFleetConfigUpdate testNewHubChange testOldHubChange = some hubUpdateMessage ∧
    allowFleetConfigUpdate testNewSpokeChange testOldSpokeChange =
      some (spokeUpdateMessage "spoke1") :=
  ⟨(allowFleetConfigUpdate_error_message testNewHubChange testOldHubChange).1 (by decide),
    (allowFleetConfigUpdate_error_message testNewSpokeChange testOldSpokeChange).2
      (by decide) (by decide) [] (sampleSpoke "spoke1" false "new-registry") [] rfl
      (by intro p hp; cases hp)
      ⟨sampleSpoke "spoke1" true "old-registry", by decide, by decide, by decide⟩⟩

/-! ## Conditions -/

theorem setConditionLoop_fst (cover : Bool) (new : Condition) (l : List Condition) :
    ∀ found, (setConditionLoop cover new l found).1 =
      l.map (fun e => if e.Type_ = new.Type_ ∧ e.Equal new = false ∧ cover = true
        then new else e) := by
  induction l with
  | nil => intro found; rfl
  | cons e rest ih =>
    intro found
    rw [setConditionLoop]
    by_cases ht : e.Type_ = new.Type_
    · by_cases he : e.Equal new = true
      · simp [ht, he, ih]
      · cases cover <;> simp [ht, he, ih]
    · simp [ht, ih]

theorem setConditionLoop_snd (cover : Bool) (new : Condition) (l : List Condition) :
    ∀ found, (setConditionLoop cover new l found).2 =
      (found || l.any (fun e => e.Type_ == new.Type_)) := by
  induction l with
  | nil => intro found; simp [setConditionLoop]
  | cons e rest ih =>
    intro found
    rw [setConditionLoop]
    by_cases ht : e.Type_ = new.Type_
    · by_cases he : e.Equal new = true
      · simp [ht, he, ih]
      · simp [ht, he, ih]
    · have hb : (e.Type_ == new.Type_) = false := by simpa using ht
      simp [ht, hb, ih]

/-- The effect of one outer iteration of `SetConditions`, in closed form. -/
theorem setCondition_eq (cover : Bool) (l : List Condition) (new : Condition) :
    setCondition cover l new =
      if ∃ e ∈ l, e.Type_ = new.Type_ then
        l.map (fun e => if e.Type_ = new.Type_ ∧ e.Equal new = false ∧ cover = true
          then new else e)
      else l ++ [new] := by
  unfold setCondition
  simp only [setConditionLoop_fst, setConditionLoop_snd, Bool.false_or]
  by_cases h : ∃ e ∈ l, e.Type_ = new.Type_
  · have h2 : l.any (fun e => e.Type_ == new.Type_) = true := by
      simpa [List.any_eq_true] using h
    simp [h, h2]
  · have h2 : l.any (fun e => e.Type_ == new.Type_) = false := by
      rw [← Bool.not_eq_true]
      simpa [List.any_eq_true] using h
    rw [if_neg h]
    simp only [h2, Bool.false_eq_true, not_false_eq_true, if_true]
    congr 1
    rw [List.map_congr_left, List.map_id]
    intro e he
    have : e.Type_ ≠ new.Type_ := fun ht => h ⟨e, he, ht⟩
    simp [this]

theorem setCondition_types_of_present (cover : Bool) (l : List Condition) (new : Condition)
    (h : ∃ e ∈ l, e.Type_ = new.Type_) :
    (setCondition cover l new).map (·.Type_) = l.map (·.Type_) := by
  rw [setCondition_eq, if_pos h, List.map_map]
  apply List.map_congr_left
  intro e _
  by_cases hc : e.Type_ = new.Type_ ∧ e.Equal new = false ∧ cover = true
  · simp [hc, hc.1]
  · simp [hc]

theorem setCondition_nodup (cover : Bool) (l : List Condition) (new : Condition)
    (hnd : (l.map (·.Type_)).Nodup) : ((setCondition cover l new).map (·.Type_)).Nodup := by
  by_cases h : ∃ e ∈ l, e.Type_ = new.Type_
  · rw [setCondition_types_of_present cover l new h]; exact hnd
  · rw [setCondition_eq, if_neg h, List.map_append, List.map_singleton]
    apply List.Nodup.append hnd (List.nodup_singleton _)
    intro t ht hs
    rw [List.mem_singleton] at hs
    subst hs
    obtain ⟨e, he, hte⟩ := List.mem_map.mp ht
    exact h ⟨e, he, hte⟩

theorem foldl_setCondition_nodup (cover : Bool) (cs : List Condition) :
    ∀ l : List Condition, (l.map (·.Type_)).Nodup →
      ((cs.foldl (setCondition cover) l).map (·.Type_)).Nodup := by
  induction cs with
  | nil => intro l h; exact h
  | cons c rest ih =>
    intro l h
    rw [List.foldl_cons]
    exact ih _ (setCondition_nodup cover l c h)

/-- C6: if no two conditions of a status share a type, then after
`SetConditions cover cs`, for either value of `cover` and every list `cs` of supplied
conditions (repeated types and types not yet present included), still no two conditions
share a type. -/
theorem SetConditions_nodup (s : FleetConfigStatus) (cover : Bool) (cs : List Condition)
    (hnd : (s.Conditions.map (·.Type_)).Nodup) :
    ((s.SetConditions cover cs).Conditions.map (·.Type_)).Nodup :=
  foldl_setCondition_nodup cover cs s.Conditions hnd

theorem SetConditions_nodup_witness :
    (sampleStatus.Conditions.map (·.Type_)).Nodup ∧
      ((sampleStatus.SetConditions true
        [sampleHubReady, sampleJoined, sampleJoined, sampleHubReady]).Conditions.map
          (·.Type_)).Nodup :=
  ⟨by decide, SetConditions_nodup sampleStatus true
    [sampleHubReady, sampleJoined, sampleJoined, sampleHubReady] (by decide)⟩

theorem Condition_Equal_refl (c : Condition) : c.Equal c = true := by
  simp [Condition.Equal]

theorem setCondition_unchanged (cover : Bool) (l : List Condition) (c : Condition)
    (hnd : (l.map (·.Type_)).Nodup)
    (h : ∃ e ∈ l, e.Type_ = c.Type_ ∧ (cover = false ∨ e.Equal c = true)) :
    setCondition cover l c = l := by
  obtain ⟨e, he, hte, hce⟩ := h
  rw [setCondition_eq, if_pos ⟨e, he, hte⟩]
  conv_rhs => rw [← List.map_id l]
  apply List.map_congr_left
  intro x hx
  have hno : ¬ (x.Type_ = c.Type_ ∧ x.Equal c = false ∧ cover = true) := by
    rintro ⟨hxt, hxe, hcov⟩
    rcases hce with hc | hc
    · rw [hc] at hcov; cases hcov
    · have hxe2 : x = e := List.inj_on_of_nodup_map hnd hx he (hxt.trans hte.symm)
      rw [hxe2, hc] at hxe
      cases hxe
  simp [hno]

theorem setCondition_false_twice (l : List Condition) (c : Condition) :
    setCondition false (setCondition false l c) c = setCondition false l c := by
  have hid : ∀ l2 : List Condition,
      l2.map (fun e => if e.Type_ = c.Type_ ∧ e.Equal c = false ∧ false = true
        then c else e) = l2 := by
    intro l2
    conv_rhs => rw [← List.map_id l2]
    apply List.map_congr_left
    intro x _
    simp
  have hstep : ∀ l2 : List Condition, (∃ e ∈ l2, e.Type_ = c.Type_) →
      setCondition false l2 c = l2 := by
    intro l2 h
    rw [setCondition_eq, if_pos h, hid]
  by_cases h : ∃ e ∈ l, e.Type_ = c.Type_
  · rw [hstep l h, hstep l h]
  · have h1 : setCondition false l c = l ++ [c] := by
      rw [setCondition_eq, if_neg h]
    rw [h1]
    exact hstep _ ⟨c, by simp, rfl⟩

/-- C7: in a status with at most one condition per type, `SetConditions cover cs` leaves
the status, hence the condition list with every field and its order, unchanged whenever
each supplied condition has a type that is already present and either `cover` is false
or the existing condition of that type is `Equal` to the supplied one. And for every
status `t` and condition `c`, applying `SetConditions false [c]` twice gives the same
status as applying it once. -/
theorem SetConditions_unchanged (s : FleetConfigStatus) (cover : Bool) (cs : List Condition)
    (hnd : (s.Conditions.map (·.Type_)).Nodup)
    (h : ∀ c ∈ cs, ∃ e ∈ s.Conditions, e.Type_ = c.Type_ ∧ (cover = false ∨ e.Equal c = true)) :
    s.SetConditions cover cs = s ∧
    ∀ (t : FleetConfigStatus) (c : Condition),
      (t.SetConditions false [c]).SetConditions false [c] = t.SetConditions false [c] := by
  constructor
  · have hfold : cs.foldl (setCondition cover) s.Conditions = s.Conditions := by
      induction cs with
      | nil => rfl
      | cons c rest ih =>
        rw [List.foldl_cons, setCondition_unchanged cover _ c hnd (h c (List.mem_cons_self _ _))]
        exact ih (fun x hx => h x (List.mem_cons_of_mem _ hx))
    unfold FleetConfigStatus.SetConditions
    rw [hfold]
  · intro t c
    unfold FleetConfigStatus.SetConditions
    simp only [List.foldl_cons, List.foldl_nil, setCondition_false_twice]

theorem SetConditions_unchanged_witness :
    sampleStatus.SetConditions false [sampleHubReady] = sampleStatus ∧
    ∀ (t : FleetConfigStatus) (c : Condition),
      (t.SetConditions false [c]).SetConditions false [c] = t.SetConditions false [c] :=
  SetConditions_unchanged sampleStatus false [sampleHubReady] (by decide)
    (by
      intro c hc
      rw [List.mem_singleton] at hc
      subst hc
      exact ⟨NewCondition 5 FleetConfigHubInitialized FleetConfigHubInitialized ConditionFalse
        ConditionTrue, by decide, by decide, Or.inl rfl⟩)

theorem filter_other_types_replace (c : Condition) (l : List Condition) :
    (l.map (fun e => if e.Type_ = c.Type_ ∧ e.Equal c = false then c else e)).filter
        (fun e => e.Type_ ≠ c.Type_) =
      l.filter (fun e => e.Type_ ≠ c.Type_) := by
  induction l with
  | nil => rfl
  | cons x rest ih =>
    rw [List.map_cons, List.filter_cons, List.filter_cons, ih]
    by_cases hx : x.Type_ = c.Type_
    · have h1 : (if x.Type_ = c.Type_ ∧ x.Equal c = false then c else x).Type_ = c.Type_ := by
        split
        · rfl
        · exact hx
      have h2 : decide ((if x.Type_ = c.Type_ ∧ x.Equal c = false then c else x).Type_ ≠
          c.Type_) = false := by
        rw [h1]; simp
      have h3 : decide (x.Type_ ≠ c.Type_) = false := by
        rw [hx]; simp
      rw [h2, h3]
      rfl
    · simp [hx]

theorem setCondition_cover_eq (l : List Condition) (c : Condition) :
    setCondition true l c =
      if ∃ e ∈ l, e.Type_ = c.Type_ then
        l.map (fun e => if e.Type_ = c.Type_ ∧ e.Equal c = false then c else e)
      else l ++ [c] := by
  rw [setCondition_eq]
  have hmap :
      l.map (fun e => if e.Type_ = c.Type_ ∧ e.Equal c = false ∧ true = true then c else e) =
        l.map (fun e => if e.Type_ = c.Type_ ∧ e.Equal c = false then c else e) := by
    apply List.map_congr_left
    intro x _
    simp
  rw [hmap]

theorem find_setCondition_cover (l : List Condition) (c : Condition) :
    ∃ g, (setCondition true l c).find? (fun x => x.Type_ == c.Type_) = some g ∧
      g.Equal c = true := by
  rw [setCondition_cover_eq]
  by_cases h : ∃ e ∈ l, e.Type_ = c.Type_
  · rw [if_pos h]
    induction l with
    | nil => obtain ⟨e, he, _⟩ := h; cases he
    | cons x rest ih =>
      rw [List.map_cons, List.find?_cons]
      by_cases hx : x.Type_ = c.Type_
      · by_cases hxe : x.Equal c = true
        · refine ⟨x, ?_, hxe⟩
          simp [hx, hxe]
        · refine ⟨c, ?_, Condition_Equal_refl c⟩
          simp [hx, hxe]
      · have hrest : ∃ e ∈ rest, e.Type_ = c.Type_ := by
          obtain ⟨e, he, hte⟩ := h
          rcases List.mem_cons.mp he with rfl | her
          · exact absurd hte hx
          · exact ⟨e, her, hte⟩
        obtain ⟨g, hg, hge⟩ := ih hrest
        refine ⟨g, ?_, hge⟩
        have hb : (x.Type_ == c.Type_) = false := by simpa using hx
        simp only [hx, false_and, if_false, hb]
        exact hg
  · rw [if_neg h]
    refine ⟨c, ?_, Condition_Equal_refl c⟩
    rw [List.find?_append]
    have hnone : List.find? (fun x => x.Type_ == c.Type_) l = none := by
      rw [List.find?_eq_none]
      intro x hx hxt
      exact h ⟨x, hx, by simpa using hxt⟩
    simp [hnone]

theorem filter_setCondition_cover (l : List Condition) (c : Condition) :
    (setCondition true l c).filter (fun e => e.Type_ ≠ c.Type_) =
      l.filter (fun e => e.Type_ ≠ c.Type_) := by
  rw [setCondition_cover_eq]
  by_cases h : ∃ e ∈ l, e.Type_ = c.Type_
  · rw [if_pos h]
    exact filter_other_types_replace c l
  · rw [if_neg h]
    simp [List.filter_append]

/-- C8: for every status `s` and condition `c`, after `s.SetConditions true [c]` the call
`GetCondition c.Type_` returns a condition that is `Equal` to `c`; if no condition of
the type of `c` was present, `c` is appended at the end; if one was present, every
condition of that type that is not `Equal` to `c` is replaced in place by `c` and every
other entry keeps its place and value; and the conditions of the other types are the
same, in the same order, before and after. -/
theorem SetConditions_cover_single (s : FleetConfigStatus) (c : Condition) :
    (∃ g, (s.SetConditions true [c]).GetCondition c.Type_ = some g ∧ g.Equal c = true) ∧
    ((∀ e ∈ s.Conditions, e.Type_ ≠ c.Type_) →
      (s.SetConditions true [c]).Conditions = s.Conditions ++ [c]) ∧
    ((∃ e ∈ s.Conditions, e.Type_ = c.Type_) →
      (s.SetConditions true [c]).Conditions =
        s.Conditions.map (fun e => if e.Type_ = c.Type_ ∧ e.Equal c = false then c else e)) ∧
    (s.SetConditions true [c]).Conditions.filter (fun e => e.Type_ ≠ c.Type_) =
      s.Conditions.filter (fun e => e.Type_ ≠ c.Type_) := by
  have hconds : (s.SetConditions true [c]).Conditions = setCondition true s.Conditions c := rfl
  refine ⟨?_, ?_, ?_, ?_⟩
  · unfold FleetConfigStatus.GetCondition
    rw [hconds]
    exact find_setCondition_cover s.Conditions c
  · intro hno
    have h : ¬ ∃ e ∈ s.Conditions, e.Type_ = c.Type_ := by
      rintro ⟨e, he, hte⟩
      exact hno e he hte
    rw [hconds, setCondition_cover_eq, if_neg h]
  · intro hyes
    rw [hconds, setCondition_cover_eq, if_pos hyes]
  · rw [hconds]
    exact filter_setCondition_cover s.Conditions c

theorem SetConditions_cover_single_witness :
    (sampleStatus.SetConditions true [sampleJoined]).Conditions =
        sampleStatus.Conditions ++ [sampleJoined] ∧
    (sampleStatus.SetConditions true [sampleHubReady]).Conditions =
        sampleStatus.Conditions.map (fun e =>
          if e.Type_ = sampleHubReady.Type_ ∧ e.Equal sampleHubReady = false
          then sampleHubReady else e) :=
  ⟨(SetConditions_cover_single sampleStatus sampleJoined).2.1 (by decide),
    (SetConditions_cover_single sampleStatus sampleHubReady).2.2.1
      ⟨NewCondition 5 FleetConfigHubInitialized FleetConfigHubInitialized ConditionFalse
        ConditionTrue, by decide, by decide⟩⟩

/-! ## Writes of the hub and spoke drivers -/

theorem Touched_refl (mc : FleetConfig) : Touched mc mc :=
  ⟨[], mc.Status.JoinedSpokes, by simp, rfl⟩

theorem Touched_trans {a b c : FleetConfig} (h1 : Touched a b) (h2 : Touched b c) :
    Touched a c := by
  obtain ⟨cs1, js1, hw1, rfl⟩ := h1
  obtain ⟨cs2, js2, hw2, rfl⟩ := h2
  refine ⟨cs1 ++ cs2, js2, ?_, ?_⟩
  · intro x hx
    rcases List.mem_append.mp hx with h | h
    · exact hw1 x h
    · exact hw2 x h
  · simp [List.foldl_append]

theorem Touched_set (mc : FleetConfig) (now : Nat) (msg cType : String)
    (status : ConditionStatus) :
    Touched mc (mc.SetConditions true [NewCondition now msg cType status ConditionTrue]) :=
  ⟨[NewCondition now msg cType status ConditionTrue], mc.Status.JoinedSpokes,
    by simp [NewCondition], rfl⟩

theorem Touched_joined (mc : FleetConfig) (js : List JoinedSpoke) :
    Touched mc { mc with Status := { mc.Status with JoinedSpokes := js } } :=
  ⟨[], js, by simp, rfl⟩

theorem handleHubInitialized_touched (env : Env) (operatorC : RestConfig) (mc : FleetConfig)
    (tr : Trace) : Touched mc (handleHubInitialized env operatorC mc tr).2.1 := by
  unfold handleHubInitialized
  simp only
  split
  · exact Touched_set _ _ _ _ _
  · exact Touched_set _ _ _ _ _
  · split
    · exact Touched_set _ _ _ _ _
    · exact Touched_set _ _ _ _ _

theorem handleHub_touched (env : Env) (mc : FleetConfig) (tr : Trace) :
    Touched mc (handleHub env mc tr).2.1 := by
  unfold handleHub
  repeat' first
    | split
    | dsimp only
  all_goals first
    | exact Touched_refl _
    | exact Touched_set _ _ _ _ _
    | exact handleHubInitialized_touched _ _ _ _

theorem deregisterLoop_touched (env : Env) (hubKubeconfig : Bytes) (spokes : List Spoke)
    (l : List JoinedSpoke) :
    ∀ (joinedSpokes : List JoinedSpoke) (mc : FleetConfig) (tr : Trace),
      Touched mc (deregisterLoop env hubKubeconfig spokes l joinedSpokes mc tr).2.1 := by
  induction l with
  | nil => intro js mc tr; exact Touched_refl _
  | cons j rest ih =>
    intro js mc tr
    rw [deregisterLoop]
    split
    · split
      · exact Touched_refl _
      · exact Touched_trans (Touched_set _ _ _ _ _) (ih _ _ _)
      · exact Touched_trans (Touched_set _ _ _ _ _) (ih _ _ _)
    · exact ih _ _ _

theorem handleSpokeJoined_touched (env : Env) (clusterClient : RestConfig) (spoke : Spoke)
    (managedCluster : Option ManagedCluster) (mc : FleetConfig) (tr : Trace) :
    Touched mc (handleSpokeJoined env clusterClient spoke managedCluster mc tr).2.1 := by
  unfold handleSpokeJoined
  repeat' first
    | split
    | dsimp only
  all_goals exact Touched_set _ _ _ _ _

theorem handleSpoke_touched (env : Env) (clusterClient : RestConfig) (spoke : Spoke)
    (mc : FleetConfig) (tr : Trace) :
    Touched mc (handleSpoke env clusterClient spoke mc tr).2.1 := by
  unfold handleSpoke
  repeat' first
    | split
    | dsimp only
  all_goals first
    | exact Touched_refl _
    | exact Touched_set _ _ _ _ _
    | exact handleSpokeJoined_touched _ _ _ _ _ _

theorem handleSpokesLoop_touched (env : Env) (clusterClient : RestConfig) (l : List Spoke) :
    ∀ (mc : FleetConfig) (tr : Trace),
      Touched mc (handleSpokesLoop env clusterClient l mc tr).2.1 := by
  induction l with
  | nil => intro mc tr; exact Touched_refl _
  | cons s rest ih =>
    intro mc tr
    rw [handleSpokesLoop]
    have h := handleSpoke_touched env clusterClient s mc tr
    split
    · rename_i heq
      rw [heq] at h
      exact Touched_trans h (ih _ _)
    · rename_i heq
      rw [heq] at h
      exact h
    · rename_i heq
      rw [heq] at h
      exact h

theorem handleSpokes_touched (env : Env) (mc : FleetConfig) (tr : Trace) :
    Touched mc (handleSpokes env mc tr).2.1 := by
  unfold handleSpokes
  split
  · exact Touched_refl _
  · exact Touched_refl _
  · split
    · exact Touched_refl _
    · rename_i hubKubeconfig tr1 _ _ clusterClient tr2 _
      have h1 := deregisterLoop_touched env hubKubeconfig mc.Spec.Spokes.elems
        mc.Status.JoinedSpokes [] mc tr2
      split
      · rename_i heq
        rw [heq] at h1
        exact h1
      · rename_i joinedSpokes mc1 tr3 heq
        rw [heq] at h1
        have h2 := handleSpokesLoop_touched env clusterClient mc1.Spec.Spokes.elems mc1 tr3
        split
        · rename_i heq2
          rw [heq2] at h2
          exact Touched_trans h1 h2
        · rename_i heq2
          rw [heq2] at h2
          exact Touched_trans h1 h2
        · rename_i heq2
          rw [heq2] at h2
          exact Touched_trans h1 (Touched_trans h2 (Touched_joined _ _))

theorem Touched_phase {a b : FleetConfig} (h : Touched a b) : b.Status.Phase = a.Status.Phase := by
  obtain ⟨cs, js, _, rfl⟩ := h
  rfl

theorem Touched_spec {a b : FleetConfig} (h : Touched a b) : b.Spec = a.Spec := by
  obtain ⟨cs, js, _, rfl⟩ := h
  rfl

theorem Touched_finalizers {a b : FleetConfig} (h : Touched a b) :
    b.Finalizers = a.Finalizers := by
  obtain ⟨cs, js, _, rfl⟩ := h
  rfl

theorem mem_setCondition {cover : Bool} {l : List Condition} {new x : Condition}
    (h : x ∈ setCondition cover l new) : x ∈ l ∨ x = new := by
  rw [setCondition_eq] at h
  split at h
  · obtain ⟨e, he, hx⟩ := List.mem_map.mp h
    split at hx
    · exact Or.inr hx.symm
    · exact Or.inl (hx ▸ he)
  · rcases List.mem_append.mp h with h1 | h1
    · exact Or.inl h1
    · exact Or.inr (List.mem_singleton.mp h1)

theorem mem_foldl_setCondition {cover : Bool} (cs : List Condition) :
    ∀ {l : List Condition} {x : Condition},
      x ∈ cs.foldl (setCondition cover) l → x ∈ l ∨ x ∈ cs := by
  induction cs with
  | nil => intro l x h; exact Or.inl h
  | cons c rest ih =>
    intro l x h
    rw [List.foldl_cons] at h
    rcases ih h with h1 | h1
    · rcases mem_setCondition h1 with h2 | h2
      · exact Or.inl h2
      · exact Or.inr (h2 ▸ List.mem_cons_self _ _)
    · exact Or.inr (List.mem_cons_of_mem _ h1)

theorem type_mem_setCondition {cover : Bool} {l : List Condition} {new : Condition} {t : String}
    (h : t ∈ l.map (·.Type_) ∨ t = new.Type_) : t ∈ (setCondition cover l new).map (·.Type_) := by
  by_cases hp : ∃ e ∈ l, e.Type_ = new.Type_
  · rw [setCondition_types_of_present cover l new hp]
    rcases h with h | h
    · exact h
    · obtain ⟨e, he, hte⟩ := hp
      exact List.mem_map.mpr ⟨e, he, hte.trans h.symm⟩
  · rw [setCondition_eq, if_neg hp, List.map_append, List.map_singleton]
    rcases h with h | h
    · exact List.mem_append_left _ h
    · exact List.mem_append_right _ (by simp [h])

theorem type_mem_foldl_setCondition {cover : Bool} (cs : List Condition) :
    ∀ {l : List Condition} {t : String},
      (t ∈ l.map (·.Type_) ∨ t ∈ cs.map (·.Type_)) →
        t ∈ (cs.foldl (setCondition cover) l).map (·.Type_) := by
  induction cs with
  | nil =>
    intro l t h
    rcases h with h | h
    · exact h
    · cases h
  | cons c rest ih =>
    intro l t h
    rw [List.foldl_cons]
    apply ih
    rcases h with h | h
    · exact Or.inl (type_mem_setCondition (Or.inl h))
    · rw [List.map_cons, List.mem_cons] at h
      rcases h with h | h
      · exact Or.inl (type_mem_setCondition (Or.inr h))
      · exact Or.inr h

theorem GetCondition_of_type_mem {s : FleetConfigStatus} {t : String}
    (h : t ∈ s.Conditions.map (·.Type_)) :
    ∃ g, s.GetCondition t = some g ∧ g ∈ s.Conditions ∧ g.Type_ = t := by
  unfold FleetConfigStatus.GetCondition
  cases hf : s.Conditions.find? (fun c => c.Type_ == t) with
  | none =>
    rw [List.find?_eq_none] at hf
    obtain ⟨e, he, hte⟩ := List.mem_map.mp h
    exact absurd (by simpa using hte) (hf e he)
  | some g =>
    refine ⟨g, rfl, List.mem_of_find?_eq_some hf, ?_⟩
    have := List.find?_some hf
    simpa using this

/-! ## Cleanup preflight -/

theorem Quiet_refl (tr : Trace) : Quiet tr tr :=
  ⟨[], by simp, by simp⟩

theorem Quiet_trans {a b c : Trace} (h1 : Quiet a b) (h2 : Quiet b c) : Quiet a c := by
  obtain ⟨c1, rfl, hc1⟩ := h1
  obtain ⟨c2, rfl, hc2⟩ := h2
  refine ⟨c1 ++ c2, by simp, ?_⟩
  intro x hx
  rcases List.mem_append.mp hx with h | h
  · exact hc1 x h
  · exact hc2 x h

theorem Quiet_snoc (tr : Trace) (c : Call) (he : c.isExec = false) (hd : c.isDelete = false) :
    Quiet tr (tr ++ [c]) :=
  ⟨[c], rfl, by simp [he, hd]⟩

theorem KubeconfigFromSecretOrCluster_quiet (env : Env) (k : Option Kubeconfig) (tr : Trace) :
    Quiet tr (KubeconfigFromSecretOrCluster env k tr).2 := by
  unfold KubeconfigFromSecretOrCluster KubeconfigFromSecret RawFromInClusterRestConfig
  repeat' first
    | split
    | dsimp only
  all_goals first
    | exact Quiet_refl _
    | exact Quiet_snoc _ _ (by rfl) (by rfl)

theorem RestConfigFromKubeconfig_quiet (env : Env) (k : Bytes) (tr : Trace) :
    Quiet tr (RestConfigFromKubeconfig env k tr).2 := by
  unfold RestConfigFromKubeconfig
  repeat' first
    | split
    | dsimp only
  all_goals first
    | exact Quiet_refl _
    | exact Quiet_snoc _ _ (by rfl) (by rfl)

theorem ClusterClient_quiet (env : Env) (k : Bytes) (tr : Trace) :
    Quiet tr (ClusterClient env k tr).2 := by
  have h := RestConfigFromKubeconfig_quiet env k tr
  unfold ClusterClient
  split
  · rename_i heq; rw [heq] at h; exact h
  · rename_i heq; rw [heq] at h
    split <;> exact h

theorem WorkClient_quiet (env : Env) (k : Bytes) (tr : Trace) :
    Quiet tr (WorkClient env k tr).2 := by
  have h := RestConfigFromKubeconfig_quiet env k tr
  unfold WorkClient
  split
  · rename_i heq; rw [heq] at h; exact h
  · rename_i heq; rw [heq] at h
    split <;> exact h

theorem cleanupPreflightLoop_quiet (env : Env) (workC : RestConfig) (enabled : Bool)
    (l : List ManagedCluster) :
    ∀ tr : Trace, Quiet tr (cleanupPreflightLoop env workC enabled l tr).2 := by
  induction l with
  | nil => intro tr; exact Quiet_refl _
  | cons c rest ih =>
    intro tr
    rw [cleanupPreflightLoop]
    split
    · exact Quiet_snoc _ _ (by rfl) (by rfl)
    · split
      · exact Quiet_snoc _ _ (by rfl) (by rfl)
      · exact Quiet_trans (Quiet_snoc _ _ (by rfl) (by rfl)) (ih _)

theorem cleanupPreflight_quiet (env : Env) (k : Bytes) (gates : FeatureGates) (tr : Trace) :
    Quiet tr (cleanupPreflight env k gates tr).2 := by
  have h1 := ClusterClient_quiet env k tr
  unfold cleanupPreflight
  split
  · rename_i heq; rw [heq] at h1; exact h1
  · rename_i clusterC tr1 heq
    rw [heq] at h1
    have h2 := WorkClient_quiet env k tr1
    split
    · rename_i heq2; rw [heq2] at h2; exact Quiet_trans h1 h2
    · rename_i workC tr2 heq2
      rw [heq2] at h2
      have h3 := Quiet_trans h1 h2
      dsimp only
      split
      · split
        · exact Quiet_trans h3 (Quiet_snoc _ _ (by rfl) (by rfl))
        · exact Quiet_trans h3 (Quiet_snoc _ _ (by rfl) (by rfl))
      · exact Quiet_trans h3
          (Quiet_trans (Quiet_snoc _ _ (by rfl) (by rfl)) (cleanupPreflightLoop_quiet _ _ _ _ _))

theorem cleanupPreflightLoop_blocked (env : Env) (workC : RestConfig) (works : String → Nat)
    (pre : List ManagedCluster) (c : ManagedCluster) (post : List ManagedCluster)
    (hworks : ∀ (h : Trace) (x : ManagedCluster), x ∈ pre ++ c :: post →
      env.listManifestWorks h workC x.Name = .ok (works x.Name))
    (hpre : ∀ p ∈ pre, works p.Name = 0) (hc : 0 < works c.Name) :
    ∀ tr : Trace, (cleanupPreflightLoop env workC false (pre ++ c :: post) tr).1 =
      (false, some (preflightMessage c.Name)) := by
  induction pre with
  | nil =>
    intro tr
    rw [List.nil_append, cleanupPreflightLoop, hworks tr c (by simp)]
    simp [hc]
  | cons p rest ih =>
    intro tr
    rw [List.cons_append, cleanupPreflightLoop, hworks tr p (by simp)]
    have hp : works p.Name = 0 := hpre p (List.mem_cons_self _ _)
    simp only [hp, gt_iff_lt, lt_self_iff_false, false_and, if_false]
    exact ih (fun h x hx => hworks h x (List.mem_cons_of_mem _ hx))
      (fun q hq => hpre q (List.mem_cons_of_mem _ hq)) _

theorem cleanupPreflightLoop_clear (env : Env) (workC : RestConfig) (works : String → Nat)
    (enabled : Bool) (l : List ManagedCluster)
    (hworks : ∀ (h : Trace) (x : ManagedCluster), x ∈ l →
      env.listManifestWorks h workC x.Name = .ok (works x.Name))
    (hclear : (∀ x ∈ l, works x.Name = 0) ∨ enabled = true) :
    ∀ tr : Trace, (cleanupPreflightLoop env workC enabled l tr).1 = (true, none) := by
  induction l with
  | nil => intro tr; rfl
  | cons p rest ih =>
    intro tr
    rw [cleanupPreflightLoop, hworks tr p (List.mem_cons_self _ _)]
    have hno : ¬ (works p.Name > 0 ∧ ¬ enabled = true) := by
      rintro ⟨h1, h2⟩
      rcases hclear with h | h
      · have := h p (List.mem_cons_self _ _)
        omega
      · exact h2 h
    simp only [hno, if_false]
    apply ih (fun h x hx => hworks h x (List.mem_cons_of_mem _ hx))
    rcases hclear with h | h
    · exact Or.inl (fun x hx => h x (List.mem_cons_of_mem _ hx))
    · exact Or.inr h

/-- C3: for every FleetConfig and hub state in which the hub kubeconfig resolves, the
clients are made and the ManagedCluster and ManifestWork lists succeed (`works` gives the
number of ManifestWorks per namespace): if `c` is the first ManagedCluster with a
ManifestWork and the parsed feature gates do not map `ResourceCleanup` to true, then
`cleanupPreflight` returns false with the error that names `c`, and `cleanup` returns that
error, leaves the FleetConfig (its finalizers included) as it was, and makes no call that
runs `clusteradm` (unjoin, clean) or deletes a ManagedCluster, namespace or
CertificateSigningRequest. If no ManagedCluster has a ManifestWork, or `ResourceCleanup`
is enabled, `cleanupPreflight` returns true without error. -/
theorem cleanup_blocked_by_manifestWorks (env : Env) (mc : FleetConfig) (tr tr1 tr2 tr3 : Trace)
    (hubKubeconfig : Bytes) (clusterC workC : RestConfig)
    (managedClusters : List ManagedCluster) (works : String → Nat)
    (hkube : KubeconfigFromSecretOrCluster env mc.Spec.Hub.Kubeconfig tr =
      (.ret (hubKubeconfig, none), tr1))
    (hcluster : ClusterClient env hubKubeconfig tr1 = (.ok clusterC, tr2))
    (hwork : WorkClient env hubKubeconfig tr2 = (.ok workC, tr3))
    (hlist : env.listManagedClusters tr3 clusterC = .ok managedClusters)
    (hworks : ∀ (h : Trace) (x : ManagedCluster), x ∈ managedClusters →
      env.listManifestWorks h workC x.Name = .ok (works x.Name)) :
    (∀ (pre : List ManagedCluster) (c : ManagedCluster) (post : List ManagedCluster),
      managedClusters = pre ++ c :: post → (∀ p ∈ pre, works p.Name = 0) → 0 < works c.Name →
      (ExtractFeatureGates (some mc)).get ResourceCleanup = false →
        (cleanupPreflight env hubKubeconfig (ExtractFeatureGates (some mc)) tr1).1 =
          (false, some (preflightMessage c.Name)) ∧
        (cleanup env mc tr).1 = .ret (some (preflightMessage c.Name)) ∧
        (cleanup env mc tr).2.1 = mc ∧
        Quiet tr (cleanup env mc tr).2.2) ∧
    (((∀ x ∈ managedClusters, works x.Name = 0) ∨
        (ExtractFeatureGates (some mc)).get ResourceCleanup = true) →
      (cleanupPreflight env hubKubeconfig (ExtractFeatureGates (some mc)) tr1).1 =
        (true, none)) := by
  have hpre : ∀ gates : FeatureGates,
      (cleanupPreflight env hubKubeconfig gates tr1).1 =
        (cleanupPreflightLoop env workC (gates.get ResourceCleanup) managedClusters
          (tr3 ++ [.listManagedClusters clusterC])).1 := by
    intro gates
    unfold cleanupPreflight
    rw [hcluster]
    dsimp only
    rw [hwork]
    dsimp only
    rw [hlist]
  constructor
  · intro pre c post hsplit hzero hpos hgate
    subst hsplit
    have hflight : (cleanupPreflight env hubKubeconfig (ExtractFeatureGates (some mc)) tr1).1 =
        (false, some (preflightMessage c.Name)) := by
      rw [hpre, hgate]
      exact cleanupPreflightLoop_blocked env workC works pre c post hworks hzero hpos _
    have hq1 := KubeconfigFromSecretOrCluster_quiet env mc.Spec.Hub.Kubeconfig tr
    rw [hkube] at hq1
    have hq2 := cleanupPreflight_quiet env hubKubeconfig (ExtractFeatureGates (some mc)) tr1
    have hq := Quiet_trans hq1 hq2
    refine ⟨hflight, ?_⟩
    unfold cleanup
    rw [hkube]
    dsimp only
    generalize cleanupPreflight env hubKubeconfig (ExtractFeatureGates (some mc)) tr1 = r
      at hflight hq
    obtain ⟨⟨doCleanup, err⟩, tr4⟩ := r
    simp only [Prod.mk.injEq] at hflight
    obtain ⟨rfl, rfl⟩ := hflight
    exact ⟨rfl, rfl, hq⟩
  · intro hclear
    rw [hpre]
    exact cleanupPreflightLoop_clear env workC works _ managedClusters hworks hclear _

theorem cleanup_blocked_by_manifestWorks_witness :
    (cleanupPreflight sampleEnvWithWork (some "https://hub")
        (ExtractFeatureGates (some sampleDeleting)) [.getConfig]).1 =
      (false, some (preflightMessage "spoke1")) ∧
    (cleanup sampleEnvWithWork sampleDeleting []).1 =
      .ret (some (preflightMessage "spoke1")) ∧
    (cleanup sampleEnvWithWork sampleDeleting []).2.1 = sampleDeleting ∧
    Quiet [] (cleanup sampleEnvWithWork sampleDeleting []).2.2 :=
  (cleanup_blocked_by_manifestWorks sampleEnvWithWork sampleDeleting [] [.getConfig]
    [.getConfig] [.getConfig] (some "https://hub") { Host := "https://hub" }
    { Host := "https://hub" } [sampleManagedCluster "spoke1"] (fun _ => 1)
    rfl rfl rfl rfl (fun _ _ _ => rfl)).1
    [] (sampleManagedCluster "spoke1") [] rfl (by intro p hp; cases hp) (by decide) (by decide)

/-! ## Reconcile: deletion -/

theorem Reconcile_loaded (env : Env) (tr : Trace) (mc : FleetConfig)
    (hget : env.getFleetConfig tr = .ok mc)
    (hhelper : env.newPatchHelper (tr ++ [.getFleetConfig]) mc = none) :
    Reconcile env tr =
      ((reconcileObject env mc (tr ++ [.getFleetConfig, .newPatchHelper mc])).1,
        some (reconcileObject env mc (tr ++ [.getFleetConfig, .newPatchHelper mc])).2.1,
        (reconcileObject env mc (tr ++ [.getFleetConfig, .newPatchHelper mc])).2.2 ++
          [.patch (reconcileObject env mc (tr ++ [.getFleetConfig, .newPatchHelper mc])).2.1]) := by
  unfold Reconcile
  rw [hget]
  dsimp only
  rw [hhelper]

theorem cleanup_object (env : Env) (mc : FleetConfig) (tr : Trace) :
    ((cleanup env mc tr).1 ≠ .ret none ∧ (cleanup env mc tr).2.1 = mc) ∨
    ((cleanup env mc tr).1 = .ret none ∧ (cleanup env mc tr).2.1 = removeFinalizer mc) := by
  unfold cleanup
  repeat' first
    | split
    | dsimp only
  all_goals first
    | exact Or.inr ⟨rfl, rfl⟩
    | exact Or.inl ⟨by simp, rfl⟩

theorem reconcileObject_deleting (env : Env) (mc : FleetConfig) (tr : Trace)
    (hfin : FleetConfigFinalizer ∈ mc.Finalizers)
    (hdel : ¬ (mc.DeletionTimestamp = none ∨ mc.DeletionTimestamp = some 0))
    (hphase : mc.Status.Phase = FleetConfigDeleting) :
    reconcileObject env mc tr =
      match cleanup env mc tr with
      | (.panic msg, mc1, tr1) => (.panic msg, mc1, tr1)
      | (.ret (some err), mc1, tr1) =>
        (.ret ({ Requeue := false, RequeueAfter := 0 }, some err),
          mc1.SetConditions true
            [NewCondition (env.now tr1) err FleetConfigCleanupFailed ConditionTrue ConditionFalse],
          tr1 ++ [.now])
      | (.ret none, mc1, tr1) => (.ret ({ Requeue := false, RequeueAfter := 0 }, none), mc1, tr1) := by
  have hc : mc.Finalizers.contains FleetConfigFinalizer = true := by
    simpa using hfin
  unfold reconcileObject
  simp only [hc, not_true_eq_false, if_false, hdel, not_false_eq_true, if_true, hphase, ne_eq]

theorem reconcileObject_start_deleting (env : Env) (mc : FleetConfig) (tr : Trace)
    (hfin : FleetConfigFinalizer ∈ mc.Finalizers)
    (hdel : ¬ (mc.DeletionTimestamp = none ∨ mc.DeletionTimestamp = some 0))
    (hphase : mc.Status.Phase ≠ FleetConfigDeleting) :
    reconcileObject env mc tr =
      (.ret ({ Requeue := true, RequeueAfter := 0 }, none), mc.withPhase FleetConfigDeleting,
        tr) := by
  have hc : mc.Finalizers.contains FleetConfigFinalizer = true := by
    simpa using hfin
  unfold reconcileObject
  simp only [hc, not_true_eq_false, if_false, hdel, not_false_eq_true, if_true, hphase, ne_eq]

/-- C4: on the deletion path (finalizer present, deletion timestamp set) a Reconcile pass
leaves the FleetConfig without the cleanup finalizer only if the phase was Deleting at
the start of the pass and `cleanup` returned no error in the pass; the finalizers it then
leaves are the old ones without the cleanup finalizer, in their order. If the phase was
not Deleting, the pass returns Requeue=true without error, makes no call between fetching
the object and patching it, and changes nothing but the phase, which it sets to
Deleting. -/
theorem Reconcile_deletion_finalizer (env : Env) (tr : Trace) (mc : FleetConfig)
    (hget : env.getFleetConfig tr = .ok mc)
    (hhelper : env.newPatchHelper (tr ++ [.getFleetConfig]) mc = none)
    (hfin : FleetConfigFinalizer ∈ mc.Finalizers)
    (hdel : ¬ (mc.DeletionTimestamp = none ∨ mc.DeletionTimestamp = some 0)) :
    ∃ after : FleetConfig, (Reconcile env tr).2.1 = some after ∧
      (FleetConfigFinalizer ∉ after.Finalizers →
        mc.Status.Phase = FleetConfigDeleting ∧
        (cleanup env mc (tr ++ [.getFleetConfig, .newPatchHelper mc])).1 = .ret none ∧
        after.Finalizers = mc.Finalizers.filter (fun s => s ≠ FleetConfigFinalizer)) ∧
      (mc.Status.Phase ≠ FleetConfigDeleting →
        Reconcile env tr =
          (.ret ({ Requeue := true, RequeueAfter := 0 }, none),
            some (mc.withPhase FleetConfigDeleting),
            tr ++ [.getFleetConfig, .newPatchHelper mc,
              .patch (mc.withPhase FleetConfigDeleting)])) := by
  rw [Reconcile_loaded env tr mc hget hhelper]
  refine ⟨_, rfl, ?_, ?_⟩
  · intro hgone
    by_cases hphase : mc.Status.Phase = FleetConfigDeleting
    · rw [reconcileObject_deleting env mc _ hfin hdel hphase] at hgone ⊢
      have hobj := cleanup_object env mc (tr ++ [.getFleetConfig, .newPatchHelper mc])
      generalize cleanup env mc (tr ++ [.getFleetConfig, .newPatchHelper mc]) = r at hgone hobj ⊢
      obtain ⟨out, mc1, tr1⟩ := r
      rcases hobj with ⟨_, hsame⟩ | ⟨hok, hrem⟩
      · dsimp only at hsame
        subst hsame
        exfalso
        apply hgone
        cases out with
        | panic msg => exact hfin
        | ret err =>
          cases err with
          | none => exact hfin
          | some e => exact hfin
      · dsimp only at hok hrem
        subst hok
        subst hrem
        exact ⟨hphase, rfl, rfl⟩
    · rw [reconcileObject_start_deleting env mc _ hfin hdel hphase] at hgone
      exact absurd hfin hgone
  · intro hphase
    rw [reconcileObject_start_deleting env mc _ hfin hdel hphase]
    simp

theorem Reconcile_deletion_finalizer_witness :
    ∃ after : FleetConfig, (Reconcile { sampleEnv with getFleetConfig := fun _ => .ok sampleDeleting }
        []).2.1 = some after ∧
      (FleetConfigFinalizer ∉ after.Finalizers →
        sampleDeleting.Status.Phase = FleetConfigDeleting ∧
        (cleanup { sampleEnv with getFleetConfig := fun _ => .ok sampleDeleting } sampleDeleting
          ([] ++ [.getFleetConfig, .newPatchHelper sampleDeleting])).1 = .ret none ∧
        after.Finalizers = sampleDeleting.Finalizers.filter (fun s => s ≠ FleetConfigFinalizer)) ∧
      (sampleDeleting.Status.Phase ≠ FleetConfigDeleting →
        Reconcile { sampleEnv with getFleetConfig := fun _ => .ok sampleDeleting } [] =
          (.ret ({ Requeue := true, RequeueAfter := 0 }, none),
            some (sampleDeleting.withPhase FleetConfigDeleting),
            [] ++ [.getFleetConfig, .newPatchHelper sampleDeleting,
              .patch (sampleDeleting.withPhase FleetConfigDeleting)])) :=
  Reconcile_deletion_finalizer { sampleEnv with getFleetConfig := fun _ => .ok sampleDeleting }
    [] sampleDeleting rfl rfl (by decide) (by decide)

/-- C5: if `cleanup` returns an error `e` in a deletion pass of Reconcile (finalizer
present, deletion timestamp set, phase Deleting), then Reconcile returns `e`, the
finalizers are unchanged, the phase stays Deleting, `GetCondition("CleanupFailed")`
afterwards has status True, wantStatus False and the message `e`, and the conditions of
the other types are unchanged. -/
theorem Reconcile_cleanup_failed (env : Env) (tr : Trace) (mc : FleetConfig) (e : String)
    (hget : env.getFleetConfig tr = .ok mc)
    (hhelper : env.newPatchHelper (tr ++ [.getFleetConfig]) mc = none)
    (hfin : FleetConfigFinalizer ∈ mc.Finalizers)
    (hdel : ¬ (mc.DeletionTimestamp = none ∨ mc.DeletionTimestamp = some 0))
    (hphase : mc.Status.Phase = FleetConfigDeleting)
    (hclean : (cleanup env mc (tr ++ [.getFleetConfig, .newPatchHelper mc])).1 =
      .ret (some e)) :
    ∃ after : FleetConfig,
      (Reconcile env tr).1 = .ret ({ Requeue := false, RequeueAfter := 0 }, some e) ∧
      (Reconcile env tr).2.1 = some after ∧
      after.Finalizers = mc.Finalizers ∧
      after.Status.Phase = FleetConfigDeleting ∧
      (∃ g, after.GetCondition FleetConfigCleanupFailed = some g ∧ g.Status = ConditionTrue ∧
        g.WantStatus = ConditionFalse ∧ g.Message = e) ∧
      after.Status.Conditions.filter (fun c => c.Type_ ≠ FleetConfigCleanupFailed) =
        mc.Status.Conditions.filter (fun c => c.Type_ ≠ FleetConfigCleanupFailed) := by
  rw [Reconcile_loaded env tr mc hget hhelper, reconcileObject_deleting env mc _ hfin hdel hphase]
  have hobj := cleanup_object env mc (tr ++ [.getFleetConfig, .newPatchHelper mc])
  generalize cleanup env mc (tr ++ [.getFleetConfig, .newPatchHelper mc]) = r at hclean hobj ⊢
  obtain ⟨out, mc1, tr1⟩ := r
  dsimp only at hclean hobj
  subst hclean
  rcases hobj with ⟨_, hsame⟩ | ⟨hok, _⟩
  · subst hsame
    refine ⟨_, rfl, rfl, rfl, hphase, ?_, ?_⟩
    · obtain ⟨g, hg, hge⟩ := find_setCondition_cover mc1.Status.Conditions
        (NewCondition (env.now tr1) e FleetConfigCleanupFailed ConditionTrue ConditionFalse)
      refine ⟨g, hg, ?_⟩
      simp only [Condition.Equal, NewCondition, Bool.and_eq_true, beq_iff_eq] at hge
      exact ⟨hge.1.1.1.2, hge.1.1.2, hge.2⟩
    · exact filter_setCondition_cover mc1.Status.Conditions
        (NewCondition (env.now tr1) e FleetConfigCleanupFailed ConditionTrue ConditionFalse)
  · cases hok

theorem Reconcile_cleanup_failed_witness :
    ∃ after : FleetConfig,
      (Reconcile { sampleEnvWithWork with getFleetConfig := fun _ => .ok sampleDeleting } []).1 =
        .ret ({ Requeue := false, RequeueAfter := 0 }, some (preflightMessage "spoke1")) ∧
      (Reconcile { sampleEnvWithWork with getFleetConfig := fun _ => .ok sampleDeleting } []).2.1 =
        some after ∧
      after.Finalizers = sampleDeleting.Finalizers ∧
      after.Status.Phase = FleetConfigDeleting ∧
      (∃ g, after.GetCondition FleetConfigCleanupFailed = some g ∧ g.Status = ConditionTrue ∧
        g.WantStatus = ConditionFalse ∧ g.Message = preflightMessage "spoke1") ∧
      after.Status.Conditions.filter (fun c => c.Type_ ≠ FleetConfigCleanupFailed) =
        sampleDeleting.Status.Conditions.filter (fun c => c.Type_ ≠ FleetConfigCleanupFailed) :=
  Reconcile_cleanup_failed
    { sampleEnvWithWork with getFleetConfig := fun _ => .ok sampleDeleting } [] sampleDeleting
    (preflightMessage "spoke1") rfl rfl (by decide) (by decide) rfl (by decide)

/-! ## Reconcile: the normal path -/

theorem reconcileObject_normal (env : Env) (mc : FleetConfig) (tr : Trace)
    (hfin : FleetConfigFinalizer ∈ mc.Finalizers)
    (hnodel : mc.DeletionTimestamp = none ∨ mc.DeletionTimestamp = some 0) :
    reconcileObject env mc tr =
      if mc.Status.Phase = "" then
        (.ret ({ Requeue := true, RequeueAfter := 0 }, none), (initializeStatus env mc tr).1,
          (initializeStatus env mc tr).2)
      else reconcileDrive env (initializeStatus env mc tr).1 (initializeStatus env mc tr).2 := by
  have hc : mc.Finalizers.contains FleetConfigFinalizer = true := by
    simpa using hfin
  unfold reconcileObject
  simp only [hc, not_true_eq_false, if_false, hnodel]

theorem initializeStatus_phase (env : Env) (mc : FleetConfig) (tr : Trace) :
    (initializeStatus env mc tr).1.Status.Phase = FleetConfigStarting := rfl

theorem withPhase_conditions (mc : FleetConfig) (phase : String) :
    (mc.withPhase phase).Status.Conditions = mc.Status.Conditions := rfl

/-- C9: in a Reconcile pass that reaches the finalize step (finalizer present, no deletion
timestamp, previous phase not empty, the HubInitialized condition read before `handleHub`
not False, `handleHub` and `handleSpokes` return), the result is RequeueAfter = 30 s
without error and the conditions are those that `handleSpokes` left; if one of them has a
status different from its wantStatus the pass ends with phase Unhealthy; if all have
status equal to wantStatus the pass ends with phase Running when neither `handleHub` nor
`handleSpokes` returned an error, and with phase Unhealthy otherwise. -/
theorem Reconcile_finalize (env : Env) (tr : Trace) (mc : FleetConfig)
    (hget : env.getFleetConfig tr = .ok mc)
    (hhelper : env.newPatchHelper (tr ++ [.getFleetConfig]) mc = none)
    (hfin : FleetConfigFinalizer ∈ mc.Finalizers)
    (hnodel : mc.DeletionTimestamp = none ∨ mc.DeletionTimestamp = some 0)
    (hphase : mc.Status.Phase ≠ "")
    (hubCond : Condition)
    (hcond : (initializeStatus env mc
      (tr ++ [.getFleetConfig, .newPatchHelper mc])).1.GetCondition FleetConfigHubInitialized =
        some hubCond)
    (hgate : hubCond.Status ≠ ConditionFalse)
    (hubErr : GoError) (afterHub : FleetConfig) (tr2 : Trace)
    (hhub : handleHub env
        (initializeStatus env mc (tr ++ [.getFleetConfig, .newPatchHelper mc])).1
        (initializeStatus env mc (tr ++ [.getFleetConfig, .newPatchHelper mc])).2 =
      (.ret hubErr, afterHub, tr2))
    (spokeErr : GoError) (afterSpokes : FleetConfig) (tr3 : Trace)
    (hspokes : handleSpokes env
        (if hubErr ≠ none then afterHub.withPhase FleetConfigUnhealthy else afterHub) tr2 =
      (.ret spokeErr, afterSpokes, tr3)) :
    ∃ after : FleetConfig,
      Reconcile env tr =
        (.ret ({ Requeue := false, RequeueAfter := requeue }, none), some after,
          tr3 ++ [.patch after]) ∧
      requeue = 30 * 1000000000 ∧
      after.Status.Conditions = afterSpokes.Status.Conditions ∧
      ((∃ c ∈ afterSpokes.Status.Conditions, c.Status ≠ c.WantStatus) →
        after.Status.Phase = FleetConfigUnhealthy) ∧
      ((∀ c ∈ afterSpokes.Status.Conditions, c.Status = c.WantStatus) →
        after.Status.Phase =
          if hubErr = none ∧ spokeErr = none then FleetConfigRunning else FleetConfigUnhealthy) := by
  have hp1 : afterHub.Status.Phase = FleetConfigStarting := by
    have h := Touched_phase (handleHub_touched env
      (initializeStatus env mc (tr ++ [.getFleetConfig, .newPatchHelper mc])).1
      (initializeStatus env mc (tr ++ [.getFleetConfig, .newPatchHelper mc])).2)
    rw [hhub] at h
    exact h
  have hp2 : afterSpokes.Status.Phase =
      if hubErr = none then FleetConfigStarting else FleetConfigUnhealthy := by
    have h := Touched_phase (handleSpokes_touched env
      (if hubErr ≠ none then afterHub.withPhase FleetConfigUnhealthy else afterHub) tr2)
    rw [hspokes] at h
    dsimp only at h
    rw [h]
    by_cases hh : hubErr = none
    · simp [hh, hp1]
    · simp [hh, FleetConfig.withPhase]
  rw [Reconcile_loaded env tr mc hget hhelper, reconcileObject_normal env mc _ hfin hnodel,
    if_neg hphase]
  unfold reconcileDrive
  simp only [hcond, hhub, hgate, if_false, hspokes]
  unfold finalizePhase
  by_cases hany : (if spokeErr ≠ none then afterSpokes.withPhase FleetConfigUnhealthy
      else afterSpokes).Status.Conditions.any (fun c => c.Status ≠ c.WantStatus) = true
  · rw [if_pos hany]
    refine ⟨_, rfl, rfl, ?_, fun _ => rfl, fun hall => ?_⟩
    · split <;> rfl
    · exfalso
      rw [List.any_eq_true] at hany
      obtain ⟨c, hc, hne⟩ := hany
      have hc2 : c ∈ afterSpokes.Status.Conditions := by
        split at hc
        · exact hc
        · exact hc
      exact (of_decide_eq_true hne) (hall c hc2)
  · rw [if_neg hany]
    have hall : ∀ c ∈ afterSpokes.Status.Conditions, c.Status = c.WantStatus := by
      intro c hc
      by_contra hne
      apply hany
      rw [List.any_eq_true]
      refine ⟨c, ?_, decide_eq_true hne⟩
      split
      · exact hc
      · exact hc
    by_cases hs : spokeErr = none
    · subst hs
      simp only [ne_eq, not_true_eq_false, if_false]
      by_cases hh : hubErr = none
      · subst hh
        rw [if_pos (by rw [hp2]; simp)]
        refine ⟨_, rfl, rfl, rfl, fun ⟨c, hc, hne⟩ => absurd (hall c hc) hne, fun _ => ?_⟩
        simp [FleetConfig.withPhase]
      · have hne : afterSpokes.Status.Phase ≠ FleetConfigStarting := by
          rw [hp2, if_neg hh]; decide
        rw [if_neg hne]
        refine ⟨_, rfl, rfl, rfl, fun ⟨c, hc, hne⟩ => absurd (hall c hc) hne, fun _ => ?_⟩
        rw [hp2]
        simp [hh]
    · simp only [ne_eq, hs, not_false_eq_true, if_true]
      have hne : (afterSpokes.withPhase FleetConfigUnhealthy).Status.Phase ≠
          FleetConfigStarting := by
        simp only [FleetConfig.withPhase]; decide
      rw [if_neg hne]
      refine ⟨_, rfl, rfl, rfl, fun ⟨c, hc, hne⟩ => absurd (hall c hc) hne, fun _ => ?_⟩
      simp [hs, FleetConfig.withPhase]

theorem Reconcile_finalize_witness :
    (Reconcile (sampleEnvFetching sampleRunning) []).1 =
        .ret ({ Requeue := false, RequeueAfter := requeue }, none) ∧
      (Reconcile (sampleEnvFetching sampleRunning) []).2.1.map (·.Status.Phase) =
        some FleetConfigRunning := by
  obtain ⟨after, h1, _, _, _, h5⟩ :=
    Reconcile_finalize (sampleEnvFetching sampleRunning) [] sampleRunning rfl rfl (by decide)
      (by decide) (by decide) _ rfl (by decide) _ _ _ rfl _ _ _ rfl
  rw [h1]
  refine ⟨rfl, ?_⟩
  simp only [Option.map_some', Option.some.injEq]
  rw [h5 (by decide)]
  rfl

theorem ConditionsSet_refl (mc : FleetConfig) : ConditionsSet mc mc :=
  ⟨[], by simp, rfl, rfl⟩

theorem ConditionsSet_trans {a b c : FleetConfig} (h1 : ConditionsSet a b)
    (h2 : ConditionsSet b c) : ConditionsSet a c := by
  obtain ⟨cs1, hw1, hc1, hs1⟩ := h1
  obtain ⟨cs2, hw2, hc2, hs2⟩ := h2
  refine ⟨cs1 ++ cs2, ?_, ?_, hs2.trans hs1⟩
  · intro x hx
    rcases List.mem_append.mp hx with h | h
    · exact hw1 x h
    · exact hw2 x h
  · rw [hc2, hc1, List.foldl_append]

theorem ConditionsSet_of_touched {a b : FleetConfig} (h : Touched a b) : ConditionsSet a b := by
  obtain ⟨cs, js, hw, rfl⟩ := h
  exact ⟨cs, hw, rfl, rfl⟩

theorem ConditionsSet_withPhase (mc : FleetConfig) (phase : String) :
    ConditionsSet mc (mc.withPhase phase) :=
  ⟨[], by simp, rfl, rfl⟩

theorem JoinType_ne_CleanupFailed (s : Spoke) : s.JoinType ≠ FleetConfigCleanupFailed := by
  intro h
  have h2 := congrArg String.data h
  rw [Spoke.JoinType, String.data_append, String.data_append] at h2
  have h3 : ("spoke-cluster-" : String).data = 's' :: "poke-cluster-".data := rfl
  have h4 : FleetConfigCleanupFailed.data = 'C' :: "leanupFailed".data := rfl
  rw [h3, h4] at h2
  simp only [List.cons_append, List.cons.injEq] at h2
  exact absurd h2.1 (by decide)

theorem WantsTrue_foldl {spokes : List Spoke} {cover : Bool} {l cs : List Condition}
    (hl : WantsTrue spokes l) (hcs : WantsTrue spokes cs) :
    WantsTrue spokes (cs.foldl (setCondition cover) l) := by
  intro c hc ht
  rcases mem_foldl_setCondition cs hc with h | h
  · exact hl c h ht
  · exact hcs c h ht

theorem initConditions_fold (env : Env) (spokes : List Spoke) :
    ∀ acc : List Condition × Trace,
      (∀ x ∈ (spokes.foldl
          (fun acc s =>
            (acc.1 ++ [NewCondition (env.now acc.2) "" s.JoinType ConditionFalse ConditionTrue],
              acc.2 ++ [Call.now])) acc).1,
        x ∈ acc.1 ∨ x.WantStatus = ConditionTrue) ∧
      (∀ t ∈ acc.1.map (·.Type_), t ∈ (spokes.foldl
          (fun acc s =>
            (acc.1 ++ [NewCondition (env.now acc.2) "" s.JoinType ConditionFalse ConditionTrue],
              acc.2 ++ [Call.now])) acc).1.map (·.Type_)) ∧
      (∀ s ∈ spokes, s.JoinType ∈ (spokes.foldl
          (fun acc s =>
            (acc.1 ++ [NewCondition (env.now acc.2) "" s.JoinType ConditionFalse ConditionTrue],
              acc.2 ++ [Call.now])) acc).1.map (·.Type_)) := by
  induction spokes with
  | nil =>
    intro acc
    refine ⟨fun x hx => Or.inl hx, fun t ht => ht, fun s hs => by cases hs⟩
  | cons s rest ih =>
    intro acc
    rw [List.foldl_cons]
    obtain ⟨h1, h2, h3⟩ := ih
      (acc.1 ++ [NewCondition (env.now acc.2) "" s.JoinType ConditionFalse ConditionTrue],
        acc.2 ++ [Call.now])
    refine ⟨fun x hx => ?_, fun t ht => ?_, fun s2 hs2 => ?_⟩
    · rcases h1 x hx with h | h
      · rcases List.mem_append.mp h with h' | h'
        · exact Or.inl h'
        · rw [List.mem_singleton] at h'
          subst h'
          exact Or.inr rfl
      · exact Or.inr h
    · apply h2
      rw [List.map_append]
      exact List.mem_append_left _ ht
    · rcases List.mem_cons.mp hs2 with rfl | h
      · apply h2
        rw [List.map_append]
        exact List.mem_append_right _ (by simp [NewCondition])
      · exact h3 s2 h

theorem initializeStatus_conditions (env : Env) (mc : FleetConfig) (tr : Trace)
    (hwant : WantsTrue mc.Spec.Spokes.elems mc.Status.Conditions) :
    WantsTrue mc.Spec.Spokes.elems (initializeStatus env mc tr).1.Status.Conditions ∧
    FleetConfigHubInitialized ∈ (initializeStatus env mc tr).1.Status.Conditions.map (·.Type_) ∧
    (∀ s ∈ mc.Spec.Spokes.elems,
      s.JoinType ∈ (initializeStatus env mc tr).1.Status.Conditions.map (·.Type_)) ∧
    (initializeStatus env mc tr).1.Spec = mc.Spec := by
  obtain ⟨h1, h2, h3⟩ := initConditions_fold env mc.Spec.Spokes.elems
    ([NewCondition (env.now tr) FleetConfigHubInitialized FleetConfigHubInitialized
        ConditionFalse ConditionTrue,
      NewCondition (env.now (tr ++ [.now])) FleetConfigCleanupFailed FleetConfigCleanupFailed
        ConditionFalse ConditionFalse], tr ++ [.now, .now])
  have hconds : (initializeStatus env mc tr).1.Status.Conditions =
      (initConditions env mc.Spec.Spokes.elems tr).1.foldl (setCondition false)
        mc.Status.Conditions := rfl
  rw [hconds]
  refine ⟨WantsTrue_foldl hwant ?_, ?_, ?_, rfl⟩
  · intro c hc ht
    rcases h1 c hc with h | h
    · simp only [List.mem_cons, List.mem_singleton, List.not_mem_nil, or_false] at h
      rcases h with rfl | rfl
      · rfl
      · exfalso
        rcases ht with ht | ⟨s, _, ht⟩
        · revert ht; simp only [NewCondition]; decide
        · exact JoinType_ne_CleanupFailed s ht.symm
    · exact h
  · apply type_mem_foldl_setCondition
    right
    apply h2
    simp [NewCondition]
  · intro s hs
    apply type_mem_foldl_setCondition
    right
    exact h3 s hs

theorem reconcileDrive_running (env : Env) (start : FleetConfig) (tr : Trace)
    (hstart : start.Status.Phase = FleetConfigStarting)
    (hrun : (reconcileDrive env start tr).2.1.Status.Phase = FleetConfigRunning) :
    ConditionsSet start (reconcileDrive env start tr).2.1 ∧
    ∀ c ∈ (reconcileDrive env start tr).2.1.Status.Conditions, c.Status = c.WantStatus := by
  have hne1 : FleetConfigStarting ≠ FleetConfigRunning := by decide
  have hne2 : FleetConfigUnhealthy ≠ FleetConfigRunning := by decide
  have hH := handleHub_touched env start tr
  unfold reconcileDrive at hrun ⊢
  generalize handleHub env start tr = rH at hH hrun ⊢
  obtain ⟨outH, mc1, tr1⟩ := rH
  dsimp only at hH
  have hp1 : mc1.Status.Phase = FleetConfigStarting := (Touched_phase hH).trans hstart
  cases outH with
  | panic msg => exact absurd (hp1.symm.trans hrun) hne1
  | ret err =>
    dsimp only at hrun ⊢
    have hp2 : ∀ mc2 : FleetConfig,
        mc2 = (if err ≠ none then mc1.withPhase FleetConfigUnhealthy else mc1) →
        (mc2.Status.Phase = FleetConfigStarting ∨ mc2.Status.Phase = FleetConfigUnhealthy) ∧
        ConditionsSet start mc2 := by
      intro mc2 h2
      subst h2
      split
      · exact ⟨Or.inr rfl,
          ConditionsSet_trans (ConditionsSet_of_touched hH) (ConditionsSet_withPhase _ _)⟩
      · exact ⟨Or.inl hp1, ConditionsSet_of_touched hH⟩
    generalize (if err ≠ none then mc1.withPhase FleetConfigUnhealthy else mc1) = mc2
      at hp2 hrun ⊢
    obtain ⟨hph2, hcs2⟩ := hp2 mc2 rfl
    have hnot2 : mc2.Status.Phase ≠ FleetConfigRunning := by
      rcases hph2 with h | h <;> rw [h]
      · exact hne1
      · exact hne2
    cases hc : start.GetCondition FleetConfigHubInitialized with
    | none =>
      rw [hc] at hrun
      exact absurd hrun hnot2
    | some cond =>
      rw [hc] at hrun
      dsimp only at hrun ⊢
      by_cases hg : cond.Status = ConditionFalse
      · rw [if_pos hg] at hrun
        exact absurd hrun hnot2
      · rw [if_neg hg] at hrun ⊢
        have hS := handleSpokes_touched env mc2 tr1
        generalize handleSpokes env mc2 tr1 = rS at hS hrun ⊢
        obtain ⟨outS, mc3, tr2⟩ := rS
        dsimp only at hS
        have hp3 : mc3.Status.Phase = mc2.Status.Phase := Touched_phase hS
        cases outS with
        | panic msg => exact absurd (hp3 ▸ hrun) hnot2
        | ret err2 =>
          dsimp only at hrun ⊢
          have hp4 : ∀ mc4 : FleetConfig,
              mc4 = (if err2 ≠ none then mc3.withPhase FleetConfigUnhealthy else mc3) →
              (mc4.Status.Phase = FleetConfigStarting ∨
                mc4.Status.Phase = FleetConfigUnhealthy) ∧ ConditionsSet start mc4 := by
            intro mc4 h4
            subst h4
            split
            · exact ⟨Or.inr rfl,
                ConditionsSet_trans (ConditionsSet_trans hcs2 (ConditionsSet_of_touched hS))
                  (ConditionsSet_withPhase _ _)⟩
            · exact ⟨hp3 ▸ hph2, ConditionsSet_trans hcs2 (ConditionsSet_of_touched hS)⟩
          generalize (if err2 ≠ none then mc3.withPhase FleetConfigUnhealthy else mc3) = mc4
            at hp4 hrun ⊢
          obtain ⟨hph4, hcs4⟩ := hp4 mc4 rfl
          unfold finalizePhase at hrun ⊢
          by_cases hany : mc4.Status.Conditions.any (fun c => c.Status ≠ c.WantStatus) = true
          · rw [if_pos hany] at hrun
            exact absurd hrun hne2
          · rw [if_neg hany] at hrun ⊢
            have hall : ∀ c ∈ mc4.Status.Conditions, c.Status = c.WantStatus := by
              intro c hc
              by_contra hne
              apply hany
              rw [List.any_eq_true]
              exact ⟨c, hc, decide_eq_true hne⟩
            by_cases hst : mc4.Status.Phase = FleetConfigStarting
            · rw [if_pos hst]
              exact ⟨ConditionsSet_trans hcs4 (ConditionsSet_withPhase _ _), hall⟩
            · rw [if_neg hst] at hrun
              rcases hph4 with h | h
              · exact absurd h hst
              · exact absurd (h.symm.trans hrun) hne2

/-- C10 as stated fails: `sampleRunningNoFinalizer` is in phase Running, its conditions are
those written by earlier passes (HubInitialized wants True), it declares the spoke
`spoke1` and has no finalizer. The Reconcile pass only adds the finalizer: it ends with
phase Running although no joined condition of `spoke1` exists. -/
theorem Reconcile_running_without_joined :
    WantsTrue sampleRunningNoFinalizer.Spec.Spokes.elems
      sampleRunningNoFinalizer.Status.Conditions ∧
    ∃ after : FleetConfig,
      (Reconcile (sampleEnvFetching sampleRunningNoFinalizer) []).2.1 = some after ∧
      after.Status.Phase = FleetConfigRunning ∧
      (∃ s ∈ after.Spec.Spokes.elems, after.GetCondition s.JoinType = none) := by
  constructor
  · intro c hc _
    have hc2 : c = sampleHubReady ∨
        c = NewCondition 5 FleetConfigCleanupFailed FleetConfigCleanupFailed ConditionFalse
          ConditionFalse := by
      simpa [sampleRunningNoFinalizer, sampleRunning] using hc
    rcases hc2 with rfl | rfl
    · rfl
    · rename_i ht
      exfalso
      rcases ht with ht | ⟨s, _, ht⟩
      · revert ht; simp only [NewCondition]; decide
      · exact JoinType_ne_CleanupFailed s ht.symm
  · exact ⟨_, rfl, by decide, sampleSpoke "spoke1" true "registry", by decide, by decide⟩

/-- C10 (amended): whenever a Reconcile pass on a FleetConfig that has the cleanup
finalizer ends with phase Running, the HubInitialized condition exists with status True
and, for every declared spoke, the condition of type `JoinType` exists with status True,
for every starting status in which the HubInitialized and joined conditions want the
status True. -/
theorem Reconcile_running_conditions (env : Env) (tr : Trace) (mc : FleetConfig)
    (hget : env.getFleetConfig tr = .ok mc)
    (hhelper : env.newPatchHelper (tr ++ [.getFleetConfig]) mc = none)
    (hfin : FleetConfigFinalizer ∈ mc.Finalizers)
    (hwant : WantsTrue mc.Spec.Spokes.elems mc.Status.Conditions)
    (after : FleetConfig) (hafter : (Reconcile env tr).2.1 = some after)
    (hrun : after.Status.Phase = FleetConfigRunning) :
    (∃ g, after.GetCondition FleetConfigHubInitialized = some g ∧ g.Status = ConditionTrue) ∧
    ∀ s ∈ after.Spec.Spokes.elems,
      ∃ g, after.GetCondition s.JoinType = some g ∧ g.Status = ConditionTrue := by
  have hne1 : FleetConfigStarting ≠ FleetConfigRunning := by decide
  have hne3 : FleetConfigDeleting ≠ FleetConfigRunning := by decide
  rw [Reconcile_loaded env tr mc hget hhelper] at hafter
  simp only [Option.some.injEq] at hafter
  subst hafter
  by_cases hnodel : mc.DeletionTimestamp = none ∨ mc.DeletionTimestamp = some 0
  · rw [reconcileObject_normal env mc _ hfin hnodel] at hrun ⊢
    by_cases hphase : mc.Status.Phase = ""
    · rw [if_pos hphase] at hrun
      exact absurd hrun hne1
    · rw [if_neg hphase] at hrun ⊢
      obtain ⟨hw, hhub, hjoin, hspec⟩ := initializeStatus_conditions env mc
        (tr ++ [.getFleetConfig, .newPatchHelper mc]) hwant
      obtain ⟨⟨cs, hcs, hconds, hspec2⟩, hall⟩ := reconcileDrive_running env _ _
        (initializeStatus_phase env mc _) hrun
      generalize reconcileDrive env (initializeStatus env mc
        (tr ++ [.getFleetConfig, .newPatchHelper mc])).1 (initializeStatus env mc
        (tr ++ [.getFleetConfig, .newPatchHelper mc])).2 = r at hconds hspec2 hall ⊢
      have hwfinal : WantsTrue mc.Spec.Spokes.elems r.2.1.Status.Conditions := by
        rw [hconds]
        exact WantsTrue_foldl hw (fun c hc _ => hcs c hc)
      have hget : ∀ t : String,
          t ∈ (initializeStatus env mc
            (tr ++ [.getFleetConfig, .newPatchHelper mc])).1.Status.Conditions.map (·.Type_) →
          (t = FleetConfigHubInitialized ∨ ∃ s ∈ mc.Spec.Spokes.elems, t = s.JoinType) →
          ∃ g, r.2.1.GetCondition t = some g ∧ g.Status = ConditionTrue := by
        intro t ht hkind
        have hmem : t ∈ r.2.1.Status.Conditions.map (·.Type_) := by
          rw [hconds]
          exact type_mem_foldl_setCondition cs (Or.inl ht)
        obtain ⟨g, hg, hgmem, hgt⟩ := GetCondition_of_type_mem hmem
        refine ⟨g, hg, ?_⟩
        rw [hall g hgmem]
        exact hwfinal g hgmem (hgt ▸ hkind)
      refine ⟨hget _ hhub (Or.inl rfl), fun s hs => ?_⟩
      rw [hspec2, hspec] at hs
      exact hget _ (hjoin s hs) (Or.inr ⟨s, hs, rfl⟩)
  · exfalso
    by_cases hphase : mc.Status.Phase = FleetConfigDeleting
    · rw [reconcileObject_deleting env mc _ hfin hnodel hphase] at hrun
      have hobj := cleanup_object env mc (tr ++ [.getFleetConfig, .newPatchHelper mc])
      generalize cleanup env mc (tr ++ [.getFleetConfig, .newPatchHelper mc]) = r at hrun hobj
      obtain ⟨out, mc1, tr1⟩ := r
      have hp : mc1.Status.Phase = FleetConfigDeleting := by
        rcases hobj with ⟨_, h⟩ | ⟨_, h⟩
        · dsimp only at h; rw [h]; exact hphase
        · dsimp only at h; rw [h]; exact hphase
      cases out with
      | panic msg => exact hne3 (hp.symm.trans hrun)
      | ret err =>
        cases err with
        | none => exact hne3 (hp.symm.trans hrun)
        | some e => exact hne3 (hp.symm.trans hrun)
    · rw [reconcileObject_start_deleting env mc _ hfin hnodel hphase] at hrun
      exact hne3 hrun

theorem Reconcile_running_conditions_witness :
    ∃ after : FleetConfig,
      (Reconcile (sampleEnvJoined sampleWithSpoke) []).2.1 = some after ∧
      after.Status.Phase = FleetConfigRunning ∧
      (∃ g, after.GetCondition FleetConfigHubInitialized = some g ∧ g.Status = ConditionTrue) ∧
      ∀ s ∈ after.Spec.Spokes.elems,
        ∃ g, after.GetCondition s.JoinType = some g ∧ g.Status = ConditionTrue :=
  ⟨_, rfl, by decide,
    Reconcile_running_conditions (sampleEnvJoined sampleWithSpoke) [] sampleWithSpoke rfl rfl
      (by decide)
      (by
        intro c hc ht
        have hc2 : c = sampleHubReady ∨
            c = NewCondition 5 FleetConfigCleanupFailed FleetConfigCleanupFailed ConditionFalse
              ConditionFalse := by
          simpa [sampleWithSpoke, sampleRunning] using hc
        rcases hc2 with rfl | rfl
        · rfl
        · exfalso
          rcases ht with ht | ⟨s, _, ht⟩
          · revert ht; simp only [NewCondition]; decide
          · exact JoinType_ne_CleanupFailed s ht.symm)
      _ rfl (by decide)⟩


/-! ## The first passes of `Reconcile` -/

/-- C13: when the fetched FleetConfig has no finalizer
"fleetconfig.open-cluster-management.io/cleanup", one Reconcile pass returns Requeue = true
without error; the object it patches is the fetched one with that finalizer appended after
the existing ones, so spec, phase, conditions and joined spokes are unchanged; and the only
calls of the pass are the fetch, the making of the patch helper and the patch. -/
theorem Reconcile_adds_finalizer (env : Env) (tr : Trace) (mc : FleetConfig)
    (hget : env.getFleetConfig tr = .ok mc)
    (hhelper : env.newPatchHelper (tr ++ [.getFleetConfig]) mc = none)
    (hfin : FleetConfigFinalizer ∉ mc.Finalizers) :
    ∃ after : FleetConfig,
      Reconcile env tr =
        (.ret ({ Requeue := true, RequeueAfter := 0 }, none), some after,
          tr ++ [.getFleetConfig, .newPatchHelper mc, .patch after]) ∧
      after.Finalizers = mc.Finalizers ++ ["fleetconfig.open-cluster-management.io/cleanup"] ∧
      after.Spec = mc.Spec ∧ after.Status = mc.Status ∧ after.Name = mc.Name ∧
      after.DeletionTimestamp = mc.DeletionTimestamp := by
  have hc : ¬ (mc.Finalizers.contains FleetConfigFinalizer = true) := by
    simpa using hfin
  refine ⟨{ mc with Finalizers := mc.Finalizers ++ [FleetConfigFinalizer] }, ?_, rfl, rfl, rfl,
    rfl, rfl⟩
  rw [Reconcile_loaded env tr mc hget hhelper]
  unfold reconcileObject
  rw [if_pos hc]
  simp

theorem Reconcile_adds_finalizer_witness :
    ∃ after : FleetConfig,
      Reconcile (sampleEnvFetching sampleRunningNoFinalizer) [] =
        (.ret ({ Requeue := true, RequeueAfter := 0 }, none), some after,
          [] ++ [.getFleetConfig, .newPatchHelper sampleRunningNoFinalizer, .patch after]) ∧
      after.Finalizers = sampleRunningNoFinalizer.Finalizers ++
        ["fleetconfig.open-cluster-management.io/cleanup"] ∧
      after.Spec = sampleRunningNoFinalizer.Spec ∧
      after.Status = sampleRunningNoFinalizer.Status ∧
      after.Name = sampleRunningNoFinalizer.Name ∧
      after.DeletionTimestamp = sampleRunningNoFinalizer.DeletionTimestamp :=
  Reconcile_adds_finalizer (sampleEnvFetching sampleRunningNoFinalizer) []
    sampleRunningNoFinalizer rfl rfl (by decide)

theorem setCondition_false (l : List Condition) (c : Condition) :
    setCondition false l c = if ∃ e ∈ l, e.Type_ = c.Type_ then l else l ++ [c] := by
  rw [setCondition_eq]
  split
  · rw [List.map_congr_left, List.map_id]
    intro e _
    simp
  · rfl

/-- The conditions that `SetConditions(false, cs...)` adds: they are appended to the
existing ones, which stay as they were, in the order of `cs`, one for each type of `cs`
that was missing. -/
theorem foldl_setCondition_false (cs : List Condition) :
    ∀ l : List Condition, ∃ added : List Condition,
      cs.foldl (setCondition false) l = l ++ added ∧
      added.Sublist cs ∧
      (∀ c ∈ added, ∀ e ∈ l, e.Type_ ≠ c.Type_) ∧
      (added.map (·.Type_)).Nodup ∧
      (∀ c ∈ cs, c.Type_ ∈ (l ++ added).map (·.Type_)) := by
  induction cs with
  | nil =>
    intro l
    exact ⟨[], by simp, List.Sublist.refl _, by simp, by simp, by simp⟩
  | cons c rest ih =>
    intro l
    rw [List.foldl_cons, setCondition_false]
    by_cases hp : ∃ e ∈ l, e.Type_ = c.Type_
    · rw [if_pos hp]
      obtain ⟨added, h1, h2, h3, h4, h5⟩ := ih l
      refine ⟨added, h1, List.Sublist.cons _ h2, h3, h4, ?_⟩
      intro x hx
      rcases List.mem_cons.mp hx with rfl | hx
      · obtain ⟨e, he, hte⟩ := hp
        rw [List.map_append]
        exact List.mem_append_left _ (List.mem_map.mpr ⟨e, he, hte⟩)
      · exact h5 x hx
    · rw [if_neg hp]
      obtain ⟨added, h1, h2, h3, h4, h5⟩ := ih (l ++ [c])
      refine ⟨c :: added, ?_, List.Sublist.cons₂ _ h2, ?_, ?_, ?_⟩
      · rw [h1]; simp
      · intro x hx e he
        rcases List.mem_cons.mp hx with rfl | hx
        · exact fun h => hp ⟨e, he, h⟩
        · exact h3 x hx e (List.mem_append_left _ he)
      · rw [List.map_cons, List.nodup_cons]
        refine ⟨?_, h4⟩
        intro hm
        obtain ⟨x, hx, hxt⟩ := List.mem_map.mp hm
        exact h3 x hx c (by simp) hxt.symm
      · intro x hx
        rcases List.mem_cons.mp hx with rfl | hx
        · simp
        · have := h5 x hx
          simpa using this
/-- The initial conditions built at lines 123-134 of `Reconcile`: every spoke adds one
condition and one reading of the clock. -/
theorem initConditions_loop (env : Env) (spokes : List Spoke) :
    ∀ acc : List Condition × Trace,
      (∀ x ∈ (spokes.foldl
          (fun acc s =>
            (acc.1 ++ [NewCondition (env.now acc.2) "" s.JoinType ConditionFalse ConditionTrue],
              acc.2 ++ [Call.now])) acc).1,
        x ∈ acc.1 ∨ (x.Status = ConditionFalse ∧ x.WantStatus = ConditionTrue ∧
          ∃ s ∈ spokes, x.Type_ = s.JoinType)) ∧
      (spokes.foldl
          (fun acc s =>
            (acc.1 ++ [NewCondition (env.now acc.2) "" s.JoinType ConditionFalse ConditionTrue],
              acc.2 ++ [Call.now])) acc).2 = acc.2 ++ List.replicate spokes.length Call.now := by
  induction spokes with
  | nil =>
    intro acc
    exact ⟨fun x hx => Or.inl hx, by simp⟩
  | cons s rest ih =>
    intro acc
    rw [List.foldl_cons]
    obtain ⟨h1, h2⟩ := ih
      (acc.1 ++ [NewCondition (env.now acc.2) "" s.JoinType ConditionFalse ConditionTrue],
        acc.2 ++ [Call.now])
    refine ⟨fun x hx => ?_, ?_⟩
    · rcases h1 x hx with h | ⟨h, h', t, ht, htt⟩
      · rcases List.mem_append.mp h with h' | h'
        · exact Or.inl h'
        · rw [List.mem_singleton] at h'
          subst h'
          exact Or.inr ⟨rfl, rfl, s, by simp, rfl⟩
      · exact Or.inr ⟨h, h', t, List.mem_cons_of_mem _ ht, htt⟩
    · rw [h2]
      simp [List.replicate_succ]

/-- C12: for a fetched FleetConfig with the finalizer, no deletion timestamp and an empty
phase, one Reconcile pass returns Requeue = true without error; the only calls of the pass
are the fetch, the making of the patch helper, one reading of the clock for each initial
condition and the patch, so neither the hub nor a spoke is driven; the patched object has
phase Initializing and the spec, finalizers and joined spokes it had; its conditions are
the previous ones, unchanged, followed by added conditions, each of status False, of a
type that was missing, and either HubInitialized wanting True, CleanupFailed wanting False
or the JoinType of a spoke wanting True; no two added conditions share a type, and every
one of these types that was missing is added. With no spokes and no previous conditions
the conditions are exactly HubInitialized = False and CleanupFailed = False. -/
theorem Reconcile_first_pass (env : Env) (tr : Trace) (mc : FleetConfig)
    (hget : env.getFleetConfig tr = .ok mc)
    (hhelper : env.newPatchHelper (tr ++ [.getFleetConfig]) mc = none)
    (hfin : FleetConfigFinalizer ∈ mc.Finalizers)
    (hnodel : mc.DeletionTimestamp = none ∨ mc.DeletionTimestamp = some 0)
    (hphase : mc.Status.Phase = "") :
    ∃ (after : FleetConfig) (added : List Condition),
      Reconcile env tr =
        (.ret ({ Requeue := true, RequeueAfter := 0 }, none), some after,
          tr ++ [.getFleetConfig, .newPatchHelper mc] ++
            List.replicate (mc.Spec.Spokes.elems.length + 2) .now ++ [.patch after]) ∧
      after.Status.Phase = "Initializing" ∧
      after.Spec = mc.Spec ∧ after.Finalizers = mc.Finalizers ∧
      after.Status.JoinedSpokes = mc.Status.JoinedSpokes ∧
      after.Status.Conditions = mc.Status.Conditions ++ added ∧
      (∀ c ∈ added, c.Status = ConditionFalse ∧
        (∀ e ∈ mc.Status.Conditions, e.Type_ ≠ c.Type_) ∧
        ((c.Type_ = FleetConfigHubInitialized ∧ c.WantStatus = ConditionTrue) ∨
         (c.Type_ = FleetConfigCleanupFailed ∧ c.WantStatus = ConditionFalse) ∨
         (∃ s ∈ mc.Spec.Spokes.elems, c.Type_ = s.JoinType ∧ c.WantStatus = ConditionTrue))) ∧
      (added.map (·.Type_)).Nodup ∧
      (∀ t : String,
        (t = FleetConfigHubInitialized ∨ t = FleetConfigCleanupFailed ∨
          ∃ s ∈ mc.Spec.Spokes.elems, t = s.JoinType) →
        (∀ e ∈ mc.Status.Conditions, e.Type_ ≠ t) → t ∈ added.map (·.Type_)) ∧
      (mc.Spec.Spokes.elems = [] → mc.Status.Conditions = [] →
        after.Status.Conditions.map (fun c => (c.Type_, c.Status)) =
          [(FleetConfigHubInitialized, ConditionFalse),
           (FleetConfigCleanupFailed, ConditionFalse)]) := by
  obtain ⟨hmem, htrace⟩ := initConditions_loop env mc.Spec.Spokes.elems
    ([NewCondition (env.now (tr ++ [.getFleetConfig, .newPatchHelper mc]))
        FleetConfigHubInitialized FleetConfigHubInitialized ConditionFalse ConditionTrue,
      NewCondition (env.now (tr ++ [.getFleetConfig, .newPatchHelper mc] ++ [.now]))
        FleetConfigCleanupFailed FleetConfigCleanupFailed ConditionFalse ConditionFalse],
      tr ++ [.getFleetConfig, .newPatchHelper mc] ++ [.now, .now])
  obtain ⟨_, htypes, hjoin⟩ := initConditions_fold env mc.Spec.Spokes.elems
    ([NewCondition (env.now (tr ++ [.getFleetConfig, .newPatchHelper mc]))
        FleetConfigHubInitialized FleetConfigHubInitialized ConditionFalse ConditionTrue,
      NewCondition (env.now (tr ++ [.getFleetConfig, .newPatchHelper mc] ++ [.now]))
        FleetConfigCleanupFailed FleetConfigCleanupFailed ConditionFalse ConditionFalse],
      tr ++ [.getFleetConfig, .newPatchHelper mc] ++ [.now, .now])
  obtain ⟨added, hfold, hsub, hnew, hnd, hcov⟩ := foldl_setCondition_false
    (initConditions env mc.Spec.Spokes.elems (tr ++ [.getFleetConfig, .newPatchHelper mc])).1
    mc.Status.Conditions
  have hconds : (initializeStatus env mc
      (tr ++ [.getFleetConfig, .newPatchHelper mc])).1.Status.Conditions =
      mc.Status.Conditions ++ added := hfold
  have htr : (initializeStatus env mc (tr ++ [.getFleetConfig, .newPatchHelper mc])).2 =
      tr ++ [.getFleetConfig, .newPatchHelper mc] ++
        List.replicate (mc.Spec.Spokes.elems.length + 2) .now := by
    have : (initializeStatus env mc (tr ++ [.getFleetConfig, .newPatchHelper mc])).2 =
        tr ++ [.getFleetConfig, .newPatchHelper mc] ++ [.now, .now] ++
          List.replicate mc.Spec.Spokes.elems.length Call.now := htrace
    rw [this, Nat.add_comm, List.replicate_add, ← List.append_assoc]
    rfl
  refine ⟨(initializeStatus env mc (tr ++ [.getFleetConfig, .newPatchHelper mc])).1, added,
    ?_, rfl, rfl, rfl, rfl, hconds, ?_, hnd, ?_, ?_⟩
  · rw [Reconcile_loaded env tr mc hget hhelper, reconcileObject_normal env mc _ hfin hnodel,
      if_pos hphase]
    simp only [htr]
  · intro c hc
    have hin := hsub.subset hc
    refine ⟨?_, hnew c hc, ?_⟩
    · rcases hmem c hin with h | h
      · simp only [List.mem_cons, List.mem_singleton, List.not_mem_nil, or_false] at h
        rcases h with rfl | rfl <;> rfl
      · exact h.1
    · rcases hmem c hin with h | ⟨_, hw, s, hs, ht⟩
      · simp only [List.mem_cons, List.mem_singleton, List.not_mem_nil, or_false] at h
        rcases h with rfl | rfl
        · exact Or.inl ⟨rfl, rfl⟩
        · exact Or.inr (Or.inl ⟨rfl, rfl⟩)
      · exact Or.inr (Or.inr ⟨s, hs, ht, hw⟩)
  · intro t ht habsent
    have hin : t ∈ (initConditions env mc.Spec.Spokes.elems
        (tr ++ [.getFleetConfig, .newPatchHelper mc])).1.map (·.Type_) := by
      rcases ht with rfl | rfl | ⟨s, hs, rfl⟩
      · exact htypes _ (by simp [NewCondition])
      · exact htypes _ (by simp [NewCondition])
      · exact hjoin s hs
    obtain ⟨c, hc, rfl⟩ := List.mem_map.mp hin
    have := hcov c hc
    rw [List.map_append, List.mem_append] at this
    rcases this with h | h
    · obtain ⟨e, he, hte⟩ := List.mem_map.mp h
      exact absurd hte (habsent e he)
    · exact h
  · intro hs hc
    have : (initializeStatus env mc
        (tr ++ [.getFleetConfig, .newPatchHelper mc])).1.Status.Conditions =
        (initConditions env mc.Spec.Spokes.elems
          (tr ++ [.getFleetConfig, .newPatchHelper mc])).1.foldl (setCondition false)
          mc.Status.Conditions := rfl
    rw [this, hs, hc]
    rfl

theorem Reconcile_first_pass_witness :
    ∃ (after : FleetConfig) (added : List Condition),
      Reconcile (sampleEnvFetching sampleFresh) [] =
        (.ret ({ Requeue := true, RequeueAfter := 0 }, none), some after,
          [] ++ [.getFleetConfig, .newPatchHelper sampleFresh] ++
            List.replicate (sampleFresh.Spec.Spokes.elems.length + 2) .now ++ [.patch after]) ∧
      after.Status.Phase = "Initializing" ∧
      after.Spec = sampleFresh.Spec ∧ after.Finalizers = sampleFresh.Finalizers ∧
      after.Status.JoinedSpokes = sampleFresh.Status.JoinedSpokes ∧
      after.Status.Conditions = sampleFresh.Status.Conditions ++ added ∧
      (∀ c ∈ added, c.Status = ConditionFalse ∧
        (∀ e ∈ sampleFresh.Status.Conditions, e.Type_ ≠ c.Type_) ∧
        ((c.Type_ = FleetConfigHubInitialized ∧ c.WantStatus = ConditionTrue) ∨
         (c.Type_ = FleetConfigCleanupFailed ∧ c.WantStatus = ConditionFalse) ∨
         (∃ s ∈ sampleFresh.Spec.Spokes.elems,
            c.Type_ = s.JoinType ∧ c.WantStatus = ConditionTrue))) ∧
      (added.map (·.Type_)).Nodup ∧
      (∀ t : String,
        (t = FleetConfigHubInitialized ∨ t = FleetConfigCleanupFailed ∨
          ∃ s ∈ sampleFresh.Spec.Spokes.elems, t = s.JoinType) →
        (∀ e ∈ sampleFresh.Status.Conditions, e.Type_ ≠ t) → t ∈ added.map (·.Type_)) ∧
      (sampleFresh.Spec.Spokes.elems = [] → sampleFresh.Status.Conditions = [] →
        after.Status.Conditions.map (fun c => (c.Type_, c.Status)) =
          [(FleetConfigHubInitialized, ConditionFalse),
           (FleetConfigCleanupFailed, ConditionFalse)]) :=
  Reconcile_first_pass (sampleEnvFetching sampleFresh) [] sampleFresh rfl rfl (by decide)
    (by decide) rfl


/-! ## The hub gate of `Reconcile` -/

/-- C11 does not hold of the code: `Reconcile` tests the copy of the HubInitialized
condition that it read before `handleHub` ran. On a Running FleetConfig with the spoke
`spoke1` whose ClusterManager reports a degraded registration, `handleHub` sets
HubInitialized to False, yet the pass does not return Requeue = true: it goes on to
`handleSpokes`, which reads the ManagedCluster and runs `clusteradm accept`, and returns
RequeueAfter = 30 s with the HubInitialized condition still False. -/
theorem Reconcile_spokes_after_degraded_hub :
    (∃ g, sampleWithSpoke.GetCondition FleetConfigHubInitialized = some g ∧
      g.Status = ConditionTrue) ∧
    (∃ g, (handleHub (sampleEnvDegraded sampleWithSpoke)
        (initializeStatus (sampleEnvDegraded sampleWithSpoke) sampleWithSpoke
          [.getFleetConfig, .newPatchHelper sampleWithSpoke]).1
        (initializeStatus (sampleEnvDegraded sampleWithSpoke) sampleWithSpoke
          [.getFleetConfig, .newPatchHelper sampleWithSpoke]).2).2.1.GetCondition
          FleetConfigHubInitialized = some g ∧
      g.Status = ConditionFalse) ∧
    (Reconcile (sampleEnvDegraded sampleWithSpoke) []).1 =
      .ret ({ Requeue := false, RequeueAfter := requeue }, none) ∧
    (∃ after : FleetConfig,
      (Reconcile (sampleEnvDegraded sampleWithSpoke) []).2.1 = some after ∧
      ∃ g, after.GetCondition FleetConfigHubInitialized = some g ∧
        g.Status = ConditionFalse) ∧
    Call.getManagedCluster { Host := "https://hub" } "spoke1" ∈
      (Reconcile (sampleEnvDegraded sampleWithSpoke) []).2.2 ∧
    Call.exec ["accept", "--cluster", "spoke1"] ∈
      (Reconcile (sampleEnvDegraded sampleWithSpoke) []).2.2 := by
  refine ⟨⟨_, rfl, by decide⟩, ⟨_, rfl, by decide⟩, rfl, ⟨_, rfl, _, rfl, by decide⟩, ?_, ?_⟩
  · decide
  · decide


/-! ## Create validation -/

theorem isKubeconfigValid_some (k : Kubeconfig) :
    isKubeconfigValid (some k) = .ret (k.exactlyOne, k.violation.headD "") := by
  obtain ⟨ref, inCluster, context⟩ := k
  cases ref <;> cases inCluster <;> rfl

theorem Kubeconfig_violation_eq (k : Kubeconfig) :
    k.violation = if k.exactlyOne then [] else [k.violation.headD ""] := by
  obtain ⟨ref, inCluster, context⟩ := k
  cases ref <;> cases inCluster <;> rfl

theorem validateHosted_eq (spokes : Slice Spoke) (i : Nat) (spoke : Spoke)
    (allErrs : List FieldError) :
    validateHosted spokes i spoke allErrs =
      .ret (allErrs ++
        (if spoke.Klusterlet.Mode = "Hosted" then
          match spoke.Klusterlet.ManagedClusterKubeconfig with
          | none =>
            [{ Field := { Name := "spokes", Index := some i }, BadValue := .spokes spokes,
               Detail := "managedClusterKubeconfig is required in hosted mode" }]
          | some k =>
            k.violation.map fun msg =>
              { Field := { Name := "spokes", Index := some i }, BadValue := .spokes spokes,
                Detail := msg }
        else [])) := by
  unfold validateHosted
  by_cases hm : spoke.Klusterlet.Mode = "Hosted"
  · have hm2 : spoke.Klusterlet.Mode = InstallModeHosted := hm
    rw [if_pos hm2, if_pos hm]
    cases hk : spoke.Klusterlet.ManagedClusterKubeconfig with
    | none => rfl
    | some k =>
      simp only [isKubeconfigValid_some]
      rw [Kubeconfig_violation_eq k]
      cases k.exactlyOne <;> simp
  · have hm2 : ¬ spoke.Klusterlet.Mode = InstallModeHosted := hm
    rw [if_neg hm2, if_neg hm]
    simp

theorem validateSpokes_eq (spokes : Slice Spoke) (l : List Spoke)
    (hl : ∀ s ∈ l, s.Kubeconfig ≠ none) :
    ∀ (i : Nat) (allErrs : List FieldError),
      validateSpokes spokes l i allErrs =
        .ret (allErrs ++ (l.enumFrom i).flatMap fun p => spokeViolations spokes p.1 p.2) := by
  induction l with
  | nil => intro i allErrs; simp [validateSpokes]
  | cons s rest ih =>
    intro i allErrs
    have hrest : ∀ s ∈ rest, s.Kubeconfig ≠ none := fun x hx => hl x (List.mem_cons_of_mem _ hx)
    obtain ⟨k, hk⟩ := Option.ne_none_iff_exists'.mp (hl s (List.mem_cons_self _ _))
    rw [validateSpokes, validateHosted_eq]
    simp only [hk, isKubeconfigValid_some]
    have hv : spokeViolations spokes i s =
        (if s.Klusterlet.Mode = "Hosted" then
          match s.Klusterlet.ManagedClusterKubeconfig with
          | none =>
            [{ Field := { Name := "spokes", Index := some i }, BadValue := .spokes spokes,
               Detail := "managedClusterKubeconfig is required in hosted mode" }]
          | some k =>
            k.violation.map fun msg =>
              { Field := { Name := "spokes", Index := some i }, BadValue := .spokes spokes,
                Detail := msg }
        else []) ++
        (k.violation.map fun msg =>
          { Field := { Name := "spokes", Index := some i }, BadValue := .spokes spokes,
            Detail := msg }) := by
      simp only [spokeViolations, hk]
    rw [List.enumFrom_cons, List.flatMap_cons]
    dsimp only
    rw [hv, Kubeconfig_violation_eq k]
    cases k.exactlyOne
    · simp only [Bool.false_eq_true, not_false_eq_true, if_true, if_false]
      rw [ih hrest]
      simp
    · simp only [not_true_eq_false, if_true, if_false]
      rw [ih hrest]
      simp

theorem Kubeconfig_violation_nil_iff (k : Kubeconfig) :
    k.violation = [] ↔ k.exactlyOne = true := by
  rw [Kubeconfig_violation_eq k]
  cases k.exactlyOne <;> simp

theorem spokeViolations_nil_iff (spokes : Slice Spoke) (i : Nat) (s : Spoke) (k : Kubeconfig)
    (hk : s.Kubeconfig = some k) :
    spokeViolations spokes i s = [] ↔
      k.exactlyOne = true ∧
      (s.Klusterlet.Mode = "Hosted" →
        ∃ m, s.Klusterlet.ManagedClusterKubeconfig = some m ∧ m.exactlyOne = true) := by
  unfold spokeViolations
  rw [List.append_eq_nil, hk]
  simp only [List.map_eq_nil_iff, Kubeconfig_violation_nil_iff]
  rw [and_comm]
  apply and_congr Iff.rfl
  by_cases hm : s.Klusterlet.Mode = "Hosted"
  · rw [if_pos hm]
    cases hmck : s.Klusterlet.ManagedClusterKubeconfig with
    | none => simp [hm]
    | some m => simp [hm, Kubeconfig_violation_nil_iff]
  · rw [if_neg hm]
    simp [hm]

/-- The value of `ValidateCreate` on a FleetConfig whose hub and spoke kubeconfigs are
not nil. -/
theorem ValidateCreate_eq (mc : FleetConfig) (hk : Kubeconfig)
    (hhub : mc.Spec.Hub.Kubeconfig = some hk)
    (hspokes : ∀ s ∈ mc.Spec.Spokes.elems, s.Kubeconfig ≠ none) :
    ValidateCreate mc =
      .ret (if (createViolations mc).length > 0
        then some { Name := mc.Name, Errs := createViolations mc } else none) := by
  unfold ValidateCreate
  rw [hhub, isKubeconfigValid_some, ← hhub]
  simp only []
  rw [validateSpokes_eq mc.Spec.Spokes mc.Spec.Spokes.elems hspokes]
  have hv : createViolations mc =
      (if ¬ hk.exactlyOne = true then
        [{ Field := { Name := "hub", Index := none },
           BadValue := .kubeconfig mc.Spec.Hub.Kubeconfig, Detail := hk.violation.headD "" }]
      else []) ++
      (mc.Spec.Spokes.elems.enumFrom 0).flatMap
        fun p => spokeViolations mc.Spec.Spokes p.1 p.2 := by
    unfold createViolations
    rw [List.enum_eq_enumFrom]
    congr 1
    rw [hhub]
    obtain ⟨ref, inCluster, context⟩ := hk
    cases ref <;> cases inCluster <;> rfl
  rw [← hv]
  simp only []
  split <;> rfl

/-- C15: on a FleetConfig whose hub kubeconfig and spoke kubeconfigs are not nil,
`ValidateCreate` returns; it returns an error exactly when the hub kubeconfig or the
kubeconfig of a spoke does not set exactly one of secretReference and inCluster, or a spoke
in the mode "Hosted" has a managedClusterKubeconfig that is nil or does not set exactly
one of them; the error is one Invalid error for the name of the FleetConfig that holds
every violation, those of the hub first and then those of each spoke in turn; and a nil
managedClusterKubeconfig on the Hosted spoke of index i is reported at `spokes[i]` as
"managedClusterKubeconfig is required in hosted mode". -/
theorem ValidateCreate_error_iff (mc : FleetConfig) (hk : Kubeconfig)
    (hhub : mc.Spec.Hub.Kubeconfig = some hk)
    (hspokes : ∀ s ∈ mc.Spec.Spokes.elems, s.Kubeconfig ≠ none) :
    ∃ err : Option InvalidError, ValidateCreate mc = .ret err ∧
      (err ≠ none ↔
        (hk.exactlyOne = false ∨
         ∃ s ∈ mc.Spec.Spokes.elems,
           (∃ k, s.Kubeconfig = some k ∧ k.exactlyOne = false) ∨
           (s.Klusterlet.Mode = "Hosted" ∧
             (s.Klusterlet.ManagedClusterKubeconfig = none ∨
              ∃ k, s.Klusterlet.ManagedClusterKubeconfig = some k ∧ k.exactlyOne = false)))) ∧
      (∀ e, err = some e → e.Name = mc.Name ∧ e.Errs = createViolations mc) ∧
      (∀ (i : Nat) (s : Spoke), mc.Spec.Spokes.elems[i]? = some s →
        s.Klusterlet.Mode = "Hosted" → s.Klusterlet.ManagedClusterKubeconfig = none →
        ∃ e, err = some e ∧
          { Field := { Name := "spokes", Index := some i }, BadValue := .spokes mc.Spec.Spokes,
            Detail := "managedClusterKubeconfig is required in hosted mode" } ∈ e.Errs) := by
  have hnil : createViolations mc = [] ↔
      ¬ (hk.exactlyOne = false ∨
         ∃ s ∈ mc.Spec.Spokes.elems,
           (∃ k, s.Kubeconfig = some k ∧ k.exactlyOne = false) ∨
           (s.Klusterlet.Mode = "Hosted" ∧
             (s.Klusterlet.ManagedClusterKubeconfig = none ∨
              ∃ k, s.Klusterlet.ManagedClusterKubeconfig = some k ∧
                k.exactlyOne = false))) := by
    unfold createViolations
    rw [List.append_eq_nil, hhub, List.flatMap_eq_nil_iff]
    simp only [List.map_eq_nil_iff, Kubeconfig_violation_nil_iff]
    constructor
    · rintro ⟨h1, h2⟩ hbad
      rcases hbad with hbad | ⟨s, hs, hbad⟩
      · rw [h1] at hbad; exact absurd hbad (by decide)
      · obtain ⟨k, hk2⟩ := Option.ne_none_iff_exists'.mp (hspokes s hs)
        obtain ⟨i, hi⟩ := List.getElem?_of_mem hs
        have hp : (i, s) ∈ mc.Spec.Spokes.elems.enum := List.mk_mem_enum_iff_getElem?.mpr hi
        obtain ⟨h3, h4⟩ := (spokeViolations_nil_iff mc.Spec.Spokes i s k hk2).mp (h2 _ hp)
        rcases hbad with ⟨k3, hk3, hb⟩ | ⟨hm, hb⟩
        · rw [hk2] at hk3
          rw [← Option.some.inj hk3, h3] at hb
          exact absurd hb (by decide)
        · obtain ⟨m, hm1, hm2⟩ := h4 hm
          rcases hb with hb | ⟨m3, hm3, hb⟩
          · rw [hm1] at hb; exact absurd hb (by simp)
          · rw [hm1] at hm3
            rw [← Option.some.inj hm3, hm2] at hb
            exact absurd hb (by decide)
    · intro hgood
      refine ⟨?_, ?_⟩
      · cases he : hk.exactlyOne with
        | true => rfl
        | false => exact absurd (Or.inl he) hgood
      · intro p hp
        have hs : p.2 ∈ mc.Spec.Spokes.elems := List.snd_mem_of_mem_enum hp
        obtain ⟨k, hk2⟩ := Option.ne_none_iff_exists'.mp (hspokes p.2 hs)
        rw [spokeViolations_nil_iff mc.Spec.Spokes p.1 p.2 k hk2]
        refine ⟨?_, fun hm => ?_⟩
        · cases he : k.exactlyOne with
          | true => rfl
          | false => exact absurd (Or.inr ⟨p.2, hs, Or.inl ⟨k, hk2, he⟩⟩) hgood
        · cases hmck : p.2.Klusterlet.ManagedClusterKubeconfig with
          | none => exact absurd (Or.inr ⟨p.2, hs, Or.inr ⟨hm, Or.inl hmck⟩⟩) hgood
          | some m =>
            refine ⟨m, rfl, ?_⟩
            cases he : m.exactlyOne with
            | true => rfl
            | false =>
              exact absurd (Or.inr ⟨p.2, hs, Or.inr ⟨hm, Or.inr ⟨m, hmck, he⟩⟩⟩) hgood
  refine ⟨_, ValidateCreate_eq mc hk hhub hspokes, ?_, ?_, ?_⟩
  · rw [← not_iff_not, not_not, ← hnil]
    cases hc : createViolations mc with
    | nil => simp
    | cons a b => simp
  · intro e he
    split at he
    · rw [← Option.some.inj he]
      exact ⟨rfl, rfl⟩
    · cases he
  · intro i s hi hm hmck
    have hp : (i, s) ∈ mc.Spec.Spokes.elems.enum := List.mk_mem_enum_iff_getElem?.mpr hi
    have hin : FieldError.mk (FieldPath.mk "spokes" (some i)) (BadValue.spokes mc.Spec.Spokes)
        "managedClusterKubeconfig is required in hosted mode" ∈ createViolations mc := by
      unfold createViolations
      apply List.mem_append_right
      rw [List.mem_flatMap]
      refine ⟨(i, s), hp, ?_⟩
      unfold spokeViolations
      apply List.mem_append_left
      rw [if_pos hm, hmck]
      simp
    have hpos : (createViolations mc).length > 0 := List.length_pos_of_mem hin
    rw [if_pos hpos]
    exact ⟨_, rfl, hin⟩

theorem ValidateCreate_error_iff_witness :
    ∃ err : Option InvalidError, ValidateCreate sampleCreateInvalid = .ret err ∧
      (err ≠ none ↔
        (({ SecretReference := none, InCluster := false, Context := "" } :
            Kubeconfig).exactlyOne = false ∨
         ∃ s ∈ sampleCreateInvalid.Spec.Spokes.elems,
           (∃ k, s.Kubeconfig = some k ∧ k.exactlyOne = false) ∨
           (s.Klusterlet.Mode = "Hosted" ∧
             (s.Klusterlet.ManagedClusterKubeconfig = none ∨
              ∃ k, s.Klusterlet.ManagedClusterKubeconfig = some k ∧ k.exactlyOne = false)))) ∧
      (∀ e, err = some e →
        e.Name = sampleCreateInvalid.Name ∧ e.Errs = createViolations sampleCreateInvalid) ∧
      (∀ (i : Nat) (s : Spoke), sampleCreateInvalid.Spec.Spokes.elems[i]? = some s →
        s.Klusterlet.Mode = "Hosted" → s.Klusterlet.ManagedClusterKubeconfig = none →
        ∃ e, err = some e ∧
          { Field := { Name := "spokes", Index := some i },
            BadValue := .spokes sampleCreateInvalid.Spec.Spokes,
            Detail := "managedClusterKubeconfig is required in hosted mode" } ∈ e.Errs) :=
  ValidateCreate_error_iff sampleCreateInvalid _ rfl (by decide)

theorem validateSpokes_nil_kubeconfig (spokes : Slice Spoke) (l : List Spoke)
    (hl : ∃ s ∈ l, s.Kubeconfig = none) :
    ∀ (i : Nat) (allErrs : List FieldError),
      ∃ msg, validateSpokes spokes l i allErrs = .panic msg := by
  induction l with
  | nil => obtain ⟨s, hs, _⟩ := hl; cases hs
  | cons s rest ih =>
    intro i allErrs
    rw [validateSpokes, validateHosted_eq]
    cases hk : s.Kubeconfig with
    | none => exact ⟨_, rfl⟩
    | some k =>
      have hrest : ∃ s ∈ rest, s.Kubeconfig = none := by
        obtain ⟨x, hx, hxk⟩ := hl
        rcases List.mem_cons.mp hx with rfl | hx
        · rw [hk] at hxk; cases hxk
        · exact ⟨x, hx, hxk⟩
      simp only [isKubeconfigValid_some]
      split
      · exact ih hrest _ _
      · exact ih hrest _ _

theorem createViolations_nil (mc : FleetConfig) (hk : Kubeconfig)
    (hhub : mc.Spec.Hub.Kubeconfig = some hk)
    (hspokes : ∀ s ∈ mc.Spec.Spokes.elems, s.Kubeconfig ≠ none)
    (hnil : createViolations mc = []) :
    hk.exactlyOne = true ∧
    ∀ s ∈ mc.Spec.Spokes.elems,
      (∃ k, s.Kubeconfig = some k ∧ k.exactlyOne = true) ∧
      (s.Klusterlet.Mode = "Hosted" →
        ∃ k, s.Klusterlet.ManagedClusterKubeconfig = some k ∧ k.exactlyOne = true) := by
  unfold createViolations at hnil
  rw [List.append_eq_nil, hhub, List.flatMap_eq_nil_iff] at hnil
  simp only [List.map_eq_nil_iff, Kubeconfig_violation_nil_iff] at hnil
  refine ⟨hnil.1, fun s hs => ?_⟩
  obtain ⟨k, hk2⟩ := Option.ne_none_iff_exists'.mp (hspokes s hs)
  obtain ⟨i, hi⟩ := List.getElem?_of_mem hs
  have hp : (i, s) ∈ mc.Spec.Spokes.elems.enum := List.mk_mem_enum_iff_getElem?.mpr hi
  obtain ⟨h3, h4⟩ := (spokeViolations_nil_iff mc.Spec.Spokes i s k hk2).mp (hnil.2 _ hp)
  exact ⟨⟨k, hk2, h3⟩, h4⟩

/-- C14 as stated does not hold: `ValidateCreate` accepts a FleetConfig with a spoke in
the mode "Default" whose managedClusterKubeconfig is present and sets neither
secretReference nor inCluster. -/
theorem ValidateCreate_accepts_stray_kubeconfig :
    ValidateCreate sampleCreateStray = .ret none ∧
    ∃ s ∈ sampleCreateStray.Spec.Spokes.elems, ∃ k,
      s.Klusterlet.ManagedClusterKubeconfig = some k ∧ k.exactlyOne = false := by
  decide

/-- C14, amended: in every FleetConfig that `ValidateCreate` accepts, the kubeconfig of the
hub and the kubeconfig of every spoke are present and set exactly one of secretReference
and inCluster, and so does the managedClusterKubeconfig of every spoke whose klusterlet
mode is "Hosted"; in the other modes the managedClusterKubeconfig is not looked at. -/
theorem ValidateCreate_accepted_kubeconfigs (mc : FleetConfig)
    (haccept : ValidateCreate mc = .ret none) :
    (∃ k, mc.Spec.Hub.Kubeconfig = some k ∧ k.exactlyOne = true) ∧
    ∀ s ∈ mc.Spec.Spokes.elems,
      (∃ k, s.Kubeconfig = some k ∧ k.exactlyOne = true) ∧
      (s.Klusterlet.Mode = "Hosted" →
        ∃ k, s.Klusterlet.ManagedClusterKubeconfig = some k ∧ k.exactlyOne = true) := by
  cases hhub : mc.Spec.Hub.Kubeconfig with
  | none =>
    exfalso
    unfold ValidateCreate at haccept
    rw [hhub] at haccept
    cases haccept
  | some hk =>
    by_cases hspokes : ∀ s ∈ mc.Spec.Spokes.elems, s.Kubeconfig ≠ none
    · rw [ValidateCreate_eq mc hk hhub hspokes] at haccept
      have hnil : createViolations mc = [] := by
        cases hc : createViolations mc with
        | nil => rfl
        | cons a b =>
          rw [hc] at haccept
          simp at haccept
      obtain ⟨h1, h2⟩ := createViolations_nil mc hk hhub hspokes hnil
      exact ⟨⟨hk, rfl, h1⟩, h2⟩
    · exfalso
      have hex : ∃ s ∈ mc.Spec.Spokes.elems, s.Kubeconfig = none := by
        by_contra hcon
        apply hspokes
        intro s hs hnone
        exact hcon ⟨s, hs, hnone⟩
      unfold ValidateCreate at haccept
      rw [hhub, isKubeconfigValid_some] at haccept
      simp only [] at haccept
      obtain ⟨msg, hmsg⟩ := validateSpokes_nil_kubeconfig mc.Spec.Spokes mc.Spec.Spokes.elems
        hex 0 (if ¬ hk.exactlyOne = true then
          [{ Field := { Name := "hub", Index := none },
             BadValue := .kubeconfig (some hk), Detail := hk.violation.headD "" }]
        else [])
      rw [hmsg] at haccept
      cases haccept

theorem ValidateCreate_accepted_kubeconfigs_witness :
    (∃ k, sampleFresh.Spec.Hub.Kubeconfig = some k ∧ k.exactlyOne = true) ∧
    ∀ s ∈ sampleFresh.Spec.Spokes.elems,
      (∃ k, s.Kubeconfig = some k ∧ k.exactlyOne = true) ∧
      (s.Klusterlet.Mode = "Hosted" →
        ∃ k, s.Klusterlet.ManagedClusterKubeconfig = some k ∧ k.exactlyOne = true) :=
  ValidateCreate_accepted_kubeconfigs sampleFresh (by decide)


/-! ## The upgrade decision -/

/-- C16: `hubNeedsUpgrade` returns false for the desired bundle version "default" and
true for "latest", in both cases without a call, so without reading the ClusterManager;
for any other desired version, once the ClusterManager is read, it returns true exactly
when the string that `LowestBundleVersion` returns over the image pull specs that are not
empty equals the desired bundle version, and it returns an error when
`LowestBundleVersion` fails. The same holds of `spokeNeedsUpgrade` and the Klusterlet,
once the kubeconfig of the spoke is resolved, the operator client made and the Klusterlet
read. -/
theorem needsUpgrade_decision (env : Env) :
    (∀ (mc : FleetConfig) (operatorC : RestConfig) (tr : Trace) (clusterManager : ClusterManager)
        (source : OCMSource),
      mc.Spec.Hub.ClusterManager = some clusterManager → clusterManager.Source = some source →
      (source.BundleVersion = "default" →
        hubNeedsUpgrade env mc operatorC tr = (.ret (false, none), tr)) ∧
      (source.BundleVersion = "latest" →
        hubNeedsUpgrade env mc operatorC tr = (.ret (true, none), tr)) ∧
      (source.BundleVersion ≠ "default" → source.BundleVersion ≠ "latest" →
        ∀ cm : OperatorClusterManager, env.getClusterManager tr operatorC = .ok cm →
          (∀ active : String,
            LowestBundleVersion env.semver
              ([cm.AddOnManagerImagePullSpec, cm.PlacementImagePullSpec,
                cm.RegistrationImagePullSpec, cm.WorkImagePullSpec].filter
                  (fun spec => spec ≠ "")) = (active, none) →
            hubNeedsUpgrade env mc operatorC tr =
              (.ret (decide (active = source.BundleVersion), none),
                tr ++ [.getClusterManager operatorC])) ∧
          (∀ (s e : String),
            LowestBundleVersion env.semver
              ([cm.AddOnManagerImagePullSpec, cm.PlacementImagePullSpec,
                cm.RegistrationImagePullSpec, cm.WorkImagePullSpec].filter
                  (fun spec => spec ≠ "")) = (s, some e) →
            hubNeedsUpgrade env mc operatorC tr =
              (.ret (false,
                  some ("failed to detect bundleVersion from clustermanager spec: " ++ e)),
                tr ++ [.getClusterManager operatorC])))) ∧
    (∀ (spoke : Spoke) (tr : Trace) (source : OCMSource),
      spoke.Klusterlet.Source = some source →
      (source.BundleVersion = "default" →
        spokeNeedsUpgrade env spoke tr = (.ret (false, none), tr)) ∧
      (source.BundleVersion = "latest" →
        spokeNeedsUpgrade env spoke tr = (.ret (true, none), tr)) ∧
      (source.BundleVersion ≠ "default" → source.BundleVersion ≠ "latest" →
        ∀ (kubeconfig : Bytes) (tr1 tr2 : Trace) (operatorC : RestConfig)
          (k : OperatorKlusterlet),
          KubeconfigFromSecretOrCluster env spoke.Kubeconfig tr = (.ret (kubeconfig, none), tr1) →
          OperatorClient env kubeconfig tr1 = (.ok operatorC, tr2) →
          env.getKlusterlet tr2 operatorC = .ok k →
          (∀ active : String,
            LowestBundleVersion env.semver
              ([k.ImagePullSpec, k.RegistrationImagePullSpec, k.WorkImagePullSpec].filter
                (fun spec => spec ≠ "")) = (active, none) →
            spokeNeedsUpgrade env spoke tr =
              (.ret (decide (active = source.BundleVersion), none),
                tr2 ++ [.getKlusterlet operatorC])) ∧
          (∀ (s e : String),
            LowestBundleVersion env.semver
              ([k.ImagePullSpec, k.RegistrationImagePullSpec, k.WorkImagePullSpec].filter
                (fun spec => spec ≠ "")) = (s, some e) →
            spokeNeedsUpgrade env spoke tr =
              (.ret (false, some ("failed to detect bundleVersion from klusterlet spec: " ++ e)),
                tr2 ++ [.getKlusterlet operatorC])))) := by
  constructor
  · intro mc operatorC tr clusterManager source hcm hsrc
    refine ⟨fun hd => ?_, fun hl => ?_, fun hd hl cm hget => ⟨fun active hlow => ?_,
      fun s e hlow => ?_⟩⟩
    · unfold hubNeedsUpgrade
      simp only [hcm, hsrc]
      rw [if_pos hd]
    · have hd : source.BundleVersion ≠ "default" := by rw [hl]; decide
      unfold hubNeedsUpgrade
      simp only [hcm, hsrc]
      rw [if_neg hd, if_pos hl]
    · unfold hubNeedsUpgrade
      simp only [hcm, hsrc]
      rw [if_neg hd, if_neg hl]
      simp only [getClusterManager, hget, clusterManagerBundleSpecs, hlow]
    · unfold hubNeedsUpgrade
      simp only [hcm, hsrc]
      rw [if_neg hd, if_neg hl]
      simp only [getClusterManager, hget, clusterManagerBundleSpecs, hlow]
  · intro spoke tr source hsrc
    refine ⟨fun hd => ?_, fun hl => ?_, fun hd hl kubeconfig tr1 tr2 operatorC k hkube hop hget =>
      ⟨fun active hlow => ?_, fun s e hlow => ?_⟩⟩
    · unfold spokeNeedsUpgrade
      simp only [hsrc]
      rw [if_pos hd]
    · have hd : source.BundleVersion ≠ "default" := by rw [hl]; decide
      unfold spokeNeedsUpgrade
      simp only [hsrc]
      rw [if_neg hd, if_pos hl]
    · unfold spokeNeedsUpgrade
      simp only [hsrc]
      rw [if_neg hd, if_neg hl, hkube]
      simp only [Outcome.andThen, hop, hget, klusterletBundleSpecs, hlow]
    · unfold spokeNeedsUpgrade
      simp only [hsrc]
      rw [if_neg hd, if_neg hl, hkube]
      simp only [Outcome.andThen, hop, hget, klusterletBundleSpecs, hlow]

theorem needsUpgrade_decision_witness :
    hubNeedsUpgrade (sampleEnvImages "v0.7.0") (sampleWanting "default") { Host := "https://hub" }
        [] = (.ret (false, none), []) ∧
    hubNeedsUpgrade (sampleEnvImages "v0.7.0") (sampleWanting "latest") { Host := "https://hub" }
        [] = (.ret (true, none), []) ∧
    hubNeedsUpgrade (sampleEnvImages "v0.7.0") (sampleWanting "0.7.0") { Host := "https://hub" }
        [] = (.ret (decide ("0.7.0" = "0.7.0"), none),
          [] ++ [.getClusterManager { Host := "https://hub" }]) ∧
    hubNeedsUpgrade (sampleEnvImages "v0.6.0") (sampleWanting "v0.7.0") { Host := "https://hub" }
        [] = (.ret (decide ("0.6.0" = "v0.7.0"), none),
          [] ++ [.getClusterManager { Host := "https://hub" }]) ∧
    hubNeedsUpgrade sampleEnv (sampleWanting "v0.7.0") { Host := "https://hub" } [] =
      (.ret (false, some ("failed to detect bundleVersion from clustermanager spec: " ++
          "no valid bundle versions detected")),
        [] ++ [.getClusterManager { Host := "https://hub" }]) ∧
    spokeNeedsUpgrade (sampleEnvImages "v0.7.0") sampleHubAsSpoke [] = (.ret (false, none), []) ∧
    spokeNeedsUpgrade (sampleEnvImages "v0.7.0") (sampleSpokeWanting "latest") [] =
      (.ret (true, none), []) ∧
    spokeNeedsUpgrade (sampleEnvImages "v0.7.0") (sampleSpokeWanting "0.7.0") [] =
      (.ret (decide ("0.7.0" = "0.7.0"), none),
        [.getConfig] ++ [.getKlusterlet { Host := "https://hub" }]) ∧
    spokeNeedsUpgrade sampleEnv (sampleSpokeWanting "0.7.0") [] =
      (.ret (false, some ("failed to detect bundleVersion from klusterlet spec: " ++
          "no valid bundle versions detected")),
        [.getConfig] ++ [.getKlusterlet { Host := "https://hub" }]) :=
  ⟨((needsUpgrade_decision (sampleEnvImages "v0.7.0")).1 (sampleWanting "default")
      { Host := "https://hub" } [] _ _ rfl rfl).1 rfl,
    ((needsUpgrade_decision (sampleEnvImages "v0.7.0")).1 (sampleWanting "latest")
      { Host := "https://hub" } [] _ _ rfl rfl).2.1 rfl,
    (((needsUpgrade_decision (sampleEnvImages "v0.7.0")).1 (sampleWanting "0.7.0")
      { Host := "https://hub" } [] _ _ rfl rfl).2.2 (by decide) (by decide) _ rfl).1 "0.7.0"
        (by decide),
    (((needsUpgrade_decision (sampleEnvImages "v0.6.0")).1 (sampleWanting "v0.7.0")
      { Host := "https://hub" } [] _ _ rfl rfl).2.2 (by decide) (by decide) _ rfl).1 "0.6.0"
        (by decide),
    (((needsUpgrade_decision sampleEnv).1 (sampleWanting "v0.7.0")
      { Host := "https://hub" } [] _ _ rfl rfl).2.2 (by decide) (by decide) _ rfl).2 ""
        "no valid bundle versions detected" (by decide),
    ((needsUpgrade_decision (sampleEnvImages "v0.7.0")).2 sampleHubAsSpoke [] _ rfl).1 rfl,
    ((needsUpgrade_decision (sampleEnvImages "v0.7.0")).2 (sampleSpokeWanting "latest") [] _
      rfl).2.1 rfl,
    (((needsUpgrade_decision (sampleEnvImages "v0.7.0")).2 (sampleSpokeWanting "0.7.0") [] _
      rfl).2.2 (by decide) (by decide) _ _ _ _ _ rfl rfl rfl).1 "0.7.0" (by decide),
    (((needsUpgrade_decision sampleEnv).2 (sampleSpokeWanting "0.7.0") [] _
      rfl).2.2 (by decide) (by decide) _ _ _ _ _ rfl rfl rfl).2 ""
        "no valid bundle versions detected" (by decide)⟩


/-- C17 does not hold of the code, which upgrades when the versions are equal. For a
desired clustermanager bundle version other than "default" and "latest", on a hub whose
ClusterManager exists and reports nothing pending or degraded, `handleHub` runs
`clusteradm upgrade clustermanager` exactly when the string that `LowestBundleVersion`
returns over the image pull specs equals the desired bundle version: when the two differ
it returns nil after reading the ClusterManager twice and the clock once, without running
`clusteradm`, and when they are equal its last call is the upgrade. -/
theorem handleHub_upgrades_when_equal (env : Env) (mc : FleetConfig) (tr tr1 tr2 : Trace)
    (clusterManager : ClusterManager) (source : OCMSource) (hubKubeconfig : Bytes)
    (operatorC : RestConfig) (cm cm2 : OperatorClusterManager)
    (conditions : List MetaCondition) (active : String)
    (hcm : mc.Spec.Hub.ClusterManager = some clusterManager)
    (hsrc : clusterManager.Source = some source)
    (hd : source.BundleVersion ≠ "default") (hl : source.BundleVersion ≠ "latest")
    (hkube : KubeconfigFromSecretOrCluster env mc.Spec.Hub.Kubeconfig tr =
      (.ret (hubKubeconfig, none), tr1))
    (hop : OperatorClient env hubKubeconfig tr1 = (.ok operatorC, tr2))
    (hget : env.getClusterManager tr2 operatorC = .ok cm)
    (hconds : cm.Conditions = some conditions)
    (hfine : hubDegradedMessages env conditions = [])
    (hget2 : env.getClusterManager (tr2 ++ [.getClusterManager operatorC] ++ [.now]) operatorC =
      .ok cm2)
    (hlow : LowestBundleVersion env.semver (clusterManagerBundleSpecs cm2) = (active, none)) :
    (active ≠ source.BundleVersion →
      (handleHub env mc tr).1 = .ret none ∧
      (handleHub env mc tr).2.2 =
        tr2 ++ [.getClusterManager operatorC] ++ [.now] ++ [.getClusterManager operatorC]) ∧
    (active = source.BundleVersion →
      (handleHub env mc tr).2.2 =
        tr2 ++ [.getClusterManager operatorC] ++ [.now] ++ [.getClusterManager operatorC] ++
          [.exec ["upgrade", "clustermanager", "--bundle-version", source.BundleVersion,
            "--image-registry", source.Registry, "--wait=true"]]) := by
  have hmc1 : ∀ c : List Condition, (mc.SetConditions true c).Spec.Hub.ClusterManager =
      some clusterManager := fun _ => hcm
  have hneed : hubNeedsUpgrade env
      (mc.SetConditions true
        [NewCondition (env.now (tr2 ++ [.getClusterManager operatorC]))
          FleetConfigHubInitialized FleetConfigHubInitialized ConditionTrue ConditionTrue])
      operatorC (tr2 ++ [.getClusterManager operatorC] ++ [.now]) =
      (.ret (decide (active = source.BundleVersion), none),
        tr2 ++ [.getClusterManager operatorC] ++ [.now] ++ [.getClusterManager operatorC]) := by
    unfold hubNeedsUpgrade
    simp only [hmc1, hsrc]
    rw [if_neg hd, if_neg hl]
    simp only [getClusterManager, hget2, hlow]
  have hrun : handleHub env mc tr =
      handleHubInitialized env operatorC mc (tr2 ++ [.getClusterManager operatorC]) := by
    unfold handleHub
    rw [hkube]
    simp only [hop, getClusterManager, hget, Option.bind, hconds, hfine]
    rfl
  rw [hrun]
  unfold handleHubInitialized
  simp only [hneed]
  constructor
  · intro hne
    have : decide (active = source.BundleVersion) = false := by simpa using hne
    simp [this]
  · intro heq
    have : decide (active = source.BundleVersion) = true := by simpa using heq
    simp only [this, if_true]
    unfold upgradeHub
    simp only [hmc1, hsrc, CmdWithLogs]
    split
    · rename_i h
      exact (congrArg Prod.snd h).symm
    · rename_i h
      exact (congrArg Prod.snd h).symm

theorem handleHub_upgrades_when_equal_witness :
    ("0.6.0" ≠ "v0.7.0" →
      (handleHub (sampleEnvImages "v0.6.0") (sampleWanting "v0.7.0") []).1 = .ret none ∧
      (handleHub (sampleEnvImages "v0.6.0") (sampleWanting "v0.7.0") []).2.2 =
        [.getConfig] ++ [.getClusterManager { Host := "https://hub" }] ++ [.now] ++
          [.getClusterManager { Host := "https://hub" }]) ∧
    ("0.7.0" = "0.7.0" →
      (handleHub (sampleEnvImages "v0.7.0") (sampleWanting "0.7.0") []).2.2 =
        [.getConfig] ++ [.getClusterManager { Host := "https://hub" }] ++ [.now] ++
          [.getClusterManager { Host := "https://hub" }] ++
          [.exec ["upgrade", "clustermanager", "--bundle-version", "0.7.0",
            "--image-registry", "quay.io/open-cluster-management", "--wait=true"]]) :=
  ⟨(handleHub_upgrades_when_equal (sampleEnvImages "v0.6.0") (sampleWanting "v0.7.0") [] _ _
      _ _ _ _ _ _ _ "0.6.0" rfl rfl (by decide) (by decide) rfl rfl rfl rfl (by decide) rfl
      (by decide)).1,
    (handleHub_upgrades_when_equal (sampleEnvImages "v0.7.0") (sampleWanting "0.7.0") [] _ _
      _ _ _ _ _ _ _ "0.7.0" rfl rfl (by decide) (by decide) rfl rfl rfl rfl (by decide) rfl
      (by decide)).2⟩


/-! ## Bundle versions -/

theorem LowestBundleVersion_eq (lib : SemverLib) (bundleSpecs : List String) :
    LowestBundleVersion lib bundleSpecs =
      if (bundleVersions lib bundleSpecs).length = 0 then
        ("", some "no valid bundle versions detected")
      else
        match SortFunc (compareVersions lib) (bundleVersions lib bundleSpecs) with
        | [] => ("", some "no valid bundle versions detected")
        | lowest :: _ => (lib.String lowest, none) := rfl

theorem mem_bundleVersions (lib : SemverLib) (bundleSpecs : List String) (v : Version) :
    v ∈ bundleVersions lib bundleSpecs ↔ ∃ spec ∈ bundleSpecs, IsVersionOf lib spec v := by
  unfold bundleVersions IsVersionOf
  rw [List.mem_filterMap]
  constructor
  · rintro ⟨spec, hs, hv⟩
    refine ⟨spec, hs, ?_⟩
    split at hv
    · rename_i repo tag heq
      exact ⟨repo, tag, heq, hv⟩
    · cases hv
  · rintro ⟨spec, hs, repo, tag, heq, hv⟩
    refine ⟨spec, hs, ?_⟩
    rw [heq]
    exact hv

theorem bundleVersions_append (lib : SemverLib) (l1 l2 : List String) :
    bundleVersions lib (l1 ++ l2) = bundleVersions lib l1 ++ bundleVersions lib l2 := by
  unfold bundleVersions
  rw [List.filterMap_append]

theorem bundleVersions_invalid (lib : SemverLib) (x : String)
    (hx : ∀ v, ¬ IsVersionOf lib x v) : bundleVersions lib [x] = [] := by
  cases h : bundleVersions lib [x] with
  | nil => rfl
  | cons v rest =>
    exfalso
    have hv : v ∈ bundleVersions lib [x] := by rw [h]; simp
    obtain ⟨spec, hs, hspec⟩ := (mem_bundleVersions lib [x] v).mp hv
    rw [List.mem_singleton] at hs
    subst hs
    exact hx v hspec

theorem mem_insertionStep {α : Type} (cmp : α → α → Int) (x y : α) (l : List α) :
    y ∈ insertionStep cmp x l ↔ y = x ∨ y ∈ l := by
  induction l with
  | nil => simp [insertionStep]
  | cons z zs ih =>
    rw [insertionStep]
    split
    · rw [List.mem_cons, ih, List.mem_cons]
      tauto
    · simp [List.mem_cons]

theorem mem_foldl_insertionStep {α : Type} (cmp : α → α → Int) (y : α) (data : List α) :
    ∀ acc : List α,
      y ∈ data.foldl (fun sorted x => insertionStep cmp x sorted) acc ↔ y ∈ acc ∨ y ∈ data := by
  induction data with
  | nil => intro acc; simp
  | cons x rest ih =>
    intro acc
    rw [List.foldl_cons, ih, mem_insertionStep, List.mem_cons]
    tauto

theorem mem_SortFunc {α : Type} (cmp : α → α → Int) (y : α) (data : List α) :
    y ∈ SortFunc cmp data ↔ y ∈ data := by
  unfold SortFunc
  rw [List.mem_reverse, mem_foldl_insertionStep]
  simp

theorem insertionStep_pairwise {α : Type} (cmp : α → α → Int) (P : α → Prop)
    (hasym : ∀ a b, P a → P b → cmp a b < 0 → ¬ cmp b a < 0)
    (hntrans : ∀ a b c, P a → P b → P c → ¬ cmp a b < 0 → ¬ cmp b c < 0 → ¬ cmp a c < 0)
    (x : α) (hx : P x) (l : List α) (hl : ∀ y ∈ l, P y)
    (hsorted : l.Pairwise (fun a b => ¬ cmp a b < 0)) :
    (insertionStep cmp x l).Pairwise (fun a b => ¬ cmp a b < 0) := by
  induction l with
  | nil => simp [insertionStep]
  | cons y ys ih =>
    rw [List.pairwise_cons] at hsorted
    have hy : P y := hl y (List.mem_cons_self _ _)
    have hys : ∀ z ∈ ys, P z := fun z hz => hl z (List.mem_cons_of_mem _ hz)
    rw [insertionStep]
    split
    · rename_i hlt
      rw [List.pairwise_cons]
      refine ⟨fun z hz => ?_, ih hys hsorted.2⟩
      rcases (mem_insertionStep cmp x z ys).mp hz with rfl | hz
      · exact hasym _ _ hx hy hlt
      · exact hsorted.1 z hz
    · rename_i hnlt
      rw [List.pairwise_cons]
      refine ⟨fun z hz => ?_, List.pairwise_cons.mpr hsorted⟩
      rcases List.mem_cons.mp hz with rfl | hz
      · exact hnlt
      · exact hntrans x y z hx hy (hys z hz) hnlt (hsorted.1 z hz)

theorem foldl_insertionStep_pairwise {α : Type} (cmp : α → α → Int) (P : α → Prop)
    (hasym : ∀ a b, P a → P b → cmp a b < 0 → ¬ cmp b a < 0)
    (hntrans : ∀ a b c, P a → P b → P c → ¬ cmp a b < 0 → ¬ cmp b c < 0 → ¬ cmp a c < 0)
    (data : List α) (hdata : ∀ y ∈ data, P y) :
    ∀ acc : List α, (∀ y ∈ acc, P y) → acc.Pairwise (fun a b => ¬ cmp a b < 0) →
      (data.foldl (fun sorted x => insertionStep cmp x sorted) acc).Pairwise
        (fun a b => ¬ cmp a b < 0) := by
  induction data with
  | nil => intro acc _ h; exact h
  | cons x rest ih =>
    intro acc hacc hsorted
    rw [List.foldl_cons]
    have hx : P x := hdata x (List.mem_cons_self _ _)
    apply ih (fun y hy => hdata y (List.mem_cons_of_mem _ hy))
    · intro y hy
      rcases (mem_insertionStep cmp x y acc).mp hy with rfl | hy
      · exact hx
      · exact hacc y hy
    · exact insertionStep_pairwise cmp P hasym hntrans x hx acc hacc hsorted

/-- The first element that `slices.SortFunc` leaves is one that no element of the slice
is less than, when the comparison is asymmetric and negatively transitive on the
slice. -/
theorem SortFunc_head_lowest {α : Type} (cmp : α → α → Int) (data : List α)
    (hasym : ∀ a b, a ∈ data → b ∈ data → cmp a b < 0 → ¬ cmp b a < 0)
    (hntrans : ∀ a b c, a ∈ data → b ∈ data → c ∈ data →
      ¬ cmp a b < 0 → ¬ cmp b c < 0 → ¬ cmp a c < 0)
    (lowest : α) (rest : List α) (hsort : SortFunc cmp data = lowest :: rest) :
    lowest ∈ data ∧ ∀ w ∈ data, ¬ cmp w lowest < 0 := by
  have hmem : lowest ∈ data := by
    rw [← mem_SortFunc cmp, hsort]; simp
  refine ⟨hmem, fun w hw => ?_⟩
  have hpw := foldl_insertionStep_pairwise cmp (fun a => a ∈ data) hasym hntrans data
    (fun y hy => hy) [] (by simp) List.Pairwise.nil
  unfold SortFunc at hsort
  have hrev : data.foldl (fun sorted x => insertionStep cmp x sorted) [] =
      rest.reverse ++ [lowest] := by
    rw [← List.reverse_reverse (data.foldl _ []), hsort, List.reverse_cons]
  rw [hrev, List.pairwise_append] at hpw
  have hw2 : w ∈ rest.reverse ++ [lowest] := by
    rw [← hrev, mem_foldl_insertionStep]
    exact Or.inr hw
  rcases List.mem_append.mp hw2 with h | h
  · exact hpw.2.2 w h lowest (by simp)
  · rw [List.mem_singleton] at h
    subst h
    intro hlt
    exact hasym _ _ hw hw hlt hlt

theorem compareVersions_neg (lib : SemverLib) (a b : Version) :
    compareVersions lib a b < 0 ↔ lib.LessThan a b = true := by
  unfold compareVersions
  split
  · rename_i h; simp [h]
  · rename_i h
    split <;> simp [h]

theorem bundleVersions_nil_iff (lib : SemverLib) (bundleSpecs : List String) :
    bundleVersions lib bundleSpecs = [] ↔
      ∀ spec ∈ bundleSpecs, ∀ v, ¬ IsVersionOf lib spec v := by
  constructor
  · intro h spec hs v hv
    have : v ∈ bundleVersions lib bundleSpecs :=
      (mem_bundleVersions lib bundleSpecs v).mpr ⟨spec, hs, hv⟩
    rw [h] at this
    cases this
  · intro h
    cases hb : bundleVersions lib bundleSpecs with
    | nil => rfl
    | cons v rest =>
      exfalso
      have hv : v ∈ bundleVersions lib bundleSpecs := by rw [hb]; simp
      obtain ⟨spec, hs, hspec⟩ := (mem_bundleVersions lib bundleSpecs v).mp hv
      exact h spec hs v hspec

/-- The value of `LowestBundleVersion` when some element is valid: the string of the
first version that `slices.SortFunc` leaves. -/
theorem LowestBundleVersion_of_valid (lib : SemverLib) (bundleSpecs : List String)
    (h : bundleVersions lib bundleSpecs ≠ []) :
    ∃ lowest rest, SortFunc (compareVersions lib) (bundleVersions lib bundleSpecs) =
        lowest :: rest ∧
      LowestBundleVersion lib bundleSpecs = (lib.String lowest, none) := by
  obtain ⟨v, hv⟩ := List.exists_mem_of_ne_nil _ h
  have hlen : ¬ (bundleVersions lib bundleSpecs).length = 0 := by
    rw [List.length_eq_zero]; exact h
  rw [LowestBundleVersion_eq, if_neg hlen]
  cases hs : SortFunc (compareVersions lib) (bundleVersions lib bundleSpecs) with
  | nil =>
    exfalso
    have := (mem_SortFunc (compareVersions lib) v (bundleVersions lib bundleSpecs)).mpr hv
    rw [hs] at this
    cases this
  | cons lowest rest => exact ⟨lowest, rest, rfl, rfl⟩

/-- C18: `LowestBundleVersion` returns an error exactly when no element of the input
splits on ':' into exactly two parts of which the library parses the second as a
version; the error comes with the empty string; it is returned for the empty list, and
for ["fleetconfig-controller:invalid"] as the library does not parse "invalid"; and no
error is returned when at least one element is valid, whatever the other elements are. -/
theorem LowestBundleVersion_error_iff (lib : SemverLib) (bundleSpecs : List String) :
    ((LowestBundleVersion lib bundleSpecs).2 ≠ none ↔
      ∀ spec ∈ bundleSpecs, ∀ repo tag : String,
        Split spec ':' = [repo, tag] → lib.NewVersion tag = none) ∧
    ((LowestBundleVersion lib bundleSpecs).2 ≠ none →
      LowestBundleVersion lib bundleSpecs = ("", some "no valid bundle versions detected")) ∧
    LowestBundleVersion lib [] = ("", some "no valid bundle versions detected") ∧
    (lib.NewVersion "invalid" = none →
      LowestBundleVersion lib ["fleetconfig-controller:invalid"] =
        ("", some "no valid bundle versions detected")) ∧
    (∀ spec ∈ bundleSpecs, ∀ (repo tag : String) (v : Version),
      Split spec ':' = [repo, tag] → lib.NewVersion tag = some v →
      (LowestBundleVersion lib bundleSpecs).2 = none) := by
  have hcases : (bundleVersions lib bundleSpecs = [] ∧
        LowestBundleVersion lib bundleSpecs = ("", some "no valid bundle versions detected")) ∨
      (bundleVersions lib bundleSpecs ≠ [] ∧ (LowestBundleVersion lib bundleSpecs).2 = none) := by
    by_cases h : bundleVersions lib bundleSpecs = []
    · left
      refine ⟨h, ?_⟩
      rw [LowestBundleVersion_eq, h]
      rfl
    · right
      obtain ⟨lowest, rest, _, hl⟩ := LowestBundleVersion_of_valid lib bundleSpecs h
      exact ⟨h, by rw [hl]⟩
  have hnone : (∀ spec ∈ bundleSpecs, ∀ v, ¬ IsVersionOf lib spec v) ↔
      ∀ spec ∈ bundleSpecs, ∀ repo tag : String,
        Split spec ':' = [repo, tag] → lib.NewVersion tag = none := by
    constructor
    · intro h spec hs repo tag hsplit
      cases hv : lib.NewVersion tag with
      | none => rfl
      | some v => exact absurd ⟨repo, tag, hsplit, hv⟩ (h spec hs v)
    · rintro h spec hs v ⟨repo, tag, hsplit, hv⟩
      rw [h spec hs repo tag hsplit] at hv
      cases hv
  refine ⟨?_, ?_, rfl, ?_, ?_⟩
  · rw [← hnone, ← bundleVersions_nil_iff]
    rcases hcases with ⟨h1, h2⟩ | ⟨h1, h2⟩
    · rw [h2]; simp [h1]
    · rw [h2]; simp [h1]
  · intro herr
    rcases hcases with ⟨_, h2⟩ | ⟨_, h2⟩
    · exact h2
    · exact absurd h2 herr
  · intro hinvalid
    have hsplit : Split "fleetconfig-controller:invalid" ':' =
        ["fleetconfig-controller", "invalid"] := by decide
    have hb : bundleVersions lib ["fleetconfig-controller:invalid"] = [] := by
      apply bundleVersions_invalid
      rintro v ⟨repo, tag, hs, hv⟩
      rw [hsplit] at hs
      simp only [List.cons.injEq, and_true] at hs
      rw [← hs.2, hinvalid] at hv
      cases hv
    rw [LowestBundleVersion_eq, hb]
    rfl
  · intro spec hs repo tag v hsplit hv
    rcases hcases with ⟨h1, _⟩ | ⟨_, h2⟩
    · exact absurd ⟨repo, tag, hsplit, hv⟩
        ((bundleVersions_nil_iff lib bundleSpecs).mp h1 spec hs v)
    · exact h2

theorem LowestBundleVersion_error_iff_witness :
    LowestBundleVersion sampleSemver ["fleetconfig-controller:invalid"] =
      ("", some "no valid bundle versions detected") ∧
    (LowestBundleVersion sampleSemver
      ["registry:5000/work:v0.2.0", "work", "fleetconfig-controller:v0.1.0",
        "fleetconfig-controller:invalid"]).2 = none :=
  ⟨(LowestBundleVersion_error_iff sampleSemver []).2.2.2.1 (by decide),
    (LowestBundleVersion_error_iff sampleSemver
      ["registry:5000/work:v0.2.0", "work", "fleetconfig-controller:v0.1.0",
        "fleetconfig-controller:invalid"]).2.2.2.2 "fleetconfig-controller:v0.1.0" (by decide)
      "fleetconfig-controller" "v0.1.0" _ (by decide) rfl⟩

theorem sampleLessThan_asymm (a b : Version) (h : sampleLessThan a b = true) :
    sampleLessThan b a = false := by
  simp only [sampleLessThan, decide_eq_true_eq, decide_eq_false_iff_not] at h ⊢
  omega

theorem sampleLessThan_negTrans (a b c : Version) (h1 : sampleLessThan a b = false)
    (h2 : sampleLessThan b c = false) : sampleLessThan a c = false := by
  simp only [sampleLessThan, decide_eq_false_iff_not] at h1 h2 ⊢
  omega

/-- C19: when the precedence of the library is asymmetric and negatively transitive on
the versions of the valid elements, and at least one element is valid,
`LowestBundleVersion` returns without error the library's string of the version of some
valid element, and no valid element has a version that is less than that one. Without
any assumption on the precedence, taking an invalid element out of the list, or putting
one in, does not change the result. The string is the library's canonical one: for the
list of the one element "fleetconfig-controller:v0.1.0" it is "0.1.0" when that is how the
library prints the version it parses from "v0.1.0". -/
theorem LowestBundleVersion_lowest (lib : SemverLib) (bundleSpecs : List String) :
    ((∀ a b : Version, (∃ spec ∈ bundleSpecs, IsVersionOf lib spec a) →
        (∃ spec ∈ bundleSpecs, IsVersionOf lib spec b) →
        lib.LessThan a b = true → lib.LessThan b a = false) →
      (∀ a b c : Version, (∃ spec ∈ bundleSpecs, IsVersionOf lib spec a) →
        (∃ spec ∈ bundleSpecs, IsVersionOf lib spec b) →
        (∃ spec ∈ bundleSpecs, IsVersionOf lib spec c) →
        lib.LessThan a b = false → lib.LessThan b c = false → lib.LessThan a c = false) →
      (∃ spec ∈ bundleSpecs, ∃ v, IsVersionOf lib spec v) →
      ∃ lowest : Version,
        (∃ spec ∈ bundleSpecs, IsVersionOf lib spec lowest) ∧
        LowestBundleVersion lib bundleSpecs = (lib.String lowest, none) ∧
        ∀ spec ∈ bundleSpecs, ∀ w, IsVersionOf lib spec w → lib.LessThan w lowest = false) ∧
    (∀ (pre post : List String) (x : String), bundleSpecs = pre ++ x :: post →
      (∀ v, ¬ IsVersionOf lib x v) →
      LowestBundleVersion lib (pre ++ post) = LowestBundleVersion lib bundleSpecs) ∧
    (∀ v : Version, lib.NewVersion "v0.1.0" = some v → lib.String v = "0.1.0" →
      LowestBundleVersion lib ["fleetconfig-controller:v0.1.0"] = ("0.1.0", none)) := by
  refine ⟨fun hasym hntrans hvalid => ?_, fun pre post x hsplit hx => ?_, fun v hv hstr => ?_⟩
  · have hne : bundleVersions lib bundleSpecs ≠ [] := by
      intro h
      obtain ⟨spec, hs, v, hv⟩ := hvalid
      exact (bundleVersions_nil_iff lib bundleSpecs).mp h spec hs v hv
    obtain ⟨lowest, rest, hsort, hres⟩ := LowestBundleVersion_of_valid lib bundleSpecs hne
    obtain ⟨hmem, hlow⟩ := SortFunc_head_lowest (compareVersions lib)
      (bundleVersions lib bundleSpecs)
      (fun a b ha hb hlt => by
        rw [compareVersions_neg] at hlt ⊢
        rw [hasym a b ((mem_bundleVersions lib bundleSpecs a).mp ha)
          ((mem_bundleVersions lib bundleSpecs b).mp hb) hlt]
        decide)
      (fun a b c ha hb hc hab hbc => by
        rw [compareVersions_neg, Bool.not_eq_true] at hab hbc ⊢
        exact hntrans a b c ((mem_bundleVersions lib bundleSpecs a).mp ha)
          ((mem_bundleVersions lib bundleSpecs b).mp hb)
          ((mem_bundleVersions lib bundleSpecs c).mp hc) hab hbc)
      lowest rest hsort
    refine ⟨lowest, (mem_bundleVersions lib bundleSpecs lowest).mp hmem, hres, ?_⟩
    intro spec hs w hw
    have := hlow w ((mem_bundleVersions lib bundleSpecs w).mpr ⟨spec, hs, hw⟩)
    rw [compareVersions_neg, Bool.not_eq_true] at this
    exact this
  · have hb : bundleVersions lib (pre ++ post) = bundleVersions lib bundleSpecs := by
      rw [hsplit, bundleVersions_append, bundleVersions_append,
        show x :: post = [x] ++ post from rfl, bundleVersions_append,
        bundleVersions_invalid lib x hx, List.nil_append]
    rw [LowestBundleVersion_eq, LowestBundleVersion_eq, hb]
  · have hsplit : Split "fleetconfig-controller:v0.1.0" ':' =
        ["fleetconfig-controller", "v0.1.0"] := by decide
    have hb : bundleVersions lib ["fleetconfig-controller:v0.1.0"] = [v] := by
      unfold bundleVersions
      rw [List.filterMap_cons, hsplit]
      simp only [hv, List.filterMap_nil]
    rw [LowestBundleVersion_eq, hb, ← hstr]
    rfl

theorem LowestBundleVersion_lowest_witness :
    (∃ lowest : Version,
      (∃ spec ∈ ["fleetconfig-controller:v0.10.0", "fleetconfig-controller",
          "fleetconfig-controller:v0.2.0", "fleetconfig-controller:latest"],
        IsVersionOf sampleSemver spec lowest) ∧
      LowestBundleVersion sampleSemver
        ["fleetconfig-controller:v0.10.0", "fleetconfig-controller",
          "fleetconfig-controller:v0.2.0", "fleetconfig-controller:latest"] =
          (sampleSemver.String lowest, none) ∧
      ∀ spec ∈ ["fleetconfig-controller:v0.10.0", "fleetconfig-controller",
          "fleetconfig-controller:v0.2.0", "fleetconfig-controller:latest"],
        ∀ w, IsVersionOf sampleSemver spec w → sampleSemver.LessThan w lowest = false) ∧
    LowestBundleVersion sampleSemver
        (["fleetconfig-controller:v0.10.0"] ++
          ["fleetconfig-controller:v0.2.0", "fleetconfig-controller:latest"]) =
      LowestBundleVersion sampleSemver
        ["fleetconfig-controller:v0.10.0", "fleetconfig-controller",
          "fleetconfig-controller:v0.2.0", "fleetconfig-controller:latest"] ∧
    LowestBundleVersion sampleSemver ["fleetconfig-controller:v0.1.0"] = ("0.1.0", none) :=
  ⟨(LowestBundleVersion_lowest sampleSemver
      ["fleetconfig-controller:v0.10.0", "fleetconfig-controller",
        "fleetconfig-controller:v0.2.0", "fleetconfig-controller:latest"]).1
      (fun a b _ _ h => sampleLessThan_asymm a b h)
      (fun a b c _ _ _ h1 h2 => sampleLessThan_negTrans a b c h1 h2)
      ⟨"fleetconfig-controller:v0.2.0", by decide, _,
        "fleetconfig-controller", "v0.2.0", by decide, rfl⟩,
    (LowestBundleVersion_lowest sampleSemver
      ["fleetconfig-controller:v0.10.0", "fleetconfig-controller",
        "fleetconfig-controller:v0.2.0", "fleetconfig-controller:latest"]).2.1
      ["fleetconfig-controller:v0.10.0"]
      ["fleetconfig-controller:v0.2.0", "fleetconfig-controller:latest"]
      "fleetconfig-controller" rfl
      (by
        rintro v ⟨repo, tag, hs, _⟩
        have h1 : Split "fleetconfig-controller" ':' = ["fleetconfig-controller"] := by decide
        rw [h1] at hs
        simp at hs),
    (LowestBundleVersion_lowest sampleSemver []).2.2 _ rfl (by decide)⟩


/-! ## Feature gates -/

theorem IsGate_unique {token key key2 : String} {b b2 : Bool} (h : IsGate token key b)
    (h2 : IsGate token key2 b2) : key = key2 ∧ b = b2 := by
  obtain ⟨f, v, hs, hk, hb⟩ := h
  obtain ⟨f2, v2, hs2, hk2, hb2⟩ := h2
  rw [hs] at hs2
  simp only [List.cons.injEq, and_true] at hs2
  obtain ⟨rfl, rfl⟩ := hs2
  rw [hk] at hk2
  rw [hb] at hb2
  exact ⟨hk2, Option.some.inj hb2⟩

/-- The loop body of `ExtractFeatureGates` sets the gate of a valid token and skips any
other token. -/
theorem extractFeatureGate_cases (m : FeatureGates) (token : String) :
    (∃ key b, IsGate token key b ∧ extractFeatureGate m token = m.set key b) ∨
    ((∀ key b, ¬ IsGate token key b) ∧ extractFeatureGate m token = m) := by
  unfold extractFeatureGate
  split
  · rename_i feature value hs
    cases hb : ParseBool (TrimSpace value) with
    | some enabled => exact Or.inl ⟨_, enabled, ⟨feature, value, hs, rfl, hb⟩, rfl⟩
    | none =>
      refine Or.inr ⟨?_, rfl⟩
      rintro key b ⟨f, v, hs2, _, hb2⟩
      rw [hs] at hs2
      simp only [List.cons.injEq, and_true] at hs2
      rw [← hs2.2, hb] at hb2
      cases hb2
  · rename_i hns
    refine Or.inr ⟨?_, rfl⟩
    rintro key b ⟨f, v, hs2, _, _⟩
    exact hns f v hs2

theorem mem_FeatureGates_set (m : FeatureGates) (key : String) (value : Bool) (k : String)
    (b : Bool) :
    (k, b) ∈ m.set key value ↔ (k = key ∧ b = value) ∨ (k ≠ key ∧ (k, b) ∈ m) := by
  unfold FeatureGates.set
  split
  · rename_i hany
    rw [List.any_eq_true] at hany
    obtain ⟨kv0, hkv0, hk0⟩ := hany
    have hk0 : kv0.1 = key := by simpa using hk0
    rw [List.mem_map]
    constructor
    · rintro ⟨kv, hkv, heq⟩
      split at heq
      · left
        simp only [Prod.mk.injEq] at heq
        exact ⟨heq.1.symm, heq.2.symm⟩
      · rename_i hne
        right
        subst heq
        exact ⟨hne, hkv⟩
    · rintro (⟨rfl, rfl⟩ | ⟨hne, hmem⟩)
      · exact ⟨kv0, hkv0, by rw [if_pos hk0]⟩
      · exact ⟨(k, b), hmem, by rw [if_neg hne]⟩
  · rename_i hany
    have hno : ∀ kv ∈ m, kv.1 ≠ key := by
      intro kv hkv hk
      apply hany
      rw [List.any_eq_true]
      exact ⟨kv, hkv, by simpa using hk⟩
    rw [List.mem_append, List.mem_singleton, Prod.mk.injEq]
    constructor
    · rintro (hmem | h)
      · exact Or.inr ⟨hno _ hmem, hmem⟩
      · exact Or.inl h
    · rintro (h | ⟨_, hmem⟩)
      · exact Or.inr h
      · exact Or.inl hmem

theorem FeatureGates_set_nodup (m : FeatureGates) (key : String) (value : Bool)
    (hnd : (m.map (·.1)).Nodup) : ((m.set key value).map (·.1)).Nodup := by
  unfold FeatureGates.set
  split
  · have : (m.map (fun kv => if kv.1 = key then (key, value) else kv)).map (·.1) =
        m.map (·.1) := by
      rw [List.map_map]
      apply List.map_congr_left
      intro kv _
      by_cases h : kv.1 = key
      · simp [h]
      · simp [h]
    rw [this]
    exact hnd
  · rename_i hany
    rw [List.map_append, List.map_singleton]
    apply List.Nodup.append hnd (List.nodup_singleton _)
    intro k hk hs
    rw [List.mem_singleton] at hs
    subst hs
    obtain ⟨kv, hkv, hkk⟩ := List.mem_map.mp hk
    apply hany
    rw [List.any_eq_true]
    exact ⟨kv, hkv, by simpa using hkk⟩

theorem foldl_extractFeatureGate_nodup (tokens : List String) :
    ∀ m : FeatureGates, (m.map (·.1)).Nodup →
      ((tokens.foldl extractFeatureGate m).map (·.1)).Nodup := by
  induction tokens with
  | nil => intro m h; exact h
  | cons t rest ih =>
    intro m h
    rw [List.foldl_cons]
    apply ih
    rcases extractFeatureGate_cases m t with ⟨key, b, _, heq⟩ | ⟨_, heq⟩
    · rw [heq]; exact FeatureGates_set_nodup m key b h
    · rw [heq]; exact h

/-- The entries after the loop of `ExtractFeatureGates`: those of the last valid token
for each key, and the entries there were before for the keys that no token sets. -/
theorem mem_foldl_extractFeatureGate (tokens : List String) :
    ∀ (m : FeatureGates) (k : String) (b : Bool),
      (k, b) ∈ tokens.foldl extractFeatureGate m ↔
        (∃ pre token post, tokens = pre ++ token :: post ∧ IsGate token k b ∧
          ∀ t ∈ post, ∀ b2, ¬ IsGate t k b2) ∨
        ((k, b) ∈ m ∧ ∀ t ∈ tokens, ∀ b2, ¬ IsGate t k b2) := by
  induction tokens with
  | nil =>
    intro m k b
    simp
  | cons t rest ih =>
    intro m k b
    rw [List.foldl_cons, ih]
    constructor
    · rintro (⟨pre, token, post, hsplit, hgate, hpost⟩ | ⟨hmem, hrest⟩)
      · exact Or.inl ⟨t :: pre, token, post, by rw [hsplit]; rfl, hgate, hpost⟩
      · rcases extractFeatureGate_cases m t with ⟨key, v, hg, heq⟩ | ⟨hng, heq⟩
        · rw [heq, mem_FeatureGates_set] at hmem
          rcases hmem with ⟨rfl, rfl⟩ | ⟨hne, hmem⟩
          · exact Or.inl ⟨[], t, rest, rfl, hg, hrest⟩
          · refine Or.inr ⟨hmem, fun x hx b2 hx2 => ?_⟩
            rcases List.mem_cons.mp hx with rfl | hx
            · exact hne (IsGate_unique hx2 hg).1
            · exact hrest x hx b2 hx2
        · rw [heq] at hmem
          refine Or.inr ⟨hmem, fun x hx b2 hx2 => ?_⟩
          rcases List.mem_cons.mp hx with rfl | hx
          · exact hng k b2 hx2
          · exact hrest x hx b2 hx2
    · rintro (⟨pre, token, post, hsplit, hgate, hpost⟩ | ⟨hmem, hall⟩)
      · cases pre with
        | nil =>
          simp only [List.nil_append, List.cons.injEq] at hsplit
          obtain ⟨rfl, rfl⟩ := hsplit
          right
          refine ⟨?_, hpost⟩
          rcases extractFeatureGate_cases m t with ⟨key, v, hg, heq⟩ | ⟨hng, _⟩
          · rw [heq, mem_FeatureGates_set]
            left
            exact IsGate_unique hgate hg
          · exact absurd hgate (hng k b)
        | cons p pre2 =>
          simp only [List.cons_append, List.cons.injEq] at hsplit
          exact Or.inl ⟨pre2, token, post, hsplit.2, hgate, hpost⟩
      · right
        refine ⟨?_, fun x hx => hall x (List.mem_cons_of_mem _ hx)⟩
        rcases extractFeatureGate_cases m t with ⟨key, v, hg, heq⟩ | ⟨_, heq⟩
        · rw [heq, mem_FeatureGates_set]
          right
          refine ⟨fun hk => ?_, hmem⟩
          subst hk
          exact hall t (List.mem_cons_self _ _) v hg
        · rw [heq]; exact hmem

theorem ParseBool_some_iff (s : String) (b : Bool) :
    ParseBool s = some b ↔
      (b = true ∧ s ∈ ["1", "t", "T", "TRUE", "true", "True"]) ∨
      (b = false ∧ s ∈ ["0", "f", "F", "FALSE", "false", "False"]) := by
  have hdisj : s ∈ ["0", "f", "F", "FALSE", "false", "False"] →
      ¬ (s = "1" ∨ s = "t" ∨ s = "T" ∨ s = "TRUE" ∨ s = "true" ∨ s = "True") := by
    intro h
    simp only [List.mem_cons, List.mem_singleton, List.not_mem_nil, or_false] at h
    rcases h with rfl | rfl | rfl | rfl | rfl | rfl <;> decide
  unfold ParseBool
  simp only [List.mem_cons, List.mem_singleton, List.not_mem_nil, or_false] at hdisj ⊢
  by_cases h1 : s = "1" ∨ s = "t" ∨ s = "T" ∨ s = "TRUE" ∨ s = "true" ∨ s = "True"
  · rw [if_pos h1]
    constructor
    · intro h
      exact Or.inl ⟨(Option.some.inj h).symm, h1⟩
    · rintro (⟨rfl, _⟩ | ⟨_, h0⟩)
      · rfl
      · exact absurd h1 (hdisj h0)
  · rw [if_neg h1]
    by_cases h0 : s = "0" ∨ s = "f" ∨ s = "F" ∨ s = "FALSE" ∨ s = "false" ∨ s = "False"
    · rw [if_pos h0]
      constructor
      · intro h
        exact Or.inr ⟨(Option.some.inj h).symm, h0⟩
      · rintro (⟨_, h⟩ | ⟨rfl, _⟩)
        · exact absurd h h1
        · rfl
    · rw [if_neg h0]
      constructor
      · intro h; cases h
      · rintro (⟨_, h⟩ | ⟨_, h⟩)
        · exact absurd h h1
        · exact absurd h h0

/-- C20: `ExtractFeatureGates` returns the empty map for a nil FleetConfig, for one
without cluster manager and for an empty feature gates string. Otherwise the map it
returns has one entry for each key, and it maps `key` to `enabled` exactly when some
comma-separated token, once trimmed, splits on '=' into exactly two parts, the first of
which, trimmed, is `key` and the second of which, trimmed, is read by `strconv.ParseBool`
as `enabled`, and no later token is such a token for `key`. The strings that
`strconv.ParseBool` reads are 1, t, T, TRUE, true, True and 0, f, F, FALSE, false, False.
Hence "Feature" and "Feature=notabool" give the empty map, and
" AddonManagement = true , ResourceCleanup = false " gives the map of
"AddonManagement=true,ResourceCleanup=false". -/
theorem ExtractFeatureGates_map :
    ExtractFeatureGates none = [] ∧
    (∀ mc : FleetConfig, mc.Spec.Hub.ClusterManager = none →
      ExtractFeatureGates (some mc) = []) ∧
    (∀ (mc : FleetConfig) (cm : ClusterManager), mc.Spec.Hub.ClusterManager = some cm →
      (cm.FeatureGates = "" → ExtractFeatureGates (some mc) = []) ∧
      ((ExtractFeatureGates (some mc)).map (·.1)).Nodup ∧
      ∀ (key : String) (enabled : Bool),
        (key, enabled) ∈ ExtractFeatureGates (some mc) ↔
          ∃ pre token post, Split cm.FeatureGates ',' = pre ++ token :: post ∧
            IsGate token key enabled ∧ ∀ t ∈ post, ∀ b, ¬ IsGate t key b) ∧
    (∀ (s : String) (b : Bool), ParseBool s = some b ↔
      (b = true ∧ s ∈ ["1", "t", "T", "TRUE", "true", "True"]) ∨
      (b = false ∧ s ∈ ["0", "f", "F", "FALSE", "false", "False"])) ∧
    ExtractFeatureGates (some (sampleGates "Feature")) = [] ∧
    ExtractFeatureGates (some (sampleGates "Feature=notabool")) = [] ∧
    ExtractFeatureGates
        (some (sampleGates " AddonManagement = true , ResourceCleanup = false ")) =
      ExtractFeatureGates (some (sampleGates "AddonManagement=true,ResourceCleanup=false")) ∧
    ExtractFeatureGates (some (sampleGates "AddonManagement=true,ResourceCleanup=false")) =
      [("AddonManagement", true), ("ResourceCleanup", false)] := by
  refine ⟨rfl, ?_, ?_, ParseBool_some_iff, by decide, by decide, by decide, by decide⟩
  · intro mc h
    unfold ExtractFeatureGates
    simp only [h]
  · intro mc cm hcm
    by_cases hempty : cm.FeatureGates = ""
    · have hnil : ExtractFeatureGates (some mc) = [] := by
        unfold ExtractFeatureGates
        simp only [hcm]
        rw [if_pos hempty]
      refine ⟨fun _ => hnil, by rw [hnil]; simp, fun key enabled => ?_⟩
      rw [hnil, hempty]
      constructor
      · intro h; cases h
      · rintro ⟨pre, token, post, hsplit, ⟨f, v, hs, _, _⟩, _⟩
        exfalso
        have h1 : Split "" ',' = [""] := by decide
        rw [h1] at hsplit
        cases pre with
        | nil =>
          simp only [List.nil_append, List.cons.injEq] at hsplit
          rw [← hsplit.1] at hs
          have h2 : Split (TrimSpace "") '=' = [""] := by decide
          rw [h2] at hs
          simp at hs
        | cons p pre2 =>
          simp only [List.cons_append, List.cons.injEq] at hsplit
          have := congrArg List.length hsplit.2
          simp at this
          omega
    · have hfold : ExtractFeatureGates (some mc) =
          (Split cm.FeatureGates ',').foldl extractFeatureGate [] := by
        unfold ExtractFeatureGates
        simp only [hcm]
        rw [if_neg hempty]
      refine ⟨fun h => absurd h hempty, ?_, fun key enabled => ?_⟩
      · rw [hfold]
        exact foldl_extractFeatureGate_nodup _ [] (by simp)
      · rw [hfold, mem_foldl_extractFeatureGate]
        simp

theorem ExtractFeatureGates_map_witness :
    ExtractFeatureGates (some FleetConfig.zero) = [] ∧
    ExtractFeatureGates (some (sampleGates "")) = [] ∧
    ((ExtractFeatureGates (some (sampleGates "A=true,B=1, A = F ,C"))).map (·.1)).Nodup ∧
    ("A", false) ∈ ExtractFeatureGates (some (sampleGates "A=true,B=1, A = F ,C")) :=
  ⟨ExtractFeatureGates_map.2.1 FleetConfig.zero rfl,
    (ExtractFeatureGates_map.2.2.1 (sampleGates "") _ rfl).1 rfl,
    (ExtractFeatureGates_map.2.2.1 (sampleGates "A=true,B=1, A = F ,C") _ rfl).2.1,
    ((ExtractFeatureGates_map.2.2.1 (sampleGates "A=true,B=1, A = F ,C") _ rfl).2.2 "A"
      false).mpr
      ⟨["A=true", "B=1"], " A = F ", ["C"], by decide,
        ⟨"A ", " F", by decide, by decide, by decide⟩,
        by
          intro t ht b hg
          rw [List.mem_singleton] at ht
          subst ht
          obtain ⟨f, v, hs, _, _⟩ := hg
          have h2 : Split (TrimSpace "C") '=' = ["C"] := by decide
          rw [h2] at hs
          simp at hs⟩⟩


/-! ## Registration drivers and the equality of conditions -/

/-- C26: `RegistrationAuth.GetDriver` returns "csr" on a nil receiver and the `Driver`
field, unchanged, on every other receiver: "csr" for the driver csr and "awsirsa" for the
driver awsirsa. -/
theorem GetDriver_nil_or_field :
    RegistrationAuth.GetDriver none = "csr" ∧
    (∀ ra : RegistrationAuth, RegistrationAuth.GetDriver (some ra) = ra.Driver) ∧
    (∀ (arn : String) (patterns : List String),
      RegistrationAuth.GetDriver
        (some { Driver := "csr", HubClusterARN := arn, AutoApprovedARNPatterns := patterns }) =
          "csr" ∧
      RegistrationAuth.GetDriver
        (some { Driver := "awsirsa", HubClusterARN := arn,
                AutoApprovedARNPatterns := patterns }) = "awsirsa") :=
  ⟨rfl, fun _ => rfl, fun _ _ => ⟨rfl, rfl⟩⟩

theorem Condition_Equal_iff (a b : Condition) :
    a.Equal b = true ↔
      a.Type_ = b.Type_ ∧ a.Status = b.Status ∧ a.WantStatus = b.WantStatus ∧
        a.Reason = b.Reason ∧ a.Message = b.Message := by
  simp [Condition.Equal, and_assoc]

/-- C22: `Condition.Equal` is true exactly when the two conditions agree on type, status,
wantStatus, reason and message; it is reflexive, symmetric and transitive; and its value
does not change when the lastTransitionTime of either condition is changed. -/
theorem Condition_Equal_equivalence :
    (∀ a b : Condition, a.Equal b = true ↔
      a.Type_ = b.Type_ ∧ a.Status = b.Status ∧ a.WantStatus = b.WantStatus ∧
        a.Reason = b.Reason ∧ a.Message = b.Message) ∧
    (∀ a : Condition, a.Equal a = true) ∧
    (∀ a b : Condition, a.Equal b = b.Equal a) ∧
    (∀ a b c : Condition, a.Equal b = true → b.Equal c = true → a.Equal c = true) ∧
    (∀ (a b : Condition) (t u : Nat),
      Condition.Equal { a with LastTransitionTime := t } { b with LastTransitionTime := u } =
        a.Equal b) := by
  refine ⟨Condition_Equal_iff, fun a => (Condition_Equal_iff a a).mpr ⟨rfl, rfl, rfl, rfl, rfl⟩,
    fun a b => ?_, fun a b c hab hbc => ?_, fun a b t u => rfl⟩
  · rw [Bool.eq_iff_iff, Condition_Equal_iff, Condition_Equal_iff]
    constructor
    · rintro ⟨h1, h2, h3, h4, h5⟩
      exact ⟨h1.symm, h2.symm, h3.symm, h4.symm, h5.symm⟩
    · rintro ⟨h1, h2, h3, h4, h5⟩
      exact ⟨h1.symm, h2.symm, h3.symm, h4.symm, h5.symm⟩
  · rw [Condition_Equal_iff] at hab hbc ⊢
    obtain ⟨h1, h2, h3, h4, h5⟩ := hab
    obtain ⟨k1, k2, k3, k4, k5⟩ := hbc
    exact ⟨h1.trans k1, h2.trans k2, h3.trans k3, h4.trans k4, h5.trans k5⟩

theorem Condition_Equal_equivalence_witness :
    sampleHubReady.Equal { sampleHubReady with LastTransitionTime := 77 } = true ∧
    Condition.Equal { sampleHubReady with LastTransitionTime := 3 } sampleJoined =
      sampleHubReady.Equal sampleJoined :=
  ⟨Condition_Equal_equivalence.2.2.2.1 sampleHubReady sampleHubReady
      { sampleHubReady with LastTransitionTime := 77 }
      (Condition_Equal_equivalence.2.1 sampleHubReady) (by decide),
    Condition_Equal_equivalence.2.2.2.2 sampleHubReady sampleJoined 3
      sampleJoined.LastTransitionTime⟩

/-! ## Condition types -/

theorem utf8ByteSize_eq_utf8Len (s : String) : s.utf8ByteSize = String.utf8Len s.data := by
  cases s
  exact String.utf8ByteSize_mk _

theorem takeBytes_size (cs : List Char) :
    ∀ n : Nat, String.utf8Len (takeBytes cs n) ≤ n := by
  induction cs with
  | nil => intro n; simp [takeBytes]
  | cons c rest ih =>
    intro n
    rw [takeBytes]
    split
    · rename_i h
      rw [String.utf8Len_cons]
      have := ih (n - c.utf8Size)
      omega
    · simp

theorem takeBytes_of_boundary (pre post : List Char) :
    ∀ n : Nat, String.utf8Len pre = n → takeBytes (pre ++ post) n = pre := by
  induction pre with
  | nil =>
    intro n h
    rw [String.utf8Len_nil] at h
    subst h
    cases post with
    | nil => rfl
    | cons c rest =>
      rw [List.nil_append, takeBytes, if_neg]
      have := Char.utf8Size_pos c
      omega
  | cons c rest ih =>
    intro n h
    rw [String.utf8Len_cons] at h
    rw [List.cons_append, takeBytes, if_pos (by omega), ih (n - c.utf8Size) (by omega)]

theorem utf8Len_of_one_byte (cs : List Char) (h : ∀ c ∈ cs, c.utf8Size = 1) :
    String.utf8Len cs = cs.length := by
  induction cs with
  | nil => rfl
  | cons c rest ih =>
    rw [String.utf8Len_cons, ih (fun x hx => h x (List.mem_cons_of_mem _ hx)),
      h c (List.mem_cons_self _ _), List.length_cons]

theorem takeBytes_of_one_byte (cs : List Char) (h : ∀ c ∈ cs, c.utf8Size = 1) (n : Nat)
    (hn : n ≤ cs.length) : takeBytes cs n = cs.take n := by
  have hsplit : cs = cs.take n ++ cs.drop n := (List.take_append_drop n cs).symm
  have hlen : String.utf8Len (cs.take n) = n := by
    rw [utf8Len_of_one_byte _ (fun c hc => h c (List.mem_of_mem_take hc)), List.length_take]
    omega
  conv => lhs; rw [hsplit]
  exact takeBytes_of_boundary _ _ n hlen


theorem utf8ByteSize_append (s t : String) :
    (s ++ t).utf8ByteSize = s.utf8ByteSize + t.utf8ByteSize := by
  rw [utf8ByteSize_eq_utf8Len, utf8ByteSize_eq_utf8Len, utf8ByteSize_eq_utf8Len,
    String.data_append, String.utf8Len_append]

theorem Spoke_conditionName_size (s : Spoke) : s.conditionName.utf8ByteSize ≤ 42 := by
  unfold Spoke.conditionName
  split
  · rw [String.utf8ByteSize_mk]
    exact takeBytes_size _ _
  · omega

theorem JoinedSpoke_conditionName_size (j : JoinedSpoke) :
    j.conditionName.utf8ByteSize ≤ 40 := by
  unfold JoinedSpoke.conditionName
  split
  · rw [String.utf8ByteSize_mk]
    exact takeBytes_size _ _
  · omega

/-- The text of the condition types: `Spoke.JoinType` is "spoke-cluster-" + p + "-joined",
where p is the whole name when the name has at most 42 bytes, and otherwise the characters
of the name that make up its first 42 bytes (the first 42 characters when every character
takes one byte); `JoinedSpoke.UnjoinType` is "spoke-cluster-" + q + "-unjoined" with q cut
in the same way at 40 bytes; and both texts have at most 63 bytes. -/
theorem JoinType_formula :
    (∀ s : Spoke,
      (s.Name.utf8ByteSize ≤ 42 → s.JoinType = "spoke-cluster-" ++ s.Name ++ "-joined") ∧
      (s.Name.utf8ByteSize > 42 → ∀ pre post : List Char, s.Name.data = pre ++ post →
        (String.mk pre).utf8ByteSize = 42 →
        s.JoinType = "spoke-cluster-" ++ String.mk pre ++ "-joined") ∧
      (s.Name.utf8ByteSize > 42 → (∀ c ∈ s.Name.data, c.utf8Size = 1) →
        s.JoinType = "spoke-cluster-" ++ String.mk (s.Name.data.take 42) ++ "-joined") ∧
      s.JoinType.utf8ByteSize ≤ 63) ∧
    (∀ j : JoinedSpoke,
      (j.Name.utf8ByteSize ≤ 40 → j.UnjoinType = "spoke-cluster-" ++ j.Name ++ "-unjoined") ∧
      (j.Name.utf8ByteSize > 40 → ∀ pre post : List Char, j.Name.data = pre ++ post →
        (String.mk pre).utf8ByteSize = 40 →
        j.UnjoinType = "spoke-cluster-" ++ String.mk pre ++ "-unjoined") ∧
      (j.Name.utf8ByteSize > 40 → (∀ c ∈ j.Name.data, c.utf8Size = 1) →
        j.UnjoinType = "spoke-cluster-" ++ String.mk (j.Name.data.take 40) ++ "-unjoined") ∧
      j.UnjoinType.utf8ByteSize ≤ 63) := by
  constructor
  · intro s
    refine ⟨fun h => ?_, fun h pre post hsplit hpre => ?_, fun h hone => ?_, ?_⟩
    · unfold Spoke.JoinType Spoke.conditionName
      rw [if_neg (by omega)]
    · unfold Spoke.JoinType Spoke.conditionName
      rw [if_pos h, hsplit, takeBytes_of_boundary pre post 42
        (by rw [← String.utf8ByteSize_mk]; exact hpre)]
    · unfold Spoke.JoinType Spoke.conditionName
      rw [if_pos h, takeBytes_of_one_byte _ hone 42]
      rw [utf8ByteSize_eq_utf8Len, utf8Len_of_one_byte _ hone] at h
      omega
    · have h1 := Spoke_conditionName_size s
      have h2 : ("spoke-cluster-" : String).utf8ByteSize = 14 := by decide
      have h3 : ("-joined" : String).utf8ByteSize = 7 := by decide
      unfold Spoke.JoinType
      rw [utf8ByteSize_append, utf8ByteSize_append, h2, h3]
      omega
  · intro j
    refine ⟨fun h => ?_, fun h pre post hsplit hpre => ?_, fun h hone => ?_, ?_⟩
    · unfold JoinedSpoke.UnjoinType JoinedSpoke.conditionName
      rw [if_neg (by omega)]
    · unfold JoinedSpoke.UnjoinType JoinedSpoke.conditionName
      rw [if_pos h, hsplit, takeBytes_of_boundary pre post 40
        (by rw [← String.utf8ByteSize_mk]; exact hpre)]
    · unfold JoinedSpoke.UnjoinType JoinedSpoke.conditionName
      rw [if_pos h, takeBytes_of_one_byte _ hone 40]
      rw [utf8ByteSize_eq_utf8Len, utf8Len_of_one_byte _ hone] at h
      omega
    · have h1 := JoinedSpoke_conditionName_size j
      have h2 : ("spoke-cluster-" : String).utf8ByteSize = 14 := by decide
      have h3 : ("-unjoined" : String).utf8ByteSize = 9 := by decide
      unfold JoinedSpoke.UnjoinType
      rw [utf8ByteSize_append, utf8ByteSize_append, h2, h3]
      omega

theorem JoinType_formula_witness :
    sampleHubAsSpoke.JoinType = "spoke-cluster-" ++ "spoke1" ++ "-joined" ∧
    Spoke.JoinType { Spoke.zero with Name := sampleLongName 'b' } =
      "spoke-cluster-" ++ String.mk ((sampleLongName 'b').data.take 42) ++ "-joined" ∧
    JoinedSpoke.UnjoinType
        { Name := sampleLongName 'b', Kubeconfig := none, PurgeKlusterletOperator := false } =
      "spoke-cluster-" ++ String.mk (List.replicate 40 'a') ++ "-unjoined" :=
  ⟨(JoinType_formula.1 sampleHubAsSpoke).1 (by decide),
    (JoinType_formula.1 { Spoke.zero with Name := sampleLongName 'b' }).2.2.1 (by decide)
      (by decide),
    (JoinType_formula.2
      { Name := sampleLongName 'b', Kubeconfig := none, PurgeKlusterletOperator := false }).2.1
      (by decide) (List.replicate 40 'a') ['a', 'a', 'b'] (by decide) (by decide)⟩

theorem utf8Size_of_isLowerAlnum (c : Char) (h : (isLowerAlnum c || c = '-') = true) :
    c.utf8Size = 1 := by
  have hv : c.val.toNat ≤ 127 := by
    simp only [isLowerAlnum, Bool.or_eq_true, Bool.and_eq_true, decide_eq_true_eq] at h
    rcases h with (⟨_, h⟩ | ⟨_, h⟩) | h
    · have : c.val.toNat ≤ 'z'.val.toNat := h
      have h2 : 'z'.val.toNat = 122 := by decide
      omega
    · have : c.val.toNat ≤ '9'.val.toNat := h
      have h2 : '9'.val.toNat = 57 := by decide
      omega
    · subst h
      decide
  unfold Char.utf8Size
  rw [if_pos]
  exact hv

theorem admittedName_one_byte (name : String) (h : admittedName name = true) :
    ∀ c ∈ name.data, c.utf8Size = 1 := by
  intro c hc
  unfold admittedName at h
  cases hd : name.data with
  | nil => rw [hd] at hc; cases hc
  | cons x xs =>
    rw [hd] at h hc
    simp only [Bool.and_eq_true, List.all_eq_true] at h
    exact utf8Size_of_isLowerAlnum c (h.2.1.2 c hc)

/-! ## The bytes of the condition types -/

theorem utf8Char_length (c : Char) : (utf8Char c).length = c.utf8Size := by
  unfold utf8Char Char.utf8Size
  simp only [Char.toNat]
  by_cases h1 : c.val.toNat ≤ 127
  · have h1b : c.val ≤ UInt32.ofNatCore 127 (by decide) := h1
    rw [if_pos h1, if_pos h1b]; rfl
  · have h1b : ¬ c.val ≤ UInt32.ofNatCore 127 (by decide) := h1
    rw [if_neg h1, if_neg h1b]
    by_cases h2 : c.val.toNat ≤ 2047
    · have h2b : c.val ≤ UInt32.ofNatCore 2047 (by decide) := h2
      rw [if_pos h2, if_pos h2b]; rfl
    · have h2b : ¬ c.val ≤ UInt32.ofNatCore 2047 (by decide) := h2
      rw [if_neg h2, if_neg h2b]
      by_cases h3 : c.val.toNat ≤ 65535
      · have h3b : c.val ≤ UInt32.ofNatCore 65535 (by decide) := h3
        rw [if_pos h3, if_pos h3b]; rfl
      · have h3b : ¬ c.val ≤ UInt32.ofNatCore 65535 (by decide) := h3
        rw [if_neg h3, if_neg h3b]; rfl

theorem utf8Bytes_length (s : String) : (utf8Bytes s).length = s.utf8ByteSize := by
  rw [utf8ByteSize_eq_utf8Len]
  unfold utf8Bytes
  induction s.data with
  | nil => rfl
  | cons c rest ih =>
    rw [List.flatMap_cons, List.length_append, ih, String.utf8Len_cons, utf8Char_length]
    omega

theorem utf8Bytes_append (s t : String) : utf8Bytes (s ++ t) = utf8Bytes s ++ utf8Bytes t := by
  unfold utf8Bytes
  rw [String.data_append, List.flatMap_append]

theorem utf8Bytes_lt_256 (s : String) : ∀ b ∈ utf8Bytes s, b < 256 := by
  intro b hb
  unfold utf8Bytes at hb
  rw [List.mem_flatMap] at hb
  obtain ⟨c, _, hc⟩ := hb
  have hv : c.toNat < 1114112 := by
    have := c.valid
    rcases this with h | ⟨_, h⟩
    · exact Nat.lt_trans h (by decide)
    · exact h
  unfold utf8Char at hc
  simp only at hc
  split at hc
  · simp only [List.mem_singleton] at hc; omega
  · split at hc
    · simp only [List.mem_cons, List.mem_singleton, List.not_mem_nil, or_false] at hc; omega
    · split at hc
      · simp only [List.mem_cons, List.mem_singleton, List.not_mem_nil, or_false] at hc; omega
      · simp only [List.mem_cons, List.mem_singleton, List.not_mem_nil, or_false] at hc; omega

theorem Spoke_conditionNameBytes_length (s : Spoke) :
    s.conditionNameBytes.length = min (utf8Bytes s.Name).length 42 := by
  unfold Spoke.conditionNameBytes
  simp only []
  split
  · rw [List.length_take]; omega
  · omega

theorem JoinedSpoke_conditionNameBytes_length (j : JoinedSpoke) :
    j.conditionNameBytes.length = min (utf8Bytes j.Name).length 40 := by
  unfold JoinedSpoke.conditionNameBytes
  simp only []
  split
  · rw [List.length_take]; omega
  · omega

/-- C21: for every spoke name, `JoinType` returns the bytes of "spoke-cluster-", then p,
then the bytes of "-joined", where p is the whole name when the name has at most 42 bytes
(the result is then the string "spoke-cluster-" + name + "-joined") and the first 42 bytes
of the name otherwise; `UnjoinType` returns the bytes of "spoke-cluster-", then q, then the
bytes of "-unjoined", with q cut in the same way at 40 bytes; and both results have at most
63 bytes: 21, respectively 23, more than the name when it is not cut, and exactly 63 when
it is. -/
theorem JoinType_bytes :
    (∀ s : Spoke,
      ((utf8Bytes s.Name).length ≤ 42 →
        s.JoinTypeBytes = utf8Bytes "spoke-cluster-" ++ utf8Bytes s.Name ++ utf8Bytes "-joined" ∧
        s.JoinTypeBytes = utf8Bytes ("spoke-cluster-" ++ s.Name ++ "-joined") ∧
        s.JoinTypeBytes.length = (utf8Bytes s.Name).length + 21) ∧
      ((utf8Bytes s.Name).length > 42 →
        s.JoinTypeBytes =
          utf8Bytes "spoke-cluster-" ++ (utf8Bytes s.Name).take 42 ++ utf8Bytes "-joined" ∧
        s.JoinTypeBytes.length = 63) ∧
      s.JoinTypeBytes.length ≤ 63) ∧
    (∀ j : JoinedSpoke,
      ((utf8Bytes j.Name).length ≤ 40 →
        j.UnjoinTypeBytes =
          utf8Bytes "spoke-cluster-" ++ utf8Bytes j.Name ++ utf8Bytes "-unjoined" ∧
        j.UnjoinTypeBytes = utf8Bytes ("spoke-cluster-" ++ j.Name ++ "-unjoined") ∧
        j.UnjoinTypeBytes.length = (utf8Bytes j.Name).length + 23) ∧
      ((utf8Bytes j.Name).length > 40 →
        j.UnjoinTypeBytes =
          utf8Bytes "spoke-cluster-" ++ (utf8Bytes j.Name).take 40 ++ utf8Bytes "-unjoined" ∧
        j.UnjoinTypeBytes.length = 63) ∧
      j.UnjoinTypeBytes.length ≤ 63) := by
  have h2 : (utf8Bytes "spoke-cluster-").length = 14 := by decide
  have h3 : (utf8Bytes "-joined").length = 7 := by decide
  have h4 : (utf8Bytes "-unjoined").length = 9 := by decide
  constructor
  · intro s
    have hlen : s.JoinTypeBytes.length = min (utf8Bytes s.Name).length 42 + 21 := by
      unfold Spoke.JoinTypeBytes
      rw [List.length_append, List.length_append, h2, h3, Spoke_conditionNameBytes_length]
      omega
    refine ⟨fun h => ?_, fun h => ?_, by omega⟩
    · have hc : s.conditionNameBytes = utf8Bytes s.Name := by
        unfold Spoke.conditionNameBytes
        simp only []
        rw [if_neg (by omega)]
      refine ⟨by unfold Spoke.JoinTypeBytes; rw [hc], ?_, by omega⟩
      unfold Spoke.JoinTypeBytes
      rw [hc, utf8Bytes_append, utf8Bytes_append]
    · refine ⟨?_, by omega⟩
      unfold Spoke.JoinTypeBytes Spoke.conditionNameBytes
      simp only []
      rw [if_pos h]
  · intro j
    have hlen : j.UnjoinTypeBytes.length = min (utf8Bytes j.Name).length 40 + 23 := by
      unfold JoinedSpoke.UnjoinTypeBytes
      rw [List.length_append, List.length_append, h2, h4,
        JoinedSpoke_conditionNameBytes_length]
      omega
    refine ⟨fun h => ?_, fun h => ?_, by omega⟩
    · have hc : j.conditionNameBytes = utf8Bytes j.Name := by
        unfold JoinedSpoke.conditionNameBytes
        simp only []
        rw [if_neg (by omega)]
      refine ⟨by unfold JoinedSpoke.UnjoinTypeBytes; rw [hc], ?_, by omega⟩
      unfold JoinedSpoke.UnjoinTypeBytes
      rw [hc, utf8Bytes_append, utf8Bytes_append]
    · refine ⟨?_, by omega⟩
      unfold JoinedSpoke.UnjoinTypeBytes JoinedSpoke.conditionNameBytes
      simp only []
      rw [if_pos h]

theorem JoinType_bytes_witness :
    sampleHubAsSpoke.JoinTypeBytes = utf8Bytes "spoke-cluster-spoke1-joined" ∧
    (Spoke.JoinTypeBytes { Spoke.zero with Name := sampleSplitName } =
        utf8Bytes "spoke-cluster-" ++ (List.replicate 41 97 ++ [195]) ++ utf8Bytes "-joined" ∧
      (Spoke.JoinTypeBytes { Spoke.zero with Name := sampleSplitName }).length = 63) ∧
    (JoinedSpoke.UnjoinTypeBytes
          { Name := sampleLongName 'b', Kubeconfig := none, PurgeKlusterletOperator := false } =
        utf8Bytes "spoke-cluster-" ++ List.replicate 40 97 ++ utf8Bytes "-unjoined" ∧
      (JoinedSpoke.UnjoinTypeBytes
          { Name := sampleLongName 'b', Kubeconfig := none,
            PurgeKlusterletOperator := false }).length = 63) :=
  ⟨((JoinType_bytes.1 sampleHubAsSpoke).1 (by decide)).2.1,
    (JoinType_bytes.1 { Spoke.zero with Name := sampleSplitName }).2.1 (by decide),
    (JoinType_bytes.2
      { Name := sampleLongName 'b', Kubeconfig := none, PurgeKlusterletOperator := false }).2.1
      (by decide)⟩

theorem utf8Bytes_mk_length (cs : List Char) :
    (cs.flatMap utf8Char).length = String.utf8Len cs := by
  have := utf8Bytes_length (String.mk cs)
  rw [String.utf8ByteSize_mk] at this
  exact this

theorem utf8Bytes_takeBytes_of_boundary (name : String) (pre post : List Char) (n : Nat)
    (hsplit : name.data = pre ++ post) (hpre : String.utf8Len pre = n) :
    utf8Bytes (String.mk (takeBytes name.data n)) = (utf8Bytes name).take n := by
  rw [hsplit, takeBytes_of_boundary pre post n hpre]
  unfold utf8Bytes
  rw [hsplit, List.flatMap_append]
  have hl : (pre.flatMap utf8Char).length = n := by rw [utf8Bytes_mk_length, hpre]
  rw [List.take_append_of_le_length (by omega), List.take_of_length_le (by omega)]

/-- The string that the model uses for a join type holds the bytes that `JoinType` returns
whenever the name is not cut or the cut falls between two characters; so it does for every
name of one-byte characters, as the names that the schema admits are. -/
theorem JoinType_utf8Bytes (s : Spoke)
    (h : s.Name.utf8ByteSize ≤ 42 ∨
      ∃ pre post : List Char, s.Name.data = pre ++ post ∧ String.utf8Len pre = 42) :
    utf8Bytes s.JoinType = s.JoinTypeBytes := by
  unfold Spoke.JoinType Spoke.JoinTypeBytes Spoke.conditionName Spoke.conditionNameBytes
  simp only []
  rw [utf8Bytes_append, utf8Bytes_append, utf8Bytes_length]
  by_cases hlen : s.Name.utf8ByteSize > 42
  · rw [if_pos hlen, if_pos hlen]
    rcases h with h | ⟨pre, post, hsplit, hpre⟩
    · omega
    · rw [utf8Bytes_takeBytes_of_boundary s.Name pre post 42 hsplit hpre]
  · rw [if_neg hlen, if_neg hlen]

/-- The string that the model uses for an unjoin type holds the bytes that `UnjoinType`
returns whenever the name is not cut or the cut falls between two characters. -/
theorem UnjoinType_utf8Bytes (j : JoinedSpoke)
    (h : j.Name.utf8ByteSize ≤ 40 ∨
      ∃ pre post : List Char, j.Name.data = pre ++ post ∧ String.utf8Len pre = 40) :
    utf8Bytes j.UnjoinType = j.UnjoinTypeBytes := by
  unfold JoinedSpoke.UnjoinType JoinedSpoke.UnjoinTypeBytes JoinedSpoke.conditionName
    JoinedSpoke.conditionNameBytes
  simp only []
  rw [utf8Bytes_append, utf8Bytes_append, utf8Bytes_length]
  by_cases hlen : j.Name.utf8ByteSize > 40
  · rw [if_pos hlen, if_pos hlen]
    rcases h with h | ⟨pre, post, hsplit, hpre⟩
    · omega
    · rw [utf8Bytes_takeBytes_of_boundary j.Name pre post 40 hsplit hpre]
  · rw [if_neg hlen, if_neg hlen]

theorem one_byte_boundary (cs : List Char) (h : ∀ c ∈ cs, c.utf8Size = 1) (n : Nat)
    (hn : n ≤ cs.length) :
    ∃ pre post : List Char, cs = pre ++ post ∧ String.utf8Len pre = n :=
  ⟨cs.take n, cs.drop n, (List.take_append_drop n cs).symm, by
    rw [utf8Len_of_one_byte _ (fun c hc => h c (List.mem_of_mem_take hc)), List.length_take]
    omega⟩

/-- For every name that the schema admits, the strings of the model hold the bytes that
`JoinType` and `UnjoinType` return. -/
theorem admittedName_utf8Bytes (name : String) (h : admittedName name = true) :
    (∀ s : Spoke, s.Name = name → utf8Bytes s.JoinType = s.JoinTypeBytes) ∧
    (∀ j : JoinedSpoke, j.Name = name → utf8Bytes j.UnjoinType = j.UnjoinTypeBytes) := by
  have hone := admittedName_one_byte name h
  have hl : name.utf8ByteSize = name.data.length := by
    rw [utf8ByteSize_eq_utf8Len, utf8Len_of_one_byte _ hone]
  constructor
  · intro s hs
    subst hs
    apply JoinType_utf8Bytes
    by_cases hle : s.Name.utf8ByteSize ≤ 42
    · exact Or.inl hle
    · exact Or.inr (one_byte_boundary _ hone 42 (by omega))
  · intro j hj
    subst hj
    apply UnjoinType_utf8Bytes
    by_cases hle : j.Name.utf8ByteSize ≤ 40
    · exact Or.inl hle
    · exact Or.inr (one_byte_boundary _ hone 40 (by omega))

theorem JoinType_eq_iff (s1 s2 : Spoke) :
    s1.JoinType = s2.JoinType ↔ s1.conditionName = s2.conditionName := by
  constructor
  · intro h
    have h2 := congrArg String.data h
    simp only [Spoke.JoinType, String.data_append] at h2
    have h3 := List.append_cancel_left (List.append_cancel_right h2)
    exact String.ext h3
  · intro h
    unfold Spoke.JoinType
    rw [h]

theorem UnjoinType_eq_iff (j1 j2 : JoinedSpoke) :
    j1.UnjoinType = j2.UnjoinType ↔ j1.conditionName = j2.conditionName := by
  constructor
  · intro h
    have h2 := congrArg String.data h
    simp only [JoinedSpoke.UnjoinType, String.data_append] at h2
    have h3 := List.append_cancel_left (List.append_cancel_right h2)
    exact String.ext h3
  · intro h
    unfold JoinedSpoke.UnjoinType
    rw [h]

theorem Spoke_conditionName_one_byte (s : Spoke) (h : ∀ c ∈ s.Name.data, c.utf8Size = 1) :
    s.conditionName = String.mk (s.Name.data.take 42) := by
  unfold Spoke.conditionName
  rw [utf8ByteSize_eq_utf8Len, utf8Len_of_one_byte _ h]
  split
  · rw [takeBytes_of_one_byte _ h 42 (by omega)]
  · rw [List.take_of_length_le (by omega)]

theorem JoinedSpoke_conditionName_one_byte (j : JoinedSpoke)
    (h : ∀ c ∈ j.Name.data, c.utf8Size = 1) :
    j.conditionName = String.mk (j.Name.data.take 40) := by
  unfold JoinedSpoke.conditionName
  rw [utf8ByteSize_eq_utf8Len, utf8Len_of_one_byte _ h]
  split
  · rw [takeBytes_of_one_byte _ h 40 (by omega)]
  · rw [List.take_of_length_le (by omega)]

/-- C30 as stated does not hold: two names that the schema admits, distinct but equal in
their first 42 characters, get the same joined condition type, and the same unjoined
condition type. -/
theorem JoinType_collision :
    admittedName (sampleLongName 'b') = true ∧ admittedName (sampleLongName 'c') = true ∧
    sampleLongName 'b' ≠ sampleLongName 'c' ∧
    Spoke.JoinType { Spoke.zero with Name := sampleLongName 'b' } =
      Spoke.JoinType { Spoke.zero with Name := sampleLongName 'c' } ∧
    JoinedSpoke.UnjoinType
        { Name := sampleLongName 'b', Kubeconfig := none, PurgeKlusterletOperator := false } =
      JoinedSpoke.UnjoinType
        { Name := sampleLongName 'c', Kubeconfig := none, PurgeKlusterletOperator := false } := by
  decide

/-- C30, amended: for two spokes whose names the schema admits, `JoinType` returns
distinct condition types exactly when the names differ within their first 42 characters,
and `UnjoinType` returns distinct condition types for two joined spokes exactly when their
names differ within their first 40 characters. So distinct names of at most 42 (for
`UnjoinType` 40) bytes get distinct condition types, whatever their characters. -/
theorem JoinType_distinct_iff :
    (∀ s1 s2 : Spoke, admittedName s1.Name = true → admittedName s2.Name = true →
      (s1.JoinType ≠ s2.JoinType ↔ s1.Name.data.take 42 ≠ s2.Name.data.take 42)) ∧
    (∀ j1 j2 : JoinedSpoke, admittedName j1.Name = true → admittedName j2.Name = true →
      (j1.UnjoinType ≠ j2.UnjoinType ↔ j1.Name.data.take 40 ≠ j2.Name.data.take 40)) ∧
    (∀ s1 s2 : Spoke, s1.Name ≠ s2.Name → s1.Name.utf8ByteSize ≤ 42 →
      s2.Name.utf8ByteSize ≤ 42 → s1.JoinType ≠ s2.JoinType) ∧
    (∀ j1 j2 : JoinedSpoke, j1.Name ≠ j2.Name → j1.Name.utf8ByteSize ≤ 40 →
      j2.Name.utf8ByteSize ≤ 40 → j1.UnjoinType ≠ j2.UnjoinType) := by
  refine ⟨fun s1 s2 h1 h2 => ?_, fun j1 j2 h1 h2 => ?_, fun s1 s2 hne h1 h2 => ?_,
    fun j1 j2 hne h1 h2 => ?_⟩
  · rw [not_iff_not, JoinType_eq_iff,
      Spoke_conditionName_one_byte s1 (admittedName_one_byte _ h1),
      Spoke_conditionName_one_byte s2 (admittedName_one_byte _ h2)]
    constructor
    · intro h; exact congrArg String.data h
    · intro h; rw [h]
  · rw [not_iff_not, UnjoinType_eq_iff,
      JoinedSpoke_conditionName_one_byte j1 (admittedName_one_byte _ h1),
      JoinedSpoke_conditionName_one_byte j2 (admittedName_one_byte _ h2)]
    constructor
    · intro h; exact congrArg String.data h
    · intro h; rw [h]
  · rw [Ne, JoinType_eq_iff]
    unfold Spoke.conditionName
    rw [if_neg (by omega), if_neg (by omega)]
    exact hne
  · rw [Ne, UnjoinType_eq_iff]
    unfold JoinedSpoke.conditionName
    rw [if_neg (by omega), if_neg (by omega)]
    exact hne

theorem JoinType_distinct_iff_witness :
    (Spoke.JoinType (sampleSpoke "spoke1" true "registry") ≠
        Spoke.JoinType (sampleSpoke "spoke2" true "registry") ↔
      "spoke1".data.take 42 ≠ "spoke2".data.take 42) ∧
    Spoke.JoinType (sampleSpoke "spoke1" true "registry") ≠
      Spoke.JoinType (sampleSpoke "spoke2" true "registry") ∧
    JoinedSpoke.UnjoinType
        { Name := "spoke1", Kubeconfig := none, PurgeKlusterletOperator := false } ≠
      JoinedSpoke.UnjoinType
        { Name := "spoke2", Kubeconfig := none, PurgeKlusterletOperator := false } :=
  ⟨JoinType_distinct_iff.1 (sampleSpoke "spoke1" true "registry")
      (sampleSpoke "spoke2" true "registry") (by decide) (by decide),
    JoinType_distinct_iff.2.2.1 (sampleSpoke "spoke1" true "registry")
      (sampleSpoke "spoke2" true "registry") (by decide) (by decide) (by decide),
    JoinType_distinct_iff.2.2.2
      { Name := "spoke1", Kubeconfig := none, PurgeKlusterletOperator := false }
      { Name := "spoke2", Kubeconfig := none, PurgeKlusterletOperator := false }
      (by decide) (by decide) (by decide)⟩


/-! ## A hub of unknown type -/

theorem initializeHubType_unknown (env : Env) (mc : FleetConfig) (initArgs : List String)
    (tr : Trace) (hcm : mc.Spec.Hub.ClusterManager = none)
    (hs : mc.Spec.Hub.SingletonControlPlane = none) :
    initializeHubType env mc initArgs tr =
      (.ret (some
        "unknown hub type, must specify either hub.clusterManager or hub.singletonControlPlane"),
        tr) := by
  unfold initializeHubType
  simp only [hcm, hs]

theorem finalizePhase_unhealthy (mc : FleetConfig)
    (h : mc.Status.Phase = FleetConfigUnhealthy) :
    (finalizePhase mc).2.Status.Phase = FleetConfigUnhealthy := by
  unfold finalizePhase
  split
  · rfl
  · split
    · rename_i hstart
      rw [h] at hstart
      exact absurd hstart (by decide)
    · exact h

/-- A pass of `reconcileDrive` in which `handleHub` returns an error ends with the phase
Unhealthy, whatever happens to the spokes. -/
theorem reconcileDrive_hub_error (env : Env) (start : FleetConfig) (tr : Trace) (e : String)
    (mc1 : FleetConfig) (tr1 : Trace)
    (hhub : handleHub env start tr = (.ret (some e), mc1, tr1)) :
    (reconcileDrive env start tr).2.1.Status.Phase = FleetConfigUnhealthy := by
  unfold reconcileDrive
  rw [hhub]
  simp only [ne_eq, reduceCtorEq, not_false_eq_true, if_true]
  split
  · rfl
  · split
    · rfl
    · have hS := handleSpokes_touched env (mc1.withPhase FleetConfigUnhealthy) tr1
      have hP := Touched_phase hS
      split
      · rename_i heq
        rw [heq] at hP
        exact hP
      · rename_i err2 mc3 tr2 heq
        rw [heq] at hP
        have h4 : (if err2 ≠ none then mc3.withPhase FleetConfigUnhealthy else mc3).Status.Phase =
            FleetConfigUnhealthy := by
          split
          · rfl
          · exact hP
        generalize (if err2 ≠ none then mc3.withPhase FleetConfigUnhealthy else mc3) = mc4 at h4
        exact finalizePhase_unhealthy mc4 h4

/-- C25: for a FleetConfig whose hub has neither a cluster manager nor a singleton control
plane, `initializeHub` returns the error "unknown hub type, must specify either
hub.clusterManager or hub.singletonControlPlane" without any call, so without writing a
temporary file and without running a subprocess; and a Reconcile pass on it (finalizer
present, no deletion timestamp, phase not empty) in which `handleHub` resolves the hub
kubeconfig, makes the operator client and finds no ClusterManager with conditions, so
that it calls `initializeHub`, ends with the phase Unhealthy. -/
theorem initializeHub_unknown_type (env : Env) (mc : FleetConfig)
    (hcm : mc.Spec.Hub.ClusterManager = none)
    (hs : mc.Spec.Hub.SingletonControlPlane = none) :
    (∀ tr : Trace, initializeHub env mc tr =
      (.ret (some
        "unknown hub type, must specify either hub.clusterManager or hub.singletonControlPlane"),
        tr)) ∧
    (∀ (tr tr1 tr2 tr3 : Trace) (hubKubeconfig : Bytes) (operatorC : RestConfig)
        (cm : Option OperatorClusterManager),
      env.getFleetConfig tr = .ok mc →
      env.newPatchHelper (tr ++ [.getFleetConfig]) mc = none →
      FleetConfigFinalizer ∈ mc.Finalizers →
      (mc.DeletionTimestamp = none ∨ mc.DeletionTimestamp = some 0) →
      mc.Status.Phase ≠ "" →
      KubeconfigFromSecretOrCluster env mc.Spec.Hub.Kubeconfig
        (initializeStatus env mc (tr ++ [.getFleetConfig, .newPatchHelper mc])).2 =
          (.ret (hubKubeconfig, none), tr1) →
      OperatorClient env hubKubeconfig tr1 = (.ok operatorC, tr2) →
      getClusterManager env operatorC tr2 = (.ok cm, tr3) →
      cm.bind (fun c => c.Conditions) = none →
      ∃ after : FleetConfig, (Reconcile env tr).2.1 = some after ∧
        after.Status.Phase = "Unhealthy") := by
  have hinit : ∀ (m : FleetConfig) (tr : Trace), m.Spec = mc.Spec → initializeHub env m tr =
      (.ret (some
        "unknown hub type, must specify either hub.clusterManager or hub.singletonControlPlane"),
        tr) := by
    intro m tr hspec
    have hcm2 : m.Spec.Hub.ClusterManager = none := by rw [hspec]; exact hcm
    have hs2 : m.Spec.Hub.SingletonControlPlane = none := by rw [hspec]; exact hs
    unfold initializeHub
    simp only []
    split
    · split
      · rename_i hdrv _ hra
        rw [hra] at hdrv
        exact absurd hdrv (by decide)
      · exact initializeHubType_unknown env m _ tr hcm2 hs2
    · exact initializeHubType_unknown env m _ tr hcm2 hs2
  refine ⟨fun tr => hinit mc tr rfl, ?_⟩
  intro tr tr1 tr2 tr3 hubKubeconfig operatorC cm hget hhelper hfin hnodel hphase hkube hop
    hcmget hnoconds
  rw [Reconcile_loaded env tr mc hget hhelper, reconcileObject_normal env mc _ hfin hnodel,
    if_neg hphase]
  refine ⟨_, rfl, ?_⟩
  apply reconcileDrive_hub_error env _ _
    "unknown hub type, must specify either hub.clusterManager or hub.singletonControlPlane"
    (initializeStatus env mc (tr ++ [.getFleetConfig, .newPatchHelper mc])).1 tr3
  unfold handleHub
  have hspec : (initializeStatus env mc (tr ++ [.getFleetConfig, .newPatchHelper mc])).1.Spec =
      mc.Spec := rfl
  rw [hspec, hkube]
  simp only [hop, hcmget, hnoconds]
  rw [hinit _ tr3 hspec]

theorem initializeHub_unknown_type_witness :
    initializeHub (sampleEnvNewHub sampleNoHubType) sampleNoHubType [] =
      (.ret (some
        "unknown hub type, must specify either hub.clusterManager or hub.singletonControlPlane"),
        []) ∧
    ∃ after : FleetConfig, (Reconcile (sampleEnvNewHub sampleNoHubType) []).2.1 = some after ∧
      after.Status.Phase = "Unhealthy" :=
  ⟨(initializeHub_unknown_type (sampleEnvNewHub sampleNoHubType) sampleNoHubType rfl rfl).1 [],
    (initializeHub_unknown_type (sampleEnvNewHub sampleNoHubType) sampleNoHubType rfl rfl).2
      [] _ _ _ _ _ _ rfl rfl (by decide) (by decide) (by decide) rfl rfl rfl rfl⟩


/-! ## Cleanup of the spokes -/

/-- C28 does not hold of the code: `cleanupSpokes` does not skip a spoke without joined
condition, it panics on it. When the spokes before it have a joined condition whose status
is not True, which are skipped without a call, the spoke whose joined condition is absent
makes `cleanupSpokes` dereference the nil pointer that `GetCondition` returned, in the
arguments of its log call. A spoke whose joined condition is present is treated as the
claim says: skipped when the status is not True, unjoined when it is, and an error of
the unjoin is returned at once. -/
theorem cleanupSpokes_panics_without_condition (env : Env) (mc : FleetConfig) :
    (∀ (pre : List Spoke) (spoke : Spoke) (post : List Spoke) (tr : Trace),
      (∀ s ∈ pre, ∃ c, mc.GetCondition s.JoinType = some c ∧ c.Status ≠ ConditionTrue) →
      mc.GetCondition spoke.JoinType = none →
      cleanupSpokes env mc (pre ++ spoke :: post) tr = (.panic nilDereference, tr)) ∧
    (∀ (spoke : Spoke) (rest : List Spoke) (tr : Trace) (c : Condition),
      mc.GetCondition spoke.JoinType = some c →
      (c.Status ≠ ConditionTrue →
        cleanupSpokes env mc (spoke :: rest) tr = cleanupSpokes env mc rest tr) ∧
      (c.Status = ConditionTrue → ∀ tr1 : Trace,
        (unjoinSpoke env spoke.Kubeconfig spoke.Name spoke.Klusterlet.PurgeOperator tr =
            (.ret none, tr1) →
          cleanupSpokes env mc (spoke :: rest) tr = cleanupSpokes env mc rest tr1) ∧
        (∀ e : String,
          unjoinSpoke env spoke.Kubeconfig spoke.Name spoke.Klusterlet.PurgeOperator tr =
            (.ret (some e), tr1) →
          cleanupSpokes env mc (spoke :: rest) tr = (.ret (some e), tr1)))) := by
  constructor
  · intro pre
    induction pre with
    | nil =>
      intro spoke post tr _ hmiss
      rw [List.nil_append, cleanupSpokes, hmiss]
    | cons s rest ih =>
      intro spoke post tr hpre hmiss
      obtain ⟨c, hc, hstatus⟩ := hpre s (List.mem_cons_self _ _)
      rw [List.cons_append, cleanupSpokes, hc]
      simp only [hstatus, ne_eq, not_false_eq_true, if_true]
      exact ih spoke post tr (fun x hx => hpre x (List.mem_cons_of_mem _ hx)) hmiss
  · intro spoke rest tr c hc
    refine ⟨fun hstatus => ?_, fun hstatus tr1 => ⟨fun hun => ?_, fun e hun => ?_⟩⟩
    · rw [cleanupSpokes, hc]
      simp only [hstatus, ne_eq, not_false_eq_true, if_true]
    · rw [cleanupSpokes, hc]
      simp only [hstatus, ne_eq, not_true_eq_false, if_false, hun]
    · rw [cleanupSpokes, hc]
      simp only [hstatus, ne_eq, not_true_eq_false, if_false, hun]

theorem cleanupSpokes_panics_without_condition_witness :
    cleanupSpokes sampleEnv sampleDeletingNewSpoke ([] ++ sampleHubAsSpoke :: []) [] =
      (.panic nilDereference, []) ∧
    (Reconcile (sampleEnvFetching sampleDeletingNewSpoke) []).1 = .panic nilDereference ∧
    cleanupSpokes sampleEnv (sampleInitialized sampleFresh) [sampleHubAsSpoke] [] =
      cleanupSpokes sampleEnv (sampleInitialized sampleFresh) [] [] :=
  ⟨(cleanupSpokes_panics_without_condition sampleEnv sampleDeletingNewSpoke).1 []
      sampleHubAsSpoke [] [] (by intro s hs; cases hs) rfl,
    rfl,
    ((cleanupSpokes_panics_without_condition sampleEnv (sampleInitialized sampleFresh)).2
      sampleHubAsSpoke [] [] _ rfl).1 (by decide)⟩


/-! ## Deregistration of a spoke -/

/-- C29: once its two clients are made, `deregisterSpoke` returns nil when the
ManagedCluster named after the spoke is not found, and returns the error "Found
manifestWorks for ManagedCluster ...; cannot unjoin spoke cluster while it has active
ManifestWorks" when the list of the ManifestWorks in the namespace of the ManagedCluster is
not empty; in both cases its calls end with the lookup (and the list), and none of them
runs `clusteradm` or deletes a resource. The function is given no feature gates, so the
value of ResourceCleanup plays no part. -/
theorem deregisterSpoke_guards (env : Env) (hubKubeconfig : Bytes) (spoke : JoinedSpoke)
    (tr tr1 tr2 : Trace) (clusterC workC : RestConfig)
    (hcluster : ClusterClient env hubKubeconfig tr = (.ok clusterC, tr1))
    (hwork : WorkClient env hubKubeconfig tr1 = (.ok workC, tr2)) :
    (∀ err : ApiError, env.getManagedCluster tr2 clusterC spoke.Name = .error err →
      err.IsNotFound = true →
      deregisterSpoke env hubKubeconfig spoke tr =
        (.ret none, tr2 ++ [.getManagedCluster clusterC spoke.Name]) ∧
      Quiet tr (deregisterSpoke env hubKubeconfig spoke tr).2) ∧
    (∀ (managedCluster : ManagedCluster) (manifestWorks : Nat),
      env.getManagedCluster tr2 clusterC spoke.Name = .ok managedCluster →
      env.listManifestWorks (tr2 ++ [.getManagedCluster clusterC spoke.Name]) workC
        managedCluster.Name = .ok manifestWorks →
      manifestWorks > 0 →
      deregisterSpoke env hubKubeconfig spoke tr =
        (.ret (some ("Found manifestWorks for ManagedCluster " ++ managedCluster.Name ++
            "; cannot unjoin spoke cluster while it has active ManifestWorks")),
          tr2 ++ [.getManagedCluster clusterC spoke.Name] ++
            [.listManifestWorks workC managedCluster.Name]) ∧
      Quiet tr (deregisterSpoke env hubKubeconfig spoke tr).2) := by
  have hq1 : Quiet tr tr1 := by
    have := ClusterClient_quiet env hubKubeconfig tr
    rw [hcluster] at this
    exact this
  have hq2 : Quiet tr1 tr2 := by
    have := WorkClient_quiet env hubKubeconfig tr1
    rw [hwork] at this
    exact this
  constructor
  · intro err hget hnf
    have hrun : deregisterSpoke env hubKubeconfig spoke tr =
        (.ret none, tr2 ++ [.getManagedCluster clusterC spoke.Name]) := by
      unfold deregisterSpoke
      simp only [hcluster, hwork, hget, hnf, if_true]
    refine ⟨hrun, ?_⟩
    rw [hrun]
    exact Quiet_trans hq1 (Quiet_trans hq2 (Quiet_snoc _ _ (by rfl) (by rfl)))
  · intro managedCluster manifestWorks hget hlist hpos
    have hrun : deregisterSpoke env hubKubeconfig spoke tr =
        (.ret (some ("Found manifestWorks for ManagedCluster " ++ managedCluster.Name ++
            "; cannot unjoin spoke cluster while it has active ManifestWorks")),
          tr2 ++ [.getManagedCluster clusterC spoke.Name] ++
            [.listManifestWorks workC managedCluster.Name]) := by
      unfold deregisterSpoke
      simp only [hcluster, hwork, hget, hlist, hpos, if_true]
    refine ⟨hrun, ?_⟩
    rw [hrun]
    exact Quiet_trans hq1 (Quiet_trans hq2 (Quiet_trans (Quiet_snoc _ _ (by rfl) (by rfl))
      (Quiet_snoc _ _ (by rfl) (by rfl))))

theorem deregisterSpoke_guards_witness :
    (deregisterSpoke sampleEnv (some "https://hub")
        { Name := "spoke1", Kubeconfig := none, PurgeKlusterletOperator := true } [] =
        (.ret none, [] ++ [.getManagedCluster { Host := "https://hub" } "spoke1"]) ∧
      Quiet [] (deregisterSpoke sampleEnv (some "https://hub")
        { Name := "spoke1", Kubeconfig := none, PurgeKlusterletOperator := true } []).2) ∧
    (deregisterSpoke (sampleEnvJoined sampleWithSpoke).withWork (some "https://hub")
        { Name := "spoke1", Kubeconfig := none, PurgeKlusterletOperator := true } [] =
        (.ret (some ("Found manifestWorks for ManagedCluster " ++ "spoke1" ++
            "; cannot unjoin spoke cluster while it has active ManifestWorks")),
          [] ++ [.getManagedCluster { Host := "https://hub" } "spoke1"] ++
            [.listManifestWorks { Host := "https://hub" } "spoke1"]) ∧
      Quiet [] (deregisterSpoke (sampleEnvJoined sampleWithSpoke).withWork (some "https://hub")
        { Name := "spoke1", Kubeconfig := none, PurgeKlusterletOperator := true } []).2) :=
  ⟨(deregisterSpoke_guards sampleEnv (some "https://hub")
      { Name := "spoke1", Kubeconfig := none, PurgeKlusterletOperator := true } [] [] []
      { Host := "https://hub" } { Host := "https://hub" } rfl rfl).1 _ rfl rfl,
    (deregisterSpoke_guards (sampleEnvJoined sampleWithSpoke).withWork (some "https://hub")
      { Name := "spoke1", Kubeconfig := none, PurgeKlusterletOperator := true } [] [] []
      { Host := "https://hub" } { Host := "https://hub" } rfl rfl).2 _ 1 rfl rfl (by decide)⟩


/-! ## Failures of the join steps -/

/-- After `SetConditions(true, c)` the condition that `GetCondition` returns for the type
of `c` has the status, the wantStatus and the message of `c`. -/
theorem GetCondition_SetConditions_cover (mc : FleetConfig) (c : Condition) :
    ∃ g, (mc.SetConditions true [c]).GetCondition c.Type_ = some g ∧
      g.Status = c.Status ∧ g.WantStatus = c.WantStatus ∧ g.Message = c.Message := by
  obtain ⟨g, hg, heq⟩ := find_setCondition_cover mc.Status.Conditions c
  rw [Condition_Equal_iff] at heq
  exact ⟨g, hg, heq.2.1, heq.2.2.1, heq.2.2.2.2⟩

/-- C27 as stated does not hold: when fetching the join token fails, `handleSpokes`
returns that error at once. With two declared spokes without ManagedCluster and a
failing `clusteradm get token`, the joined condition of the first spoke keeps its message
and the second spoke is never looked up. -/
theorem handleSpokes_token_failure_stops :
    (handleSpokes (sampleEnvFailing "get") sampleTwoSpokes []).1 =
      .ret (some
        "failed to get join token: failed to get join token: exit status 1, output: ") ∧
    (handleSpokes (sampleEnvFailing "get") sampleTwoSpokes []).2.1 = sampleTwoSpokes ∧
    (sampleTwoSpokes.GetCondition "spoke-cluster-spoke1-joined").map (·.Message) = some "" ∧
    Call.getManagedCluster { Host := "https://hub" } "spoke2" ∉
      (handleSpokes (sampleEnvFailing "get") sampleTwoSpokes []).2.2 := by
  refine ⟨rfl, rfl, by decide, by decide⟩

/-- C27, amended: for a declared spoke that has no ManagedCluster on the hub, a failure of
`clusteradm join` or of `clusteradm accept` sets the joined condition of the spoke to the
status False, wanting True, with the error text as message, and the loop of `handleSpokes`
goes on with the remaining spokes; a failure to fetch the join token makes the loop
return the error "failed to get join token: ..." at once, with the FleetConfig as it was
and the remaining spokes not processed. -/
theorem handleSpokesLoop_join_failure (env : Env) (clusterClient : RestConfig) (spoke : Spoke)
    (rest : List Spoke) (mc : FleetConfig) (tr tr1 : Trace)
    (habsent : GetManagedCluster env clusterClient spoke.Name tr = (.ok none, tr1)) :
    (∀ (tokenMeta : Option TokenMeta) (e : String) (tr2 : Trace),
      getToken env mc tr1 = (.ret (tokenMeta, some e), tr2) →
      handleSpokesLoop env clusterClient (spoke :: rest) mc tr =
        (.ret (some ("failed to get join token: " ++ e)), mc, tr2)) ∧
    (∀ (tokenMeta : Option TokenMeta) (tr2 : Trace),
      getToken env mc tr1 = (.ret (tokenMeta, none), tr2) →
      (∀ (e : String) (tr3 : Trace),
        joinSpoke env mc.Spec spoke tokenMeta tr2 = (.ret (some e), tr3) →
        handleSpokesLoop env clusterClient (spoke :: rest) mc tr =
          handleSpokesLoop env clusterClient rest
            (mc.SetConditions true
              [NewCondition (env.now tr3) e spoke.JoinType ConditionFalse ConditionTrue])
            (tr3 ++ [.now]) ∧
        ∃ g, (mc.SetConditions true
            [NewCondition (env.now tr3) e spoke.JoinType ConditionFalse
              ConditionTrue]).GetCondition spoke.JoinType = some g ∧
          g.Status = ConditionFalse ∧ g.WantStatus = ConditionTrue ∧ g.Message = e) ∧
      (∀ (e : String) (tr3 tr4 : Trace),
        joinSpoke env mc.Spec spoke tokenMeta tr2 = (.ret none, tr3) →
        acceptCluster env spoke.Name tr3 = (some e, tr4) →
        handleSpokesLoop env clusterClient (spoke :: rest) mc tr =
          handleSpokesLoop env clusterClient rest
            (mc.SetConditions true
              [NewCondition (env.now tr4) e spoke.JoinType ConditionFalse ConditionTrue])
            (tr4 ++ [.now]) ∧
        ∃ g, (mc.SetConditions true
            [NewCondition (env.now tr4) e spoke.JoinType ConditionFalse
              ConditionTrue]).GetCondition spoke.JoinType = some g ∧
          g.Status = ConditionFalse ∧ g.WantStatus = ConditionTrue ∧ g.Message = e)) := by
  refine ⟨fun tokenMeta e tr2 htoken => ?_, fun tokenMeta tr2 htoken =>
    ⟨fun e tr3 hjoin => ⟨?_, ?_⟩, fun e tr3 tr4 hjoin haccept => ⟨?_, ?_⟩⟩⟩
  · rw [handleSpokesLoop]
    unfold handleSpoke
    simp only [habsent, htoken]
  · rw [handleSpokesLoop]
    unfold handleSpoke
    simp only [habsent, htoken, hjoin]
  · exact GetCondition_SetConditions_cover mc
      (NewCondition (env.now tr3) e spoke.JoinType ConditionFalse ConditionTrue)
  · rw [handleSpokesLoop]
    unfold handleSpoke
    simp only [habsent, htoken, hjoin, haccept]
  · exact GetCondition_SetConditions_cover mc
      (NewCondition (env.now tr4) e spoke.JoinType ConditionFalse ConditionTrue)

theorem handleSpokesLoop_join_failure_witness :
    (∃ tr2 : Trace,
      handleSpokesLoop (sampleEnvFailing "get") { Host := "https://hub" }
          (sampleHubAsSpoke :: [{ sampleHubAsSpoke with Name := "spoke2" }]) sampleTwoSpokes [] =
        (.ret (some ("failed to get join token: " ++
          "failed to get join token: exit status 1, output: ")), sampleTwoSpokes, tr2)) ∧
    (∃ (now : Nat) (g : Condition),
      (sampleTwoSpokes.SetConditions true
          [NewCondition now
            "clusteradm join command failed for spoke spoke1: exit status 1, output: "
            sampleHubAsSpoke.JoinType ConditionFalse ConditionTrue]).GetCondition
        sampleHubAsSpoke.JoinType = some g ∧
      g.Status = ConditionFalse ∧ g.WantStatus = ConditionTrue ∧
      g.Message =
        "clusteradm join command failed for spoke spoke1: exit status 1, output: ") ∧
    (∃ (now : Nat) (g : Condition),
      (sampleTwoSpokes.SetConditions true
          [NewCondition now "failed to accept spoke cluster join request: exit status 1, output: "
            sampleHubAsSpoke.JoinType ConditionFalse ConditionTrue]).GetCondition
        sampleHubAsSpoke.JoinType = some g ∧
      g.Status = ConditionFalse ∧ g.WantStatus = ConditionTrue ∧
      g.Message = "failed to accept spoke cluster join request: exit status 1, output: ") :=
  ⟨⟨_, (handleSpokesLoop_join_failure (sampleEnvFailing "get") { Host := "https://hub" }
      sampleHubAsSpoke [{ sampleHubAsSpoke with Name := "spoke2" }] sampleTwoSpokes [] _
      rfl).1 _ _ _ rfl⟩,
    ⟨_, (((handleSpokesLoop_join_failure (sampleEnvFailing "join") { Host := "https://hub" }
      sampleHubAsSpoke [{ sampleHubAsSpoke with Name := "spoke2" }] sampleTwoSpokes [] _
      rfl).2 _ _ rfl).1
      "clusteradm join command failed for spoke spoke1: exit status 1, output: " _ rfl).2⟩,
    ⟨_, (((handleSpokesLoop_join_failure (sampleEnvFailing "accept") { Host := "https://hub" }
      sampleHubAsSpoke [{ sampleHubAsSpoke with Name := "spoke2" }] sampleTwoSpokes [] _
      rfl).2 _ _ rfl).2
      "failed to accept spoke cluster join request: exit status 1, output: " _ _ rfl rfl).2⟩⟩


/-! ## The joined spokes after `handleSpokes` -/

theorem find_setCondition_other (l : List Condition) (new : Condition) (t : String)
    (hne : new.Type_ ≠ t) :
    (setCondition true l new).find? (fun x => x.Type_ == t) =
      l.find? (fun x => x.Type_ == t) := by
  have hnew : (new.Type_ == t) = false := by simpa using hne
  rw [setCondition_cover_eq]
  split
  · clear * - hne hnew
    induction l with
    | nil => rfl
    | cons x rest ih =>
      rw [List.map_cons, List.find?_cons, List.find?_cons, ih]
      by_cases hx : x.Type_ = new.Type_ ∧ x.Equal new = false
      · have hxt : (x.Type_ == t) = false := by
          rw [hx.1]; exact hnew
        rw [if_pos hx, hnew, hxt]
      · rw [if_neg hx]
  · rw [List.find?_append]
    cases l.find? (fun x => x.Type_ == t) with
    | some g => rfl
    | none => simp [List.find?_cons, hnew]

theorem find_foldl_setCondition_other (cs : List Condition) (t : String)
    (hne : ∀ c ∈ cs, c.Type_ ≠ t) :
    ∀ l : List Condition,
      (cs.foldl (setCondition true) l).find? (fun x => x.Type_ == t) =
        l.find? (fun x => x.Type_ == t) := by
  induction cs with
  | nil => intro l; rfl
  | cons c rest ih =>
    intro l
    rw [List.foldl_cons, ih (fun x hx => hne x (List.mem_cons_of_mem _ hx)),
      find_setCondition_other l c t (hne c (List.mem_cons_self _ _))]

/-- After `SetConditions(true, cs...)` with conditions of distinct types, the condition
found for the type of each supplied condition is `Equal` to it. -/
theorem find_foldl_setCondition_cover (cs : List Condition)
    (hnd : (cs.map (·.Type_)).Nodup) :
    ∀ (l : List Condition), ∀ c ∈ cs,
      ∃ g, (cs.foldl (setCondition true) l).find? (fun x => x.Type_ == c.Type_) = some g ∧
        g.Equal c = true := by
  induction cs with
  | nil => intro l c hc; cases hc
  | cons c0 rest ih =>
    intro l c hc
    rw [List.map_cons, List.nodup_cons] at hnd
    rw [List.foldl_cons]
    rcases List.mem_cons.mp hc with rfl | hc
    · rw [find_foldl_setCondition_other rest c.Type_]
      · exact find_setCondition_cover l c
      · intro x hx hxt
        exact hnd.1 (List.mem_map.mpr ⟨x, hx, hxt⟩)
    · exact ih hnd.2 _ c hc

theorem JoinType_ne_UnjoinType (s : Spoke) (j : JoinedSpoke) : s.JoinType ≠ j.UnjoinType := by
  intro h
  have h2 := congrArg String.data h
  simp only [Spoke.JoinType, JoinedSpoke.UnjoinType, String.data_append] at h2
  have h3 := congrArg List.reverse h2
  simp only [List.reverse_append, List.reverse_cons, List.reverse_nil, List.nil_append,
    List.cons_append, List.singleton_append, List.append_assoc, List.cons.injEq] at h3
  exact absurd h3.2.2.2.2.2.2.1 (by decide)

theorem JoinTouched_refl (spokes : List Spoke) (mc : FleetConfig) : JoinTouched spokes mc mc :=
  ⟨[], by simp, rfl⟩

theorem JoinTouched_trans {spokes : List Spoke} {a b c : FleetConfig}
    (h1 : JoinTouched spokes a b) (h2 : JoinTouched spokes b c) : JoinTouched spokes a c := by
  obtain ⟨cs1, hw1, rfl⟩ := h1
  obtain ⟨cs2, hw2, rfl⟩ := h2
  refine ⟨cs1 ++ cs2, ?_, ?_⟩
  · intro x hx
    rcases List.mem_append.mp hx with h | h
    · exact hw1 x h
    · exact hw2 x h
  · simp [List.foldl_append]

theorem JoinTouched_mono {spokes spokes2 : List Spoke} {a b : FleetConfig}
    (hsub : ∀ s ∈ spokes, s ∈ spokes2) (h : JoinTouched spokes a b) :
    JoinTouched spokes2 a b := by
  obtain ⟨cs, hw, rfl⟩ := h
  refine ⟨cs, fun c hc => ?_, rfl⟩
  obtain ⟨s, hs, ht⟩ := hw c hc
  exact ⟨s, hsub s hs, ht⟩

theorem JoinTouched_set (spoke : Spoke) (mc : FleetConfig) (now : Nat) (msg : String)
    (status wantStatus : ConditionStatus) :
    JoinTouched [spoke] mc
      (mc.SetConditions true [NewCondition now msg spoke.JoinType status wantStatus]) :=
  ⟨[NewCondition now msg spoke.JoinType status wantStatus],
    fun c hc => ⟨spoke, by simp, by rw [List.mem_singleton] at hc; rw [hc]; rfl⟩, rfl⟩

theorem handleSpokeJoined_joinTouched (env : Env) (clusterClient : RestConfig) (spoke : Spoke)
    (managedCluster : Option ManagedCluster) (mc : FleetConfig) (tr : Trace) :
    JoinTouched [spoke] mc
      (handleSpokeJoined env clusterClient spoke managedCluster mc tr).2.1 := by
  unfold handleSpokeJoined
  repeat' first
    | split
    | dsimp only
  all_goals exact JoinTouched_set _ _ _ _ _ _

theorem handleSpoke_joinTouched (env : Env) (clusterClient : RestConfig) (spoke : Spoke)
    (mc : FleetConfig) (tr : Trace) :
    JoinTouched [spoke] mc (handleSpoke env clusterClient spoke mc tr).2.1 := by
  unfold handleSpoke
  repeat' first
    | split
    | dsimp only
  all_goals first
    | exact JoinTouched_refl _ _
    | exact JoinTouched_set _ _ _ _ _ _
    | exact handleSpokeJoined_joinTouched _ _ _ _ _ _

theorem handleSpokesLoop_joinTouched (env : Env) (clusterClient : RestConfig)
    (l : List Spoke) :
    ∀ (mc : FleetConfig) (tr : Trace),
      JoinTouched l mc (handleSpokesLoop env clusterClient l mc tr).2.1 := by
  induction l with
  | nil => intro mc tr; exact JoinTouched_refl _ _
  | cons s rest ih =>
    intro mc tr
    rw [handleSpokesLoop]
    have h : JoinTouched (s :: rest) mc (handleSpoke env clusterClient s mc tr).2.1 :=
      JoinTouched_mono (by simp) (handleSpoke_joinTouched env clusterClient s mc tr)
    split
    · rename_i heq
      rw [heq] at h
      exact JoinTouched_trans h
        (JoinTouched_mono (fun x hx => List.mem_cons_of_mem _ hx) (ih _ _))
    · rename_i heq
      rw [heq] at h
      exact h
    · rename_i heq
      rw [heq] at h
      exact h

theorem unmatched_iff (spokes : List Spoke) (js : JoinedSpoke) :
    unmatched spokes js = true ↔
      ¬ (spokes.any (fun spoke => spoke.Name = js.Name ∧ spoke.Kubeconfig = js.Kubeconfig)) =
        true := by
  unfold unmatched
  simp

/-- The loop at lines 47-62 of `handleSpokes`, when it returns: every joined spoke that
matches no declared spoke was deregistered, those whose deregistration failed are
appended to `joinedSpokes`, and one condition was set after each deregistration. -/
theorem deregisterLoop_log (env : Env) (hubKubeconfig : Bytes) (spokes : List Spoke)
    (joined : List JoinedSpoke) :
    ∀ (acc : List JoinedSpoke) (mc : FleetConfig) (tr : Trace) (out : List JoinedSpoke)
      (mc1 : FleetConfig) (tr1 : Trace),
      deregisterLoop env hubKubeconfig spokes joined acc mc tr = (.ret out, mc1, tr1) →
      (deregistrations env hubKubeconfig spokes joined tr).map (·.1) =
        joined.filter (unmatched spokes) ∧
      out = acc ++ ((deregistrations env hubKubeconfig spokes joined tr).filter
        (fun entry => entry.2.1.isSome)).map (·.1) ∧
      mc1 = { mc with
        Status := { mc.Status with
          Conditions := ((deregistrations env hubKubeconfig spokes joined tr).map
            (unjoinCondition env)).foldl (setCondition true) mc.Status.Conditions } } := by
  induction joined with
  | nil =>
    intro acc mc tr out mc1 tr1 h
    rw [deregisterLoop] at h
    simp only [Prod.mk.injEq, Outcome.ret.injEq] at h
    obtain ⟨h1, h2, _⟩ := h
    subst h1 h2
    simp [deregistrations]
  | cons js rest ih =>
    intro acc mc tr out mc1 tr1 h
    rw [deregisterLoop] at h
    rw [deregistrations, List.filter_cons]
    by_cases hu : unmatched spokes js = true
    · have hu2 := (unmatched_iff spokes js).mp hu
      rw [if_pos hu2] at h
      rw [if_pos hu, if_pos hu]
      cases hd : deregisterSpoke env hubKubeconfig js tr with
      | mk outcome trd =>
        rw [hd] at h
        cases outcome with
        | panic msg =>
          simp only [Prod.mk.injEq, reduceCtorEq, false_and] at h
        | ret e =>
          cases e with
          | some msg =>
            simp only [] at h
            obtain ⟨h1, h2, h3⟩ := ih _ _ _ _ _ _ h
            simp only [List.map_cons, List.filter_cons, Option.isSome_some, if_true,
              List.foldl_cons]
            refine ⟨by rw [h1], ?_, ?_⟩
            · rw [h2]; simp
            · rw [h3]; rfl
          | none =>
            simp only [] at h
            obtain ⟨h1, h2, h3⟩ := ih _ _ _ _ _ _ h
            simp only [List.map_cons, List.filter_cons, Option.isSome_none,
              Bool.false_eq_true, if_false, List.foldl_cons]
            refine ⟨by rw [h1], h2, ?_⟩
            rw [h3]; rfl
    · have hu2 : ¬ ¬ (spokes.any
          (fun spoke => spoke.Name = js.Name ∧ spoke.Kubeconfig = js.Kubeconfig)) = true :=
        fun hc => hu ((unmatched_iff spokes js).mpr hc)
      rw [if_neg hu2] at h
      rw [if_neg hu, if_neg hu]
      exact ih _ _ _ _ _ _ h

theorem unjoinCondition_type (env : Env) (entry : JoinedSpoke × GoError × Trace) :
    (unjoinCondition env entry).Type_ = entry.1.UnjoinType := by
  unfold unjoinCondition
  split <;> rfl

theorem mem_joinedSpokesOf {mc : FleetConfig} {spokes : List Spoke} {js : JoinedSpoke}
    (h : js ∈ joinedSpokesOf mc spokes) :
    ∃ s ∈ spokes, s.Name = js.Name ∧ s.Kubeconfig = js.Kubeconfig := by
  unfold joinedSpokesOf at h
  obtain ⟨s, hs, rfl⟩ := List.mem_map.mp h
  exact ⟨s, (List.mem_filter.mp hs).1, rfl, rfl⟩

theorem not_mem_joinedSpokesOf_of_unmatched {mc : FleetConfig} {spokes : List Spoke}
    {js : JoinedSpoke} (hu : unmatched spokes js = true) : js ∉ joinedSpokesOf mc spokes := by
  intro h
  obtain ⟨s, hs, hn, hk⟩ := mem_joinedSpokesOf h
  rw [unmatched_iff] at hu
  apply hu
  rw [List.any_eq_true]
  exact ⟨s, hs, by simp [hn, hk]⟩

theorem deregisterLoop_joinedSpokes (env : Env) (hubKubeconfig : Bytes) (spokes : List Spoke)
    (joined : List JoinedSpoke) :
    ∀ (acc : List JoinedSpoke) (mc : FleetConfig) (tr : Trace),
      (deregisterLoop env hubKubeconfig spokes joined acc mc tr).2.1.Status.JoinedSpokes =
        mc.Status.JoinedSpokes := by
  induction joined with
  | nil => intro acc mc tr; rfl
  | cons js rest ih =>
    intro acc mc tr
    rw [deregisterLoop]
    split
    · split
      · rfl
      · exact (ih _ _ _).trans rfl
      · exact (ih _ _ _).trans rfl
    · exact ih _ _ _

theorem JoinTouched_joinedSpokes {spokes : List Spoke} {before after : FleetConfig}
    (h : JoinTouched spokes before after) :
    after.Status.JoinedSpokes = before.Status.JoinedSpokes := by
  obtain ⟨cs, _, h2⟩ := h
  rw [h2]

/-- A run of `handleSpokes` that does not return nil leaves the joined spokes as they
were: the assignment to `mc.Status.JoinedSpokes` is the last statement of the function. -/
theorem handleSpokes_keeps_joinedSpokes (env : Env) (mc : FleetConfig) (tr : Trace)
    (h : (handleSpokes env mc tr).1 ≠ .ret none) :
    (handleSpokes env mc tr).2.1.Status.JoinedSpokes = mc.Status.JoinedSpokes := by
  unfold handleSpokes at h ⊢
  cases hk : KubeconfigFromSecretOrCluster env mc.Spec.Hub.Kubeconfig tr with
  | mk outK tr1 =>
    rw [hk] at h
    cases outK with
    | panic msg => rfl
    | ret r =>
      obtain ⟨hubKubeconfig, e⟩ := r
      cases e with
      | some e => rfl
      | none =>
        simp only [] at h ⊢
        cases hc : ClusterClient env hubKubeconfig tr1 with
        | mk outC tr2 =>
          rw [hc] at h
          cases outC with
          | error e => rfl
          | ok clusterClient =>
            simp only [] at h ⊢
            have hD := deregisterLoop_joinedSpokes env hubKubeconfig mc.Spec.Spokes.elems
              mc.Status.JoinedSpokes [] mc tr2
            cases hd : deregisterLoop env hubKubeconfig mc.Spec.Spokes.elems
                mc.Status.JoinedSpokes [] mc tr2 with
            | mk outD restD =>
              obtain ⟨mc1, tr3⟩ := restD
              rw [hd] at h hD
              cases outD with
              | panic msg => exact hD
              | ret retained =>
                simp only [] at h ⊢
                have hT := JoinTouched_joinedSpokes
                  (handleSpokesLoop_joinTouched env clusterClient mc1.Spec.Spokes.elems mc1 tr3)
                cases hl : handleSpokesLoop env clusterClient mc1.Spec.Spokes.elems mc1
                    tr3 with
                | mk outL restL =>
                  obtain ⟨mc2, tr4⟩ := restL
                  rw [hl] at h hT
                  cases outL with
                  | panic msg => exact hT.trans hD
                  | ret err =>
                    cases err with
                    | some e => exact hT.trans hD
                    | none => exact absurd rfl h

/-- What a run of `handleSpokes` that returns leaves: the conditions are those of the
deregistrations, then conditions of joined types; when it returns nil, the joined spokes
are the retained ones, then those of the declared spokes whose joined condition is
True. -/
theorem handleSpokes_returns (env : Env) (mc : FleetConfig) (tr tr1 tr2 : Trace)
    (hubKubeconfig : Bytes) (clusterClient : RestConfig) (err : GoError) (after : FleetConfig)
    (tr' : Trace)
    (hkube : KubeconfigFromSecretOrCluster env mc.Spec.Hub.Kubeconfig tr =
      (.ret (hubKubeconfig, none), tr1))
    (hclient : ClusterClient env hubKubeconfig tr1 = (.ok clusterClient, tr2))
    (hrun : handleSpokes env mc tr = (.ret err, after, tr')) :
    ∃ cs : List Condition, (∀ c ∈ cs, ∃ s ∈ mc.Spec.Spokes.elems, c.Type_ = s.JoinType) ∧
      after.Spec = mc.Spec ∧
      after.Status.Conditions = cs.foldl (setCondition true)
        (((deregistrations env hubKubeconfig mc.Spec.Spokes.elems mc.Status.JoinedSpokes
          tr2).map (unjoinCondition env)).foldl (setCondition true) mc.Status.Conditions) ∧
      (err = none → after.Status.JoinedSpokes =
        ((deregistrations env hubKubeconfig mc.Spec.Spokes.elems mc.Status.JoinedSpokes
          tr2).filter (fun entry => entry.2.1.isSome)).map (·.1) ++
          joinedSpokesOf after after.Spec.Spokes.elems) ∧
      (deregistrations env hubKubeconfig mc.Spec.Spokes.elems mc.Status.JoinedSpokes
          tr2).map (·.1) =
        mc.Status.JoinedSpokes.filter (unmatched mc.Spec.Spokes.elems) := by
  unfold handleSpokes at hrun
  rw [hkube] at hrun
  simp only [hclient] at hrun
  cases hd : deregisterLoop env hubKubeconfig mc.Spec.Spokes.elems mc.Status.JoinedSpokes []
      mc tr2 with
  | mk outD restD =>
    obtain ⟨mc1, tr3⟩ := restD
    rw [hd] at hrun
    cases outD with
    | panic msg => simp only [Prod.mk.injEq, reduceCtorEq, false_and] at hrun
    | ret retained =>
      simp only [] at hrun
      obtain ⟨h1, h2, h3⟩ := deregisterLoop_log env hubKubeconfig mc.Spec.Spokes.elems
        mc.Status.JoinedSpokes [] mc tr2 retained mc1 tr3 hd
      have hspec1 : mc1.Spec = mc.Spec := by rw [h3]
      have hT := handleSpokesLoop_joinTouched env clusterClient mc1.Spec.Spokes.elems mc1 tr3
      cases hl : handleSpokesLoop env clusterClient mc1.Spec.Spokes.elems mc1 tr3 with
      | mk outL restL =>
        obtain ⟨mc2, tr4⟩ := restL
        rw [hl] at hrun hT
        obtain ⟨cs, hcs, hmc2⟩ := hT
        simp only [] at hmc2
        have hcs2 : ∀ c ∈ cs, ∃ s ∈ mc.Spec.Spokes.elems, c.Type_ = s.JoinType := by
          intro c hc
          obtain ⟨s, hs, ht⟩ := hcs c hc
          rw [hspec1] at hs
          exact ⟨s, hs, ht⟩
        cases outL with
        | panic msg => simp only [Prod.mk.injEq, reduceCtorEq, false_and] at hrun
        | ret err2 =>
          cases err2 with
          | some e =>
            simp only [Prod.mk.injEq, Outcome.ret.injEq] at hrun
            obtain ⟨herr, hafter, _⟩ := hrun
            refine ⟨cs, hcs2, ?_, ?_, ?_, h1⟩
            · rw [← hafter, hmc2, h3]
            · rw [← hafter, hmc2, h3]
            · intro hnone
              rw [hnone] at herr
              cases herr
          | none =>
            simp only [Prod.mk.injEq, Outcome.ret.injEq] at hrun
            obtain ⟨_, hafter, _⟩ := hrun
            refine ⟨cs, hcs2, ?_, ?_, ?_, h1⟩
            · rw [← hafter, hmc2, h3]
            · rw [← hafter, hmc2, h3]
            · intro _
              rw [← hafter, h2, List.nil_append]
              rfl

/-- C24 as stated does not hold, for two reasons. A run that returns an error after the
deregistrations leaves the joined spokes as they were: with a joined spoke `old` that is
no longer declared and whose ManagedCluster is gone, and a failing `clusteradm get token`,
`handleSpokes` returns an error; the deregistration of `old` succeeded and its unjoined
condition is True, yet `old` is still in `status.joinedSpokes`. And two previous joined
spokes can share their `UnjoinType`: with two undeclared joined spokes whose names agree
in their first 40 characters, of which the first is deregistered with success and the
second is not, `handleSpokes` returns nil and the one condition of their type has the
status False, although the deregistration of the first succeeded. -/
theorem handleSpokes_error_keeps_joinedSpokes :
    ((handleSpokes (sampleEnvFailing "get") sampleWithOldSpoke []).1 =
        .ret (some
          "failed to get join token: failed to get join token: exit status 1, output: ") ∧
      (deregistrations (sampleEnvFailing "get") (some "https://hub")
          sampleWithOldSpoke.Spec.Spokes.elems sampleWithOldSpoke.Status.JoinedSpokes
          [.getConfig]).map (fun entry => (entry.1.Name, entry.2.1)) = [("old", none)] ∧
      ((handleSpokes (sampleEnvFailing "get") sampleWithOldSpoke []).2.1.GetCondition
          "spoke-cluster-old-unjoined").map (·.Status) = some ConditionTrue ∧
      (handleSpokes (sampleEnvFailing "get") sampleWithOldSpoke []).2.1.Status.JoinedSpokes =
        sampleWithOldSpoke.Status.JoinedSpokes ∧
      sampleWithOldSpoke.Status.JoinedSpokes.map (·.Name) = ["old"]) ∧
    ((handleSpokes sampleEnvOneCluster sampleTwoOld []).1 = .ret none ∧
      (deregistrations sampleEnvOneCluster (some "https://hub")
          sampleTwoOld.Spec.Spokes.elems sampleTwoOld.Status.JoinedSpokes
          [.getConfig]).map (fun entry => (entry.1.Name, entry.2.1)) =
        [(sampleLongName 'b', none),
         (sampleLongName 'c',
          some ("Found manifestWorks for ManagedCluster " ++ sampleLongName 'c' ++
            "; cannot unjoin spoke cluster while it has active ManifestWorks"))] ∧
      sampleTwoOld.Status.JoinedSpokes.map (·.UnjoinType) =
        ["spoke-cluster-" ++ String.mk (List.replicate 40 'a') ++ "-unjoined",
         "spoke-cluster-" ++ String.mk (List.replicate 40 'a') ++ "-unjoined"] ∧
      ((handleSpokes sampleEnvOneCluster sampleTwoOld []).2.1.GetCondition
          ("spoke-cluster-" ++ String.mk (List.replicate 40 'a') ++ "-unjoined")).map
        (·.Status) = some ConditionFalse ∧
      (handleSpokes sampleEnvOneCluster sampleTwoOld []).2.1.Status.JoinedSpokes.map
        (·.Name) = [sampleLongName 'c']) := by
  refine ⟨⟨rfl, by decide, by decide, rfl, rfl⟩, rfl, by decide, by decide, by decide,
    by decide⟩

/-- C24, amended: for every run of `handleSpokes` that obtains the hub kubeconfig and the
cluster client. A run that does not return nil (it returns an error or panics) leaves
`status.joinedSpokes` as it was. In a run that returns, nil or an error, each previous
joined spoke that matches no declared spoke was deregistered; when these joined spokes
have distinct unjoined condition types: if the deregistration of such a joined spoke
succeeded, the condition of its `UnjoinType` afterwards has the status True and, when the
run returned nil, it is no longer in `status.joinedSpokes`; if it failed, the condition has
the status False, wanting True, with the error text as message, and it is in
`status.joinedSpokes`. When the run returned nil, the joined spokes afterwards are the
retained ones, in their order, followed by one entry of name, kubeconfig and purgeOperator
for each declared spoke, in the order of the spec, whose joined condition afterwards has
the status True. -/
theorem handleSpokes_joinedSpokes (env : Env) (mc : FleetConfig) (tr tr1 tr2 : Trace)
    (hubKubeconfig : Bytes) (clusterClient : RestConfig) (out : Outcome GoError)
    (after : FleetConfig) (tr' : Trace)
    (hkube : KubeconfigFromSecretOrCluster env mc.Spec.Hub.Kubeconfig tr =
      (.ret (hubKubeconfig, none), tr1))
    (hclient : ClusterClient env hubKubeconfig tr1 = (.ok clusterClient, tr2))
    (hrun : handleSpokes env mc tr = (out, after, tr')) :
    (out ≠ .ret none → after.Status.JoinedSpokes = mc.Status.JoinedSpokes) ∧
    (∀ err : GoError, out = .ret err →
      (deregistrations env hubKubeconfig mc.Spec.Spokes.elems mc.Status.JoinedSpokes
          tr2).map (·.1) =
        mc.Status.JoinedSpokes.filter (unmatched mc.Spec.Spokes.elems) ∧
      (((mc.Status.JoinedSpokes.filter (unmatched mc.Spec.Spokes.elems)).map
          (·.UnjoinType)).Nodup →
        (∀ entry ∈ deregistrations env hubKubeconfig mc.Spec.Spokes.elems
            mc.Status.JoinedSpokes tr2,
          entry.2.1 = none →
            (∃ g, after.GetCondition entry.1.UnjoinType = some g ∧
              g.Status = ConditionTrue) ∧
            (err = none → entry.1 ∉ after.Status.JoinedSpokes)) ∧
        (∀ entry ∈ deregistrations env hubKubeconfig mc.Spec.Spokes.elems
            mc.Status.JoinedSpokes tr2,
          ∀ e : String, entry.2.1 = some e →
            (∃ g, after.GetCondition entry.1.UnjoinType = some g ∧
              g.Status = ConditionFalse ∧ g.WantStatus = ConditionTrue ∧ g.Message = e) ∧
            entry.1 ∈ after.Status.JoinedSpokes)) ∧
      (err = none → after.Status.JoinedSpokes =
        ((deregistrations env hubKubeconfig mc.Spec.Spokes.elems mc.Status.JoinedSpokes
          tr2).filter (fun entry => entry.2.1.isSome)).map (·.1) ++
          joinedSpokesOf after after.Spec.Spokes.elems) ∧
      after.Spec = mc.Spec) ∧
    (∀ js : JoinedSpoke, js ∈ joinedSpokesOf after after.Spec.Spokes.elems ↔
      ∃ spoke ∈ after.Spec.Spokes.elems,
        (∃ g, after.GetCondition spoke.JoinType = some g ∧ g.Status = ConditionTrue) ∧
        js = { Name := spoke.Name, Kubeconfig := spoke.Kubeconfig,
               PurgeKlusterletOperator := spoke.Klusterlet.PurgeOperator }) := by
  have hkeep : out ≠ .ret none → after.Status.JoinedSpokes = mc.Status.JoinedSpokes := by
    intro hne
    have := handleSpokes_keeps_joinedSpokes env mc tr (by rw [hrun]; exact hne)
    rw [hrun] at this
    exact this
  refine ⟨hkeep, ?_, ?_⟩
  · intro err hout
    subst hout
    obtain ⟨cs, hcs, hspec, hconds, hjoined, hlog⟩ :=
      handleSpokes_returns env mc tr tr1 tr2 hubKubeconfig clusterClient err after tr' hkube
        hclient hrun
    refine ⟨hlog, ?_, hjoined, hspec⟩
    intro hnd
    have hndlog : (((deregistrations env hubKubeconfig mc.Spec.Spokes.elems
        mc.Status.JoinedSpokes tr2).map (unjoinCondition env)).map (·.Type_)).Nodup := by
      rw [List.map_map]
      have : ((fun x : Condition => x.Type_) ∘ unjoinCondition env) =
          ((fun j : JoinedSpoke => j.UnjoinType) ∘ fun entry => entry.1) := by
        funext entry
        exact unjoinCondition_type env entry
      rw [this, ← List.map_map, hlog]
      exact hnd
    have hinj : ∀ x ∈ deregistrations env hubKubeconfig mc.Spec.Spokes.elems
        mc.Status.JoinedSpokes tr2, ∀ y ∈ deregistrations env hubKubeconfig
        mc.Spec.Spokes.elems mc.Status.JoinedSpokes tr2, x.1 = y.1 → x = y := by
      intro x hx y hy hxy
      have hnd2 : ((deregistrations env hubKubeconfig mc.Spec.Spokes.elems
          mc.Status.JoinedSpokes tr2).map fun entry => entry.1.UnjoinType).Nodup := by
        have : (fun entry : JoinedSpoke × GoError × Trace => entry.1.UnjoinType) =
            ((fun j : JoinedSpoke => j.UnjoinType) ∘ fun entry => entry.1) := rfl
        rw [this, ← List.map_map, hlog]
        exact hnd
      exact List.inj_on_of_nodup_map hnd2 hx hy (by simp only [hxy])
    have hfind : ∀ entry ∈ deregistrations env hubKubeconfig mc.Spec.Spokes.elems
        mc.Status.JoinedSpokes tr2,
        ∃ g, after.GetCondition entry.1.UnjoinType = some g ∧
          g.Equal (unjoinCondition env entry) = true := by
      intro entry hentry
      have h1 : after.GetCondition entry.1.UnjoinType =
          after.Status.Conditions.find? (fun x => x.Type_ == entry.1.UnjoinType) := rfl
      rw [h1, hconds, find_foldl_setCondition_other cs entry.1.UnjoinType]
      · have := find_foldl_setCondition_cover _ hndlog mc.Status.Conditions
          (unjoinCondition env entry) (List.mem_map.mpr ⟨entry, hentry, rfl⟩)
        rw [unjoinCondition_type] at this
        exact this
      · intro c hc
        obtain ⟨s, _, ht⟩ := hcs c hc
        rw [ht]
        exact JoinType_ne_UnjoinType s entry.1
    have hprev : ∀ entry ∈ deregistrations env hubKubeconfig mc.Spec.Spokes.elems
        mc.Status.JoinedSpokes tr2,
        entry.1 ∈ mc.Status.JoinedSpokes.filter (unmatched mc.Spec.Spokes.elems) := by
      intro entry hentry
      rw [← hlog]
      exact List.mem_map.mpr ⟨entry, hentry, rfl⟩
    constructor
    · intro entry hentry hnone
      obtain ⟨g, hg, heq⟩ := hfind entry hentry
      rw [Condition_Equal_iff] at heq
      refine ⟨⟨g, hg, ?_⟩, ?_⟩
      · rw [heq.2.1]
        unfold unjoinCondition
        rw [hnone]
        rfl
      · intro herr
        rw [hjoined herr]
        intro hmem
        rcases List.mem_append.mp hmem with h | h
        · obtain ⟨y, hy, hy1⟩ := List.mem_map.mp h
          obtain ⟨hy2, hy3⟩ := List.mem_filter.mp hy
          have := hinj y hy2 entry hentry hy1
          rw [this, hnone] at hy3
          cases hy3
        · rw [hspec] at h
          exact not_mem_joinedSpokesOf_of_unmatched
            (List.mem_filter.mp (hprev entry hentry)).2 h
    · intro entry hentry e hsome
      obtain ⟨g, hg, heq⟩ := hfind entry hentry
      rw [Condition_Equal_iff] at heq
      have hc : unjoinCondition env entry =
          NewCondition (env.now entry.2.2) e entry.1.UnjoinType ConditionFalse
            ConditionTrue := by
        unfold unjoinCondition
        rw [hsome]
      refine ⟨⟨g, hg, ?_, ?_, ?_⟩, ?_⟩
      · rw [heq.2.1, hc]; rfl
      · rw [heq.2.2.1, hc]; rfl
      · rw [heq.2.2.2.2, hc]; rfl
      · cases err with
        | none =>
          rw [hjoined rfl]
          apply List.mem_append_left
          exact List.mem_map.mpr
            ⟨entry, List.mem_filter.mpr ⟨hentry, by rw [hsome]; rfl⟩, rfl⟩
        | some e2 =>
          rw [hkeep (by simp)]
          exact (List.mem_filter.mp (hprev entry hentry)).1
  · intro js
    unfold joinedSpokesOf
    rw [List.mem_map]
    constructor
    · rintro ⟨spoke, hs, rfl⟩
      obtain ⟨hs1, hs2⟩ := List.mem_filter.mp hs
      refine ⟨spoke, hs1, ?_, rfl⟩
      cases hg : after.GetCondition spoke.JoinType with
      | none => rw [hg] at hs2; cases hs2
      | some g =>
        rw [hg] at hs2
        exact ⟨g, rfl, by simpa using hs2⟩
    · rintro ⟨spoke, hs, ⟨g, hg, hstatus⟩, rfl⟩
      refine ⟨spoke, List.mem_filter.mpr ⟨hs, ?_⟩, rfl⟩
      rw [hg]
      simpa using hstatus

theorem handleSpokes_joinedSpokes_witness :
    (∃ after : FleetConfig,
      (handleSpokes (sampleEnvJoined sampleWithOldSpoke).withWork sampleWithOldSpoke []).2.1 =
        after ∧
      (∀ entry ∈ deregistrations (sampleEnvJoined sampleWithOldSpoke).withWork
          (some "https://hub") sampleWithOldSpoke.Spec.Spokes.elems
          sampleWithOldSpoke.Status.JoinedSpokes [.getConfig],
        ∀ e : String, entry.2.1 = some e →
          (∃ g, after.GetCondition entry.1.UnjoinType = some g ∧ g.Status = ConditionFalse ∧
            g.WantStatus = ConditionTrue ∧ g.Message = e) ∧
          entry.1 ∈ after.Status.JoinedSpokes) ∧
      after.Status.JoinedSpokes.map (·.Name) = ["old", "spoke1", "spoke2"]) ∧
    (handleSpokes (sampleEnvFailing "get") sampleWithOldSpoke []).2.1.Status.JoinedSpokes =
      sampleWithOldSpoke.Status.JoinedSpokes :=
  ⟨⟨_, rfl,
    (((handleSpokes_joinedSpokes (sampleEnvJoined sampleWithOldSpoke).withWork
      sampleWithOldSpoke [] [.getConfig] [.getConfig] (some "https://hub")
      { Host := "https://hub" } _ _ _ rfl rfl rfl).2.1 none rfl).2.1 (by decide)).2,
    by decide⟩,
   (handleSpokes_joinedSpokes (sampleEnvFailing "get") sampleWithOldSpoke [] [.getConfig]
      [.getConfig] (some "https://hub") { Host := "https://hub" } _ _ _ rfl rfl rfl).1
      (by decide)⟩

/-! ## Equality of statuses -/

theorem Condition_Equal_iff_withoutTime (a b : Condition) :
    a.Equal b = true ↔ a.withoutTime = b.withoutTime := by
  rw [Condition_Equal_iff]
  obtain ⟨t1, s1, r1, m1, l1, w1⟩ := a
  obtain ⟨t2, s2, r2, m2, l2, w2⟩ := b
  simp only [Condition.withoutTime, Condition.mk.injEq, true_and]
  tauto

theorem zip_all_Equal_iff :
    ∀ l1 l2 : List Condition, l1.length = l2.length →
      ((l1.zip l2).all (fun pair => pair.1.Equal pair.2) = true ↔
        l1.map Condition.withoutTime = l2.map Condition.withoutTime) := by
  intro l1
  induction l1 with
  | nil =>
    intro l2 h
    cases l2 with
    | nil => simp
    | cons b bs => simp at h
  | cons a as ih =>
    intro l2 h
    cases l2 with
    | nil => simp at h
    | cons b bs =>
      simp only [List.length_cons, Nat.add_right_cancel_iff] at h
      rw [List.zip_cons_cons, List.all_cons, Bool.and_eq_true, ih bs h,
        Condition_Equal_iff_withoutTime, List.map_cons, List.map_cons, List.cons.injEq]

theorem insertionStep_perm {α : Type} (cmp : α → α → Int) (x : α) (l : List α) :
    (insertionStep cmp x l).Perm (x :: l) := by
  induction l with
  | nil => exact List.Perm.refl _
  | cons y ys ih =>
    rw [insertionStep]
    split
    · exact ((List.Perm.cons y ih).trans (List.Perm.swap x y ys))
    · exact List.Perm.refl _

theorem foldl_insertionStep_perm {α : Type} (cmp : α → α → Int) (data : List α) :
    ∀ acc : List α,
      (data.foldl (fun sorted x => insertionStep cmp x sorted) acc).Perm (acc ++ data) := by
  induction data with
  | nil => intro acc; simp
  | cons x rest ih =>
    intro acc
    rw [List.foldl_cons]
    refine (ih _).trans ?_
    refine (List.Perm.append_right rest (insertionStep_perm cmp x acc)).trans ?_
    simp only [List.cons_append]
    exact (List.perm_middle).symm

theorem zip_self_all_Equal (l : List Condition) :
    (l.zip l).all (fun pair => pair.1.Equal pair.2) = true :=
  (zip_all_Equal_iff l l rfl).mpr rfl

theorem sortSlice_short {α : Type} (pdqsort : (α → α → Bool) → List α → List α)
    (less : α → α → Bool) (data : List α) (h : data.length ≤ 12) :
    sortSlice pdqsort less data = SortFunc (fun a b => if less a b then -1 else 0) data :=
  if_pos h

theorem sortSlice_perm {α : Type} (pdqsort : (α → α → Bool) → List α → List α)
    (less : α → α → Bool) (data : List α) (h : data.length ≤ 12) :
    (sortSlice pdqsort less data).Perm data := by
  rw [sortSlice_short pdqsort less data h]
  unfold SortFunc
  refine (List.reverse_perm _).trans ?_
  simpa using foldl_insertionStep_perm (fun a b => if less a b then -1 else 0) data []

/-- At most twelve conditions of distinct types, sorted by `sort.Slice` on their types,
are in the strict order of their types. -/
theorem sortSlice_sorted (pdqsort : (Condition → Condition → Bool) → List Condition →
    List Condition) (l : List Condition) (hlen : l.length ≤ 12)
    (hnd : (l.map (·.Type_)).Nodup) :
    (sortSlice pdqsort (fun a b : Condition => stringLess a.Type_ b.Type_) l).Pairwise
      (fun a b => a.Type_.data < b.Type_.data) := by
  have hneg : ∀ a b : Condition,
      (if stringLess a.Type_ b.Type_ = true then (-1 : Int) else 0) < 0 ↔
        a.Type_.data < b.Type_.data := by
    intro a b
    unfold stringLess
    by_cases h : a.Type_.data < b.Type_.data
    · simp [h]
    · simp [h]
  have hpw := foldl_insertionStep_pairwise
    (fun a b : Condition => if stringLess a.Type_ b.Type_ = true then (-1 : Int) else 0)
    (fun _ => True)
    (fun a b _ _ hlt => by
      rw [hneg] at hlt ⊢
      exact lt_asymm hlt)
    (fun a b c _ _ _ hab hbc => by
      rw [hneg] at hab hbc ⊢
      exact not_lt.mpr (le_trans (not_lt.mp hbc) (not_lt.mp hab)))
    l (fun _ _ => trivial) [] (fun _ _ => trivial) List.Pairwise.nil
  have hperm := sortSlice_perm pdqsort (fun a b : Condition => stringLess a.Type_ b.Type_) l
    hlen
  have hnd2 : ((sortSlice pdqsort (fun a b : Condition => stringLess a.Type_ b.Type_) l).map
      (·.Type_)).Nodup := (List.Perm.nodup_iff (hperm.map _)).mpr hnd
  have hle : (sortSlice pdqsort (fun a b : Condition => stringLess a.Type_ b.Type_)
      l).Pairwise (fun a b => ¬ b.Type_.data < a.Type_.data) := by
    rw [sortSlice_short pdqsort _ l hlen]
    unfold SortFunc
    rw [List.pairwise_reverse]
    refine hpw.imp ?_
    intro a b h
    rw [hneg] at h
    exact h
  have hne : (sortSlice pdqsort (fun a b : Condition => stringLess a.Type_ b.Type_)
      l).Pairwise (fun a b => a.Type_ ≠ b.Type_) := by
    rw [List.Nodup, List.pairwise_map] at hnd2
    exact hnd2
  refine (hle.and hne).imp ?_
  rintro a b ⟨h1, h2⟩
  rcases lt_or_eq_of_le (not_lt.mp h1) with h | h
  · exact h
  · exact absurd (String.ext h) h2

/-- What `FleetConfigStatus.Equal` does compare: it returns true when both statuses are
nil and false when exactly one is nil; for two statuses with at most twelve conditions and
at most one condition per type it returns true exactly when their conditions are identical
apart from the lastTransitionTime of the conditions and the order of the conditions. -/
theorem FleetConfigStatus_Equal_conditions
    (pdqsort : (Condition → Condition → Bool) → List Condition → List Condition) :
    FleetConfigStatus.Equal pdqsort none none = true ∧
    (∀ s : FleetConfigStatus, FleetConfigStatus.Equal pdqsort none (some s) = false ∧
      FleetConfigStatus.Equal pdqsort (some s) none = false) ∧
    (∀ s o : FleetConfigStatus, s.Conditions.length ≤ 12 →
      (s.Conditions.map (·.Type_)).Nodup → (o.Conditions.map (·.Type_)).Nodup →
      (FleetConfigStatus.Equal pdqsort (some s) (some o) = true ↔
        (s.Conditions.map Condition.withoutTime).Perm
          (o.Conditions.map Condition.withoutTime))) := by
  refine ⟨rfl, fun s => ⟨rfl, rfl⟩, fun s o hs12 hs ho => ?_⟩
  have hps := sortSlice_perm pdqsort (fun a b : Condition => stringLess a.Type_ b.Type_)
    s.Conditions hs12
  have hrun : FleetConfigStatus.Equal pdqsort (some s) (some o) =
      if o.Conditions.length ≠ s.Conditions.length then false
      else
        ((sortSlice pdqsort (fun a b : Condition => stringLess a.Type_ b.Type_)
            s.Conditions).zip
          (sortSlice pdqsort (fun a b : Condition => stringLess a.Type_ b.Type_)
            o.Conditions)).all
            fun pair => pair.1.Equal pair.2 := rfl
  rw [hrun]
  by_cases hlen : o.Conditions.length = s.Conditions.length
  · have ho12 : o.Conditions.length ≤ 12 := by omega
    have hpo := sortSlice_perm pdqsort (fun a b : Condition => stringLess a.Type_ b.Type_)
      o.Conditions ho12
    have hlen2 : (sortSlice pdqsort (fun a b : Condition => stringLess a.Type_ b.Type_)
        s.Conditions).length = (sortSlice pdqsort
          (fun a b : Condition => stringLess a.Type_ b.Type_) o.Conditions).length := by
      rw [hps.length_eq, hpo.length_eq]
      exact hlen.symm
    rw [if_neg (not_not.mpr hlen), zip_all_Equal_iff _ _ hlen2]
    constructor
    · intro h
      exact ((hps.map _).symm.trans (h ▸ List.Perm.refl _)).trans (hpo.map _)
    · intro hperm
      haveI : IsAntisymm Condition (fun a b => a.Type_.data < b.Type_.data) :=
        ⟨fun a b h1 h2 => absurd h2 (lt_asymm h1)⟩
      apply List.eq_of_perm_of_sorted (r := fun a b : Condition => a.Type_.data < b.Type_.data)
      · exact ((hps.map _).trans hperm).trans (hpo.map _).symm
      · rw [List.Sorted, List.pairwise_map]
        exact sortSlice_sorted pdqsort s.Conditions hs12 hs
      · rw [List.Sorted, List.pairwise_map]
        exact sortSlice_sorted pdqsort o.Conditions ho12 ho
  · rw [if_pos hlen]
    constructor
    · intro h
      cases h
    · intro hperm
      have := hperm.length_eq
      simp only [List.length_map] at this
      exact absurd this.symm hlen

/-- C23 does not hold of the code: `FleetConfigStatus.Equal` never reads the phase or the
joinedSpokes of either status. Whatever `sort.Slice` does on long slices, the result of
`Equal` stays the same when the phase and the joinedSpokes of both statuses are replaced,
and every status is Equal to each status with the same conditions. So two statuses that
differ in phase and in joinedSpokes are Equal: `sampleStatus` and its copy with phase
Running and one joined spoke. -/
theorem FleetConfigStatus_Equal_ignores_phase :
    (∀ (pdqsort : (Condition → Condition → Bool) → List Condition → List Condition)
        (s o : FleetConfigStatus) (phase phase2 : String) (joined joined2 : List JoinedSpoke),
      FleetConfigStatus.Equal pdqsort
          (some { Phase := phase, Conditions := s.Conditions, JoinedSpokes := joined })
          (some { Phase := phase2, Conditions := o.Conditions, JoinedSpokes := joined2 }) =
        FleetConfigStatus.Equal pdqsort (some s) (some o)) ∧
    (∀ (pdqsort : (Condition → Condition → Bool) → List Condition → List Condition)
        (s : FleetConfigStatus) (phase : String) (joined : List JoinedSpoke),
      FleetConfigStatus.Equal pdqsort (some s)
          (some { s with Phase := phase, JoinedSpokes := joined }) = true) ∧
    sampleStatus.Phase ≠ "Running" ∧
    sampleStatus.JoinedSpokes ≠
      [{ Name := "spoke1", Kubeconfig := none, PurgeKlusterletOperator := true }] ∧
    (∀ pdqsort : (Condition → Condition → Bool) → List Condition → List Condition,
      FleetConfigStatus.Equal pdqsort (some sampleStatus)
        (some { sampleStatus with
          Phase := "Running",
          JoinedSpokes :=
            [{ Name := "spoke1", Kubeconfig := none, PurgeKlusterletOperator := true }] }) =
        true) := by
  have hself : ∀ (pdqsort : (Condition → Condition → Bool) → List Condition → List Condition)
      (s : FleetConfigStatus) (phase : String) (joined : List JoinedSpoke),
      FleetConfigStatus.Equal pdqsort (some s)
          (some { s with Phase := phase, JoinedSpokes := joined }) = true := by
    intro pdqsort s phase joined
    have hrun : FleetConfigStatus.Equal pdqsort (some s)
        (some { s with Phase := phase, JoinedSpokes := joined }) =
        if s.Conditions.length ≠ s.Conditions.length then false
        else
          ((sortSlice pdqsort (fun a b : Condition => stringLess a.Type_ b.Type_)
              s.Conditions).zip
            (sortSlice pdqsort (fun a b : Condition => stringLess a.Type_ b.Type_)
              s.Conditions)).all
              fun pair => pair.1.Equal pair.2 := rfl
    rw [hrun, if_neg (not_not.mpr rfl)]
    exact zip_self_all_Equal _
  exact ⟨fun _ _ _ _ _ _ _ => rfl, hself, by decide, by decide,
    fun pdqsort => hself pdqsort sampleStatus _ _⟩

end Fleet
